import Mathlib

/-!
# Coliseo arena: combat entities, damage pipeline and movement bounds

A shallow embedding of the simulation core of `coliseo_arena`
(`src/entities/Entity.js`, `src/gladiators/*`, `src/core/MovementSystem.js`,
`src/core/GladiatorUtils.js`, `src/config.js`).

Modelling conventions.

* JavaScript numbers are rationals (`ℚ`); decimal constants are the exact decimals
  written in the source, and arithmetic is exact, except in the three loops whose number of
  passes depends on the accumulated rounding: the fixed-step drain of `GameLoop.loop`, the
  clock of `runSingleBattle` and the rage thresholds of the berserker. There every operation
  is rounded to the nearest binary64 number by `toDouble`. `NaN`, `Infinity` and overflow are
  not modelled.
* `Math.hypot`, `Math.sqrt`, `Math.atan2`, `Math.cos`, `Math.sin`, `Math.pow`, `Math.PI`,
  `Math.random`, `Time.elapsedTime` and the grid lookup are fields of an environment `Env`.
  `Math.random` is a stream indexed by the number of draws made so far.
* The entity array `entities` (which is also `window.gameState.entities`, as set up in
  `src/main.js`) is a list; an entity object is identified by its index in that list.
* Every entity is a `Gladiator` whose module is the registry entry of its `className`.
  Module fields that are `undefined` before `onInit` are `0`, `false` or `[]`.
* Floating texts, event-bus emissions, screen shake, sprites and grid painting are
  side channels that the simulation never reads back; they are left out. A `trace`
  of `takeDamage` calls and damage hooks is kept as ghost state.
-/

namespace Coliseo

/-! ## Rounding to IEEE 754 binary64 -/

/-- The integer nearest to `y`, the even one of the two when `y` is half-way. -/
def roundHalfEven (y : ℚ) : ℤ :=
  let f := ⌊y⌋
  if y - f < 1 / 2 then f
  else if y - f > 1 / 2 then f + 1
  else if f % 2 = 0 then f else f + 1

/-- The exponent of the unit in the last place of the binary64 numbers of the magnitude of
`x`: 52 below the binary exponent of `x`, and -1074 in the subnormal range. -/
def ulpExponent (x : ℚ) : ℤ := max (Int.log 2 |x| - 52) (-1074)

/-- The binary64 number nearest to `x`, ties to even: the value of a JavaScript number
literal, sum, difference or quotient whose exact value is `x`. A result beyond the largest
binary64 number is kept as a rational instead of becoming `Infinity`. -/
def toDouble (x : ℚ) : ℚ := roundHalfEven (x / 2 ^ ulpExponent x) * 2 ^ ulpExponent x

/-! ## Environment and configuration (`src/config.js`) -/

/-- Runtime services read by the simulation. -/
structure Env where
  hypot : ℚ → ℚ → ℚ
  sqrt : ℚ → ℚ
  atan2 : ℚ → ℚ → ℚ
  cos : ℚ → ℚ
  sin : ℚ → ℚ
  pow : ℚ → ℚ → ℚ
  pi : ℚ
  random : ℕ → ℚ
  elapsedTime : ℚ
  getCellType : ℚ → ℚ → ℕ

def STAGE_W : ℚ := 300
def STAGE_H : ℚ := 200
def WALL_MARGIN : ℚ := 10

/-- The rectangle `SAFE_BOUNDS` of `config.js`. -/
structure Bounds where
  minX : ℚ
  maxX : ℚ
  minY : ℚ
  maxY : ℚ

def SAFE_BOUNDS : Bounds where
  minX := WALL_MARGIN + 2
  maxX := STAGE_W - WALL_MARGIN - 2
  minY := WALL_MARGIN + 2
  maxY := STAGE_H - WALL_MARGIN - 2

def WARNING_DISTANCE : ℚ := 25

/-- The terrain kind `TYPE.WALL`. -/
def TYPE_WALL : ℕ := 1

inductive Team where
  | red
  | blue
  deriving DecidableEq, Repr

/-- The keys of `CLASSES` (and of the module `REGISTRY`). -/
inductive ClassKey where
  | crit | speed | spinner | tank | spike | ninja
  | prism | orb | cube | star | hex | pyramid
  | bomber | summoner | lancer | berserker | archer | poison | illusion
  deriving DecidableEq, Repr

/-- The `hp` column of `CLASSES`. -/
def CLASSES_hp : ClassKey → ℚ
  | .crit => 400 | .speed => 300 | .spinner => 500 | .tank => 1100 | .spike => 750
  | .ninja => 350 | .prism => 450 | .orb => 700 | .cube => 1000 | .star => 450
  | .hex => 600 | .pyramid => 800 | .bomber => 500 | .summoner => 450 | .lancer => 400
  | .berserker => 750 | .archer => 350 | .poison => 500 | .illusion => 700

/-- The `speed` column of `CLASSES`. -/
def CLASSES_speed : ClassKey → ℚ
  | .crit => 1.2 | .speed => 2.5 | .spinner => 1.5 | .tank => 0.25 | .spike => 0.8
  | .ninja => 1.8 | .prism => 1.0 | .orb => 0.7 | .cube => 0.4 | .star => 1.3
  | .hex => 0.9 | .pyramid => 0.3 | .bomber => 1.0 | .summoner => 0.9 | .lancer => 1.4
  | .berserker => 1.1 | .archer => 1.0 | .poison => 0.8 | .illusion => 1.2

/-- The list `GladiatorType.AUTO_ATTACK` of `core/Utils.js`. -/
def isAutoAttacker : ClassKey → Bool
  | .crit | .speed | .spinner | .ninja | .berserker | .lancer | .hex | .illusion | .archer => true
  | _ => false

/-! ## Movement strategy objects (`src/core/MovementSystem.js`) -/

inductive StrategyName where
  | aggressive
  | defensive
  | passive
  deriving DecidableEq, Repr

inductive Pattern where
  | idle
  | orbit
  | patrol
  | wander
  deriving DecidableEq, Repr

/-- One block of `MOVEMENT_CONFIG`; a key that the block does not define is `none`. -/
structure MoveConfig where
  seekInterval : Option ℚ := none
  seekAcceleration : Option ℚ := none
  friction : Option ℚ := none
  wallBounceFactor : Option ℚ := none
  repelForce : Option ℚ := none
  fleeThresholdClose : Option ℚ := none
  fleeSpeedClose : Option ℚ := none
  fleeSpeedFar : Option ℚ := none
  pattern : Option Pattern := none
  orbitSpeed : Option ℚ := none
  orbitRadius : Option ℚ := none
  orbitSpeedMultiplier : Option ℚ := none
  patrolSpeed : Option ℚ := none
  wanderFrequency : Option ℚ := none
  wanderSpeedMultiplier : Option ℚ := none

/-- A movement configuration object: the three optional blocks. -/
structure MovementConfig where
  AGGRESSIVE : Option MoveConfig := none
  DEFENSIVE : Option MoveConfig := none
  PASSIVE : Option MoveConfig := none

def MOVEMENT_CONFIG : MovementConfig where
  AGGRESSIVE := some
    { seekInterval := some 1, seekAcceleration := some 0.1, friction := some 0.98,
      wallBounceFactor := some 1.1, repelForce := some 0.5 }
  DEFENSIVE := some
    { friction := some 0.98, wallBounceFactor := some 1.1, repelForce := some 0.5,
      fleeThresholdClose := some 120, fleeSpeedClose := some 0.9, fleeSpeedFar := some 0.55 }
  PASSIVE := some
    { friction := some 1.0, wallBounceFactor := some 1.1, repelForce := some 0.5,
      pattern := some .idle, orbitSpeed := some 0.2, orbitRadius := some 50,
      orbitSpeedMultiplier := some 1.0, patrolSpeed := some 0.6,
      wanderFrequency := some 0.02, wanderSpeedMultiplier := some 0.4 }

/-- JavaScript `v || d` on a number that may be absent: `0` and `undefined` are falsy. -/
def orDefault (v : Option ℚ) (d : ℚ) : ℚ :=
  match v with
  | some q => if q = 0 then d else q
  | none => d

/-- A movement strategy instance with its strategy-local state. -/
structure Strategy where
  name : StrategyName := .aggressive
  config : MoveConfig := {}
  seekInterval : ℚ := 1
  pattern : Pattern := .idle
  orbitCenter : ℚ × ℚ := (0, 0)
  orbitAngle : ℚ := 0
  patrolPoints : List (ℚ × ℚ) := []
  currentPatrolIndex : ℕ := 0

/-! ## Entities (`src/entities/Entity.js`, `src/gladiators/Gladiator.js`) -/

/-- A gladiator object: the fields set by the `Entity` and `Gladiator` constructors followed by
the fields that the class modules attach. `isDead` is read by the nearest-enemy searches and
is assigned nowhere in the repository. -/
structure Entity where
  x : ℚ := 0
  y : ℚ := 0
  className : ClassKey := .crit
  elementType : ℕ := 0
  team : Team := .red
  maxHp : ℚ := 0
  hp : ℚ := 0
  baseSpeed : ℚ := 0
  radius : ℚ := 10
  level : ℚ := 1
  xp : ℚ := 0
  xpToNextLevel : ℚ := 100
  damageDealt : ℚ := 0
  vx : ℚ := 0
  vy : ℚ := 0
  invulnerable : Bool := false
  invulnTimer : ℚ := 0
  cooldown : ℚ := 0
  age : ℚ := 0
  dead : Bool := false
  isDead : Bool := false
  intentX : ℚ := 0
  intentY : ℚ := 0
  movementStrategy : Option Strategy := some {}
  hasGrid : Bool := false
  abilityAccumulator : ℚ := 0
  initialized : Bool := false
  isAttacking : Bool := false
  skipSeek : Bool := false
  noModuleUpdate : Bool := false
  -- module fields
  critChance : ℚ := 0
  speedBounceActive : Bool := false
  speedBounces : ℚ := 0
  speedPrevPos : ℚ × ℚ := (0, 0)
  combo : ℚ := 0
  lastAttackTime : ℚ := 0
  spinnerInit : Bool := false
  lastShieldTime : ℚ := 0
  reflectDmg : ℚ := 0
  dodgeChance : ℚ := 0
  orbGravity : Bool := false
  seekAttractor : ℚ := 0
  slamCooldown : ℚ := 0
  slamWindup : ℚ := 0
  slamFlash : ℚ := 0
  slamInProgress : Bool := false
  starEnergy : ℚ := 0
  starPrevPos : ℚ × ℚ := (0, 0)
  hexRegenTimer : ℚ := 0
  pyramidTurret : Bool := false
  rangedCD : ℚ := 0
  bombTrailCD : ℚ := 0
  fleeTimer : ℚ := 0
  defensiveBombCD : ℚ := 0
  pets : List ℕ := []
  hasMinion : Bool := false
  isMinion : Bool := false
  summonCD : ℚ := 0
  initialMinionCreated : Bool := false
  lanceCD : ℚ := 0
  lanceCharging : Bool := false
  berserkerRage : ℚ := 0
  berserkerStacks : ℚ := 0
  berserkerNextThreshold : ℚ := 0
  lastPoisonTick : ℚ := 0
  poisonStacks : ℚ := 0
  poisonSource : Option ℕ := none
  decoyTimer : ℚ := 0
  decoyActive : Bool := false
  decoySpawned : Bool := false
  fleeing : Bool := false

instance : Inhabited Entity := ⟨{}⟩

inductive ProjectileType where
  | bomb
  | pet
  | decoy
  | arrow
  deriving DecidableEq, Repr

/-- A projectile object (`src/entities/Projectile.js`); `owner` and `target` are entity indices. -/
structure Projectile where
  x : ℚ
  y : ℚ
  prevX : ℚ
  prevY : ℚ
  type : ProjectileType
  owner : ℕ
  target : Option ℕ
  life : ℚ
  maxLife : ℚ
  radius : ℚ
  damage : ℚ
  vx : ℚ
  vy : ℚ
  dead : Bool

/-- Ghost record of the damage pipeline: calls of `takeDamage` and of the two damage hooks. -/
inductive Ev where
  | takeDamage (target : ℕ) (amount : ℚ) (attacker : Option ℕ)
  | onDamageTakenPre (target : ℕ)
  | onDamageTaken (target : ℕ)
  deriving DecidableEq

/-- The entity on which a traced call acts. -/
def Ev.target : Ev → ℕ
  | .takeDamage t _ _ => t
  | .onDamageTakenPre t => t
  | .onDamageTaken t => t

/-- The mutable simulation state: the entity array, the projectile array, the number of
`Math.random` draws made, and the ghost trace. -/
structure World where
  ents : List Entity := []
  projectiles : List Projectile := []
  rng : ℕ := 0
  trace : List Ev := []

/-- The entity object at index `k`. -/
def World.ent (w : World) (k : ℕ) : Entity := w.ents.getD k default

/-- An in-place update of the entity object at index `k`. -/
def World.modify (w : World) (k : ℕ) (f : Entity → Entity) : World :=
  { w with ents := w.ents.set k (f (w.ent k)) }

/-- An `entities.push(e)`. -/
def World.pushEnt (w : World) (e : Entity) : World := { w with ents := w.ents ++ [e] }

/-- A call of `Math.random()` whose value is consumed. -/
def World.tick (w : World) : World := { w with rng := w.rng + 1 }

/-- An entry appended to the ghost trace. -/
def World.log (w : World) (ev : Ev) : World := { w with trace := w.trace ++ [ev] }

/-- The method `Entity.gainXp`. -/
def gainXp (amount : ℚ) (e : Entity) : Entity := { e with xp := e.xp + amount }

/-! ## Strategy factory and projectile constructor -/

/-- The options object handed to `setMovementStrategy`. -/
structure StrategyOptions where
  config : Option MovementConfig := none
  pattern : Option Pattern := none
  center : Option (ℚ × ℚ) := none
  patrolPoints : Option (List (ℚ × ℚ)) := none

/-- The constructor `new AggressiveMovement(entity, config)`. -/
def AggressiveMovement.new (config : MoveConfig) : Strategy :=
  { name := .aggressive, config := config, seekInterval := orDefault config.seekInterval 1 }

/-- The constructor `new DefensiveMovement(entity, config)`. -/
def DefensiveMovement.new (config : MoveConfig) : Strategy :=
  { name := .defensive, config := config }

/-- The constructor `new PassiveMovement(entity, config)`; `r` is its `Math.random()` draw. -/
def PassiveMovement.new (E : Env) (e : Entity) (config : MoveConfig) (r : ℚ) : Strategy :=
  { name := .passive, config := config, pattern := config.pattern.getD .idle,
    orbitCenter := (e.x, e.y), orbitAngle := r * E.pi * 2 }

/-- The method `PassiveMovement.setPattern`. -/
def PassiveMovement.setPattern (s : Strategy) (pattern : Pattern) (options : StrategyOptions) :
    Strategy :=
  let s := { s with pattern := pattern }
  let s := match pattern, options.center with
    | .orbit, some c => { s with orbitCenter := c }
    | _, _ => s
  match options.patrolPoints with
  | some ps => { s with patrolPoints := ps, currentPatrolIndex := 0 }
  | none => s

/-- The method `Entity.setMovementStrategy` (through `MovementStrategyFactory.create`) on the
entity at index `k`. A passive strategy consumes one random draw. -/
def setMovementStrategy (E : Env) (w : World) (k : ℕ) (strategyType : StrategyName)
    (options : StrategyOptions) : World :=
  let config := options.config.getD MOVEMENT_CONFIG
  match strategyType with
  | .aggressive =>
    w.modify k fun e =>
      { e with movementStrategy := some (AggressiveMovement.new (config.AGGRESSIVE.getD {})) }
  | .defensive =>
    w.modify k fun e =>
      { e with movementStrategy := some (DefensiveMovement.new (config.DEFENSIVE.getD {})) }
  | .passive =>
    let r := E.random w.rng
    let w := w.tick
    w.modify k fun e =>
      let s := PassiveMovement.new E e (config.PASSIVE.getD {}) r
      let s := match options.pattern with
        | some p => PassiveMovement.setPattern s p options
        | none => s
      { e with movementStrategy := some s }

/-- The method `Gladiator.changeMovementStrategy`; no module defines
`onMovementStrategyChange`. -/
def changeMovementStrategy (E : Env) (w : World) (k : ℕ) (strategyType : StrategyName)
    (options : StrategyOptions) : World :=
  setMovementStrategy E w k strategyType options

/-- The constructor `new Projectile(x, y, type, owner, target)`. -/
def Projectile.new (E : Env) (w : World) (x y : ℚ) (type : ProjectileType) (owner : ℕ)
    (target : Option ℕ) : Projectile :=
  let p : Projectile :=
    { x := x, y := y, prevX := x, prevY := y, type := type, owner := owner, target := target,
      life := 60, maxLife := 60, radius := 4, damage := 0, vx := 0, vy := 0, dead := false }
  let p : Projectile := match type with
    | .bomb => { p with life := 60, radius := 16, damage := 24 + (w.ent owner).level * 8 }
    | .pet =>
      let p := { p with life := 180, radius := 4, damage := (w.ent owner).level * 2 }
      match target with
      | some t =>
        let angle := E.atan2 ((w.ent t).y - y) ((w.ent t).x - x)
        { p with vx := E.cos angle * 2, vy := E.sin angle * 2 }
      | none => p
    | .decoy => { p with life := 180, radius := 14, damage := 0 }
    | .arrow =>
      let p := { p with life := 120, radius := 3, damage := 5 + (w.ent owner).level * 3 }
      match target with
      | some t =>
        let angle := E.atan2 ((w.ent t).y - y) ((w.ent t).x - x)
        { p with vx := E.cos angle * 4, vy := E.sin angle * 4 }
      | none => p
  { p with maxLife := p.life }

/-- A `window.gameState.projectiles.push(...)`. -/
def World.pushProjectile (w : World) (p : Projectile) : World :=
  { w with projectiles := w.projectiles ++ [p] }

/-! ## Damage hooks of the class modules -/

/-- The hook `onDamageTakenPre` of `gladiators/ninja/index.js`. -/
def ninja.onDamageTakenPre (E : Env) (w : World) (t : ℕ) (amount : ℚ) : World × ℚ :=
  let chance := (w.ent t).dodgeChance + (w.ent t).level * 0.02
  let r := E.random w.rng
  let w := w.tick
  if r < chance then (w.modify t (gainXp 25), 0) else (w, amount)

/-- The hook `onDamageTaken` of `gladiators/spike/index.js`; `nested` is the call
`attacker.takeDamage(reflect, null, floatingTexts)`. -/
def spike.onDamageTaken (nested : World → ℕ → ℚ → World) (w : World) (t : ℕ)
    (attacker : Option ℕ) (amount : ℚ) : World × ℚ :=
  match attacker with
  | some a =>
    let reflect := (w.ent t).reflectDmg + (w.ent t).level * 2
    let w := nested w a reflect
    (w.modify t (gainXp 10), amount)
  | none => (w, amount)

/-- The hook `onDamageTaken` of `gladiators/hex/index.js`. -/
def hex.onDamageTaken (w : World) (amount : ℚ) : World × ℚ := (w, amount * 0.8)

/-- The hook `onDamageTaken` of `gladiators/speed/index.js`. -/
def speed.onDamageTaken (w : World) (t : ℕ) (amount : ℚ) : World × ℚ :=
  (w.modify t fun e => { e with speedBounceActive := false, speedBounces := 0 }, amount)

/-- The hook `onDamageTaken` of `gladiators/orb/index.js`. -/
def orb.onDamageTaken (E : Env) (w : World) (t : ℕ) (attacker : Option ℕ) (amount : ℚ) :
    World × ℚ :=
  match attacker with
  | some a =>
    let angle := E.atan2 ((w.ent a).y - (w.ent t).y) ((w.ent a).x - (w.ent t).x)
    let force : ℚ := 2.0
    (w.modify a fun e =>
      { e with vx := e.vx + E.cos angle * force, vy := e.vy + E.sin angle * force }, amount)
  | none => (w, amount)

/-- The hook `onDamageTaken` of `gladiators/pyramid/index.js`. -/
def pyramid.onDamageTaken (w : World) (t : ℕ) (amount : ℚ) : World × ℚ :=
  if (w.ent t).pyramidTurret then (w, amount * max 0.1 (0.6 - (w.ent t).level * 0.05))
  else (w, amount)

/-- The hook `onDamageTaken` of `gladiators/bomber/index.js`. -/
def bomber.onDamageTaken (E : Env) (w : World) (t : ℕ) (amount : ℚ) : World × ℚ :=
  let w :=
    if (w.ent t).defensiveBombCD ≤ 0 then
      let w := w.pushProjectile (Projectile.new E w (w.ent t).x (w.ent t).y .bomb t none)
      w.modify t fun e => { e with defensiveBombCD := 60 }
    else w
  let w := w.modify t fun e => { e with fleeTimer := 24 }
  let w := changeMovementStrategy E w t .defensive {}
  (w.modify t (gainXp 15), amount)

/-- The value of `(self.hp - amount) / self.maxHp` in the berserker's `onDamageTaken`, with
the rounding of the subtraction and of the division. -/
def berserker.pct (e : Entity) (amount : ℚ) : ℚ :=
  toDouble (toDouble (e.hp - amount) / e.maxHp)

/-- The assignment `self.berserkerNextThreshold -= 0.05` on binary64 numbers. -/
def berserker.nextThreshold (threshold : ℚ) : ℚ := toDouble (threshold - toDouble 0.05)

/-- The `while (pct < self.berserkerNextThreshold)` loop of the berserker's `onDamageTaken`,
stopped after at most `n` passes. -/
def berserker.rageLoop (amount : ℚ) : ℕ → Entity → Entity
  | 0, e => e
  | n + 1, e =>
    if berserker.pct e amount < e.berserkerNextThreshold then
      berserker.rageLoop amount n
        { e with berserkerStacks := e.berserkerStacks + 1,
                 invulnTimer := max e.invulnTimer 12,
                 berserkerNextThreshold := berserker.nextThreshold e.berserkerNextThreshold }
    else e

/-- A number of passes that the rage loop does not exceed while the threshold and the
post-hit fraction are below `2^40` in magnitude: there every pass lowers the threshold by
more than `0.04`. Far beyond that range the subtraction of `0.05` is absorbed by the rounding
and the loop of the code does not end. -/
def berserker.rageFuel (e : Entity) (amount : ℚ) : ℕ :=
  ⌈(e.berserkerNextThreshold - berserker.pct e amount) / 0.04⌉.toNat

/-- The hook `onDamageTaken` of `gladiators/berserker/index.js`. -/
def berserker.onDamageTaken (w : World) (t : ℕ) (amount : ℚ) : World × ℚ :=
  (w.modify t fun e => berserker.rageLoop amount (berserker.rageFuel e amount) e, amount)

/-- The hook `onDamageTaken` of `gladiators/illusion/index.js`. -/
def illusion.onDamageTaken (w : World) (t : ℕ) (amount : ℚ) : World × ℚ :=
  if !(w.ent t).decoyActive then (w, amount) else (w, amount * 0.5)

/-- Whether the module of a class defines `onDamageTakenPre`. -/
def hasOnDamageTakenPre : ClassKey → Bool
  | .ninja => true
  | _ => false

/-- Whether the module of a class defines `onDamageTaken`. -/
def hasOnDamageTaken : ClassKey → Bool
  | .spike | .hex | .speed | .orb | .pyramid | .bomber | .berserker | .illusion => true
  | _ => false

/-- The dispatch `this.module.onDamageTakenPre(this, attacker, amount, ...)`. -/
def onDamageTakenPre (E : Env) (w : World) (t : ℕ) (amount : ℚ) : World × ℚ :=
  match (w.ent t).className with
  | .ninja => ninja.onDamageTakenPre E (w.log (.onDamageTakenPre t)) t amount
  | _ => (w, amount)

/-- The dispatch `this.module.onDamageTaken(this, attacker, amount, ...)`. -/
def onDamageTaken (nested : World → ℕ → ℚ → World) (E : Env) (w : World) (t : ℕ)
    (attacker : Option ℕ) (amount : ℚ) : World × ℚ :=
  match (w.ent t).className with
  | .spike => spike.onDamageTaken nested (w.log (.onDamageTaken t)) t attacker amount
  | .hex => hex.onDamageTaken (w.log (.onDamageTaken t)) amount
  | .speed => speed.onDamageTaken (w.log (.onDamageTaken t)) t amount
  | .orb => orb.onDamageTaken E (w.log (.onDamageTaken t)) t attacker amount
  | .pyramid => pyramid.onDamageTaken (w.log (.onDamageTaken t)) t amount
  | .bomber => bomber.onDamageTaken E (w.log (.onDamageTaken t)) t amount
  | .berserker => berserker.onDamageTaken (w.log (.onDamageTaken t)) t amount
  | .illusion => illusion.onDamageTaken (w.log (.onDamageTaken t)) t amount
  | _ => (w, amount)

/-- The body of `Entity.takeDamage(amount, attacker, floatingTexts)` on the entity at index
`t`; `nested` stands for the `takeDamage` call a hook may make on the attacker. The result
is the new state and the returned amount. -/
def takeDamageCore (nested : World → ℕ → ℚ → World) (E : Env) (w : World) (t : ℕ)
    (amount : ℚ) (attacker : Option ℕ) : World × ℚ :=
  let w := w.log (.takeDamage t amount attacker)
  let pre := onDamageTakenPre E w t amount
  if (pre.1.ent t).invulnerable then
    (pre.1.modify t (gainXp 30), 0)
  else
    let post := onDamageTaken nested E pre.1 t attacker pre.2
    let w := post.1.modify t fun e => { e with hp := e.hp - post.2 }
    -- blood particles: `Math.random() > 0.5` decides a grid paint only
    (w.tick, post.2)

/-- The call `takeDamage(amount, null, floatingTexts)`: with no attacker no hook calls
`takeDamage` again. -/
def takeDamageNull (E : Env) (w : World) (t : ℕ) (amount : ℚ) : World × ℚ :=
  takeDamageCore (fun w _ _ => w) E w t amount none

/-- The method `Entity.takeDamage`. The only nested call is the spike's reflection, which
passes a `null` attacker. -/
def takeDamage (E : Env) (w : World) (t : ℕ) (amount : ℚ) (attacker : Option ℕ) : World × ℚ :=
  takeDamageCore (fun w a reflect => (takeDamageNull E w a reflect).1) E w t amount attacker

/-! ## Level-up and death -/

/-- The hook `onLevelUp`, defined by the speed module only. -/
def onLevelUp (e : Entity) : Entity :=
  match e.className with
  | .speed => { e with baseSpeed := e.baseSpeed * 1.22 }
  | _ => e

/-- The method `Entity.levelUp`. -/
def levelUp (e : Entity) : Entity :=
  let e := { e with level := e.level + 1, xp := 0,
                    xpToNextLevel := ⌊e.xpToNextLevel * 1.2⌋ }
  let hpPct := e.hp / e.maxHp
  let e := { e with maxHp := e.maxHp * 1.2 }
  let e := { e with hp := e.maxHp * hpPct }
  onLevelUp e

/-- The method `Entity.die`. -/
def die (e : Entity) : Entity := { e with dead := true }

/-- The classes whose module changes the amount of an incoming hit: the ninja's dodge, the
hex's reduction, the pyramid's turret armour and the illusion's decoy. -/
def altersIncomingDamage : ClassKey → Bool
  | .ninja | .hex | .pyramid | .illusion => true
  | _ => false

/-! ## Bounds clamping, corner escape and nearest-enemy search -/

/-- The method `BaseMovementStrategy.clampToArenaBounds` on the strategy's entity. -/
def BaseMovementStrategy.clampToArenaBounds (entity : Entity) : Entity :=
  let wasClamped : Bool :=
    entity.x < SAFE_BOUNDS.minX ∨ entity.x > SAFE_BOUNDS.maxX ∨
    entity.y < SAFE_BOUNDS.minY ∨ entity.y > SAFE_BOUNDS.maxY
  let entity := { entity with x := max SAFE_BOUNDS.minX (min SAFE_BOUNDS.maxX entity.x) }
  let entity := { entity with y := max SAFE_BOUNDS.minY (min SAFE_BOUNDS.maxY entity.y) }
  if wasClamped then
    let entity :=
      if entity.x ≤ SAFE_BOUNDS.minX ∨ entity.x ≥ SAFE_BOUNDS.maxX then
        { entity with vx := entity.vx * -0.3 }
      else entity
    if entity.y ≤ SAFE_BOUNDS.minY ∨ entity.y ≥ SAFE_BOUNDS.maxY then
      { entity with vy := entity.vy * -0.3 }
    else entity
  else entity

/-- The method `BaseMovementStrategy.handleCornerEscape` on the strategy's entity. -/
def BaseMovementStrategy.handleCornerEscape (E : Env) (entity : Entity) (simulationSpeed : ℚ) :
    Entity :=
  let centerX := STAGE_W / 2
  let centerY := STAGE_H / 2
  let distToLeft := entity.x - SAFE_BOUNDS.minX
  let distToRight := SAFE_BOUNDS.maxX - entity.x
  let distToTop := entity.y - SAFE_BOUNDS.minY
  let distToBottom := SAFE_BOUNDS.maxY - entity.y
  let nearLeftOrRight : Bool := distToLeft < WARNING_DISTANCE ∨ distToRight < WARNING_DISTANCE
  let nearTopOrBottom : Bool := distToTop < WARNING_DISTANCE ∨ distToBottom < WARNING_DISTANCE
  if nearLeftOrRight && nearTopOrBottom then
    let toCenterX := centerX - entity.x
    let toCenterY := centerY - entity.y
    let distToCenter := E.sqrt (toCenterX * toCenterX + toCenterY * toCenterY)
    if distToCenter > 0 then
      let urgency := min (min distToLeft distToRight / WARNING_DISTANCE)
        (min distToTop distToBottom / WARNING_DISTANCE)
      let escapeForce := (1 - urgency) * entity.baseSpeed * 0.5
      { entity with
          vx := entity.vx + (toCenterX / distToCenter) * escapeForce * simulationSpeed,
          vy := entity.vy + (toCenterY / distToCenter) * escapeForce * simulationSpeed }
    else entity
  else entity

/-- The comparison `dist < minDist`, where `minDist` starts as `Infinity` (`none`). -/
def ltMinDist (dist : ℚ) : Option ℚ → Bool
  | none => true
  | some m => dist < m

/-- The result object of `BaseMovementStrategy.findNearestEnemy`; `distance = none` is
`Infinity`. -/
structure NearestTarget where
  entity : Option ℕ
  distance : Option ℚ
  angle : ℚ

/-- The method `BaseMovementStrategy.findNearestEnemy(entities)` of the strategy owned by
the entity at index `i`. -/
def BaseMovementStrategy.findNearestEnemy (E : Env) (w : World) (i : ℕ) : NearestTarget :=
  let entity := w.ent i
  let best := (List.range w.ents.length).foldl
    (fun (acc : Option ℕ × Option ℚ) k =>
      let other := w.ent k
      if other.isDead ∨ other.team = entity.team then acc
      else
        let dx := other.x - entity.x
        let dy := other.y - entity.y
        let dist := E.sqrt (dx * dx + dy * dy)
        if ltMinDist dist acc.2 then (some k, some dist) else acc)
    (none, none)
  { entity := best.1
    distance := best.2
    angle := match best.1 with
      | some n => E.atan2 ((w.ent n).y - entity.y) ((w.ent n).x - entity.x)
      | none => 0 }

/-- The function `findNearestEnemy(self, entities)` of `core/GladiatorUtils.js`; the result
is the pair `enemy`, `distance`. -/
def GladiatorUtils.findNearestEnemy (E : Env) (w : World) (self : ℕ) : Option ℕ × Option ℚ :=
  (List.range w.ents.length).foldl
    (fun (acc : Option ℕ × Option ℚ) k =>
      let e := w.ent k
      if k = self ∨ e.team = (w.ent self).team ∨ e.isDead then acc
      else
        let d := E.hypot (e.x - (w.ent self).x) (e.y - (w.ent self).y)
        if ltMinDist d acc.2 then (some k, some d) else acc)
    (none, none)

/-! ## Footprints

`Step R S w w'` says that `w'` comes from `w` by changes that touch only the entities whose
index satisfies `S`, relate the old and the new value of every entity by `R`, never remove
an entity, and trace only calls that act on entities in `S`. -/

/-- The fields of an entity that the damage pipeline and the combat hooks never change. -/
structure KeepsId (e e' : Entity) : Prop where
  team : e'.team = e.team
  className : e'.className = e.className
  maxHp : e'.maxHp = e.maxHp
  level : e'.level = e.level
  reflectDmg : e'.reflectDmg = e.reflectDmg
  radius : e'.radius = e.radius
  isDead : e'.isDead = e.isDead

/-- The change keeps the identity fields and the hit points. -/
structure Keeps (e e' : Entity) extends KeepsId e e' : Prop where
  hp : e'.hp = e.hp

/-- The change keeps the identity fields and does not raise the hit points. -/
structure Hurt (e e' : Entity) extends KeepsId e e' : Prop where
  hp : e'.hp ≤ e.hp

/-- A relation that absorbs, on the right, changes that keep identity and hit points. -/
structure RightKeeps (R : Entity → Entity → Prop) : Prop where
  refl : ∀ e, R e e
  comp : ∀ {e e1 e2}, R e e1 → Keeps e1 e2 → R e e2

/-- A relation that absorbs, on the right, changes that keep the identity fields. -/
structure RightKeepsId (R : Entity → Entity → Prop) extends RightKeeps R : Prop where
  compId : ∀ {e e1 e2}, R e e1 → KeepsId e1 e2 → R e e2

/-- The footprint judgement. -/
structure Step (R : Entity → Entity → Prop) (S : ℕ → Prop) (w w' : World) : Prop where
  len : w.ents.length ≤ w'.ents.length
  frame : ∀ j, j < w.ents.length → ¬ S j → w'.ent j = w.ent j
  rel : ∀ j, j < w.ents.length → R (w.ent j) (w'.ent j)
  trace : ∃ evs, w'.trace = w.trace ++ evs ∧ ∀ ev ∈ evs, S ev.target

/-! ## Worked inputs -/

/-- An environment for the worked inputs below. Its functions agree with JavaScript where
the worked inputs call them: `hypot` with a zero argument, `sqrt` of the square of a
rational, `atan2 0 x` for `x ≥ 0`, `cos 0` and `sin 0`; `draws` is the stream returned by
`Math.random`. -/
def exampleEnv (draws : ℕ → ℚ) : Env where
  hypot a b := if b = 0 then |a| else if a = 0 then |b| else 0
  sqrt q := (Nat.sqrt q.num.toNat : ℚ) / (Nat.sqrt q.den : ℚ)
  atan2 _ _ := 0
  cos _ := 1
  sin _ := 0
  pow b _ := b
  pi := 3.141592653589793
  random := draws
  elapsedTime := 0
  getCellType _ _ := 0

/-- A ninja with `dodgeChance = 0.15` at level 1. -/
def exNinja : World :=
  { ents := [{ className := .ninja, dodgeChance := 0.15, level := 1, hp := 350, maxHp := 350 }] }

/-- A shielded tank. -/
def exShielded : World :=
  { ents := [{ className := .tank, hp := 900, maxHp := 1100, invulnerable := true,
               invulnTimer := 40 }] }

/-- A spike with `reflectDmg = 5` at level 3 (index 0) and an attacking crit (index 1). -/
def exSpike : World :=
  { ents := [{ className := .spike, reflectDmg := 5, level := 3, hp := 750, maxHp := 750,
               team := .red },
             { className := .crit, critChance := 0.5, level := 1, hp := 400, maxHp := 400,
               team := .blue }] }

/-- An entity at half of its hit points. -/
def exLevelUp : Entity := { hp := 50, maxHp := 100 }

/-- An entity at rest near the top-left corner of the safe rectangle; its squared distance
to the centre, 19300, is not a square. -/
def exCornerDiag : Entity := { x := 30, y := 30, baseSpeed := 1.2, vx := 0, vy := 0 }

/-- An entity that sits on the left bound and is below the bottom bound. -/
def exOnLeftBound : Entity := { x := 12, y := 195, vx := 1, vy := 1 }

/-- A red searcher and a blue enemy that `Entity.die` has marked dead and that is still in
the entity array. -/
def exDeadEnemy : World :=
  { ents := [{ team := .red, x := 50, y := 100 },
             die { team := .blue, x := 80, y := 100 }] }

/-! ## Grid (`src/core/Grid.js`)

The buffers `grid` and `wallHealth` are `Uint8Array`s of `STAGE_W * STAGE_H` bytes, modelled
as functions from the element index. A value stored into an element is first truncated to an
integer and reduced modulo 256, as the typed array does. -/

/-- The terrain kind `TYPE.EMPTY`. -/
def TYPE_EMPTY : ℕ := 0

/-- The width `STAGE_W` as a cell count. -/
def STAGE_COLS : ℕ := 300

/-- The height `STAGE_H` as a cell count. -/
def STAGE_ROWS : ℕ := 200

/-- The module state of `Grid.js`. -/
structure Grid where
  grid : ℕ → ℕ
  wallHealth : ℕ → ℕ

/-- The conversion applied when a number is stored into a `Uint8Array` element. -/
def toUint8 (v : ℚ) : ℕ := ((if 0 ≤ v then ⌊v⌋ else ⌈v⌉) % 256).toNat

/-- The test `x >= 0 && x < STAGE_W && y >= 0 && y < STAGE_H`. -/
def inStage (x y : ℚ) : Bool := 0 ≤ x ∧ x < STAGE_W ∧ 0 ≤ y ∧ y < STAGE_H

/-- The element index `y * STAGE_W + x`, when it is an integer index of the buffer. -/
def cellIndex (x y : ℚ) : Option ℕ :=
  let i := y * STAGE_W + x
  if i.isInt ∧ 0 ≤ i ∧ i < STAGE_W * STAGE_H then some i.num.toNat else none

/-- The function `setCell(x, y, type)`; a store at a key that is not an element index is
ignored. -/
def setCell (g : Grid) (x y : ℚ) (type : ℕ) : Grid :=
  if inStage x y then
    match cellIndex x y with
    | some i => { g with grid := Function.update g.grid i (toUint8 type) }
    | none => g
  else g

/-- The function `getCell(x, y)`; `none` is `undefined`, read at a key that is not an element
index. -/
def getCell (g : Grid) (x y : ℚ) : Option ℕ :=
  if inStage x y then (cellIndex x y).map g.grid else some TYPE_WALL

/-- The function `damageWall(x, y, amount)`. -/
def damageWall (g : Grid) (x y : ℚ) (amount : ℚ) : Grid :=
  if inStage x y then
    match cellIndex x y with
    | some idx =>
      if g.grid idx = TYPE_WALL then
        if g.wallHealth idx > 0 then
          let stored := toUint8 ((g.wallHealth idx : ℚ) - amount)
          let g := { g with wallHealth := Function.update g.wallHealth idx stored }
          if g.wallHealth idx ≤ 0 then
            { g with grid := Function.update g.grid idx (toUint8 TYPE_EMPTY) }
          else g
        else g
      else g
    | none => g
  else g

/-- The test of `initGrid` for a wall cell, with `margin = 10`. -/
def initGridIsWall (x y : ℕ) : Bool :=
  (x : ℚ) < 10 ∨ (x : ℚ) > STAGE_W - 10 ∨ (y : ℚ) < 10 ∨ (y : ℚ) > STAGE_H - 10

/-- The body of the inner loop of `initGrid` at the cell `(x, y)`. -/
def initGridCell (g : Grid) (y x : ℕ) : Grid :=
  if initGridIsWall x y then
    let g := setCell g x y TYPE_WALL
    { g with wallHealth := Function.update g.wallHealth (y * STAGE_COLS + x) (toUint8 6) }
  else g

/-- The function `initGrid()`: both buffers are filled, then the two nested loops run over
`y = 0 .. STAGE_H - 1` and `x = 0 .. STAGE_W - 1`. -/
def initGrid (_old : Grid) : Grid :=
  (List.range STAGE_ROWS).foldl
    (fun g y => (List.range STAGE_COLS).foldl (fun g x => initGridCell g y x) g)
    { grid := fun _ => TYPE_EMPTY, wallHealth := fun _ => 0 }

/-! ## Candidates of the nearest-enemy search -/

/-- The entities that `BaseMovementStrategy.findNearestEnemy` does not skip: those of the
array for which `other.isDead || other.team === entity.team` is false. -/
def BaseMovementStrategy.isCandidate (w : World) (i k : ℕ) : Prop :=
  k < w.ents.length ∧ ¬ ((w.ent k).isDead ∨ (w.ent k).team = (w.ent i).team)

/-- The distance `Math.sqrt(dx * dx + dy * dy)` from the searcher `i` to the entity `k`. -/
def BaseMovementStrategy.distanceTo (E : Env) (w : World) (i k : ℕ) : ℚ :=
  E.sqrt (((w.ent k).x - (w.ent i).x) * ((w.ent k).x - (w.ent i).x)
    + ((w.ent k).y - (w.ent i).y) * ((w.ent k).y - (w.ent i).y))

/-! ## The frame loop (`src/core/Loop.js`) -/

/-- The constant `FIXED_DT`, in milliseconds: the binary64 quotient `1000 / 60`, which is
`16.666666666666668`. The times of the frame loop are binary64 numbers, and every sum and
difference of the loop is rounded. -/
def FIXED_DT : ℚ := toDouble (1000 / 60)

/-- The constant `FIXED_DT_SECONDS`. -/
def FIXED_DT_SECONDS : ℚ := toDouble (FIXED_DT / 1000)

def MAX_FRAME_TIME : ℚ := 250

def MAX_STEPS_PER_FRAME : ℕ := 8

def MIN_FRAME_INTERVAL : ℚ := toDouble (1000 / 60)

/-- The timing fields of a `GameLoop`. -/
structure GameLoop where
  lastTime : ℚ := 0
  lastRenderTime : ℚ := 0
  accumulator : ℚ := 0
  lastPhysicsSteps : ℕ := 0

/-- The assignment `this.accumulator -= FIXED_DT` on binary64 numbers. -/
def GameLoop.drain (accumulator : ℚ) : ℚ := toDouble (accumulator - FIXED_DT)

/-- The loop `while (this.accumulator >= FIXED_DT && physicsSteps < MAX_STEPS_PER_FRAME)`.
`calls` collects the arguments of the `updateFn` calls; `fuel` is
`MAX_STEPS_PER_FRAME - physicsSteps`, which the loop condition keeps positive. -/
def GameLoop.physicsSteps (accumulator : ℚ) (physicsSteps : ℕ) (calls : List ℚ) :
    ℕ → ℚ × ℕ × List ℚ
  | 0 => (accumulator, physicsSteps, calls)
  | fuel + 1 =>
    if accumulator ≥ FIXED_DT ∧ physicsSteps < MAX_STEPS_PER_FRAME then
      GameLoop.physicsSteps (GameLoop.drain accumulator) (physicsSteps + 1)
        (calls ++ [FIXED_DT_SECONDS]) fuel
    else (accumulator, physicsSteps, calls)

/-- The accumulator after `this.accumulator += frameTime` in a frame that `loop` processes. -/
def GameLoop.charged (g : GameLoop) (timestamp : ℚ) : ℚ :=
  toDouble (g.accumulator + min (toDouble (timestamp - g.lastTime)) MAX_FRAME_TIME)

/-- The method `GameLoop.loop(timestamp)`, up to the render call. The result is the new
timing state and the list of arguments with which `updateFn` was called. -/
def GameLoop.loop (g : GameLoop) (timestamp : ℚ) : GameLoop × List ℚ :=
  let frameTime := toDouble (timestamp - g.lastTime)
  if frameTime < MIN_FRAME_INTERVAL then (g, [])
  else
    let g := { g with lastTime := timestamp, lastRenderTime := timestamp }
    let frameTime := if frameTime > MAX_FRAME_TIME then MAX_FRAME_TIME else frameTime
    let g := { g with accumulator := toDouble (g.accumulator + frameTime) }
    let r := GameLoop.physicsSteps g.accumulator 0 [] MAX_STEPS_PER_FRAME
    ({ g with accumulator := r.1, lastPhysicsSteps := r.2.1 }, r.2.2)

/-! ## The batch simulation (`src/test/BattleTest.js`) -/

def HARD_LIMIT : ℚ := 15000

def MAX_ITERATIONS : ℕ := 50000

inductive Winner where
  | red
  | blue
  | draw
  deriving DecidableEq, Repr

/-- The variables of `runSingleBattle` when its loop is left: `winner` (`none` is `null`),
`simulatedTime`, `iterations` and the simulation state. -/
structure BattleRun (σ : Type) where
  winner : Option Winner
  simulatedTime : ℚ
  iterations : ℕ
  state : σ

/-- The assignment `simulatedTime += simulationSpeed` on binary64 numbers. -/
def advanceClock (simulationSpeed simulatedTime : ℚ) : ℚ :=
  toDouble (simulatedTime + simulationSpeed)

/-- The simulation loop of `runSingleBattle`. The work of one iteration on the entities and
projectiles (sudden death, entity updates, projectile updates) is the parameter `body`, which
receives the advanced `simulatedTime`; `redDead` and `blueDead` read `red.dead` and
`blue.dead`. `fuel` is `MAX_ITERATIONS - iterations`. The clock `simulatedTime` is a binary64
number and `simulatedTime += simulationSpeed` is rounded. -/
def battleLoop {σ : Type} (body : ℚ → σ → σ) (redDead blueDead : σ → Bool)
    (simulationSpeed : ℚ) : ℕ → ℚ → ℕ → σ → BattleRun σ
  | 0, simulatedTime, iterations, s => ⟨none, simulatedTime, iterations, s⟩
  | fuel + 1, simulatedTime, iterations, s =>
    if simulatedTime < HARD_LIMIT then
      let simulatedTime := advanceClock simulationSpeed simulatedTime
      let iterations := iterations + 1
      let s := body simulatedTime s
      let redAlive := !redDead s
      let blueAlive := !blueDead s
      if !redAlive && !blueAlive then ⟨some .draw, simulatedTime, iterations, s⟩
      else if !redAlive then ⟨some .blue, simulatedTime, iterations, s⟩
      else if !blueAlive then ⟨some .red, simulatedTime, iterations, s⟩
      else battleLoop body redDead blueDead simulationSpeed fuel simulatedTime iterations s
    else ⟨none, simulatedTime, iterations, s⟩

/-- The function `runSingleBattle`, from the loop on: the loop starts with
`simulatedTime = 0` and `iterations = 0`, and `if (!winner) winner = 'draw'` follows it. -/
def runSingleBattle {σ : Type} (body : ℚ → σ → σ) (redDead blueDead : σ → Bool)
    (simulationSpeed : ℚ) (init : σ) : Winner × BattleRun σ :=
  let r := battleLoop body redDead blueDead simulationSpeed MAX_ITERATIONS 0 0 init
  (r.winner.getD .draw, r)

/-! ## Class table, module registry and constructors -/

/-- The property name of a class in `CLASSES`, and the `key` field of its module. -/
def ClassKey.key : ClassKey → String
  | .crit => "crit" | .speed => "speed" | .spinner => "spinner" | .tank => "tank"
  | .spike => "spike" | .ninja => "ninja" | .prism => "prism" | .orb => "orb"
  | .cube => "cube" | .star => "star" | .hex => "hex" | .pyramid => "pyramid"
  | .bomber => "bomber" | .summoner => "summoner" | .lancer => "lancer"
  | .berserker => "berserker" | .archer => "archer" | .poison => "poison"
  | .illusion => "illusion"

/-- The own property names of `CLASSES`, which are also those of `REGISTRY`, in source
order. -/
def CLASS_KEYS : List ClassKey :=
  [.crit, .speed, .spinner, .tank, .spike, .ninja, .prism, .orb, .cube, .star, .hex, .pyramid,
   .bomber, .summoner, .lancer, .berserker, .archer, .poison, .illusion]

/-- The lookup of a property name in `CLASSES` or in `REGISTRY`; `none` is `undefined`. Names
inherited from `Object.prototype` are not modelled. -/
def ClassKey.ofKey (key : String) : Option ClassKey :=
  CLASS_KEYS.find? fun c => c.key == key

/-- A module object of `gladiators/registry.js`. -/
inductive Module where
  | registry (c : ClassKey)
  | defaultModule
  deriving DecidableEq, Repr

/-- The `key` field of a module. -/
def Module.key : Module → String
  | .registry c => c.key
  | .defaultModule => "default"

/-- The function `getGladiatorModule(key)`: `REGISTRY[key] || DefaultModule`. -/
def getGladiatorModule (key : String) : Module :=
  match ClassKey.ofKey key with
  | some c => .registry c
  | none => .defaultModule

/-- The `defaultMovementStrategy` field of a class module, when it has one. -/
def defaultMovementStrategy : ClassKey → Option StrategyName
  | .tank | .hex | .pyramid | .bomber | .berserker | .poison => some .aggressive
  | .spinner => some .passive
  | .archer => some .defensive
  | _ => none

/-- The `movementOptions` field of the spinner module. -/
def spinner.movementOptions : StrategyOptions where
  pattern := some .orbit
  config := some
    { PASSIVE := some
        { pattern := some .orbit, orbitSpeed := some 0.2, orbitRadius := some 80,
          orbitSpeedMultiplier := some 1.2, friction := some 1.0 } }

/-- The `movementOptions` field of the berserker module. -/
def berserker.movementOptions : StrategyOptions where
  config := some
    { AGGRESSIVE := some
        { seekInterval := some 1, seekAcceleration := some 0.15, friction := some 0.97 } }

/-- The expression `this.module.movementOptions || {}` for a class module. -/
def movementOptions : ClassKey → StrategyOptions
  | .spinner => spinner.movementOptions
  | .berserker => berserker.movementOptions
  | _ => {}

/-- The constructor `new Entity(x, y, className, elementType, team)`. `none` is the
`TypeError` raised by `stats.hp` when `CLASSES[className]` is `undefined`; `r1` and `r2` are
the two `Math.random()` draws of the initial velocity. -/
def Entity.new (x y : ℚ) (className : String) (elementType : ℕ) (team : Team) (r1 r2 : ℚ) :
    Option Entity :=
  match ClassKey.ofKey className with
  | none => none
  | some c =>
    some
      { x := x, y := y, className := c, elementType := elementType, team := team,
        maxHp := CLASSES_hp c, hp := CLASSES_hp c, baseSpeed := CLASSES_speed c, radius := 10,
        level := 1, xp := 0, xpToNextLevel := 100, damageDealt := 0,
        vx := (r1 - 0.5) * CLASSES_speed c, vy := (r2 - 0.5) * CLASSES_speed c,
        invulnerable := false, invulnTimer := 0, cooldown := 0, age := 0, dead := false,
        intentX := 0, intentY := 0,
        movementStrategy := some (AggressiveMovement.new (MOVEMENT_CONFIG.AGGRESSIVE.getD {})),
        hasGrid := false, abilityAccumulator := 0 }

/-- The constructor `new Gladiator(x, y, className, elementType, team)`; `rng` counts the
`Math.random()` draws made so far and the result carries the new count. The `super` call
comes first, so its `TypeError` (`none`) is raised before `getGladiatorModule` is reached.
The strategy method runs on the object under construction, held in a one-element array. -/
def Gladiator.new (E : Env) (rng : ℕ) (x y : ℚ) (className : String) (elementType : ℕ)
    (team : Team) : Option (Entity × Module × ℕ) :=
  match Entity.new x y className elementType team (E.random rng) (E.random (rng + 1)) with
  | none => none
  | some e =>
    let module := getGladiatorModule className
    let w : World := { ents := [e], rng := rng + 2 }
    let w := match module with
      | .registry c =>
        match defaultMovementStrategy c with
        | some s => setMovementStrategy E w 0 s (movementOptions c)
        | none => w
      | .defaultModule => w
    some ({ w.ent 0 with initialized := false, isAttacking := false }, module, w.rng)

/-! ## Projectile updates (`src/entities/Projectile.js`) -/

def DECOY_TAUNT_RANGE : ℚ := 100

/-- The function `segmentIntersectsCircle(ax, ay, bx, by, cx, cy, r)`; `v || 1e-6` replaces a
zero squared length. -/
def segmentIntersectsCircle (ax ay bx by_ cx cy r : ℚ) : Bool :=
  let abx := bx - ax
  let aby := by_ - ay
  let acx := cx - ax
  let acy := cy - ay
  let abLenSq := if abx * abx + aby * aby = 0 then 1 / 1000000 else abx * abx + aby * aby
  let t := max 0 (min 1 ((acx * abx + acy * aby) / abLenSq))
  let px := ax + abx * t
  let py := ay + aby * t
  let dx := cx - px
  let dy := cy - py
  dx * dx + dy * dy ≤ r * r

/-- One round of the explosion loop of `Projectile.die`, for the entity at index `k`. -/
def Projectile.explode (E : Env) (p : Projectile) (w : World) (k : ℕ) : World :=
  if (w.ent k).team = (w.ent p.owner).team then w
  else
    let dist := E.hypot ((w.ent k).x - p.x) ((w.ent k).y - p.y)
    if dist < 34 then
      let r := takeDamage E w k p.damage none
      r.1.modify p.owner fun o => { o with damageDealt := o.damageDealt + r.2 }
    else w

/-- The method `Projectile.die(entities, floatingTexts)`. No call of the loop body adds or
removes an entity, so the loop visits the indices below the initial length in order. -/
def Projectile.die (E : Env) (w : World) (p : Projectile) : World × Projectile :=
  let p := { p with dead := true }
  if p.type = .bomb then ((List.range w.ents.length).foldl (Projectile.explode E p) w, p)
  else (w, p)

/-- The test of the arrow and pet loop of `Projectile.update` on the entity at index `k`:
the entity is neither the owner nor of the owner's team, and the segment of this tick meets
its collision circle. -/
def Projectile.hits (w : World) (p : Projectile) (k : ℕ) : Bool :=
  !(decide (k = p.owner) || decide ((w.ent k).team = (w.ent p.owner).team)) &&
    segmentIntersectsCircle p.prevX p.prevY p.x p.y (w.ent k).x (w.ent k).y
      (p.radius + (w.ent k).radius)

/-- One round of the decoy loop of `Projectile.update`, for the entity at index `k`. -/
def Projectile.taunt (E : Env) (p : Projectile) (w : World) (k : ℕ) : World :=
  if (w.ent k).team = (w.ent p.owner).team then w
  else
    let dist := E.hypot ((w.ent k).x - p.x) ((w.ent k).y - p.y)
    if dist < DECOY_TAUNT_RANGE then
      let angle := E.atan2 (p.y - (w.ent k).y) (p.x - (w.ent k).x)
      w.modify k fun e => { e with vx := e.vx + E.cos angle * 0.1, vy := e.vy + E.sin angle * 0.1 }
    else w

/-- The method `Projectile.update(entities, floatingTexts)`. The arrow and pet loop stops at
the first entity that passes its test. -/
def Projectile.update (E : Env) (w : World) (p : Projectile) : World × Projectile :=
  let p := { p with prevX := p.x, prevY := p.y, life := p.life - 1 }
  if p.life ≤ 0 then Projectile.die E w p
  else
    let p := { p with x := p.x + p.vx, y := p.y + p.vy }
    if p.type = .arrow ∨ p.type = .pet then
      match (List.range w.ents.length).find? (Projectile.hits w p) with
      | some k =>
        let r := takeDamage E w k p.damage (some p.owner)
        let w := r.1
        let w :=
          if r.2 > 0 then
            let w := w.modify p.owner fun o => { o with damageDealt := o.damageDealt + r.2 }
            if isAutoAttacker (w.ent p.owner).className then
              w.modify p.owner (gainXp (5 + (w.ent p.owner).level))
            else w
          else w
        (w, { p with dead := true })
      | none => (w, p)
    else if p.type = .decoy then
      ((List.range w.ents.length).foldl (Projectile.taunt E p) w, p)
    else (w, p)

/-! ## Sudden death (`src/main.js`) -/

def SUDDEN_DEATH_FRAMES : ℚ := 60 * 60

/-- The fields of the game state that the sudden-death block of `update` reads and writes. -/
structure GameState where
  world : World := {}
  simulationSpeed : ℚ := 1
  combatLoopActive : Bool := false
  combatDuration : ℚ := 0

/-- The local `tickScale` of `update(fixedDtSeconds)`. -/
def tickScale (s : GameState) (fixedDtSeconds : ℚ) : ℚ :=
  s.simulationSpeed * (fixedDtSeconds / (1 / 60))

/-- The local `damage` of the sudden-death block, from the advanced `combatDuration`. -/
def suddenDeathDamage (combatDuration tickScale : ℚ) : ℚ :=
  let suddenElapsed := combatDuration - SUDDEN_DEATH_FRAMES
  let ramp := max 0 (suddenElapsed / 30)
  (8 + ramp) * tickScale

/-- The callback of `state.entities.forEach` in the sudden-death block. -/
def suddenDeathHit (E : Env) (damage : ℚ) (w : World) (k : ℕ) : World :=
  if !(w.ent k).dead then (takeDamage E w k damage none).1 else w

/-- The block `// Sudden Death Logic` of `update`. -/
def suddenDeath (E : Env) (s : GameState) (tickScale : ℚ) : GameState :=
  if s.combatLoopActive then
    let s := { s with combatDuration := s.combatDuration + tickScale }
    if s.combatDuration > SUDDEN_DEATH_FRAMES then
      let damage := suddenDeathDamage s.combatDuration tickScale
      { s with world :=
          (List.range s.world.ents.length).foldl (suddenDeathHit E damage) s.world }
    else s
  else s

/-! ## Footprint of a sweep over the entity array -/

/-- The state `w1` reached from `w0` after a sweep has visited the indices below `i`, hitting
with `amount` and a `null` attacker the entities that satisfy `T`. Entities outside `T`, and
entities not yet visited, keep their hit points; outside `X` they are unchanged. `H` is what
is known of the hit points of a visited target. -/
structure Swept (T X : ℕ → Prop) (H : ℕ → ℚ → Prop) (amount : ℚ) (w0 : World) (i : ℕ)
    (w1 : World) : Prop where
  len : w0.ents.length ≤ w1.ents.length
  id : ∀ j, j < w0.ents.length → KeepsId (w0.ent j) (w1.ent j)
  keeps : ∀ j, j < w0.ents.length → ¬ (T j ∧ j < i) → Keeps (w0.ent j) (w1.ent j)
  same : ∀ j, j < w0.ents.length → ¬ (T j ∧ j < i) → ¬ X j → w1.ent j = w0.ent j
  hit : ∀ j, j < i → T j → H j (w1.ent j).hp
  trace : ∃ evs, w1.trace = w0.trace ++ evs ∧ (∀ ev ∈ evs, T ev.target ∧ ev.target < i) ∧
    ∀ k, k < i → T k → Ev.takeDamage k amount none ∈ evs

/-! ## Further worked inputs -/

/-- A red bomber (index 0), a blue crit at distance exactly 34 from the point `(100, 100)`
(index 1) and a blue crit at distance 33 from it (index 2). -/
def exBlast : World :=
  { ents := [{ className := .bomber, team := .red, x := 100, y := 100, hp := 500, maxHp := 500 },
             { className := .crit, team := .blue, x := 134, y := 100, hp := 400, maxHp := 400 },
             { className := .crit, team := .blue, x := 100, y := 133, hp := 400, maxHp := 400 }] }

/-- A bomb of the bomber of `exBlast` at `(100, 100)` with one frame of fuse left. -/
def exBomb : Projectile :=
  { x := 100, y := 100, prevX := 100, prevY := 100, type := .bomb, owner := 0, target := none,
    life := 1, maxLife := 60, radius := 16, damage := 32, vx := 0, vy := 0, dead := false }

/-- A red archer (index 0) and a blue crit (index 1) whose circle of radius 13 an arrow
flying from `(0, 0)` to `(4, 0)` grazes: both end points are outside the circle. -/
def exGraze : World :=
  { ents := [{ className := .archer, team := .red, x := 0, y := 0, hp := 350, maxHp := 350 },
             { className := .crit, team := .blue, x := 2, y := 12.9, hp := 400, maxHp := 400 }] }

/-- An arrow of the archer of `exGraze` at the origin, flying to the right. -/
def exArrow : Projectile :=
  { x := 0, y := 0, prevX := 0, prevY := 0, type := .arrow, owner := 0, target := some 1,
    life := 120, maxLife := 120, radius := 3, damage := 8, vx := 4, vy := 0, dead := false }

/-- An active combat at `combatDuration = 3600` between a shielded tank (index 0), a hex
(index 1) and a crit (index 2). -/
def exSuddenDeath : GameState :=
  { world := { ents := [{ className := .tank, team := .red, hp := 900, maxHp := 1100,
                          invulnerable := true, invulnTimer := 40 },
                        { className := .hex, team := .blue, hp := 600, maxHp := 600 },
                        { className := .crit, team := .blue, hp := 400, maxHp := 400 }] },
    simulationSpeed := 1, combatLoopActive := true, combatDuration := 3600 }

/-- A berserker at full health whose next rage threshold is 0.95 of its hit points. -/
def exBerserker : World :=
  { ents := [{ className := .berserker, hp := 750, maxHp := 750,
               berserkerNextThreshold := toDouble 0.95 }] }

/-- A berserker whose hit points are the fraction `0.7499999999999999` of `maxHp = 1`, the
binary64 number next below `0.75`, with the initial threshold `0.95`. -/
def exDrift : World :=
  { ents := [{ className := .berserker, hp := 6755399441055743 / 2 ^ 53, maxHp := 1,
               berserkerNextThreshold := toDouble 0.95 }] }

/-- The binary64 number `1666.6666666666667`, the one next above `15000 / 9`. -/
def exSpeed : ℚ := 7330077518506667 / 2 ^ 42

/-- A stage whose every cell is a wall of durability 6. -/
def exWall : Grid := { grid := fun _ => TYPE_WALL, wallHealth := fun _ => 6 }

/-! ## The event bus (`src/core/EventBus.js`)

Callbacks are identified by a number and do not call back into the bus. A listener stored in
the bus is either the callback itself (`on` without a context) or a fresh bound function
(`on` with a context), which carries the callback and the context in its `_original` and
`_context` properties. -/

/-- A function object stored in a listener set. -/
inductive Listener where
  | self (callback : ℕ)
  | bound (callback : ℕ) (context : ℕ) (serial : ℕ)
  deriving DecidableEq, Repr

/-- The property `_original` of a stored listener. -/
def Listener.original : Listener → ℕ
  | .self c => c
  | .bound c _ _ => c

/-- The property `_context` of a stored listener; `none` is `null`. -/
def Listener.context : Listener → Option ℕ
  | .self _ => none
  | .bound _ ctx _ => some ctx

/-- The state of the `EventBusManager`: the map `_listeners` from event names to
insertion-ordered sets (`none`: no key), the number of bound functions created so far, the
names in `_eventHistory`, and the ghost record of the callback invocations. -/
structure EventBus where
  listeners : String → Option (List Listener) := fun _ => none
  serial : ℕ := 0
  eventHistory : List String := []
  calls : List (Listener × String) := []

/-- The method `Set.prototype.add` on an insertion-ordered set. -/
def setAdd (s : List Listener) (l : Listener) : List Listener :=
  if l ∈ s then s else s ++ [l]

/-- The method `on(eventName, callback, context)` for a callback that is a function. The
returned unsubscribe function is `off(eventName, callback, context)`. -/
def EventBus.on (bus : EventBus) (eventName : String) (callback : ℕ) (context : Option ℕ) :
    EventBus :=
  let bus : EventBus :=
    match bus.listeners eventName with
    | some _ => bus
    | none => { bus with listeners := Function.update bus.listeners eventName (some []) }
  let wrappedCallback : Listener :=
    match context with
    | some ctx => .bound callback ctx bus.serial
    | none => .self callback
  let bus : EventBus :=
    match context with
    | some _ => { bus with serial := bus.serial + 1 }
    | none => bus
  let listeners := setAdd ((bus.listeners eventName).getD []) wrappedCallback
  { bus with listeners := Function.update bus.listeners eventName (some listeners) }

/-- The method `off(eventName, callback, context)`; a `none` callback is the omitted
argument. -/
def EventBus.off (bus : EventBus) (eventName : String) (callback : Option ℕ)
    (context : Option ℕ) : EventBus :=
  match bus.listeners eventName with
  | none => bus
  | some listeners =>
    match callback with
    | none => { bus with listeners := Function.update bus.listeners eventName (some []) }
    | some cb =>
      let listeners := listeners.filter fun wrappedCallback =>
        !(decide (wrappedCallback.original = cb) &&
          (decide (context = none) || decide (wrappedCallback.context = context)))
      if listeners.length = 0 then
        { bus with listeners := Function.update bus.listeners eventName none }
      else
        { bus with listeners := Function.update bus.listeners eventName (some listeners) }

/-- The method `emit(eventName, data)`: the history keeps the last `_maxHistorySize = 100`
names and every listener of the event is called once, in insertion order. -/
def EventBus.emit (bus : EventBus) (eventName : String) : EventBus :=
  let history := bus.eventHistory ++ [eventName]
  let history := if history.length > 100 then history.tail else history
  let bus := { bus with eventHistory := history }
  match bus.listeners eventName with
  | none => bus
  | some listeners => { bus with calls := bus.calls ++ listeners.map fun l => (l, eventName) }

/-- The method `listenerCount(eventName)`. -/
def EventBus.listenerCount (bus : EventBus) (eventName : String) : ℕ :=
  match bus.listeners eventName with
  | some listeners => listeners.length
  | none => 0

/-- A bus on which the callback 7 is not subscribed to the event `game:start`, which has one
other listener. -/
def exBus : EventBus :=
  { listeners := fun n => if n = "game:start" then some [.self 3] else none }

/-! ## The movement strategies (`src/core/MovementSystem.js`) -/

/-- The JavaScript remainder `a % b` on numbers, for `b ≠ 0`: the quotient is truncated. -/
def jsRem (a b : ℚ) : ℚ := a - b * (if 0 ≤ a / b then ⌊a / b⌋ else ⌈a / b⌉)

/-- The hook `getFriction` of the class modules that define it. -/
def getFriction (e : Entity) : Option ℚ :=
  match e.className with
  | .speed => some (if e.speedBounceActive then 0.995 else 0.98)
  | .spinner => some 1.0
  | _ => none

/-- The hook `onWallBounce` of the class modules that define it. -/
def onWallBounce (E : Env) (e : Entity) : Entity :=
  match e.className with
  | .speed =>
    if !e.speedBounceActive then e
    else
      let e := { e with speedBounces := e.speedBounces + 1 }
      let speed := E.hypot e.vx e.vy * 1.08
      let angle := E.atan2 e.vy e.vx
      let e := { e with vx := E.cos angle * speed, vy := E.sin angle * speed }
      if e.speedBounces ≥ 5 then { e with speedBounceActive := false } else e
  | .spinner => { e with combo := 0 }
  | _ => e

/-- The method `BaseMovementStrategy.applyFriction` of the strategy `s` on its entity. -/
def BaseMovementStrategy.applyFriction (E : Env) (s : Strategy) (entity : Entity)
    (simulationSpeed : ℚ) : Entity :=
  let frictionBase := orDefault s.config.friction 0.98
  let frictionBase := (getFriction entity).getD frictionBase
  let friction := E.pow frictionBase simulationSpeed
  { entity with vx := entity.vx * friction, vy := entity.vy * friction }

/-- The method `BaseMovementStrategy.updatePosition`. -/
def BaseMovementStrategy.updatePosition (entity : Entity) (simulationSpeed : ℚ) : Entity :=
  { entity with x := entity.x + entity.vx * simulationSpeed,
                y := entity.y + entity.vy * simulationSpeed }

/-- The method `BaseMovementStrategy.handleWallCollisions`; the grid is read through
`getCellType`. -/
def BaseMovementStrategy.handleWallCollisions (E : Env) (s : Strategy) (entity : Entity) :
    Entity :=
  let cellType := E.getCellType entity.x entity.y
  if cellType = TYPE_WALL then
    let entity := { entity with x := max SAFE_BOUNDS.minX (min SAFE_BOUNDS.maxX entity.x) }
    let entity := { entity with y := max SAFE_BOUNDS.minY (min SAFE_BOUNDS.maxY entity.y) }
    let bounceFactor := -(orDefault s.config.wallBounceFactor 0.5)
    let entity := { entity with vx := entity.vx * bounceFactor, vy := entity.vy * bounceFactor }
    onWallBounce E entity
  else entity

/-- The method `AggressiveMovement.updateVelocity` of the strategy `s` owned by the entity
at index `k`. -/
def AggressiveMovement.updateVelocity (E : Env) (w : World) (k : ℕ) (s : Strategy)
    (simulationSpeed : ℚ) : World :=
  if (w.ent k).skipSeek then w
  else
    let shouldSeek : Bool := jsRem ⌊(w.ent k).age⌋ s.seekInterval = 0
    if !shouldSeek then w
    else
      let target := BaseMovementStrategy.findNearestEnemy E w k
      match target.entity with
      | none => w
      | some t =>
        let angle := target.angle
        let accel := orDefault s.config.seekAcceleration 0.1
        let w := w.modify k fun e => { e with intentX := E.cos angle, intentY := E.sin angle }
        let w := w.modify k fun e =>
          { e with vx := e.vx + E.cos angle * accel * simulationSpeed,
                   vy := e.vy + E.sin angle * accel * simulationSpeed }
        if (w.ent k).seekAttractor ≠ 0 then
          let dx := (w.ent t).x - (w.ent k).x
          let dy := (w.ent t).y - (w.ent k).y
          let dist := E.sqrt (dx * dx + dy * dy)
          if dist > 0 then
            let pull := (w.ent k).seekAttractor
            w.modify t fun e =>
              { e with vx := e.vx + (dx / dist) * pull * simulationSpeed,
                       vy := e.vy + (dy / dist) * pull * simulationSpeed }
          else w
        else w

/-- The test of `DefensiveMovement.updateVelocity` on a probe point: inside `SAFE_BOUNDS` and
not on a wall cell. -/
def probeSafe (E : Env) (x y : ℚ) : Bool :=
  (x ≥ SAFE_BOUNDS.minX ∧ x ≤ SAFE_BOUNDS.maxX ∧ y ≥ SAFE_BOUNDS.minY ∧ y ≤ SAFE_BOUNDS.maxY) &&
    decide (E.getCellType x y ≠ TYPE_WALL)

/-- The method `DefensiveMovement.updateVelocity`; `predictPosition(10, grid)` is the first
probe. -/
def DefensiveMovement.updateVelocity (E : Env) (w : World) (k : ℕ) (s : Strategy) : World :=
  let entity := w.ent k
  let target := BaseMovementStrategy.findNearestEnemy E w k
  match target.entity, target.distance with
  | some _, some distance =>
    let fleeAngle := target.angle + E.pi
    let fleeAngle :=
      if !probeSafe E (entity.x + entity.vx * 10) (entity.y + entity.vy * 10) then
        let leftAngle := fleeAngle + E.pi / 4
        let rightAngle := fleeAngle - E.pi / 4
        let leftSafe := probeSafe E (entity.x + E.cos leftAngle * 20)
          (entity.y + E.sin leftAngle * 20)
        let rightSafe := probeSafe E (entity.x + E.cos rightAngle * 20)
          (entity.y + E.sin rightAngle * 20)
        if leftSafe && !rightSafe then leftAngle
        else if rightSafe && !leftSafe then rightAngle
        else if jsRem ⌊entity.age⌋ 2 = 0 then leftAngle else rightAngle
      else fleeAngle
    let fleeThresholdClose := orDefault s.config.fleeThresholdClose 120
    let speedMultiplier :=
      if distance < fleeThresholdClose then orDefault s.config.fleeSpeedClose 0.9
      else orDefault s.config.fleeSpeedFar 0.55
    let speed := entity.baseSpeed * speedMultiplier
    w.modify k fun e =>
      { e with vx := E.cos fleeAngle * speed, vy := E.sin fleeAngle * speed,
               intentX := E.cos fleeAngle, intentY := E.sin fleeAngle }
  | _, _ => w

/-- The method `PassiveMovement.updateVelocity`, on the entity that owns the strategy `s`;
the strategy's own state changes with it. -/
def PassiveMovement.updateVelocity (E : Env) (s : Strategy) (entity : Entity)
    (simulationSpeed : ℚ) : Entity :=
  match s.pattern with
  | .idle => entity
  | .orbit =>
    let orbitSpeed := orDefault s.config.orbitSpeed 0.2
    let orbitRadius := orDefault s.config.orbitRadius 50
    let orbitAngle := s.orbitAngle +
      orbitSpeed * simulationSpeed * (if entity.level ≠ 0 then 1 + entity.level * 0.25 else 1)
    let s := { s with orbitAngle := orbitAngle }
    let targetX := s.orbitCenter.1 + E.cos orbitAngle * orbitRadius
    let targetY := s.orbitCenter.2 + E.sin orbitAngle * orbitRadius
    let dx := targetX - entity.x
    let dy := targetY - entity.y
    let dist := E.sqrt (dx * dx + dy * dy)
    let entity :=
      if dist > 5 then
        let speed := entity.baseSpeed * orDefault s.config.orbitSpeedMultiplier 1.0
        { entity with vx := (dx / dist) * speed, vy := (dy / dist) * speed }
      else entity
    { entity with intentX := E.cos (orbitAngle + E.pi / 2),
                  intentY := E.sin (orbitAngle + E.pi / 2),
                  movementStrategy := some s }
  | .patrol =>
    let s :=
      if s.patrolPoints.length = 0 then
        { s with patrolPoints := [(entity.x, entity.y), (entity.x + 100, entity.y),
                                  (entity.x + 100, entity.y + 100), (entity.x, entity.y + 100)],
                 currentPatrolIndex := 0 }
      else s
    let target := s.patrolPoints.getD s.currentPatrolIndex (0, 0)
    let pdx := target.1 - entity.x
    let pdy := target.2 - entity.y
    let pdist := E.sqrt (pdx * pdx + pdy * pdy)
    if pdist < 10 then
      let s := { s with currentPatrolIndex := (s.currentPatrolIndex + 1) % s.patrolPoints.length }
      { entity with movementStrategy := some s }
    else
      let speed := entity.baseSpeed * orDefault s.config.patrolSpeed 0.6
      { entity with vx := (pdx / pdist) * speed, vy := (pdy / pdist) * speed,
                    intentX := pdx / pdist, intentY := pdy / pdist,
                    movementStrategy := some s }
  | .wander =>
    let wanderFreq := orDefault s.config.wanderFrequency 0.02
    let wanderSpeed := entity.baseSpeed * orDefault s.config.wanderSpeedMultiplier 0.4
    let wanderAngle := E.sin (entity.age * wanderFreq) * E.pi
    { entity with vx := E.cos wanderAngle * wanderSpeed, vy := E.sin wanderAngle * wanderSpeed,
                  intentX := E.cos wanderAngle, intentY := E.sin wanderAngle }

/-- The dispatch of `updateVelocity` on the class of the strategy. -/
def updateVelocity (E : Env) (w : World) (k : ℕ) (s : Strategy) (simulationSpeed : ℚ) : World :=
  match s.name with
  | .aggressive => AggressiveMovement.updateVelocity E w k s simulationSpeed
  | .defensive => DefensiveMovement.updateVelocity E w k s
  | .passive => w.modify k fun e => PassiveMovement.updateVelocity E s e simulationSpeed

/-- The part of `BaseMovementStrategy.update` after `updateVelocity`: friction, corner
escape, position update, clamp and wall collision, all on the strategy's entity. -/
def BaseMovementStrategy.advance (E : Env) (s : Strategy) (entity : Entity)
    (simulationSpeed : ℚ) : Entity :=
  let entity := BaseMovementStrategy.applyFriction E s entity simulationSpeed
  let entity := BaseMovementStrategy.handleCornerEscape E entity simulationSpeed
  let entity := BaseMovementStrategy.updatePosition entity simulationSpeed
  let entity := BaseMovementStrategy.clampToArenaBounds entity
  BaseMovementStrategy.handleWallCollisions E s entity

/-- The method `BaseMovementStrategy.update(simulationSpeed, entities, grid)` of the strategy
`s` owned by the entity at index `k`. -/
def BaseMovementStrategy.update (E : Env) (w : World) (k : ℕ) (s : Strategy)
    (simulationSpeed : ℚ) : World :=
  let w := updateVelocity E w k s simulationSpeed
  w.modify k fun e => BaseMovementStrategy.advance E s e simulationSpeed

/-- The hook `onOutOfBounds`, defined by the speed module only; it reports the ring-out as
handled. -/
def speed.onOutOfBounds (e : Entity) : Entity :=
  let e := { e with x := min SAFE_BOUNDS.maxX (max SAFE_BOUNDS.minX e.x) }
  let e := { e with y := min SAFE_BOUNDS.maxY (max SAFE_BOUNDS.minY e.y) }
  let e := { e with vx := e.vx * -0.65, vy := e.vy * -0.65 }
  if e.speedBounceActive then
    let e := { e with speedBounces := e.speedBounces + 1 }
    if e.speedBounces ≥ 5 then { e with speedBounceActive := false } else e
  else e

/-- The ring-out test of `Entity.move`, with `ringOutLimit = 2`. -/
def outOfBounds (e : Entity) : Bool :=
  e.x < 2 ∨ e.x > STAGE_W - 2 ∨ e.y < 2 ∨ e.y > STAGE_H - 2

/-- The end of `Entity.move`: the ring-out test and its handling. No module defines
`onRingOut`. -/
def Entity.ringOut (e : Entity) : Entity :=
  if outOfBounds e then
    match e.className with
    | .speed => speed.onOutOfBounds e
    | _ => die e
  else e

/-- The body of `Entity.move` between the turret test and the ring-out test: the intent is
reset and the movement is delegated to the strategy, or to the fallbacks without one. -/
def Entity.steer (E : Env) (w : World) (k : ℕ) (simulationSpeed : ℚ) : World :=
  let w := w.modify k fun e => { e with intentX := 0, intentY := 0 }
  match (w.ent k).movementStrategy, (w.ent k).hasGrid with
  | some s, true => BaseMovementStrategy.update E w k s simulationSpeed
  | none, true =>
    let created := AggressiveMovement.new (MOVEMENT_CONFIG.AGGRESSIVE.getD {})
    w.modify k fun e => { e with movementStrategy := some created }
  | _, false =>
    w.modify k fun e =>
      { e with x := e.x + e.vx * simulationSpeed, y := e.y + e.vy * simulationSpeed,
               vx := e.vx * 0.98, vy := e.vy * 0.98 }

/-- The method `Entity.move(entities, simulationSpeed, checkCombatEnd)` of the entity at
index `k`. -/
def Entity.move (E : Env) (w : World) (k : ℕ) (simulationSpeed : ℚ) : World :=
  if (w.ent k).pyramidTurret then w
  else (Entity.steer E w k simulationSpeed).modify k Entity.ringOut

/-- The fields of an entity that a movement strategy's `update` never changes. -/
structure Moved (e e' : Entity) : Prop where
  skipSeek : e'.skipSeek = e.skipSeek
  dead : e'.dead = e.dead
  hp : e'.hp = e.hp
  team : e'.team = e.team
  isDead : e'.isDead = e.isDead
  className : e'.className = e.className
  pyramidTurret : e'.pyramidTurret = e.pyramidTurret
  hasGrid : e'.hasGrid = e.hasGrid

/-- A passive strategy with the default configuration and the idle pattern. -/
def exIdleStrategy : Strategy :=
  { name := .passive, config := MOVEMENT_CONFIG.PASSIVE.getD {}, pattern := .idle }

/-- An idle passive entity with the default configuration, moving to the right. -/
def exIdle : Entity :=
  { className := .crit, x := 150, y := 100, vx := 1, vy := 0, hasGrid := true,
    movementStrategy := some exIdleStrategy }

/-- A speed gladiator (index 0) whose module has set `skipSeek`, and an enemy (index 1). -/
def exGlide : World :=
  { ents := [{ className := .speed, team := .red, x := 100, y := 100, vx := 1, vy := 0,
               hp := 300, maxHp := 300, hasGrid := true, skipSeek := true,
               movementStrategy :=
                 some (AggressiveMovement.new (MOVEMENT_CONFIG.AGGRESSIVE.getD {})) },
             { className := .crit, team := .blue, x := 200, y := 100, hp := 400,
               maxHp := 400 }] }

/-! ## Module initialisation and the ability accumulator (`src/gladiators/Gladiator.js`) -/

/-- The hook `onInit` of the class modules (the prism module defines none). -/
def onInit (e : Entity) : Entity :=
  match e.className with
  | .archer => { e with rangedCD := 0, fleeTimer := 0 }
  | .berserker => { e with berserkerRage := 0, berserkerStacks := 0, berserkerNextThreshold := toDouble 0.95 }
  | .bomber => { e with bombTrailCD := 0, fleeTimer := 0, defensiveBombCD := 0 }
  | .crit => { e with critChance := 0.5 }
  | .cube => { e with slamCooldown := 60, slamWindup := 0, slamFlash := 0, slamInProgress := false }
  | .hex => { e with hexRegenTimer := 0 }
  | .illusion => { e with decoyTimer := 0, decoyActive := false, decoySpawned := false }
  | .lancer => { e with lanceCD := 0, lanceCharging := false }
  | .ninja => { e with dodgeChance := 0.15 }
  | .orb => { e with orbGravity := true, seekAttractor := 0.05 }
  | .poison => { e with fleeTimer := 0, lastPoisonTick := 0 }
  | .prism => e
  | .pyramid => { e with pyramidTurret := false, rangedCD := 0 }
  | .speed => { e with speedBounceActive := false, speedBounces := 0, speedPrevPos := (e.x, e.y) }
  | .spike => { e with reflectDmg := 5 }
  | .spinner => { e with combo := 0, lastAttackTime := 0, spinnerInit := false }
  | .star => { e with starEnergy := 0, starPrevPos := (e.x, e.y) }
  | .summoner =>
    { e with pets := [], hasMinion := false, isMinion := false, summonCD := 0,
             initialMinionCreated := false }
  | .tank => { e with lastShieldTime := 0 }

/-- The method `Gladiator._initializeModule(context)` on one gladiator. -/
def Gladiator.initializeModule (e : Entity) : Entity :=
  if e.initialized then e else onInit { e with initialized := true }

def ABILITY_UPDATE_INTERVAL : ℚ := 6

/-- The accumulator block of `Gladiator.update`: the new state of the gladiator and, when the
module's `update` hook is called, the `simulationSpeed` it receives. Every class module
defines `update`. -/
def Gladiator.abilityTick (e : Entity) (simulationSpeed : ℚ) : Entity × Option ℚ :=
  let e := { e with abilityAccumulator := e.abilityAccumulator + simulationSpeed }
  if e.abilityAccumulator ≥ ABILITY_UPDATE_INTERVAL then
    let e := { e with abilityAccumulator := e.abilityAccumulator - ABILITY_UPDATE_INTERVAL }
    if !e.noModuleUpdate then (e, some ABILITY_UPDATE_INTERVAL) else (e, none)
  else (e, none)

/-- The accumulator block over `n` consecutive calls of `Gladiator.update` with the same
`simulationSpeed`: the final state and, per call, the argument of the hook call if one was
made. `rest` stands for what the remainder of each `update` call does to the gladiator. -/
def Gladiator.abilityTicks (rest : Entity → Entity) (simulationSpeed : ℚ) :
    ℕ → Entity → Entity × List (Option ℚ)
  | 0, e => (e, [])
  | n + 1, e =>
    let r := Gladiator.abilityTicks rest simulationSpeed n e
    let t := Gladiator.abilityTick r.1 simulationSpeed
    (rest t.1, r.2 ++ [t.2])

/-! ## Combat (`Entity.handleCombat`, `Gladiator.handleCombat` and the module hooks) -/

/-- The method `Gladiator.applyDamageModifiers`: the dispatch to the `modifyDamage` hooks. The
result is the new state and the damage. -/
def applyDamageModifiers (E : Env) (w : World) (k : ℕ) (damage : ℚ) : World × ℚ :=
  let self := w.ent k
  match self.className with
  | .crit =>
    let chance := self.critChance + self.level * 0.02
    let r := E.random w.rng
    let w := w.tick
    if r < chance then (w.modify k (gainXp 20), damage * 3) else (w, damage)
  | .speed =>
    let speed := E.hypot self.vx self.vy
    let scaled := damage * (1 + speed * 0.5)
    if speed > self.baseSpeed * 1.5 then (w.modify k (gainXp 5), scaled) else (w, scaled)
  | .spinner =>
    let combo := (if E.elapsedTime - self.lastAttackTime > 0.5 then 0 else self.combo) + 1
    let scaled := damage * (1 + combo * (0.2 + self.level * 0.1))
    (w.modify k fun e => gainXp 10 { e with combo := combo, lastAttackTime := E.elapsedTime },
      scaled)
  | .star => if self.starEnergy > 50 then (w, damage * 1.5) else (w, damage)
  | .prism => (w, damage * 1.2)
  | .berserker =>
    let scaled := damage * (1 + self.berserkerRage)
    let scaled := if self.berserkerStacks > 0 then scaled * (1 + 0.05 * self.berserkerStacks)
      else scaled
    if self.hp < self.maxHp * 0.5 then (w.modify k (gainXp 15), scaled) else (w, scaled)
  | _ => (w, damage)

/-- The method `Entity.handleCombat(enemy, simulationSpeed, floatingTexts)` of the entity at
index `k`. -/
def Entity.handleCombat (E : Env) (w : World) (k enemy : ℕ) : World :=
  let damage := 5 + (w.ent k).level * 2
  let m := applyDamageModifiers E w k damage
  let r := takeDamage E m.1 enemy m.2 (some k)
  if r.2 > 0 then
    let w := r.1.modify k fun e => { e with damageDealt := e.damageDealt + r.2, cooldown := 30 }
    if isAutoAttacker (w.ent k).className then w.modify k (gainXp (5 + (w.ent k).level)) else w
  else r.1

/-- The minion that the summoner at index `k` constructs at `(x, y)`, with the fields its
creator sets on it; `none` if the constructor throws. -/
def summoner.newMinion (E : Env) (w : World) (k : ℕ) (x y : ℚ) : Option (Entity × ℕ) :=
  let self := w.ent k
  match Gladiator.new E w.rng x y "summoner" self.elementType self.team with
  | none => none
  | some (minion, _, rng) =>
    some ({ minion with
      isMinion := true
      radius := max 6 ⌊self.radius * 0.6⌋
      maxHp := max 1 ⌊self.maxHp * 0.05⌋
      hp := max 1 ⌊self.maxHp * 0.05⌋
      baseSpeed := self.baseSpeed * 0.9
      level := max 1 (self.level - 1)
      hasMinion := true
      noModuleUpdate := true }, rng)

/-- The hook `update` of `gladiators/summoner/index.js` on the gladiator at index `k`. The
arrays `pets` hold entity indices; `window.gameState.entities` is the entity array. -/
def summoner.update (E : Env) (w : World) (k : ℕ) (simulationSpeed : ℚ) : World :=
  if (w.ent k).isMinion then w
  else
    let w := w.modify k fun self =>
      if self.summonCD > 0 then
        let cd := self.summonCD - simulationSpeed
        { self with summonCD := if cd < 0 then 0 else cd }
      else self
    let pets := (w.ent k).pets.filter fun p => !(w.ent p).dead
    let w := w.modify k fun self => { self with pets := pets }
    if !(w.ent k).initialMinionCreated then
      let offsetX : ℚ := if (w.ent k).team = .red then 8 else -8
      match summoner.newMinion E w k ((w.ent k).x + offsetX) (w.ent k).y with
      | none => w
      | some (minion, rng) =>
        let index := w.ents.length
        let w := { w with rng := rng }.pushEnt minion
        w.modify k fun self =>
          { self with pets := self.pets ++ [index], hasMinion := true,
                      initialMinionCreated := true }
    else w

/-- The hook `onCombat` of `gladiators/summoner/index.js` on the gladiator at index `k`. -/
def summoner.onCombat (E : Env) (w : World) (k : ℕ) : World :=
  if (w.ent k).isMinion then w
  else if (w.ent k).summonCD > 0 then w
  else
    let pets := (w.ent k).pets.filter fun p => !(w.ent p).dead
    let w := w.modify k fun self => { self with pets := pets }
    let maxPets : ℤ := 3 + ⌊(w.ent k).level / 3⌋
    let hasCapacity : Bool := ((w.ent k).pets.length : ℤ) < maxPets
    let summoned (w : World) : World :=
      w.modify k fun self => { gainXp (15 + self.level) self with summonCD := 90 }
    if hasCapacity then
      let angle := E.random w.rng * E.pi * 2
      let offset := 6 + E.random (w.rng + 1) * 4
      let w := w.tick.tick
      match summoner.newMinion E w k ((w.ent k).x + E.cos angle * offset)
          ((w.ent k).y + E.sin angle * offset) with
      | none => w
      | some (minion, rng) =>
        let index := w.ents.length
        let w := { w with rng := rng }.pushEnt { minion with summonCD := 0 }
        summoned (w.modify k fun self => { self with pets := self.pets ++ [index] })
    else
      match (w.ent k).pets with
      | [] => w
      | oldest :: others =>
        let w := w.modify k fun self => { self with pets := others }
        let angle := E.random w.rng * E.pi * 2
        let offset := 6 + E.random (w.rng + 1) * 4
        let w := w.tick.tick
        let x := (w.ent k).x + E.cos angle * offset
        let y := (w.ent k).y + E.sin angle * offset
        let w := w.modify oldest fun minion =>
          { minion with x := x, y := y, hp := minion.maxHp, dead := false }
        summoned (w.modify k fun self => { self with pets := self.pets ++ [oldest] })

/-- The dispatch to the `onCombat` hooks that do something: lancer, poison, archer and
summoner. -/
def onCombat (E : Env) (w : World) (k enemy : ℕ) : World :=
  match (w.ent k).className with
  | .lancer =>
    if !(w.ent k).lanceCharging then w
    else
      let angle := E.atan2 ((w.ent enemy).y - (w.ent k).y) ((w.ent enemy).x - (w.ent k).x)
      let w := w.modify enemy fun e =>
        { e with vx := e.vx + E.cos angle * 3, vy := e.vy + E.sin angle * 3 }
      w.modify k fun self =>
        gainXp 25
          { self with vx := E.cos angle * self.baseSpeed * 2.4,
                      vy := E.sin angle * self.baseSpeed * 2.4,
                      lanceCD := 180 - self.level * 10, lanceCharging := false }
  | .poison =>
    let level := (w.ent k).level
    let w := w.modify enemy fun e =>
      { e with poisonStacks := e.poisonStacks + (1 + level), poisonSource := some k }
    w.modify k fun self => gainXp 5 { self with fleeTimer := 18 }
  | .archer => w.modify k fun self => { self with fleeTimer := 18 }
  | .summoner => summoner.onCombat E w k
  | _ => w

/-- The method `Gladiator.handleCombat(enemy, simulationSpeed, floatingTexts)`. -/
def Gladiator.handleCombat (E : Env) (w : World) (k enemy : ℕ) : World :=
  let w := w.modify k fun self => { self with isAttacking := true }
  let w := Entity.handleCombat E w k enemy
  onCombat E w k enemy

/-- The bound on the tracked minions of a summoner, with what is known before its first
`update`: at most one minion is tracked, and then the summon cooldown is running. -/
def summoner.capped (e : Entity) : Prop :=
  (e.pets.length : ℤ) ≤ 3 + ⌊e.level / 3⌋ ∧
  (e.initialMinionCreated = false → e.pets = [] ∨ (e.pets.length ≤ 1 ∧ 0 < e.summonCD))

/-- A sequence of calls of the summoner's hooks. -/
inductive SummonerCall where
  | update (simulationSpeed : ℚ)
  | onCombat
  deriving DecidableEq

/-- The effect of a sequence of calls of the summoner's `update` and `onCombat` hooks on the
gladiator at index `k`. -/
def summoner.run (E : Env) (k : ℕ) : List SummonerCall → World → World
  | [], w => w
  | .update simulationSpeed :: calls, w =>
    summoner.run E k calls (summoner.update E w k simulationSpeed)
  | .onCombat :: calls, w => summoner.run E k calls (summoner.onCombat E w k)

/-- A charging lancer at level 1 (index 0) in contact with a crit (index 1). -/
def exLancer : World :=
  { ents := [{ className := .lancer, team := .red, x := 100, y := 100, level := 1,
               hp := 400, maxHp := 400, baseSpeed := 1.4, lanceCharging := true },
             { className := .crit, team := .blue, x := 110, y := 100, level := 1,
               hp := 400, maxHp := 400 }] }

/-- A summoner just initialised (index 0) and an enemy (index 1). -/
def exSummoner : World :=
  { ents := [onInit { className := .summoner, team := .red, x := 50, y := 100, level := 1,
                      hp := 450, maxHp := 450, baseSpeed := 0.9, initialized := true },
             { className := .crit, team := .blue, x := 60, y := 100, level := 1,
               hp := 400, maxHp := 400 }] }

/-- A gladiator that has never been updated. -/
def exFresh : Entity := { className := .tank, hp := 1100, maxHp := 1100 }

/-! ## The legacy prototype (`script.js`) -/

namespace Legacy

def STAGE_W : ℚ := 300
def STAGE_H : ℚ := 200

def TYPE.EMPTY : ℕ := 0
def TYPE.WALL : ℕ := 1
def TYPE.FIRE : ℕ := 4

/-- The keys of the table `CLASSES`. -/
inductive ClassName where
  | crit | speed | spinner | tank | spike | ninja | dummy
  deriving DecidableEq, Inhabited

structure Stats where
  hp : ℚ
  speed : ℚ

/-- The table `CLASSES` (names and colours left out). -/
def CLASSES : ClassName → Stats
  | .crit => { hp := 80, speed := 1.2 }
  | .speed => { hp := 60, speed := 2.5 }
  | .spinner => { hp := 100, speed := 1.5 }
  | .tank => { hp := 200, speed := 0.5 }
  | .spike => { hp := 150, speed := 0.8 }
  | .ninja => { hp := 70, speed := 1.8 }
  | .dummy => { hp := 99999, speed := 0 }

/-- An object of class `Entity` or, with `isDummy`, of its subclass `TrainingDummy`, which adds
`damageTaken` and `hitCount`. The counters `level`, `age`, `combo`, `cooldown`, `invulnTimer`
and `hitCount` only ever hold natural numbers. -/
structure Entity where
  x : ℚ := 0
  y : ℚ := 0
  className : ClassName := .dummy
  elementType : ℕ := 0
  maxHp : ℚ := 0
  hp : ℚ := 0
  baseSpeed : ℚ := 0
  radius : ℚ := 4
  level : ℕ := 1
  xp : ℚ := 0
  vx : ℚ := 0
  vy : ℚ := 0
  critChance : ℚ := 0.1
  combo : ℕ := 0
  invulnerable : Bool := false
  invulnTimer : ℕ := 0
  reflectDmg : ℚ := 5
  dodgeChance : ℚ := 0.1
  cooldown : ℕ := 0
  age : ℕ := 0
  dead : Bool := false
  isDummy : Bool := false
  damageTaken : ℚ := 0
  hitCount : ℕ := 0
  deriving Inhabited

/-- The module state of `script.js`: the typed array `grid` (a cell index outside
`0 .. STAGE_W * STAGE_H - 1` is not an element), the objects created so far (`heap`, an
object's identity is its index), the array `entities` of references to them, and the number
of `Math.random()` calls made. -/
structure World where
  grid : ℤ → ℕ := fun _ => 0
  heap : List Entity := []
  entities : List ℕ := []
  rng : ℕ := 0

def World.obj (w : World) (id : ℕ) : Entity := w.heap.getD id default

def World.modify (w : World) (id : ℕ) (f : Entity → Entity) : World :=
  { w with heap := w.heap.set id (f (w.obj id)) }

/-- A read `grid[i]`: `none` is `undefined`. -/
def gridGet (grid : ℤ → ℕ) (i : ℚ) : Option ℕ :=
  if i.den = 1 ∧ 0 ≤ i ∧ i < STAGE_W * STAGE_H then some (grid i.num) else none

/-- A write `grid[i] = v` into the `Uint8Array`. -/
def gridSet (grid : ℤ → ℕ) (i : ℚ) (v : ℕ) : ℤ → ℕ :=
  if i.den = 1 ∧ 0 ≤ i ∧ i < STAGE_W * STAGE_H then Function.update grid i.num (v % 256)
  else grid

def setCell (grid : ℤ → ℕ) (x y : ℚ) (type : ℕ) : ℤ → ℕ :=
  if x ≥ 0 ∧ x < STAGE_W ∧ y ≥ 0 ∧ y < STAGE_H then gridSet grid (y * STAGE_W + x) type
  else grid

def getCell (grid : ℤ → ℕ) (x y : ℚ) : Option ℕ :=
  if x ≥ 0 ∧ x < STAGE_W ∧ y ≥ 0 ∧ y < STAGE_H then gridGet grid (y * STAGE_W + x)
  else some TYPE.WALL

/-- The values of a loop variable in `for (let v = -r; v <= r; v++)`. -/
def offsets (r : ℚ) : List ℚ := (List.range (⌊2 * r⌋ + 1).toNat).map fun i => -r + i

def drawCircle (grid : ℤ → ℕ) (cx cy r : ℚ) (type : ℕ) : ℤ → ℕ :=
  (offsets r).foldl
    (fun g y => (offsets r).foldl
      (fun g x => if x * x + y * y ≤ r * r then setCell g (cx + x) (cy + y) type else g) g)
    grid

/-- The grid that `initArena` leaves: empty, with walls on a margin of 10 cells. -/
def initArena.grid : ℤ → ℕ := fun i =>
  let x := i % 300
  let y := i / 300
  if x < 10 ∨ x > 300 - 10 ∨ y < 10 ∨ y > 200 - 10 then TYPE.WALL else TYPE.EMPTY

def initArena (w : World) : World := { w with grid := initArena.grid, entities := [] }

/-- The constructor `new Entity(x, y, className, elementType)`: the object and the number of
`Math.random()` calls made after it. -/
def Entity.new (E : Env) (rng : ℕ) (x y : ℚ) (className : ClassName) (elementType : ℕ) :
    Entity × ℕ :=
  let stats := CLASSES className
  ({ x := x, y := y, className := className, elementType := elementType,
     maxHp := stats.hp, hp := stats.hp, baseSpeed := stats.speed, radius := 4,
     level := 1, xp := 0,
     vx := (E.random rng - 0.5) * stats.speed,
     vy := (E.random (rng + 1) - 0.5) * stats.speed,
     critChance := 0.1, combo := 0, invulnerable := false, invulnTimer := 0,
     reflectDmg := 5, dodgeChance := 0.1, cooldown := 0, age := 0 }, rng + 2)

/-- The constructor `new TrainingDummy(x, y)`. -/
def TrainingDummy.new (E : Env) (rng : ℕ) (x y : ℚ) : Entity × ℕ :=
  let r := Entity.new E rng x y .dummy TYPE.WALL
  ({ r.1 with isDummy := true, damageTaken := 0, hitCount := 0, vx := 0, vy := 0 }, r.2)

/-- The method `applyClassLogic` on one object, with the count of random draws. -/
def Entity.applyClassLogic (E : Env) (self : Entity) (rng : ℕ) : Entity × ℕ :=
  let self :=
    if self.className = .tank then
      let shieldInterval : ℤ := max 100 (300 - self.level * 20)
      let self :=
        if (self.age : ℤ) % shieldInterval = 0 then
          { self with invulnerable := true, invulnTimer := 30 + self.level * 10 }
        else self
      if self.invulnTimer > 0 then
        let self := { self with invulnTimer := self.invulnTimer - 1 }
        if self.invulnTimer ≤ 0 then { self with invulnerable := false } else self
      else self
    else self
  let (self, rng) :=
    if self.className = .speed then
      (if E.random rng < 0.05 then { self with vx := self.vx * 1.1 } else self, rng + 1)
    else (self, rng)
  if self.className = .spinner then
    let turnSpeed : ℚ := 0.2 + self.level * 0.05
    let angle := E.atan2 self.vy self.vx
    let newAngle := angle + turnSpeed
    let speed := E.sqrt (self.vx * self.vx + self.vy * self.vy)
    ({ self with vx := E.cos newAngle * speed, vy := E.sin newAngle * speed }, rng)
  else (self, rng)

/-- The method `seekEnemy` of the object `id`. -/
def Entity.seekEnemy (E : Env) (w : World) (id : ℕ) : World :=
  let self := w.obj id
  let found : Option ℕ × ℚ := w.entities.foldl
    (fun acc e =>
      if e = id ∨ (w.obj e).className = self.className then acc
      else
        let d := E.hypot ((w.obj e).x - self.x) ((w.obj e).y - self.y)
        if d < acc.2 then (some e, d) else acc)
    (none, 999)
  match found.1 with
  | none => w
  | some nearest =>
    let angle := E.atan2 ((w.obj nearest).y - self.y) ((w.obj nearest).x - self.x)
    let accel : ℚ := 0.1
    w.modify id fun self =>
      { self with vx := self.vx + E.cos angle * accel, vy := self.vy + E.sin angle * accel }

/-- The method `move` of the object `id`. -/
def Entity.move (E : Env) (w : World) (id : ℕ) : World :=
  let w := w.modify id fun self => { self with x := self.x + self.vx, y := self.y + self.vy }
  let w :=
    if (w.obj id).className ≠ .spinner then
      let w := w.modify id fun self => { self with vx := self.vx * 0.98, vy := self.vy * 0.98 }
      if (w.obj id).age % 10 = 0 then Entity.seekEnemy E w id else w
    else w
  if getCell w.grid ⌊(w.obj id).x⌋ ⌊(w.obj id).y⌋ = some TYPE.WALL then
    let w := w.modify id fun self =>
      let vx := self.vx * -1
      let vy := self.vy * -1
      { self with vx := vx, vy := vy, x := self.x + vx * 4, y := self.y + vy * 4 }
    let w :=
      if (w.obj id).className = .spinner then w.modify id fun self => { self with combo := 0 }
      else w
    if (w.obj id).className = .ninja then
      let r := E.random w.rng
      let w := { w with rng := w.rng + 1 }
      if r < 0.3 + (w.obj id).level * 0.05 then
        let x := STAGE_W / 2 + (E.random w.rng - 0.5) * 50
        let y := STAGE_H / 2 + (E.random (w.rng + 1) - 0.5) * 50
        { w with rng := w.rng + 2 }.modify id fun self => { self with x := x, y := y }
      else w
    else w
  else w

/-- The override `TrainingDummy.takeDamage(amount)`. -/
def TrainingDummy.takeDamage (w : World) (target : ℕ) (amount : ℚ) : World :=
  w.modify target fun self =>
    { self with damageTaken := self.damageTaken + amount, hitCount := self.hitCount + 1 }

/-- The method `Entity.takeDamage(amount, attacker)` on an object that is not a dummy;
`reflect` is the `takeDamage` of the attacker, called by a spike. -/
def Entity.takeDamageCore (E : Env) (reflect : World → ℕ → ℚ → World) (w : World) (target : ℕ)
    (amount : ℚ) (attacker : Option ℕ) : World :=
  let dodge : Bool × World :=
    if (w.obj target).className = .ninja then
      (decide (E.random w.rng < (w.obj target).dodgeChance + (w.obj target).level * 0.02),
        { w with rng := w.rng + 1 })
    else (false, w)
  let w : World := dodge.2
  if dodge.1 then w
  else if (w.obj target).invulnerable then w
  else
    let w : World :=
      match attacker with
      | some a =>
        if (w.obj target).className = .spike then
          reflect w a ((w.obj target).reflectDmg + (w.obj target).level * 2)
        else w
      | none => w
    let w := w.modify target fun self => { self with hp := self.hp - amount, xp := self.xp + 5 }
    let r := E.random w.rng
    let w := { w with rng := w.rng + 1 }
    if r > 0.5 then
      { w with grid := setCell w.grid ⌊(w.obj target).x⌋ ⌊(w.obj target).y⌋
                 (w.obj target).elementType }
    else w

/-- The call `target.takeDamage(amount, null)`, dispatched on the class of the object. -/
def takeDamageNull (E : Env) (w : World) (target : ℕ) (amount : ℚ) : World :=
  if (w.obj target).isDummy then TrainingDummy.takeDamage w target amount
  else Entity.takeDamageCore E (fun w _ _ => w) w target amount none

/-- The call `target.takeDamage(amount, attacker)`, dispatched on the class of the object. -/
def takeDamage (E : Env) (w : World) (target : ℕ) (amount : ℚ) (attacker : Option ℕ) : World :=
  if (w.obj target).isDummy then TrainingDummy.takeDamage w target amount
  else Entity.takeDamageCore E (takeDamageNull E) w target amount attacker

/-- The damage that `handleCombat` computes, with the new combo count and the number of random
draws. -/
def Entity.damage (E : Env) (self : Entity) (rng : ℕ) : ℚ × ℕ × ℕ :=
  let damage : ℚ := 5 + self.level * 2
  let (damage, rng) :=
    if self.className = .crit then
      (if E.random rng < self.critChance + self.level * 0.05 then damage * 3 else damage, rng + 1)
    else (damage, rng)
  if self.className = .spinner then
    (damage * (1 + ((self.combo + 1 : ℕ) : ℚ) * 0.2), self.combo + 1, rng)
  else (damage, self.combo, rng)

/-- The method `handleCombat(enemy)` of the object `id`. -/
def Entity.handleCombat (E : Env) (w : World) (id enemy : ℕ) : World :=
  if (w.obj id).cooldown > 0 then
    w.modify id fun self => { self with cooldown := self.cooldown - 1 }
  else
    let d := Entity.damage E (w.obj id) w.rng
    let damage := d.1
    let w := { w with rng := d.2.2 }.modify id fun self => { self with combo := d.2.1 }
    let w := takeDamage E w enemy damage (some id)
    let w := w.modify id fun self => { self with cooldown := 10 }
    if (w.obj id).className = .ninja then
      w.modify id fun self => { self with hp := min self.maxHp (self.hp + damage * 0.5) }
    else w

/-- One turn of the loop of `checkCollisions` of the object `id`. -/
def Entity.collide (E : Env) (id : ℕ) (w : World) (other : ℕ) : World :=
  if other = id then w
  else
    let dist := E.hypot ((w.obj id).x - (w.obj other).x) ((w.obj id).y - (w.obj other).y)
    if dist < (w.obj id).radius + (w.obj other).radius then
      let w := Entity.handleCombat E w id other
      let angle := E.atan2 ((w.obj id).y - (w.obj other).y) ((w.obj id).x - (w.obj other).x)
      w.modify id fun self =>
        { self with vx := self.vx + E.cos angle * 0.5, vy := self.vy + E.sin angle * 0.5 }
    else w

/-- The method `checkCollisions` of the object `id`. -/
def Entity.checkCollisions (E : Env) (w : World) (id : ℕ) : World :=
  w.entities.foldl (Entity.collide E id) w

/-- The method `levelUp` of the object `id`. -/
def Entity.levelUp (w : World) (id : ℕ) : World :=
  let w := w.modify id fun self =>
    let maxHp := self.maxHp * 1.2
    { self with level := self.level + 1, xp := 0, maxHp := maxHp, hp := maxHp,
                radius := if self.className = .spinner then max 2 (self.radius * 0.9)
                          else min 10 (self.radius + 1) }
  { w with grid := drawCircle w.grid ⌊(w.obj id).x⌋ ⌊(w.obj id).y⌋ 15 TYPE.EMPTY }

/-- The method `die` of the object `id`. -/
def Entity.die (w : World) (id : ℕ) : World :=
  let w := { w with grid := drawCircle w.grid ⌊(w.obj id).x⌋ ⌊(w.obj id).y⌋
                      ((w.obj id).radius * 2) (w.obj id).elementType }
  w.modify id fun self => { self with dead := true }

/-- The method `update` of the object `id`: `Entity.update`, or the override of
`TrainingDummy`. -/
def Entity.update (E : Env) (w : World) (id : ℕ) : World :=
  if (w.obj id).isDummy then w.modify id fun self => { self with age := self.age + 1 }
  else if (w.obj id).hp ≤ 0 then Entity.die w id
  else
    let w := w.modify id fun self => { self with age := self.age + 1 }
    let r := Entity.applyClassLogic E (w.obj id) w.rng
    let w := { w with rng := r.2 }.modify id fun _ => r.1
    let w := Entity.move E w id
    let w := Entity.checkCollisions E w id
    let w := w.modify id fun self => { self with xp := self.xp + 0.2 }
    if (w.obj id).xp > (w.obj id).level * 80 then Entity.levelUp w id else w

/-- The first loop of `updateGame`, from index `i - 1` down to 0. -/
def updateEntities (E : Env) : ℕ → World → World
  | 0, w => w
  | i + 1, w =>
    let e := w.entities.getD i 0
    if (w.obj e).dead then updateEntities E i { w with entities := w.entities.eraseIdx i }
    else updateEntities E i (Entity.update E w e)

/-- One turn of the sand loop of `updateGame`. -/
def sandStep (E : Env) (w : World) : World :=
  let rx : ℚ := ⌊E.random w.rng * STAGE_W⌋
  let ry : ℚ := ⌊E.random (w.rng + 1) * STAGE_H⌋
  let w := { w with rng := w.rng + 2 }
  match gridGet w.grid (ry * STAGE_W + rx) with
  | none => w
  | some cell =>
    if cell > TYPE.WALL then
      if gridGet w.grid ((ry + 1) * STAGE_W + rx) = some TYPE.EMPTY then
        { w with grid := gridSet (gridSet w.grid (ry * STAGE_W + rx) TYPE.EMPTY)
                   ((ry + 1) * STAGE_W + rx) cell }
      else w
    else w

def updateGame (E : Env) (w : World) : World :=
  let w := updateEntities E w.entities.length w
  (sandStep E)^[1000] w

/-- The object that `simulateDpsAgainstDummy` returns. -/
structure DpsResult where
  dps : ℚ
  totalDamage : ℚ
  hits : ℕ
  framesSimulated : ℤ
  finalLevel : ℕ

/-- The world in which `simulateDpsAgainstDummy` starts its frame loop: the attacker is object
`w.heap.length` and the dummy the next one. -/
def simulateDpsAgainstDummy.start (E : Env) (w : World) (className : ClassName) : World :=
  let w := initArena w
  let centerX := STAGE_W / 2
  let centerY := STAGE_H / 2
  let a := Entity.new E w.rng (centerX - 5) centerY className TYPE.FIRE
  let d := TrainingDummy.new E a.2 (centerX + 2) centerY
  let attacker := { a.1 with vx := 0, vy := 0 }
  let id := w.heap.length
  { w with rng := d.2, heap := w.heap ++ [attacker, d.1], entities := [id, id + 1] }

/-- The function `simulateDpsAgainstDummy(className, durationSeconds)` called in the module
state `w`, with the state it leaves. -/
def simulateDpsAgainstDummy (E : Env) (w : World) (className : ClassName)
    (durationSeconds : ℚ) : DpsResult × World :=
  let id := w.heap.length
  let frames : ℤ := ⌊durationSeconds * 60⌋
  let w := (updateGame E)^[frames.toNat] (simulateDpsAgainstDummy.start E w className)
  ({ dps := (w.obj (id + 1)).damageTaken / durationSeconds,
     totalDamage := (w.obj (id + 1)).damageTaken,
     hits := (w.obj (id + 1)).hitCount,
     framesSimulated := frames,
     finalLevel := (w.obj id).level }, w)

/-- Between two states no object was created or changed class, `entities` is the same, and
the counters of the dummy `dm` did not go down. -/
structure Sim (dm : ℕ) (w w' : World) : Prop where
  len : w'.heap.length = w.heap.length
  ents : w'.entities = w.entities
  cls : ∀ id, (w'.obj id).isDummy = (w.obj id).isDummy
  taken : (w.obj dm).damageTaken ≤ (w'.obj dm).damageTaken
  hits : (w.obj dm).hitCount ≤ (w'.obj dm).hitCount

/-- Between two frames no object was created or changed class, no reference was added to
`entities`, and the counters of the dummy `dm` did not go down. -/
structure Frame (dm : ℕ) (w w' : World) : Prop where
  len : w'.heap.length = w.heap.length
  ents : ∀ e ∈ w'.entities, e ∈ w.entities
  cls : ∀ id, (w'.obj id).isDummy = (w.obj id).isDummy
  taken : (w.obj dm).damageTaken ≤ (w'.obj dm).damageTaken
  hits : (w.obj dm).hitCount ≤ (w'.obj dm).hitCount

/-- The arena of `simulateDpsAgainstDummy`: `entities` refers to the attacker `a` and the
training dummy `dm` at most. -/
structure Arena (a dm : ℕ) (w : World) : Prop where
  ne : a ≠ dm
  ha : a < w.heap.length
  hd : dm < w.heap.length
  da : (w.obj a).isDummy = false
  dd : (w.obj dm).isDummy = true
  ents : ∀ e ∈ w.entities, e = a ∨ e = dm

end Legacy

/-! ## The tick of one gladiator (`Entity.checkCollisions`, `Entity.update`,
`Gladiator.update` and the hex module's `update`) -/

/-- The dispatch to the `onCollisionRepel` hooks, which the lancer, cube and speed modules
define: the new state and the returned force, `none` for `null` or for a module without the
hook. -/
def onCollisionRepel (E : Env) (w : World) (k other : ℕ) : World × Option ℚ :=
  match (w.ent k).className with
  | .lancer => if (w.ent k).lanceCharging then (w, some 0) else (w, none)
  | .cube =>
    let force := 1.5 + (w.ent k).level * 0.2
    (w.modify k (gainXp 20), some force)
  | .speed =>
    let self := w.ent k
    let away := E.atan2 (self.y - (w.ent other).y) (self.x - (w.ent other).x)
    let speed := max (self.baseSpeed * 1.8) (E.hypot self.vx self.vy * 1.35)
    (w.modify k fun self =>
      gainXp 10 { self with vx := E.cos away * speed, vy := E.sin away * speed,
                            speedBounceActive := true, speedBounces := 0 }, some 0.8)
  | _ => (w, none)

/-- One pass of the loop `for (let other of entities)` of `Entity.checkCollisions`, run by
the gladiator at index `k` on the element at index `other`. The method `handleCombat` it
calls is the override of `Gladiator`. -/
def Entity.checkCollisions.pass (E : Env) (w : World) (k other : ℕ) : World :=
  if other = k ∨ (w.ent other).team = (w.ent k).team then w
  else
    let dist := E.hypot ((w.ent k).x - (w.ent other).x) ((w.ent k).y - (w.ent other).y)
    if dist < (w.ent k).radius + (w.ent other).radius then
      let w := if (w.ent k).cooldown ≤ 0 then Gladiator.handleCombat E w k other else w
      let angle := E.atan2 ((w.ent k).y - (w.ent other).y) ((w.ent k).x - (w.ent other).x)
      let repel := onCollisionRepel E w k other
      let force : ℚ := repel.2.getD 0.5
      repel.1.modify k fun self =>
        { self with vx := self.vx + E.cos angle * force, vy := self.vy + E.sin angle * force }
    else w

/-- The loop of `Entity.checkCollisions` from the array index `i` on. The array iterator
compares the index with the current length before every pass, so an entity pushed during
the loop is visited too. The result is `none` when `fuel` passes did not reach the end of
the array. -/
def Entity.checkCollisions.loop (E : Env) (k : ℕ) : ℕ → ℕ → World → Option World
  | 0, i, w => if i < w.ents.length then none else some w
  | fuel + 1, i, w =>
    if i < w.ents.length then
      Entity.checkCollisions.loop E k fuel (i + 1) (Entity.checkCollisions.pass E w k i)
    else some w

/-- The method `Entity.checkCollisions(entities, simulationSpeed, floatingTexts)` of the
gladiator at index `k`, with passes for twice the length of the array, which is more than
the loop ever makes. -/
def Entity.checkCollisions (E : Env) (w : World) (k : ℕ) : Option World :=
  Entity.checkCollisions.loop E k (2 * w.ents.length) 0 w

/-- The method `Entity.update(entities, simulationSpeed, floatingTexts, checkCombatEnd)` of
the gladiator at index `k`. -/
def Entity.update (E : Env) (w : World) (k : ℕ) (simulationSpeed : ℚ) : Option World :=
  if (w.ent k).hp ≤ 0 then some (w.modify k die)
  else
    let w := w.modify k fun e => { e with age := e.age + simulationSpeed }
    let w := w.modify k fun e =>
      if e.cooldown > 0 then
        let e := { e with cooldown := e.cooldown - simulationSpeed }
        if e.cooldown < 0 then { e with cooldown := 0 } else e
      else e
    let w := Entity.move E w k simulationSpeed
    match Entity.checkCollisions E w k with
    | none => none
    | some w =>
      let w := if (w.ent k).xp ≥ (w.ent k).xpToNextLevel then w.modify k levelUp else w
      some (w.modify k fun e =>
        if e.invulnTimer > 0 then
          let e := { e with invulnTimer := e.invulnTimer - simulationSpeed,
                            invulnerable := true }
          if e.invulnTimer ≤ 0 then { e with invulnerable := false } else e
        else e)

/-- The method `Gladiator.update(entities, simulationSpeed, floatingTexts, checkCombatEnd)`
of the gladiator at index `k`; `moduleUpdate` is the function `update` of the gladiator's
module, which returns `none` when it throws. -/
def Gladiator.update (moduleUpdate : Env → World → ℕ → ℚ → Option World) (E : Env) (w : World)
    (k : ℕ) (simulationSpeed : ℚ) : Option World :=
  let w := w.modify k Gladiator.initializeModule
  let t := Gladiator.abilityTick (w.ent k) simulationSpeed
  let w := w.modify k fun _ => t.1
  let ran : Option World :=
    match t.2 with
    | some accumulated => moduleUpdate E w k accumulated
    | none => some w
  match ran with
  | none => none
  | some w => Entity.update E w k simulationSpeed

/-- The getter `Entity.hpPercent`. -/
def Entity.hpPercent (e : Entity) : ℚ := max 0 (min 1 (e.hp / e.maxHp))

/-- The function `switchMovementStrategy(self, strategy)` of `core/GladiatorUtils.js`. It
compares the property `currentStrategy`, which no code assigns, with the string `strategy`,
so every call reaches `setMovementStrategy`. -/
def switchMovementStrategy (E : Env) (w : World) (k : ℕ) (strategy : StrategyName) : World :=
  setMovementStrategy E w k strategy {}

def hex.REGEN_INTERVAL : ℚ := 60

def hex.FLEE_THRESHOLD_LOW : ℚ := 0.4

def hex.FLEE_THRESHOLD_HIGH : ℚ := 0.6

/-- The regeneration block of the hex module's `update`. -/
def hex.regen (e : Entity) (simulationSpeed : ℚ) : Entity :=
  let e := { e with hexRegenTimer := e.hexRegenTimer + simulationSpeed }
  if e.hexRegenTimer ≥ hex.REGEN_INTERVAL ∧ e.hp < e.maxHp then
    gainXp 10 { e with hexRegenTimer := 0, hp := e.hp + (0.8 + e.level * 0.6) }
  else e

/-- The strategy block of the hex module's `update`; `none` when `movementStrategy.name` is
read on a gladiator without a strategy. -/
def hex.chooseStrategy (E : Env) (w : World) (k : ℕ) : Option World :=
  if (w.ent k).hpPercent < hex.FLEE_THRESHOLD_LOW then
    some (switchMovementStrategy E w k .defensive)
  else if (w.ent k).hpPercent ≥ hex.FLEE_THRESHOLD_HIGH then
    match (w.ent k).movementStrategy with
    | none => none
    | some s =>
      if s.name = .defensive then some (switchMovementStrategy E w k .aggressive) else some w
  else some w

/-- The last block of the hex module's `update`: the step back from an enemy closer than
100; `none` when `movementStrategy.name` is read on a gladiator without a strategy. -/
def hex.backOff (E : Env) (w : World) (k : ℕ) (simulationSpeed : ℚ) : Option World :=
  match GladiatorUtils.findNearestEnemy E w k with
  | (some nearest, some nearestDist) =>
    if nearestDist < 100 then
      match (w.ent k).movementStrategy with
      | none => none
      | some s =>
        if s.name ≠ .defensive then
          let angle := E.atan2 ((w.ent nearest).y - (w.ent k).y)
            ((w.ent nearest).x - (w.ent k).x) + E.pi
          let accel : ℚ := 0.2
          some (w.modify k fun self =>
            { self with skipSeek := true,
                        vx := self.vx + E.cos angle * accel * simulationSpeed,
                        vy := self.vy + E.sin angle * accel * simulationSpeed })
        else some w
    else some w
  | _ => some w

/-- The hook `update` of `gladiators/hex/index.js` on the gladiator at index `k`. -/
def hex.update (E : Env) (w : World) (k : ℕ) (simulationSpeed : ℚ) : Option World :=
  let w := w.modify k fun self => hex.regen self simulationSpeed
  match hex.chooseStrategy E w k with
  | none => none
  | some w => hex.backOff E w k simulationSpeed

/-- The change keeps the identity fields and either keeps the hit points or resets them to
the maximum. -/
structure Healed (e e' : Entity) extends KeepsId e e' : Prop where
  hp : e'.hp = e.hp ∨ e'.hp = e.maxHp

theorem roundHalfEven_sub_le (y : ℚ) : |((roundHalfEven y : ℤ) : ℚ) - y| ≤ 1 / 2 := by
  have h1 := Int.floor_le y
  have h2 := Int.lt_floor_add_one y
  unfold roundHalfEven
  dsimp only
  rw [abs_le]
  split_ifs <;> push_cast <;> constructor <;> linarith

theorem roundHalfEven_nonneg (y : ℚ) (h : 0 ≤ y) : 0 ≤ roundHalfEven y := by
  have h0 : (0 : ℤ) ≤ ⌊y⌋ := Int.floor_nonneg.mpr h
  unfold roundHalfEven
  dsimp only
  split_ifs <;> omega

/-- The rounding of a number that is within one half of an integer. -/
theorem roundHalfEven_eq (y : ℚ) (m : ℤ) (h1 : (m : ℚ) - 1 / 2 < y) (h2 : y < m + 1 / 2) :
    roundHalfEven y = m := by
  have a1 := Int.floor_le y
  have a2 := Int.lt_floor_add_one y
  have hr := roundHalfEven_sub_le y
  rw [abs_le] at hr
  have b1 : ((roundHalfEven y : ℤ) : ℚ) < m + 1 := by linarith
  have b2 : ((m : ℤ) : ℚ) < roundHalfEven y + 1 := by linarith
  have c1 : roundHalfEven y < m + 1 := by exact_mod_cast b1
  have c2 : m < roundHalfEven y + 1 := by exact_mod_cast b2
  omega

theorem roundHalfEven_intCast (m : ℤ) : roundHalfEven (m : ℚ) = m :=
  roundHalfEven_eq _ m (by linarith) (by linarith)

theorem ulpExponent_eq (x : ℚ) (e : ℤ) (h1 : (2 : ℚ) ^ e ≤ |x|) (h2 : |x| < (2 : ℚ) ^ (e + 1)) :
    ulpExponent x = max (e - 52) (-1074) := by
  have hpos : (0 : ℚ) < |x| := lt_of_lt_of_le (by positivity) h1
  have l1 : e ≤ Int.log 2 |x| := by
    rw [← Int.zpow_le_iff_le_log (by norm_num) hpos]
    exact_mod_cast h1
  have l2 : Int.log 2 |x| < e + 1 := by
    rw [← Int.lt_zpow_iff_log_lt (by norm_num) hpos]
    exact_mod_cast h2
  unfold ulpExponent
  rw [show Int.log 2 |x| = e by omega]

/-- The rounding of a number of the normal range, from its binary exponent and the integer
nearest to its scaled value. -/
theorem toDouble_eq (x : ℚ) (e m : ℤ) (he : -1022 ≤ e) (h1 : (2 : ℚ) ^ e ≤ |x|)
    (h2 : |x| < (2 : ℚ) ^ (e + 1)) (h3 : (m : ℚ) - 1 / 2 < x / 2 ^ (e - 52))
    (h4 : x / 2 ^ (e - 52) < m + 1 / 2) : toDouble x = m * 2 ^ (e - 52) := by
  unfold toDouble
  rw [ulpExponent_eq x e h1 h2, max_eq_left (by omega), roundHalfEven_eq _ m h3 h4]

theorem toDouble_zero : toDouble 0 = 0 := by
  unfold toDouble
  rw [zero_div, show roundHalfEven 0 = 0 from roundHalfEven_intCast 0]
  simp

theorem toDouble_nonneg (x : ℚ) (h : 0 ≤ x) : 0 ≤ toDouble x := by
  unfold toDouble
  have hp : (0 : ℚ) < 2 ^ ulpExponent x := by positivity
  have := roundHalfEven_nonneg (x / 2 ^ ulpExponent x) (div_nonneg h (le_of_lt hp))
  have h' : (0 : ℚ) ≤ ((roundHalfEven (x / 2 ^ ulpExponent x) : ℤ) : ℚ) := by exact_mod_cast this
  exact mul_nonneg h' (le_of_lt hp)

/-- The unit in the last place is at most `|x| / 2^52`, or `2^-1074` in the subnormal
range. -/
theorem ulp_le (x : ℚ) (hx0 : x ≠ 0) :
    (2 : ℚ) ^ ulpExponent x ≤ |x| / 2 ^ 52 + 1 / 2 ^ 1074 := by
  unfold ulpExponent
  have hb : (2 : ℚ) ^ (-1074 : ℤ) = 1 / 2 ^ 1074 := by
    rw [zpow_neg, one_div]; norm_cast
  rcases le_total (Int.log 2 |x| - 52) (-1074) with h | h
  · rw [max_eq_right h, hb]
    have : (0 : ℚ) ≤ |x| / 2 ^ 52 := by positivity
    linarith
  · rw [max_eq_left h]
    have hx : (0 : ℚ) < |x| := abs_pos.mpr hx0
    have hl := Int.zpow_log_le_self (b := 2) (by norm_num) hx
    have hl' : (2 : ℚ) ^ Int.log 2 |x| ≤ |x| := by exact_mod_cast hl
    have e1 : (2 : ℚ) ^ (Int.log 2 |x| - 52) = 2 ^ Int.log 2 |x| / 2 ^ 52 := by
      rw [zpow_sub₀ (by norm_num)]; norm_cast
    rw [e1]
    have : (2 : ℚ) ^ Int.log 2 |x| / 2 ^ 52 ≤ |x| / 2 ^ 52 :=
      div_le_div_of_nonneg_right hl' (by positivity)
    have : (0 : ℚ) ≤ 1 / 2 ^ 1074 := by positivity
    linarith

/-- The rounding error: half a unit in the last place. -/
theorem toDouble_err (x : ℚ) : |toDouble x - x| ≤ |x| / 2 ^ 53 + 1 / 2 ^ 1075 := by
  by_cases hx0 : x = 0
  · rw [hx0, toDouble_zero]
    norm_num
  have hp : (0 : ℚ) < 2 ^ ulpExponent x := by positivity
  have hr := roundHalfEven_sub_le (x / 2 ^ ulpExponent x)
  have e : toDouble x - x
      = (((roundHalfEven (x / 2 ^ ulpExponent x) : ℤ) : ℚ) - x / 2 ^ ulpExponent x)
        * 2 ^ ulpExponent x := by
    unfold toDouble
    field_simp
  rw [e, abs_mul, abs_of_pos hp]
  have h1 : |((roundHalfEven (x / 2 ^ ulpExponent x) : ℤ) : ℚ) - x / 2 ^ ulpExponent x|
      * 2 ^ ulpExponent x ≤ 1 / 2 * 2 ^ ulpExponent x :=
    mul_le_mul_of_nonneg_right hr (le_of_lt hp)
  have h2 := ulp_le x hx0
  have e53 : |x| / 2 ^ 53 = 1 / 2 * (|x| / 2 ^ 52) := by ring
  have e75 : (1 : ℚ) / 2 ^ 1075 = 1 / 2 * (1 / 2 ^ 1074) := by ring
  rw [e53, e75]
  linarith

/-- A rounded non-negative number is within a relative `2^-53` and an absolute `2^-1075` of
the exact one. -/
theorem toDouble_bounds (x : ℚ) (h : 0 ≤ x) :
    x - (x / 2 ^ 53 + 1 / 2 ^ 1075) ≤ toDouble x ∧ toDouble x ≤ x + (x / 2 ^ 53 + 1 / 2 ^ 1075) := by
  have := toDouble_err x
  rw [abs_of_nonneg h, abs_le] at this
  constructor <;> linarith

/-- The rounding of a positive number of the normal range. -/
theorem toDouble_eq_pos (x : ℚ) (e m : ℤ) (he : -1022 ≤ e) (h1 : (2 : ℚ) ^ e ≤ x)
    (h2 : x < (2 : ℚ) ^ (e + 1)) (h3 : (m : ℚ) - 1 / 2 < x / 2 ^ (e - 52))
    (h4 : x / 2 ^ (e - 52) < m + 1 / 2) : toDouble x = m * 2 ^ (e - 52) := by
  have hx : 0 < x := lt_of_lt_of_le (by positivity) h1
  exact toDouble_eq x e m he (by rw [abs_of_pos hx]; exact h1) (by rw [abs_of_pos hx]; exact h2)
    h3 h4


/-- The rounding of a number half-way between an even integer and the next. -/
theorem roundHalfEven_tie (y : ℚ) (m : ℤ) (h : y = m + 1 / 2) (hm : m % 2 = 0) :
    roundHalfEven y = m := by
  have hf : ⌊y⌋ = m := by
    rw [Int.floor_eq_iff, h]
    constructor <;> linarith
  unfold roundHalfEven
  dsimp only
  rw [hf, h]
  rw [if_neg (by linarith), if_neg (by linarith), if_pos hm]

/-- The rounding of a positive number of the normal range that is half-way between two
binary64 numbers. -/
theorem toDouble_eq_tie (x : ℚ) (e m : ℤ) (he : -1022 ≤ e) (h1 : (2 : ℚ) ^ e ≤ x)
    (h2 : x < (2 : ℚ) ^ (e + 1)) (h3 : x / 2 ^ (e - 52) = m + 1 / 2) (hm : m % 2 = 0) :
    toDouble x = m * 2 ^ (e - 52) := by
  have hx : 0 < x := lt_of_lt_of_le (by positivity) h1
  unfold toDouble
  rw [ulpExponent_eq x e (by rw [abs_of_pos hx]; exact h1) (by rw [abs_of_pos hx]; exact h2),
    max_eq_left (by omega), roundHalfEven_tie _ m h3 hm]

/-! ## Basic facts about the state operations -/

@[simp] theorem World.tick_ents (w : World) : w.tick.ents = w.ents := rfl
@[simp] theorem World.log_ents (w : World) (ev : Ev) : (w.log ev).ents = w.ents := rfl
@[simp] theorem World.pushProjectile_ents (w : World) (p : Projectile) :
    (w.pushProjectile p).ents = w.ents := rfl
@[simp] theorem World.tick_ent (w : World) (k : ℕ) : w.tick.ent k = w.ent k := rfl
@[simp] theorem World.log_ent (w : World) (ev : Ev) (k : ℕ) : (w.log ev).ent k = w.ent k := rfl
@[simp] theorem World.pushProjectile_ent (w : World) (p : Projectile) (k : ℕ) :
    (w.pushProjectile p).ent k = w.ent k := rfl
@[simp] theorem World.modify_length (w : World) (k : ℕ) (f : Entity → Entity) :
    (w.modify k f).ents.length = w.ents.length := by
  simp [World.modify]
@[simp] theorem World.modify_trace (w : World) (k : ℕ) (f : Entity → Entity) :
    (w.modify k f).trace = w.trace := rfl
@[simp] theorem World.modify_rng (w : World) (k : ℕ) (f : Entity → Entity) :
    (w.modify k f).rng = w.rng := rfl
@[simp] theorem World.modify_projectiles (w : World) (k : ℕ) (f : Entity → Entity) :
    (w.modify k f).projectiles = w.projectiles := rfl
@[simp] theorem World.log_trace (w : World) (ev : Ev) : (w.log ev).trace = w.trace ++ [ev] := rfl
@[simp] theorem World.log_rng (w : World) (ev : Ev) : (w.log ev).rng = w.rng := rfl
@[simp] theorem World.tick_trace (w : World) : w.tick.trace = w.trace := rfl
@[simp] theorem World.tick_rng (w : World) : w.tick.rng = w.rng + 1 := rfl
@[simp] theorem World.pushProjectile_trace (w : World) (p : Projectile) :
    (w.pushProjectile p).trace = w.trace := rfl
@[simp] theorem World.pushEnt_trace (w : World) (e : Entity) : (w.pushEnt e).trace = w.trace := rfl
@[simp] theorem World.pushEnt_length (w : World) (e : Entity) :
    (w.pushEnt e).ents.length = w.ents.length + 1 := by
  simp [World.pushEnt]

theorem World.getElem?_modify (w : World) (k j : ℕ) (f : Entity → Entity) :
    (w.modify k f).ents[j]? = if k = j then (w.ents[j]?).map f else w.ents[j]? := by
  unfold World.modify World.ent
  simp only [List.getElem?_set]
  by_cases h : k = j
  · subst h
    by_cases hk : k < w.ents.length
    · simp [hk, List.getD_eq_getElem?_getD]
    · simp [hk, List.getElem?_eq_none (not_lt.mp hk)]
  · simp [h]

theorem World.ent_modify_self (w : World) (k : ℕ) (f : Entity → Entity)
    (hk : k < w.ents.length) : (w.modify k f).ent k = f (w.ent k) := by
  unfold World.ent
  rw [List.getD_eq_getElem?_getD, World.getElem?_modify]
  simp [hk, List.getD_eq_getElem?_getD]

@[simp] theorem World.ent_modify_ne (w : World) (k j : ℕ) (f : Entity → Entity)
    (h : k ≠ j) : (w.modify k f).ent j = w.ent j := by
  unfold World.ent
  rw [List.getD_eq_getElem?_getD, World.getElem?_modify]
  simp [h, List.getD_eq_getElem?_getD]

theorem World.ent_modify (w : World) (k j : ℕ) (f : Entity → Entity)
    (hk : k < w.ents.length) :
    (w.modify k f).ent j = if k = j then f (w.ent j) else w.ent j := by
  by_cases h : k = j
  · subst h; simp [World.ent_modify_self, hk]
  · simp [h]

theorem World.ent_modify_cases (w : World) (k j : ℕ) (f : Entity → Entity) :
    (w.modify k f).ent j = w.ent j ∨ (k = j ∧ (w.modify k f).ent j = f (w.ent j)) := by
  by_cases h : k = j
  · subst h
    by_cases hk : k < w.ents.length
    · exact Or.inr ⟨rfl, World.ent_modify_self w k f hk⟩
    · left
      unfold World.modify World.ent
      simp [List.set_eq_of_length_le (not_lt.mp hk)]
  · exact Or.inl (World.ent_modify_ne w k j f h)

theorem World.ent_pushEnt_lt (w : World) (e : Entity) (j : ℕ) (hj : j < w.ents.length) :
    (w.pushEnt e).ent j = w.ent j := by
  unfold World.pushEnt World.ent
  simp [List.getD_eq_getElem?_getD, List.getElem?_append_left hj]

theorem KeepsId.reflId (e : Entity) : KeepsId e e := ⟨rfl, rfl, rfl, rfl, rfl, rfl, rfl⟩

theorem KeepsId.transId {a b c : Entity} (h : KeepsId a b) (h' : KeepsId b c) : KeepsId a c :=
  ⟨h'.team.trans h.team, h'.className.trans h.className, h'.maxHp.trans h.maxHp,
   h'.level.trans h.level, h'.reflectDmg.trans h.reflectDmg, h'.radius.trans h.radius,
   h'.isDead.trans h.isDead⟩

theorem Keeps.reflKeeps (e : Entity) : Keeps e e := ⟨KeepsId.reflId e, rfl⟩

theorem Keeps.transKeeps {a b c : Entity} (h : Keeps a b) (h' : Keeps b c) : Keeps a c :=
  ⟨h.toKeepsId.transId h'.toKeepsId, h'.hp.trans h.hp⟩

theorem Hurt.reflHurt (e : Entity) : Hurt e e := ⟨KeepsId.reflId e, le_refl _⟩

theorem Hurt.transHurt {a b c : Entity} (h : Hurt a b) (h' : Hurt b c) : Hurt a c :=
  ⟨h.toKeepsId.transId h'.toKeepsId, h'.hp.trans h.hp⟩

theorem Keeps.toHurt {a b : Entity} (h : Keeps a b) : Hurt a b := ⟨h.toKeepsId, le_of_eq h.hp⟩

theorem KeepsId.rightKeepsId : RightKeepsId KeepsId where
  refl := KeepsId.reflId
  comp h h' := h.transId h'.toKeepsId
  compId h h' := h.transId h'

theorem Keeps.rightKeeps : RightKeeps Keeps where
  refl := Keeps.reflKeeps
  comp h h' := h.transKeeps h'

theorem Hurt.rightKeepsHurt : RightKeeps Hurt where
  refl := Hurt.reflHurt
  comp h h' := h.transHurt h'.toHurt

namespace Step

variable {R : Entity → Entity → Prop} {S : ℕ → Prop} {w w1 : World}

theorem refl (hR : RightKeeps R) (w : World) : Step R S w w :=
  ⟨le_refl _, fun _ _ _ => rfl, fun _ _ => hR.refl _, ⟨[], by simp, by simp⟩⟩

theorem modify (h : Step R S w w1) {k : ℕ} (hk : S k) {f : Entity → Entity}
    (hf : ∀ e e1, R e e1 → R e (f e1)) : Step R S w (w1.modify k f) := by
  refine ⟨by simpa using h.len, ?_, ?_, by simpa using h.trace⟩
  · intro j hj hS
    have hne : k ≠ j := fun hkj => hS (hkj ▸ hk)
    rw [World.ent_modify_ne _ _ _ _ hne]
    exact h.frame j hj hS
  · intro j hj
    rcases World.ent_modify_cases w1 k j f with h1 | ⟨_, h1⟩
    · rw [h1]; exact h.rel j hj
    · rw [h1]; exact hf _ _ (h.rel j hj)

theorem modify_keeps (hR : RightKeeps R) (h : Step R S w w1) {k : ℕ} (hk : S k)
    {f : Entity → Entity} (hf : ∀ e, Keeps e (f e)) : Step R S w (w1.modify k f) :=
  h.modify hk fun _ e1 hr => hR.comp hr (hf e1)

theorem modify_id (hR : RightKeepsId R) (h : Step R S w w1) {k : ℕ} (hk : S k)
    {f : Entity → Entity} (hf : ∀ e, KeepsId e (f e)) : Step R S w (w1.modify k f) :=
  h.modify hk fun _ e1 hr => hR.compId hr (hf e1)

theorem tick (h : Step R S w w1) : Step R S w w1.tick :=
  ⟨h.len, h.frame, h.rel, h.trace⟩

theorem pushProjectile (h : Step R S w w1) (p : Projectile) : Step R S w (w1.pushProjectile p) :=
  ⟨h.len, h.frame, h.rel, h.trace⟩

theorem log (h : Step R S w w1) (ev : Ev) (hev : S ev.target) : Step R S w (w1.log ev) := by
  refine ⟨h.len, h.frame, h.rel, ?_⟩
  obtain ⟨evs, h1, h2⟩ := h.trace
  refine ⟨evs ++ [ev], by simp [h1], ?_⟩
  intro e he
  rcases List.mem_append.mp he with he | he
  · exact h2 e he
  · rw [List.mem_singleton.mp he]; exact hev

theorem pushEnt (h : Step R S w w1) (e : Entity) : Step R S w (w1.pushEnt e) := by
  refine ⟨by simpa using Nat.le_succ_of_le h.len, ?_, ?_, by simpa using h.trace⟩
  · intro j hj hS
    rw [World.ent_pushEnt_lt _ _ _ (lt_of_lt_of_le hj h.len)]
    exact h.frame j hj hS
  · intro j hj
    rw [World.ent_pushEnt_lt _ _ _ (lt_of_lt_of_le hj h.len)]
    exact h.rel j hj

theorem mono {S' : ℕ → Prop} (h : Step R S w w1) (hS : ∀ j, S j → S' j) : Step R S' w w1 := by
  refine ⟨h.len, fun j hj hn => h.frame j hj fun hs => hn (hS j hs), h.rel, ?_⟩
  obtain ⟨evs, h1, h2⟩ := h.trace
  exact ⟨evs, h1, fun ev he => hS _ (h2 ev he)⟩

theorem weaken {R' : Entity → Entity → Prop} (h : Step R S w w1)
    (hR : ∀ e e', R e e' → R' e e') : Step R' S w w1 :=
  ⟨h.len, h.frame, fun j hj => hR _ _ (h.rel j hj), h.trace⟩

end Step

/-! ## Footprint of the damage pipeline -/

section
variable {R : Entity → Entity → Prop} {S : ℕ → Prop} {w w1 : World}

theorem gainXp_keeps (a : ℚ) (e : Entity) : Keeps e (gainXp a e) := by
  constructor <;> first | rfl | (constructor <;> rfl)

theorem berserker.rageLoop_keeps (amount : ℚ) (n : ℕ) (e : Entity) :
    Keeps e (berserker.rageLoop amount n e) := by
  induction n generalizing e with
  | zero => exact Keeps.reflKeeps e
  | succ n ih =>
    unfold berserker.rageLoop
    split
    · refine Keeps.transKeeps ?_ (ih _)
      constructor <;> first | rfl | (constructor <;> rfl)
    · exact Keeps.reflKeeps e

theorem setMovementStrategy_step (hR : RightKeeps R) (E : Env) (k : ℕ) (ty : StrategyName)
    (o : StrategyOptions) (hk : S k) (h : Step R S w w1) :
    Step R S w (setMovementStrategy E w1 k ty o) := by
  unfold setMovementStrategy
  cases ty
  · exact h.modify_keeps hR hk fun e => by constructor <;> first | rfl | (constructor <;> rfl)
  · exact h.modify_keeps hR hk fun e => by constructor <;> first | rfl | (constructor <;> rfl)
  · exact h.tick.modify_keeps hR hk fun e => by constructor <;> first | rfl | (constructor <;> rfl)

theorem ninja.dodge_step (hR : RightKeeps R) (E : Env) (t : ℕ) (amount : ℚ) (ht : S t)
    (h : Step R S w w1) : Step R S w (ninja.onDamageTakenPre E w1 t amount).1 := by
  unfold ninja.onDamageTakenPre
  dsimp only
  split
  · exact h.tick.modify_keeps hR ht (gainXp_keeps 25)
  · exact h.tick

theorem onDamageTakenPre_step (hR : RightKeeps R) (E : Env) (t : ℕ) (amount : ℚ) (ht : S t)
    (h : Step R S w w1) : Step R S w (onDamageTakenPre E w1 t amount).1 := by
  unfold onDamageTakenPre
  split
  · exact ninja.dodge_step hR E t amount ht (h.log (.onDamageTakenPre t) ht)
  · exact h

theorem bomber.hook_step (hR : RightKeeps R) (E : Env) (t : ℕ) (amount : ℚ) (ht : S t)
    (h : Step R S w w1) : Step R S w (bomber.onDamageTaken E w1 t amount).1 := by
  unfold bomber.onDamageTaken changeMovementStrategy
  dsimp only
  refine Step.modify_keeps hR ?_ ht (gainXp_keeps 15)
  refine setMovementStrategy_step hR E t _ _ ht ?_
  refine Step.modify_keeps hR ?_ ht fun e => by
    constructor <;> first | rfl | (constructor <;> rfl)
  split
  · exact (h.pushProjectile _).modify_keeps hR ht fun e => by
      constructor <;> first | rfl | (constructor <;> rfl)
  · exact h

theorem onDamageTaken_step (hR : RightKeeps R) (nested : World → ℕ → ℚ → World) (E : Env) (t : ℕ)
    (attacker : Option ℕ) (amount : ℚ) (ht : S t) (ha : ∀ a, attacker = some a → S a)
    (hn : ∀ w2 a r, attacker = some a → Step R S w w2 → Step R S w (nested w2 a r))
    (h : Step R S w w1) : Step R S w (onDamageTaken nested E w1 t attacker amount).1 := by
  have hl := h.log (.onDamageTaken t) ht
  unfold onDamageTaken
  split
  · -- spike
    unfold spike.onDamageTaken
    cases attacker with
    | none => exact hl
    | some a => exact (hn _ a _ rfl hl).modify_keeps hR ht (gainXp_keeps 10)
  · exact hl
  · unfold speed.onDamageTaken
    dsimp only
    refine hl.modify_keeps hR ht ?_
    exact fun _ => ⟨⟨rfl, rfl, rfl, rfl, rfl, rfl, rfl⟩, rfl⟩
  · -- orb
    unfold orb.onDamageTaken
    cases attacker with
    | none => exact hl
    | some a =>
      dsimp only
      refine hl.modify_keeps hR (ha a rfl) ?_
      exact fun _ => ⟨⟨rfl, rfl, rfl, rfl, rfl, rfl, rfl⟩, rfl⟩
  · unfold pyramid.onDamageTaken
    split <;> exact hl
  · exact bomber.hook_step hR E t amount ht hl
  · unfold berserker.onDamageTaken
    dsimp only
    refine hl.modify_keeps hR ht ?_
    exact fun e => berserker.rageLoop_keeps _ _ _
  · unfold illusion.onDamageTaken
    split <;> exact hl
  · exact h

theorem takeDamageCore_step (hR : RightKeepsId R) (nested : World → ℕ → ℚ → World) (E : Env) (t : ℕ)
    (attacker : Option ℕ) (amount : ℚ) (ht : S t) (ha : ∀ a, attacker = some a → S a)
    (hn : ∀ w2 a r, attacker = some a → Step R S w w2 → Step R S w (nested w2 a r))
    (h : Step R S w w1) : Step R S w (takeDamageCore nested E w1 t amount attacker).1 := by
  have hl := h.log (.takeDamage t amount attacker) ht
  unfold takeDamageCore
  dsimp only
  split
  · exact (onDamageTakenPre_step hR.toRightKeeps E t amount ht hl).modify_keeps
      hR.toRightKeeps ht (gainXp_keeps 30)
  · refine Step.tick (Step.modify_id hR ?_ ht ?_)
    swap
    · exact fun _ => ⟨rfl, rfl, rfl, rfl, rfl, rfl, rfl⟩
    exact onDamageTaken_step hR.toRightKeeps nested E t attacker _ ht ha hn
      (onDamageTakenPre_step hR.toRightKeeps E t amount ht hl)

theorem takeDamageNull_step (hR : RightKeepsId R) (E : Env) (t : ℕ) (amount : ℚ) (ht : S t)
    (h : Step R S w w1) : Step R S w (takeDamageNull E w1 t amount).1 :=
  takeDamageCore_step hR _ E t none amount ht (by simp) (by simp) h

theorem takeDamage_step (hR : RightKeepsId R) (E : Env) (t : ℕ) (attacker : Option ℕ) (amount : ℚ)
    (ht : S t) (ha : ∀ a, attacker = some a → S a)
    (h : Step R S w w1) : Step R S w (takeDamage E w1 t amount attacker).1 :=
  takeDamageCore_step hR _ E t attacker amount ht ha
    (fun _ a r hat h2 => takeDamageNull_step hR E a r (ha a hat) h2) h

end

/-! ## Exact effect of a hit -/

theorem onDamageTakenPre_of_noHook (E : Env) (w : World) (t : ℕ) (amount : ℚ)
    (h : hasOnDamageTakenPre (w.ent t).className = false) :
    onDamageTakenPre E w t amount = (w, amount) := by
  unfold onDamageTakenPre
  split
  · rename_i hc; rw [hc] at h; exact absurd h (by decide)
  · rfl

theorem onDamageTaken_amount (nested : World → ℕ → ℚ → World) (E : Env) (w : World) (t : ℕ)
    (attacker : Option ℕ) (amount : ℚ)
    (h : altersIncomingDamage (w.ent t).className = false) :
    (onDamageTaken nested E w t attacker amount).2 = amount := by
  unfold onDamageTaken
  split <;> rename_i hc <;> (try (rw [hc] at h; exact absurd h (by decide)))
  · unfold spike.onDamageTaken; cases attacker <;> rfl
  · rfl
  · unfold orb.onDamageTaken; cases attacker <;> rfl
  · rfl
  · rfl
  · rfl

theorem takeDamageCore_hp_of_vulnerable (nested : World → ℕ → ℚ → World) (E : Env) (w : World)
    (t : ℕ) (amount : ℚ) (attacker : Option ℕ)
    (hpre : hasOnDamageTakenPre (w.ent t).className = false)
    (hinv : (w.ent t).invulnerable = false)
    (hlen : t < (onDamageTaken nested E (w.log (.takeDamage t amount attacker)) t attacker
      amount).1.ents.length) :
    ((takeDamageCore nested E w t amount attacker).1.ent t).hp =
      ((onDamageTaken nested E (w.log (.takeDamage t amount attacker)) t attacker amount).1.ent t).hp
        - (onDamageTaken nested E (w.log (.takeDamage t amount attacker)) t attacker amount).2 := by
  unfold takeDamageCore
  simp only [onDamageTakenPre_of_noHook E (w.log (.takeDamage t amount attacker)) t amount hpre,
    World.log_ent, hinv, Bool.false_eq_true, if_false, World.tick_ent]
  exact congrArg Entity.hp (World.ent_modify_self _ _ _ hlen)

theorem takeDamageNull_plain (E : Env) (w : World) (a : ℕ) (r : ℚ)
    (ha : a < w.ents.length) (hinv : (w.ent a).invulnerable = false)
    (halt : altersIncomingDamage (w.ent a).className = false) :
    ((takeDamageNull E w a r).1.ent a).hp = (w.ent a).hp - r := by
  have hpre : hasOnDamageTakenPre (w.ent a).className = false := by
    revert halt; cases (w.ent a).className <;> simp [altersIncomingDamage, hasOnDamageTakenPre]
  have hk : Step Keeps (fun j => j = a) (w.log (.takeDamage a r none))
      (onDamageTaken (fun w _ _ => w) E (w.log (.takeDamage a r none)) a none r).1 :=
    onDamageTaken_step Keeps.rightKeeps _ E a none r rfl (by simp) (by simp)
      (Step.refl Keeps.rightKeeps _)
  unfold takeDamageNull
  rw [takeDamageCore_hp_of_vulnerable _ E w a r none hpre hinv (lt_of_lt_of_le ha hk.len),
    onDamageTaken_amount _ E (w.log _) a none r halt, (hk.rel a ha).hp]
  rfl

theorem onDamageTaken_spike (nested : World → ℕ → ℚ → World) (E : Env) (w : World) (t a : ℕ)
    (amount : ℚ) (hc : (w.ent t).className = .spike) :
    onDamageTaken nested E w t (some a) amount =
      ((nested (w.log (.onDamageTaken t)) a
          ((w.ent t).reflectDmg + (w.ent t).level * 2)).modify t (gainXp 10), amount) := by
  unfold onDamageTaken
  rw [hc]
  rfl

/-! ## Grid lemmas -/

theorem cellIndex_natCast (x y : ℕ) (hx : x < STAGE_COLS) (hy : y < STAGE_ROWS) :
    cellIndex (x : ℚ) (y : ℚ) = some (y * STAGE_COLS + x) := by
  unfold cellIndex
  have h1 : (y : ℚ) * STAGE_W + (x : ℚ) = ((y * STAGE_COLS + x : ℕ) : ℚ) := by
    simp [STAGE_W, STAGE_COLS]
  have h2 : y * STAGE_COLS + x < 60000 := by
    unfold STAGE_COLS STAGE_ROWS at *; omega
  dsimp only
  rw [h1]
  generalize y * STAGE_COLS + x = n at h2 ⊢
  have h3 : (n : ℚ) < STAGE_W * STAGE_H := by
    have : STAGE_W * STAGE_H = ((60000 : ℕ) : ℚ) := by norm_num [STAGE_W, STAGE_H]
    rw [this]; exact_mod_cast h2
  have h4 : (0 : ℚ) ≤ (n : ℚ) := Nat.cast_nonneg n
  have h5 : (n : ℚ).isInt = true := by
    unfold Rat.isInt; rw [Rat.den_natCast]; rfl
  rw [if_pos ⟨h5, h4, h3⟩, Rat.num_natCast, Int.toNat_natCast]

theorem inStage_natCast (x y : ℕ) (hx : x < STAGE_COLS) (hy : y < STAGE_ROWS) :
    inStage (x : ℚ) (y : ℚ) = true := by
  unfold inStage
  have h1 : (x : ℚ) < STAGE_W := by
    have : STAGE_W = ((STAGE_COLS : ℕ) : ℚ) := by norm_num [STAGE_W, STAGE_COLS]
    rw [this]; exact_mod_cast hx
  have h2 : (y : ℚ) < STAGE_H := by
    have : STAGE_H = ((STAGE_ROWS : ℕ) : ℚ) := by norm_num [STAGE_H, STAGE_ROWS]
    rw [this]; exact_mod_cast hy
  simp [h1, h2]

theorem toUint8_small (n : ℕ) (h : n < 256) : toUint8 (n : ℚ) = n := by
  unfold toUint8
  have h0 : (0 : ℚ) ≤ (n : ℚ) := by positivity
  rw [if_pos h0, Int.floor_natCast]
  omega

theorem initGridCell_grid (g : Grid) (x y : ℕ) (hx : x < STAGE_COLS) (hy : y < STAGE_ROWS)
    (i : ℕ) :
    (initGridCell g y x).grid i =
      if i = y * STAGE_COLS + x ∧ initGridIsWall x y = true then TYPE_WALL else g.grid i := by
  unfold initGridCell
  by_cases hw : initGridIsWall x y = true
  · rw [if_pos hw]
    dsimp only
    unfold setCell
    rw [if_pos (inStage_natCast x y hx hy), cellIndex_natCast x y hx hy]
    dsimp only
    have h8 : toUint8 (TYPE_WALL : ℕ) = TYPE_WALL := toUint8_small TYPE_WALL (by decide)
    rw [h8]
    by_cases hi : i = y * STAGE_COLS + x
    · rw [if_pos ⟨hi, hw⟩, hi, Function.update_same]
    · rw [if_neg (fun h => hi h.1), Function.update_noteq hi]
  · rw [if_neg hw, if_neg (fun h => hw h.2)]

theorem initGridCell_wallHealth (g : Grid) (x y : ℕ) (hx : x < STAGE_COLS)
    (hy : y < STAGE_ROWS) (i : ℕ) :
    (initGridCell g y x).wallHealth i =
      if i = y * STAGE_COLS + x ∧ initGridIsWall x y = true then 6 else g.wallHealth i := by
  unfold initGridCell
  by_cases hw : initGridIsWall x y = true
  · rw [if_pos hw]
    dsimp only
    have h8 : toUint8 6 = 6 := by
      have := toUint8_small 6 (by decide)
      simpa using this
    rw [h8]
    have hs : (setCell g (x : ℚ) (y : ℚ) TYPE_WALL).wallHealth = g.wallHealth := by
      unfold setCell
      rw [if_pos (inStage_natCast x y hx hy), cellIndex_natCast x y hx hy]
    rw [hs]
    by_cases hi : i = y * STAGE_COLS + x
    · rw [if_pos ⟨hi, hw⟩, hi, Function.update_same]
    · rw [if_neg (fun h => hi h.1), Function.update_noteq hi]
  · rw [if_neg hw, if_neg (fun h => hw h.2)]

/-- The inner loop over `x = 0 .. n - 1`. -/
theorem initGrid_row (g : Grid) (y : ℕ) (hy : y < STAGE_ROWS) (n : ℕ) (hn : n ≤ STAGE_COLS)
    (i : ℕ) :
    ((List.range n).foldl (fun g x => initGridCell g y x) g).grid i =
      (if ∃ x, x < n ∧ i = y * STAGE_COLS + x ∧ initGridIsWall x y = true
        then TYPE_WALL else g.grid i) ∧
    ((List.range n).foldl (fun g x => initGridCell g y x) g).wallHealth i =
      (if ∃ x, x < n ∧ i = y * STAGE_COLS + x ∧ initGridIsWall x y = true
        then 6 else g.wallHealth i) := by
  induction n with
  | zero => simp
  | succ n ih =>
    have ih := ih (Nat.le_of_succ_le hn)
    rw [List.range_succ, List.foldl_append]
    simp only [List.foldl_cons, List.foldl_nil]
    rw [initGridCell_grid _ n y (by omega) hy, initGridCell_wallHealth _ n y (by omega) hy,
      ih.1, ih.2]
    by_cases h1 : i = y * STAGE_COLS + n ∧ initGridIsWall n y = true
    · have : ∃ x, x < n + 1 ∧ i = y * STAGE_COLS + x ∧ initGridIsWall x y = true :=
        ⟨n, Nat.lt_succ_self n, h1.1, h1.2⟩
      simp only [if_pos h1, if_pos this, and_self]
    · by_cases h2 : ∃ x, x < n ∧ i = y * STAGE_COLS + x ∧ initGridIsWall x y = true
      · have h4 : ∃ x, x < n + 1 ∧ i = y * STAGE_COLS + x ∧ initGridIsWall x y = true := by
          obtain ⟨x, hx, hxi, hxw⟩ := h2
          exact ⟨x, Nat.lt_succ_of_lt hx, hxi, hxw⟩
        simp only [if_neg h1, if_pos h2, if_pos h4, and_self]
      · have h4 : ¬ ∃ x, x < n + 1 ∧ i = y * STAGE_COLS + x ∧ initGridIsWall x y = true := by
          rintro ⟨x, hx, hxi, hxw⟩
          rcases Nat.lt_succ_iff_lt_or_eq.mp hx with h | h
          · exact h2 ⟨x, h, hxi, hxw⟩
          · subst h; exact h1 ⟨hxi, hxw⟩
        simp only [if_neg h1, if_neg h2, if_neg h4, and_self]

/-- The outer loop over `y = 0 .. m - 1`. -/
theorem initGrid_rows (g : Grid) (m : ℕ) (hm : m ≤ STAGE_ROWS) (i : ℕ) :
    ((List.range m).foldl
      (fun g y => (List.range STAGE_COLS).foldl (fun g x => initGridCell g y x) g) g).grid i =
      (if ∃ y, y < m ∧ ∃ x, x < STAGE_COLS ∧ i = y * STAGE_COLS + x ∧
          initGridIsWall x y = true
        then TYPE_WALL else g.grid i) ∧
    ((List.range m).foldl
      (fun g y => (List.range STAGE_COLS).foldl (fun g x => initGridCell g y x) g) g).wallHealth i =
      (if ∃ y, y < m ∧ ∃ x, x < STAGE_COLS ∧ i = y * STAGE_COLS + x ∧
          initGridIsWall x y = true
        then 6 else g.wallHealth i) := by
  induction m with
  | zero => simp
  | succ m ih =>
    have ih := ih (Nat.le_of_succ_le hm)
    rw [List.range_succ, List.foldl_append]
    simp only [List.foldl_cons, List.foldl_nil]
    have hrow := initGrid_row
      ((List.range m).foldl
        (fun g y => (List.range STAGE_COLS).foldl (fun g x => initGridCell g y x) g) g)
      m (by omega) STAGE_COLS (le_refl _) i
    rw [hrow.1, hrow.2, ih.1, ih.2]
    by_cases h1 : ∃ x, x < STAGE_COLS ∧ i = m * STAGE_COLS + x ∧ initGridIsWall x m = true
    · have : ∃ y, y < m + 1 ∧ ∃ x, x < STAGE_COLS ∧ i = y * STAGE_COLS + x ∧
          initGridIsWall x y = true := ⟨m, Nat.lt_succ_self m, h1⟩
      simp only [if_pos h1, if_pos this, and_self]
    · by_cases h2 : ∃ y, y < m ∧ ∃ x, x < STAGE_COLS ∧ i = y * STAGE_COLS + x ∧
          initGridIsWall x y = true
      · have h4 : ∃ y, y < m + 1 ∧ ∃ x, x < STAGE_COLS ∧ i = y * STAGE_COLS + x ∧
            initGridIsWall x y = true := by
          obtain ⟨y, hy, hrest⟩ := h2
          exact ⟨y, Nat.lt_succ_of_lt hy, hrest⟩
        simp only [if_neg h1, if_pos h2, if_pos h4, and_self]
      · have h4 : ¬ ∃ y, y < m + 1 ∧ ∃ x, x < STAGE_COLS ∧ i = y * STAGE_COLS + x ∧
            initGridIsWall x y = true := by
          rintro ⟨y, hy, hrest⟩
          rcases Nat.lt_succ_iff_lt_or_eq.mp hy with h | h
          · exact h2 ⟨y, h, hrest⟩
          · subst h; exact h1 hrest
        simp only [if_neg h1, if_neg h2, if_neg h4, and_self]

/-- What `initGrid` leaves in the cell `(x, y)` of the stage, whatever the buffers held. -/
theorem initGrid_cell (old : Grid) (x y : ℕ) (hx : x < STAGE_COLS) (hy : y < STAGE_ROWS) :
    (initGrid old).grid (y * STAGE_COLS + x)
      = (if initGridIsWall x y = true then TYPE_WALL else TYPE_EMPTY) ∧
    (initGrid old).wallHealth (y * STAGE_COLS + x)
      = (if initGridIsWall x y = true then 6 else 0) := by
  unfold initGrid
  have h := initGrid_rows { grid := fun _ => TYPE_EMPTY, wallHealth := fun _ => 0 } STAGE_ROWS
    (le_refl _) (y * STAGE_COLS + x)
  rw [h.1, h.2]
  by_cases hw : initGridIsWall x y = true
  · have : ∃ y', y' < STAGE_ROWS ∧ ∃ x', x' < STAGE_COLS ∧
        y * STAGE_COLS + x = y' * STAGE_COLS + x' ∧ initGridIsWall x' y' = true :=
      ⟨y, hy, x, hx, rfl, hw⟩
    simp only [if_pos this, if_pos hw, and_self]
  · have : ¬ ∃ y', y' < STAGE_ROWS ∧ ∃ x', x' < STAGE_COLS ∧
        y * STAGE_COLS + x = y' * STAGE_COLS + x' ∧ initGridIsWall x' y' = true := by
      rintro ⟨y', _, x', hx', he, hw'⟩
      have : y' = y ∧ x' = x := by
        unfold STAGE_COLS at *; omega
      rw [this.1, this.2] at hw'
      exact hw hw'
    simp only [if_neg this, if_neg hw, and_self]

/-! ## The nearest-candidate loop -/

/-- The invariant of a nearest-candidate loop after the first `n` indices: the accumulator
is empty when no index was kept, and otherwise holds the first index of least distance. -/
theorem nearestFold_spec (skip : ℕ → Prop) [DecidablePred skip] (d : ℕ → ℚ) (n : ℕ) :
    (((List.range n).foldl
        (fun (acc : Option ℕ × Option ℚ) k =>
          if skip k then acc
          else if ltMinDist (d k) acc.2 then (some k, some (d k)) else acc)
        (none, none)).1 = none →
      ((List.range n).foldl
        (fun (acc : Option ℕ × Option ℚ) k =>
          if skip k then acc
          else if ltMinDist (d k) acc.2 then (some k, some (d k)) else acc)
        (none, none)).2 = none ∧ ∀ k, k < n → skip k) ∧
    (∀ m, ((List.range n).foldl
        (fun (acc : Option ℕ × Option ℚ) k =>
          if skip k then acc
          else if ltMinDist (d k) acc.2 then (some k, some (d k)) else acc)
        (none, none)).1 = some m →
      m < n ∧ ¬ skip m ∧
      ((List.range n).foldl
        (fun (acc : Option ℕ × Option ℚ) k =>
          if skip k then acc
          else if ltMinDist (d k) acc.2 then (some k, some (d k)) else acc)
        (none, none)).2 = some (d m) ∧
      (∀ k, k < n → ¬ skip k → d m ≤ d k) ∧
      (∀ k, k < n → ¬ skip k → d k = d m → m ≤ k)) := by
  induction n with
  | zero => simp
  | succ n ih =>
    rw [List.range_succ, List.foldl_append]
    simp only [List.foldl_cons, List.foldl_nil]
    generalize (List.range n).foldl
        (fun (acc : Option ℕ × Option ℚ) k =>
          if skip k then acc
          else if ltMinDist (d k) acc.2 then (some k, some (d k)) else acc)
        (none, none) = acc at ih ⊢
    obtain ⟨a1, a2⟩ := acc
    obtain ⟨ih1, ih2⟩ := ih
    dsimp only at ih1 ih2 ⊢
    by_cases hs : skip n
    · rw [if_pos hs]
      dsimp only
      constructor
      · intro h
        obtain ⟨h2, h3⟩ := ih1 h
        refine ⟨h2, fun k hk => ?_⟩
        rcases Nat.lt_succ_iff_lt_or_eq.mp hk with hk | hk
        · exact h3 k hk
        · rw [hk]; exact hs
      · intro m hm
        obtain ⟨h1, h2, h3, h4, h5⟩ := ih2 m hm
        refine ⟨Nat.lt_succ_of_lt h1, h2, h3, fun k hk hsk => ?_, fun k hk hsk => ?_⟩
        · rcases Nat.lt_succ_iff_lt_or_eq.mp hk with hk | hk
          · exact h4 k hk hsk
          · rw [hk] at hsk; exact absurd hs hsk
        · rcases Nat.lt_succ_iff_lt_or_eq.mp hk with hk | hk
          · exact h5 k hk hsk
          · rw [hk] at hsk; exact absurd hs hsk
    · rw [if_neg hs]
      cases a1 with
      | none =>
        obtain ⟨h2, h3⟩ := ih1 rfl
        rw [h2]
        simp only [ltMinDist, if_true]
        refine ⟨fun h => by simp at h, fun m hm => ?_⟩
        have hmn : n = m := by simpa using hm
        subst hmn
        refine ⟨Nat.lt_succ_self _, hs, rfl, fun k hk hsk => ?_, fun k hk hsk _ => ?_⟩
        · rcases Nat.lt_succ_iff_lt_or_eq.mp hk with hk | hk
          · exact absurd (h3 k hk) hsk
          · rw [hk]
        · rcases Nat.lt_succ_iff_lt_or_eq.mp hk with hk | hk
          · exact absurd (h3 k hk) hsk
          · rw [hk]
      | some m0 =>
        obtain ⟨h1, h2, h3, h4, h5⟩ := ih2 m0 rfl
        rw [h3]
        by_cases hlt : d n < d m0
        · have : ltMinDist (d n) (some (d m0)) = true := by simp [ltMinDist, hlt]
          rw [if_pos this]
          refine ⟨fun h => by simp at h, fun m hm => ?_⟩
          have hmn : n = m := by simpa using hm
          subst hmn
          refine ⟨Nat.lt_succ_self _, hs, rfl, fun k hk hsk => ?_, fun k hk hsk he => ?_⟩
          · rcases Nat.lt_succ_iff_lt_or_eq.mp hk with hk | hk
            · exact le_trans (le_of_lt hlt) (h4 k hk hsk)
            · rw [hk]
          · rcases Nat.lt_succ_iff_lt_or_eq.mp hk with hk | hk
            · have := h4 k hk hsk
              rw [he] at this
              exact absurd hlt (not_lt.mpr this)
            · rw [hk]
        · have : ¬ ltMinDist (d n) (some (d m0)) = true := by simp [ltMinDist, hlt]
          rw [if_neg this]
          refine ⟨fun h => by simp at h, fun m hm => ?_⟩
          have hmn : m0 = m := by simpa using hm
          subst hmn
          refine ⟨Nat.lt_succ_of_lt h1, h2, rfl, fun k hk hsk => ?_, fun k hk hsk he => ?_⟩
          · rcases Nat.lt_succ_iff_lt_or_eq.mp hk with hk | hk
            · exact h4 k hk hsk
            · rw [hk]; exact not_lt.mp hlt
          · rcases Nat.lt_succ_iff_lt_or_eq.mp hk with hk | hk
            · exact h5 k hk hsk he
            · rw [hk]; exact le_of_lt h1

/-! ## The fixed-step drain -/

/-- The binary64 value of `1000 / 60` is `16.666666666666668`. -/
theorem FIXED_DT_value : FIXED_DT = 4691249611844267 / 2 ^ 48 := by
  unfold FIXED_DT
  rw [toDouble_eq_pos (1000 / 60) 4 4691249611844267 (by norm_num) (by norm_num) (by norm_num)
    (by norm_num) (by norm_num)]
  norm_num

/-- The binary64 value of `FIXED_DT / 1000` is `0.016666666666666666`. -/
theorem FIXED_DT_SECONDS_value : FIXED_DT_SECONDS = 4803839602528529 / 2 ^ 58 := by
  unfold FIXED_DT_SECONDS
  rw [FIXED_DT_value]
  rw [toDouble_eq_pos _ (-6) 4803839602528529 (by norm_num) (by norm_num) (by norm_num)
    (by norm_num) (by norm_num)]
  norm_num

theorem FIXED_DT_pos : 0 < FIXED_DT := by rw [FIXED_DT_value]; norm_num

/-- The drain loop makes `k` passes, `k` at most the fuel: the accumulator was at least
`FIXED_DT` before each of them, and is below `FIXED_DT` afterwards unless the fuel ran out. -/
theorem GameLoop.physicsSteps_spec (fuel : ℕ) (acc : ℚ) (steps : ℕ) (calls : List ℚ)
    (hfuel : steps + fuel = MAX_STEPS_PER_FRAME) :
    ∃ k, k ≤ fuel ∧
      GameLoop.physicsSteps acc steps calls fuel =
        (GameLoop.drain^[k] acc, steps + k, calls ++ List.replicate k FIXED_DT_SECONDS) ∧
      (∀ j, j < k → FIXED_DT ≤ GameLoop.drain^[j] acc) ∧
      (k < fuel → GameLoop.drain^[k] acc < FIXED_DT) := by
  induction fuel generalizing acc steps calls with
  | zero => exact ⟨0, le_refl _, by simp [GameLoop.physicsSteps], fun j hj => absurd hj (by omega),
      fun h => absurd h (by omega)⟩
  | succ fuel ih =>
    unfold GameLoop.physicsSteps
    have hs : steps < MAX_STEPS_PER_FRAME := by omega
    by_cases h : acc ≥ FIXED_DT
    · rw [if_pos ⟨h, hs⟩]
      obtain ⟨k, hk, hr, hge, hlt⟩ := ih (GameLoop.drain acc) (steps + 1)
        (calls ++ [FIXED_DT_SECONDS]) (by omega)
      refine ⟨k + 1, by omega, ?_, ?_, ?_⟩
      · rw [hr, Function.iterate_succ_apply]
        refine Prod.ext rfl (Prod.ext ?_ ?_)
        · show steps + 1 + k = steps + (k + 1)
          omega
        · show calls ++ [FIXED_DT_SECONDS] ++ List.replicate k FIXED_DT_SECONDS
            = calls ++ List.replicate (k + 1) FIXED_DT_SECONDS
          rw [List.replicate_succ, List.append_assoc]
          rfl
      · intro j hj
        cases j with
        | zero => exact h
        | succ j =>
          rw [Function.iterate_succ_apply]
          exact hge j (by omega)
      · intro hk1
        rw [Function.iterate_succ_apply]
        exact hlt (by omega)
    · rw [if_neg (fun hc => h hc.1)]
      exact ⟨0, Nat.zero_le _, by simp, fun j hj => absurd hj (by omega),
        fun _ => not_le.mp h⟩

/-- One pass of the drain, taken with the accumulator at `FIXED_DT` or above, leaves it
non-negative and changes `accumulator + passes * FIXED_DT` by a relative `2^-53` at most. -/
theorem GameLoop.drain_bounds (a : ℚ) (h : FIXED_DT ≤ a) :
    0 ≤ GameLoop.drain a ∧
    GameLoop.drain a + FIXED_DT ≤ a * (1 + 1 / 2 ^ 53) ∧
    a * (1 - 1 / 2 ^ 53) ≤ GameLoop.drain a + FIXED_DT := by
  have hx : 0 ≤ a - FIXED_DT := sub_nonneg.mpr h
  obtain ⟨l, u⟩ := toDouble_bounds (a - FIXED_DT) hx
  have hdt : (16 : ℚ) ≤ FIXED_DT := by rw [FIXED_DT_value]; norm_num
  have ht : (1 : ℚ) / 2 ^ 1075 ≤ 16 * (1 / 2 ^ 53) := by norm_num
  have hu : (0 : ℚ) < 1 / 2 ^ 53 := by positivity
  have hm : (16 : ℚ) * (1 / 2 ^ 53) ≤ FIXED_DT * (1 / 2 ^ 53) :=
    mul_le_mul_of_nonneg_right hdt (le_of_lt hu)
  unfold GameLoop.drain
  refine ⟨toDouble_nonneg _ hx, ?_, ?_⟩
  · have e : (a - FIXED_DT) / 2 ^ 53 = a * (1 / 2 ^ 53) - FIXED_DT * (1 / 2 ^ 53) := by ring
    rw [e] at u
    have : a * (1 + 1 / 2 ^ 53) = a + a * (1 / 2 ^ 53) := by ring
    rw [this]
    linarith
  · have e : (a - FIXED_DT) / 2 ^ 53 = a * (1 / 2 ^ 53) - FIXED_DT * (1 / 2 ^ 53) := by ring
    rw [e] at l
    have : a * (1 - 1 / 2 ^ 53) = a - a * (1 / 2 ^ 53) := by ring
    rw [this]
    linarith

/-- After `k` passes of the drain the accumulator is non-negative, and with the passes made
it accounts for the initial accumulator up to a relative `2^-53` per pass. -/
theorem GameLoop.drain_iterate (acc : ℚ) (hacc : 0 ≤ acc) (k : ℕ)
    (h : ∀ j, j < k → FIXED_DT ≤ GameLoop.drain^[j] acc) :
    0 ≤ GameLoop.drain^[k] acc ∧
    GameLoop.drain^[k] acc + k * FIXED_DT ≤ acc * (1 + 1 / 2 ^ 53) ^ k ∧
    acc * (1 - 1 / 2 ^ 53) ^ k ≤ GameLoop.drain^[k] acc + k * FIXED_DT := by
  induction k with
  | zero => simp [hacc]
  | succ k ih =>
    obtain ⟨i0, i1, i2⟩ := ih fun j hj => h j (by omega)
    have hk := h k (Nat.lt_succ_self k)
    obtain ⟨b0, b1, b2⟩ := GameLoop.drain_bounds _ hk
    rw [Function.iterate_succ_apply']
    have hdt := FIXED_DT_pos
    have hkd : (0 : ℚ) ≤ k * FIXED_DT := by positivity
    have hu : (0 : ℚ) < 1 / 2 ^ 53 := by positivity
    have hu1 : (0 : ℚ) ≤ 1 - 1 / 2 ^ 53 := by norm_num
    refine ⟨b0, ?_, ?_⟩
    · have s1 : GameLoop.drain (GameLoop.drain^[k] acc) + ((k + 1 : ℕ) : ℚ) * FIXED_DT
          ≤ (GameLoop.drain^[k] acc + k * FIXED_DT) * (1 + 1 / 2 ^ 53) := by
        push_cast
        have : (GameLoop.drain^[k] acc + k * FIXED_DT) * (1 + 1 / 2 ^ 53)
            = GameLoop.drain^[k] acc * (1 + 1 / 2 ^ 53) + k * FIXED_DT
              + k * FIXED_DT * (1 / 2 ^ 53) := by ring
        rw [this]
        have : 0 ≤ (k : ℚ) * FIXED_DT * (1 / 2 ^ 53) := mul_nonneg hkd (le_of_lt hu)
        linarith
      have s2 := mul_le_mul_of_nonneg_right i1 (show (0 : ℚ) ≤ 1 + 1 / 2 ^ 53 by positivity)
      rw [pow_succ, ← mul_assoc]
      exact le_trans s1 s2
    · have s1 : (GameLoop.drain^[k] acc + k * FIXED_DT) * (1 - 1 / 2 ^ 53)
          ≤ GameLoop.drain (GameLoop.drain^[k] acc) + ((k + 1 : ℕ) : ℚ) * FIXED_DT := by
        push_cast
        have : (GameLoop.drain^[k] acc + k * FIXED_DT) * (1 - 1 / 2 ^ 53)
            = GameLoop.drain^[k] acc * (1 - 1 / 2 ^ 53) + k * FIXED_DT
              - k * FIXED_DT * (1 / 2 ^ 53) := by ring
        rw [this]
        have : 0 ≤ (k : ℚ) * FIXED_DT * (1 / 2 ^ 53) := mul_nonneg hkd (le_of_lt hu)
        linarith
      have s2 := mul_le_mul_of_nonneg_right i2 hu1
      rw [pow_succ, ← mul_assoc]
      exact le_trans s2 s1

/-- Eight passes lose or gain less than a relative `2^-49`. -/
theorem GameLoop.eight_roundings (k : ℕ) (hk : k ≤ 8) :
    (1 + 1 / 2 ^ 53 : ℚ) ^ k ≤ 1 + 1 / 2 ^ 49 ∧ (1 - 1 / 2 ^ 49 : ℚ) ≤ (1 - 1 / 2 ^ 53) ^ k := by
  constructor
  · calc (1 + 1 / 2 ^ 53 : ℚ) ^ k ≤ (1 + 1 / 2 ^ 53) ^ 8 :=
          pow_le_pow_right₀ (by norm_num) hk
      _ ≤ 1 + 1 / 2 ^ 49 := by norm_num
  · calc (1 - 1 / 2 ^ 49 : ℚ) ≤ (1 - 1 / 2 ^ 53) ^ 8 := by norm_num
      _ ≤ (1 - 1 / 2 ^ 53) ^ k :=
          pow_le_pow_of_le_one (by norm_num) (by norm_num) hk

theorem GameLoop.physicsSteps_step (acc : ℚ) (steps : ℕ) (calls : List ℚ) (fuel : ℕ)
    (h : FIXED_DT ≤ acc) (hs : steps < 8) :
    GameLoop.physicsSteps acc steps calls (fuel + 1) =
      GameLoop.physicsSteps (GameLoop.drain acc) (steps + 1) (calls ++ [FIXED_DT_SECONDS])
        fuel := by
  rw [GameLoop.physicsSteps, if_pos ⟨h, hs⟩]

theorem GameLoop.physicsSteps_halt (acc : ℚ) (steps : ℕ) (calls : List ℚ) (fuel : ℕ)
    (h : acc < FIXED_DT) : GameLoop.physicsSteps acc steps calls fuel = (acc, steps, calls) := by
  cases fuel with
  | zero => rfl
  | succ fuel => rw [GameLoop.physicsSteps, if_neg fun hc => absurd hc.1 (not_le.mpr h)]

/-- The method `loop` on a frame that it processes. -/
theorem GameLoop.loop_processed (g : GameLoop) (timestamp : ℚ)
    (hframe : MIN_FRAME_INTERVAL ≤ toDouble (timestamp - g.lastTime)) :
    GameLoop.loop g timestamp =
      ({ g with lastTime := timestamp, lastRenderTime := timestamp,
                accumulator := (GameLoop.physicsSteps (GameLoop.charged g timestamp) 0 []
                  MAX_STEPS_PER_FRAME).1,
                lastPhysicsSteps := (GameLoop.physicsSteps (GameLoop.charged g timestamp) 0 []
                  MAX_STEPS_PER_FRAME).2.1 },
        (GameLoop.physicsSteps (GameLoop.charged g timestamp) 0 [] MAX_STEPS_PER_FRAME).2.2) := by
  have hcap : (if toDouble (timestamp - g.lastTime) > MAX_FRAME_TIME then MAX_FRAME_TIME
      else toDouble (timestamp - g.lastTime))
      = min (toDouble (timestamp - g.lastTime)) MAX_FRAME_TIME := by
    split
    · rename_i h; exact (min_eq_right (le_of_lt h)).symm
    · rename_i h; exact (min_eq_left (not_lt.mp h)).symm
  unfold GameLoop.loop GameLoop.charged
  dsimp only
  rw [if_neg (not_lt.mpr hframe), hcap]

/-- The accumulator of a 100 ms frame after each of the five passes of the drain. -/
theorem GameLoop.drain_100ms :
    GameLoop.drain (100) = 5864062014805333 / 2 ^ 46 ∧
    GameLoop.drain (5864062014805333 / 2 ^ 46) = 2345624805922133 / 2 ^ 45 ∧
    GameLoop.drain (2345624805922133 / 2 ^ 45) = 3518437208883199 / 2 ^ 46 ∧
    GameLoop.drain (3518437208883199 / 2 ^ 46) = 586406201480533 / 2 ^ 44 ∧
    GameLoop.drain (586406201480533 / 2 ^ 44) = 4691249611844261 / 2 ^ 48 := by
  unfold GameLoop.drain
  rw [FIXED_DT_value]
  refine ⟨?_, ?_, ?_, ?_, ?_⟩
  · rw [toDouble_eq_pos _ (6) 5864062014805333 (by norm_num) (by norm_num) (by norm_num)
      (by norm_num) (by norm_num)]
    norm_num
  · rw [toDouble_eq_pos _ (6) 4691249611844266 (by norm_num) (by norm_num) (by norm_num)
      (by norm_num) (by norm_num)]
    norm_num
  · rw [toDouble_eq_tie _ (5) 7036874417766398 (by norm_num) (by norm_num) (by norm_num)
      (by norm_num) (by norm_num)]
    norm_num
  · rw [toDouble_eq_tie _ (5) 4691249611844264 (by norm_num) (by norm_num) (by norm_num)
      (by norm_num) (by norm_num)]
    norm_num
  · rw [toDouble_eq_pos _ (4) 4691249611844261 (by norm_num) (by norm_num) (by norm_num)
      (by norm_num) (by norm_num)]
    norm_num

/-! ## The batch simulation loop -/

section
variable {σ : Type} (body : ℚ → σ → σ) (redDead blueDead : σ → Bool) (speed : ℚ)

/-- The loop adds at most `fuel` iterations. -/
theorem battleLoop_iterations (fuel : ℕ) (t : ℚ) (it : ℕ) (s : σ) :
    it ≤ (battleLoop body redDead blueDead speed fuel t it s).iterations ∧
    (battleLoop body redDead blueDead speed fuel t it s).iterations ≤ it + fuel := by
  induction fuel generalizing t it s with
  | zero => simp [battleLoop]
  | succ fuel ih =>
    unfold battleLoop
    dsimp only
    split
    · split
      · exact ⟨by dsimp only; omega, by dsimp only; omega⟩
      split
      · exact ⟨by dsimp only; omega, by dsimp only; omega⟩
      split
      · exact ⟨by dsimp only; omega, by dsimp only; omega⟩
      obtain ⟨h1, h2⟩ := ih (advanceClock speed t) (it + 1) (body (advanceClock speed t) s)
      exact ⟨by omega, by omega⟩
    · simp

/-- The loop stops at the latest when the clock has reached the hard limit. -/
theorem battleLoop_stops (fuel : ℕ) (t : ℚ) (it : ℕ) (s : σ) (n : ℕ)
    (h : HARD_LIMIT ≤ (advanceClock speed)^[n] t) :
    (battleLoop body redDead blueDead speed fuel t it s).iterations ≤ it + n := by
  induction fuel generalizing t it s n with
  | zero => simp [battleLoop]
  | succ fuel ih =>
    unfold battleLoop
    dsimp only
    split
    · rename_i hlt
      cases n with
      | zero => exact absurd h (not_le.mpr hlt)
      | succ n =>
        split
        · dsimp only; omega
        split
        · dsimp only; omega
        split
        · dsimp only; omega
        have := ih (advanceClock speed t) (it + 1) (body (advanceClock speed t) s) n
          (by rw [← Function.iterate_succ_apply]; exact h)
        omega
    · dsimp only; omega

/-- The loop runs as long as the clock is below the hard limit, nobody dies and the fuel
lasts. -/
theorem battleLoop_runs (halive : ∀ s, redDead s = false ∧ blueDead s = false) (n : ℕ)
    (fuel : ℕ) (t : ℚ) (it : ℕ) (s : σ) (hfuel : n ≤ fuel)
    (h : ∀ j, j < n → (advanceClock speed)^[j] t < HARD_LIMIT) :
    it + n ≤ (battleLoop body redDead blueDead speed fuel t it s).iterations := by
  induction n generalizing fuel t it s with
  | zero => exact (battleLoop_iterations body redDead blueDead speed fuel t it s).1
  | succ n ih =>
    cases fuel with
    | zero => omega
    | succ fuel =>
      unfold battleLoop
      dsimp only
      have h0 : t < HARD_LIMIT := h 0 (Nat.succ_pos n)
      rw [if_pos h0, (halive _).1, (halive _).2]
      simp only [Bool.not_false, Bool.not_true, Bool.and_self, Bool.false_eq_true, if_false]
      have := ih fuel (advanceClock speed t) (it + 1) (body (advanceClock speed t) s) (by omega)
        (fun j hj => by
          rw [← Function.iterate_succ_apply]
          exact h (j + 1) (by omega))
      omega

/-- While the clock is below the hard limit, an advance by a positive speed loses less than
`(15000 + speed) / 2^53 + 2^-1075` to the rounding. -/
theorem advanceClock_ge (t : ℚ) (ht0 : 0 ≤ t) (ht : t < HARD_LIMIT) (hs : 0 < speed) :
    0 ≤ advanceClock speed t ∧
    t + speed - ((15000 + speed) / 2 ^ 53 + 1 / 2 ^ 1075) ≤ advanceClock speed t := by
  have hx : 0 ≤ t + speed := by linarith
  obtain ⟨l, -⟩ := toDouble_bounds (t + speed) hx
  unfold advanceClock
  refine ⟨toDouble_nonneg _ hx, ?_⟩
  have h15 : t < 15000 := ht
  have : (t + speed) / 2 ^ 53 ≤ (15000 + speed) / 2 ^ 53 :=
    div_le_div_of_nonneg_right (by linarith) (by positivity)
  linarith

/-- The clock reaches the hard limit within `k` advances, or has gained `speed` less the
rounding loss in each of them. -/
theorem advanceClock_iterate (hs : 0 < speed) (k : ℕ) :
    (∃ n, n ≤ k ∧ HARD_LIMIT ≤ (advanceClock speed)^[n] 0) ∨
    (0 ≤ (advanceClock speed)^[k] 0 ∧
      k * (speed - ((15000 + speed) / 2 ^ 53 + 1 / 2 ^ 1075)) ≤ (advanceClock speed)^[k] 0) := by
  induction k with
  | zero => right; simp
  | succ k ih =>
    rcases ih with ⟨n, hn, h⟩ | ⟨h0, h1⟩
    · exact Or.inl ⟨n, by omega, h⟩
    · by_cases hlim : (advanceClock speed)^[k] 0 < HARD_LIMIT
      · right
        obtain ⟨a0, a1⟩ := advanceClock_ge speed _ h0 hlim hs
        rw [Function.iterate_succ_apply']
        refine ⟨a0, ?_⟩
        push_cast
        linarith
      · exact Or.inl ⟨k, by omega, not_lt.mp hlim⟩

/-- With a positive speed the clock reaches the hard limit within `ceil(15000 / speed) + 1`
advances, when that number is at most 49999. -/
theorem advanceClock_reaches (hs : 0 < speed) (hn : ⌈15000 / speed⌉.toNat + 1 ≤ 49999) :
    ∃ n, n ≤ ⌈15000 / speed⌉.toNat + 1 ∧ HARD_LIMIT ≤ (advanceClock speed)^[n] 0 := by
  rcases advanceClock_iterate speed hs (⌈15000 / speed⌉.toNat + 1) with h | ⟨-, h⟩
  · exact h
  · refine ⟨_, le_refl _, le_trans ?_ h⟩
    -- the exact sum is at least 15000 + speed, the loss at most speed
    have hc0 : (0 : ℤ) ≤ ⌈15000 / speed⌉ := Int.ceil_nonneg (div_nonneg (by norm_num) hs.le)
    have hc : (15000 / speed : ℚ) ≤ ((⌈15000 / speed⌉.toNat : ℕ) : ℚ) := by
      have h1 : (15000 / speed : ℚ) ≤ ((⌈15000 / speed⌉ : ℤ) : ℚ) := Int.le_ceil _
      have h2 : ((⌈15000 / speed⌉.toNat : ℕ) : ℤ) = ⌈15000 / speed⌉ := Int.toNat_of_nonneg hc0
      have h3 : ((⌈15000 / speed⌉.toNat : ℕ) : ℚ) = ((⌈15000 / speed⌉ : ℤ) : ℚ) := by
        rw [← Int.cast_natCast, h2]
      rw [h3]; exact h1
    generalize ⌈15000 / speed⌉.toNat = n at hn hc h
    have hns : 15000 ≤ (n : ℚ) * speed := by
      rw [div_le_iff₀ hs] at hc
      exact hc
    have hnq : (n : ℚ) ≤ 49998 := by
      have : n ≤ 49998 := by omega
      exact_mod_cast this
    have hsl : (3 / 10 : ℚ) ≤ speed := by
      by_contra hlt
      have hlt' : speed < 3 / 10 := not_le.mp hlt
      have : (n : ℚ) * speed ≤ 49998 * speed := mul_le_mul_of_nonneg_right hnq hs.le
      linarith
    have hd0 : (0 : ℚ) ≤ (15000 + speed) / 2 ^ 53 + 1 / 2 ^ 1075 := by positivity
    have hloss : ((n + 1 : ℕ) : ℚ) * ((15000 + speed) / 2 ^ 53 + 1 / 2 ^ 1075) ≤ speed := by
      have h1 : ((n + 1 : ℕ) : ℚ) ≤ 49999 := by push_cast; linarith
      have h2 := mul_le_mul_of_nonneg_right h1 hd0
      have h3 : (49999 : ℚ) * ((15000 + speed) / 2 ^ 53 + 1 / 2 ^ 1075)
          = 49999 * 15000 / 2 ^ 53 + 49999 / 2 ^ 1075 + speed * (49999 / 2 ^ 53) := by ring
      have h4 : (49999 : ℚ) * 15000 / 2 ^ 53 + 49999 / 2 ^ 1075 ≤ 1 / 10 := by norm_num
      have h5 : speed * (49999 / 2 ^ 53 : ℚ) ≤ speed * (1 / 10) :=
        mul_le_mul_of_nonneg_left (by norm_num) hs.le
      linarith
    show (15000 : ℚ) ≤ _
    have e : ((n + 1 : ℕ) : ℚ) * (speed - ((15000 + speed) / 2 ^ 53 + 1 / 2 ^ 1075))
        = n * speed + speed
          - ((n + 1 : ℕ) : ℚ) * ((15000 + speed) / 2 ^ 53 + 1 / 2 ^ 1075) := by
      push_cast; ring
    rw [e]
    linarith

/-- The winner that the loop assigns is decided by the two `dead` flags of the final state,
and the loop leaves `winner` unset only with both gladiators alive or before any iteration. -/
theorem battleLoop_winner (fuel : ℕ) (t : ℚ) (it : ℕ) (s : σ) :
    ((battleLoop body redDead blueDead speed fuel t it s).winner = none →
      (it < (battleLoop body redDead blueDead speed fuel t it s).iterations →
        redDead (battleLoop body redDead blueDead speed fuel t it s).state = false ∧
        blueDead (battleLoop body redDead blueDead speed fuel t it s).state = false) ∧
      ((battleLoop body redDead blueDead speed fuel t it s).iterations = it + fuel ∨
        HARD_LIMIT ≤ (battleLoop body redDead blueDead speed fuel t it s).simulatedTime)) ∧
    (∀ v, (battleLoop body redDead blueDead speed fuel t it s).winner = some v →
      (v = .draw ↔ (redDead (battleLoop body redDead blueDead speed fuel t it s).state = true ∧
        blueDead (battleLoop body redDead blueDead speed fuel t it s).state = true)) ∧
      (v = .blue ↔ (redDead (battleLoop body redDead blueDead speed fuel t it s).state = true ∧
        blueDead (battleLoop body redDead blueDead speed fuel t it s).state = false)) ∧
      (v = .red ↔ (redDead (battleLoop body redDead blueDead speed fuel t it s).state = false ∧
        blueDead (battleLoop body redDead blueDead speed fuel t it s).state = true))) := by
  induction fuel generalizing t it s with
  | zero => simp [battleLoop]
  | succ fuel ih =>
    unfold battleLoop
    dsimp only
    split
    · split
      · rename_i h1
        simp only [Bool.not_not, Bool.and_eq_true] at h1
        simp [h1.1, h1.2]
      rename_i h1
      split
      · rename_i h2
        simp only [Bool.not_not, Bool.and_eq_true, not_and] at h1 h2
        simp [h2, h1 h2]
      rename_i h2
      split
      · rename_i h3
        simp only [Bool.not_not, Bool.and_eq_true, not_and, Bool.not_eq_true] at h1 h2 h3
        simp [h2, h3]
      rename_i h3
      simp only [Bool.not_not, Bool.not_eq_true] at h2 h3
      obtain ⟨ha, hb⟩ := ih (advanceClock speed t) (it + 1) (body (advanceClock speed t) s)
      refine ⟨fun hn => ⟨fun _ => ?_, ?_⟩, hb⟩
      · have hge := (battleLoop_iterations body redDead blueDead speed fuel (advanceClock speed t) (it + 1)
          (body (advanceClock speed t) s)).1
        rcases Nat.eq_or_lt_of_le hge with heq | hgt
        · cases fuel with
          | zero => simp only [battleLoop]; exact ⟨h2, h3⟩
          | succ n =>
            have hz := ha hn
            revert heq hn
            unfold battleLoop
            dsimp only
            split
            · split
              · simp
              split
              · simp
              split
              · simp
              intro heq
              have := (battleLoop_iterations body redDead blueDead speed n
                (advanceClock speed (advanceClock speed t)) (it + 1 + 1) (body (advanceClock speed (advanceClock speed t))
                  (body (advanceClock speed t) s))).1
              omega
            · intro _ _; exact ⟨h2, h3⟩
        · exact (ha hn).1 hgt
      · rcases (ha hn).2 with h | h
        · left; omega
        · right; exact h
    · rename_i hlt
      simp only [not_lt] at hlt
      simp [hlt]

end

/-- The clock of a battle run at `exSpeed` after each of its first ten advances. -/
theorem advanceClock_exSpeed :
    advanceClock exSpeed (0) = 7330077518506667 / 2 ^ 42 ∧
    advanceClock exSpeed (7330077518506667 / 2 ^ 42) = 7330077518506667 / 2 ^ 41 ∧
    advanceClock exSpeed (7330077518506667 / 2 ^ 41) = 5000 ∧
    advanceClock exSpeed (5000) = 7330077518506667 / 2 ^ 40 ∧
    advanceClock exSpeed (7330077518506667 / 2 ^ 40) = 4581298449066667 / 2 ^ 39 ∧
    advanceClock exSpeed (4581298449066667 / 2 ^ 39) = 10000 ∧
    advanceClock exSpeed (10000) = 6413817828693333 / 2 ^ 39 ∧
    advanceClock exSpeed (6413817828693333 / 2 ^ 39) = 3665038759253333 / 2 ^ 38 ∧
    advanceClock exSpeed (3665038759253333 / 2 ^ 38) = 8246337208319999 / 2 ^ 39 ∧
    advanceClock exSpeed (8246337208319999 / 2 ^ 39) = 2290649224533333 / 2 ^ 37 := by
  unfold advanceClock exSpeed
  refine ⟨?_, ?_, ?_, ?_, ?_, ?_, ?_, ?_, ?_, ?_⟩
  · rw [toDouble_eq_pos _ (10) 7330077518506667 (by norm_num) (by norm_num) (by norm_num)
      (by norm_num) (by norm_num)]
    norm_num
  · rw [toDouble_eq_pos _ (11) 7330077518506667 (by norm_num) (by norm_num) (by norm_num)
      (by norm_num) (by norm_num)]
    norm_num
  · rw [toDouble_eq_pos _ (12) 5497558138880000 (by norm_num) (by norm_num) (by norm_num)
      (by norm_num) (by norm_num)]
    norm_num
  · rw [toDouble_eq_pos _ (12) 7330077518506667 (by norm_num) (by norm_num) (by norm_num)
      (by norm_num) (by norm_num)]
    norm_num
  · rw [toDouble_eq_pos _ (13) 4581298449066667 (by norm_num) (by norm_num) (by norm_num)
      (by norm_num) (by norm_num)]
    norm_num
  · rw [toDouble_eq_pos _ (13) 5497558138880000 (by norm_num) (by norm_num) (by norm_num)
      (by norm_num) (by norm_num)]
    norm_num
  · rw [toDouble_eq_pos _ (13) 6413817828693333 (by norm_num) (by norm_num) (by norm_num)
      (by norm_num) (by norm_num)]
    norm_num
  · rw [toDouble_eq_pos _ (13) 7330077518506666 (by norm_num) (by norm_num) (by norm_num)
      (by norm_num) (by norm_num)]
    norm_num
  · rw [toDouble_eq_pos _ (13) 8246337208319999 (by norm_num) (by norm_num) (by norm_num)
      (by norm_num) (by norm_num)]
    norm_num
  · rw [toDouble_eq_pos _ (14) 4581298449066666 (by norm_num) (by norm_num) (by norm_num)
      (by norm_num) (by norm_num)]
    norm_num

/-! ## Class keys -/

theorem ClassKey.ofKey_key (c : ClassKey) : ClassKey.ofKey c.key = some c := by
  cases c <;> rfl

theorem ClassKey.ofKey_eq_some (key : String) (c : ClassKey) (h : ClassKey.ofKey key = some c) :
    c.key = key := by
  have := List.find?_some h
  simpa using this

theorem ClassKey.ofKey_eq_none (key : String) (h : ∀ c : ClassKey, c.key ≠ key) :
    ClassKey.ofKey key = none := by
  cases hk : ClassKey.ofKey key with
  | none => rfl
  | some c => exact absurd (ClassKey.ofKey_eq_some key c hk) (h c)

theorem Gladiator.new_of_key (E : Env) (rng : ℕ) (x y : ℚ) (elementType : ℕ) (team : Team)
    (c : ClassKey) :
    ∃ e n, Gladiator.new E rng x y c.key elementType team = some (e, .registry c, n) ∧
      e.className = c ∧ e.maxHp = CLASSES_hp c ∧ e.hp = CLASSES_hp c := by
  unfold Gladiator.new Entity.new getGladiatorModule
  rw [ClassKey.ofKey_key]
  dsimp only
  refine ⟨_, _, rfl, ?_⟩
  cases hs : defaultMovementStrategy c with
  | none => dsimp only [World.ent, List.getD]; simp
  | some s =>
    dsimp only
    cases s <;> simp [setMovementStrategy, World.ent, World.modify, World.tick]

/-! ## A single hit, seen from the call on -/

section
variable {R : Entity → Entity → Prop} {S : ℕ → Prop} {w w1 : World}

theorem takeDamageCore_after_log (hR : RightKeepsId R) (nested : World → ℕ → ℚ → World)
    (E : Env) (t : ℕ) (attacker : Option ℕ) (amount : ℚ) (ht : S t)
    (ha : ∀ a, attacker = some a → S a)
    (hn : ∀ w2 a r, attacker = some a → Step R S w w2 → Step R S w (nested w2 a r))
    (hl : Step R S w (w1.log (.takeDamage t amount attacker))) :
    Step R S w (takeDamageCore nested E w1 t amount attacker).1 := by
  unfold takeDamageCore
  dsimp only
  split
  · exact (onDamageTakenPre_step hR.toRightKeeps E t amount ht hl).modify_keeps
      hR.toRightKeeps ht (gainXp_keeps 30)
  · refine Step.tick (Step.modify_id hR ?_ ht ?_)
    swap
    · exact fun _ => ⟨rfl, rfl, rfl, rfl, rfl, rfl, rfl⟩
    exact onDamageTaken_step hR.toRightKeeps nested E t attacker _ ht ha hn
      (onDamageTakenPre_step hR.toRightKeeps E t amount ht hl)

end

/-- From the moment the call of `takeDamage` is on record, it touches the target and the
attacker only. -/
theorem takeDamage_after_log (E : Env) (w : World) (t : ℕ) (amount : ℚ) (attacker : Option ℕ) :
    Step KeepsId (fun j => j = t ∨ attacker = some j) (w.log (.takeDamage t amount attacker))
      (takeDamage E w t amount attacker).1 :=
  takeDamageCore_after_log KeepsId.rightKeepsId _ E t attacker amount (Or.inl rfl)
    (fun _ ha => Or.inr ha)
    (fun _ a r hat h2 => takeDamageNull_step KeepsId.rightKeepsId E a r (Or.inr hat) h2)
    (Step.refl KeepsId.rightKeepsId.toRightKeeps _)

theorem onDamageTaken_none (nested nested' : World → ℕ → ℚ → World) (E : Env) (w : World)
    (t : ℕ) (amount : ℚ) :
    onDamageTaken nested E w t none amount = onDamageTaken nested' E w t none amount := by
  unfold onDamageTaken
  split <;> rfl

theorem takeDamage_none (E : Env) (w : World) (t : ℕ) (amount : ℚ) :
    takeDamage E w t amount none = takeDamageNull E w t amount := by
  unfold takeDamage takeDamageNull takeDamageCore
  simp only [onDamageTaken_none _ (fun w _ _ => w)]

/-- A hit with a `null` attacker, from the moment the call is on record, touches the target
only. -/
theorem takeDamage_none_after_log (E : Env) (w : World) (t : ℕ) (amount : ℚ) :
    Step KeepsId (fun j => j = t) (w.log (.takeDamage t amount none))
      (takeDamage E w t amount none).1 :=
  (takeDamage_after_log E w t amount none).mono fun j hj => by
    rcases hj with h | h
    · exact h
    · cases h

/-! ## Sweeps over the entity array -/

theorem Swept.start (T X : ℕ → Prop) (H : ℕ → ℚ → Prop) (amount : ℚ) (w0 : World) :
    Swept T X H amount w0 0 w0 :=
  ⟨le_refl _, fun j _ => KeepsId.reflId _, fun j _ _ => Keeps.reflKeeps _, fun _ _ _ _ => rfl,
    fun j hj _ => absurd hj (Nat.not_lt_zero j), ⟨[], by simp, by simp, by simp⟩⟩

theorem Swept.skip {T X : ℕ → Prop} {H : ℕ → ℚ → Prop} {amount : ℚ} {w0 w1 : World} {i : ℕ}
    (hs : Swept T X H amount w0 i w1) (hT : ¬ T i) : Swept T X H amount w0 (i + 1) w1 := by
  have hiff : ∀ j, (T j ∧ j < i + 1) ↔ (T j ∧ j < i) := by
    intro j
    constructor
    · rintro ⟨h1, h2⟩
      refine ⟨h1, ?_⟩
      rcases Nat.lt_succ_iff_lt_or_eq.mp h2 with h | h
      · exact h
      · exact absurd (h ▸ h1) hT
    · rintro ⟨h1, h2⟩; exact ⟨h1, Nat.lt_succ_of_lt h2⟩
  refine ⟨hs.len, hs.id, fun j hj hn => hs.keeps j hj fun h => hn ((hiff j).mpr h),
    fun j hj hn hx => hs.same j hj (fun h => hn ((hiff j).mpr h)) hx, ?_, ?_⟩
  · intro j hj hTj
    exact hs.hit j ((hiff j).mp ⟨hTj, hj⟩).2 hTj
  · obtain ⟨evs, h1, h2, h3⟩ := hs.trace
    refine ⟨evs, h1, fun ev hev => ⟨(h2 ev hev).1, Nat.lt_succ_of_lt (h2 ev hev).2⟩, ?_⟩
    intro k hk hTk
    exact h3 k ((hiff k).mp ⟨hTk, hk⟩).2 hTk

theorem Swept.strike {T X : ℕ → Prop} {H : ℕ → ℚ → Prop} {amount : ℚ} {w0 w1 w2 w3 : World}
    {i : ℕ} (hs : Swept T X H amount w0 i w1) (hi : i < w0.ents.length) (hT : T i)
    (h1 : Step KeepsId (fun j => j = i) (w1.log (.takeDamage i amount none)) w2)
    (hH : H i (w2.ent i).hp) (h2 : Step Keeps X w2 w3) (htr : w3.trace = w2.trace) :
    Swept T X H amount w0 (i + 1) w3 := by
  have hl1 : ∀ j, j < w0.ents.length → j < (w1.log (.takeDamage i amount none)).ents.length :=
    fun j hj => lt_of_lt_of_le hj hs.len
  have hl2 : ∀ j, j < w0.ents.length → j < w2.ents.length :=
    fun j hj => lt_of_lt_of_le (hl1 j hj) h1.len
  have hne : ∀ j, ¬ (T j ∧ j < i + 1) → j ≠ i := fun j hn hji => hn ⟨hji ▸ hT, hji ▸ Nat.lt_succ_self i⟩
  have hold : ∀ j, ¬ (T j ∧ j < i + 1) → ¬ (T j ∧ j < i) :=
    fun j hn h => hn ⟨h.1, Nat.lt_succ_of_lt h.2⟩
  refine ⟨le_trans (le_trans hs.len h1.len) h2.len, ?_, ?_, ?_, ?_, ?_⟩
  · intro j hj
    exact ((hs.id j hj).transId (h1.rel j (hl1 j hj))).transId (h2.rel j (hl2 j hj)).toKeepsId
  · intro j hj hn
    have e : w2.ent j = w1.ent j := h1.frame j (hl1 j hj) (hne j hn)
    have k3 := h2.rel j (hl2 j hj)
    rw [e] at k3
    exact (hs.keeps j hj (hold j hn)).transKeeps k3
  · intro j hj hn hx
    rw [h2.frame j (hl2 j hj) hx, h1.frame j (hl1 j hj) (hne j hn)]
    exact hs.same j hj (hold j hn) hx
  · intro j hj hTj
    rw [(h2.rel j (hl2 j (lt_of_lt_of_le hj (Nat.succ_le_of_lt hi)))).hp]
    rcases Nat.lt_succ_iff_lt_or_eq.mp hj with h | h
    · have hjl : j < w0.ents.length := lt_trans h hi
      rw [h1.frame j (hl1 j hjl) (ne_of_lt h)]
      exact hs.hit j h hTj
    · rw [h]; exact hH
  · obtain ⟨evs, e1, e2, e3⟩ := hs.trace
    obtain ⟨evs2, f1, f2⟩ := h1.trace
    refine ⟨evs ++ (Ev.takeDamage i amount none :: evs2), ?_, ?_, ?_⟩
    · rw [htr, f1, World.log_trace, e1]; simp
    · intro ev hev
      rcases List.mem_append.mp hev with h | h
      · exact ⟨(e2 ev h).1, Nat.lt_succ_of_lt (e2 ev h).2⟩
      · rcases List.mem_cons.mp h with h | h
        · rw [h]; exact ⟨hT, Nat.lt_succ_self i⟩
        · have := f2 ev h
          rw [this]; exact ⟨hT, Nat.lt_succ_self i⟩
    · intro k hk hTk
      rcases Nat.lt_succ_iff_lt_or_eq.mp hk with h | h
      · exact List.mem_append_left _ (e3 k h hTk)
      · rw [h]; exact List.mem_append_right _ (List.mem_cons_self _ _)

/-- A loop over the indices `0 .. n - 1` whose body leaves the state alone outside `T` and, on
an index in `T`, makes one hit followed by changes that keep the hit points of the entities in
`X`. -/
theorem Swept.foldl {T X : ℕ → Prop} {H : ℕ → ℚ → Prop} {amount : ℚ} {w0 : World}
    (f : World → ℕ → World)
    (hskip : ∀ w1 i, i < w0.ents.length → Swept T X H amount w0 i w1 → ¬ T i → f w1 i = w1)
    (hhit : ∀ w1 i, i < w0.ents.length → Swept T X H amount w0 i w1 → T i →
      ∃ w2, Step KeepsId (fun j => j = i) (w1.log (.takeDamage i amount none)) w2 ∧
        H i (w2.ent i).hp ∧ Step Keeps X w2 (f w1 i) ∧ (f w1 i).trace = w2.trace)
    (n : ℕ) (hn : n ≤ w0.ents.length) :
    Swept T X H amount w0 n ((List.range n).foldl f w0) := by
  induction n with
  | zero => exact Swept.start T X H amount w0
  | succ n ih =>
    have hs := ih (Nat.le_of_succ_le hn)
    rw [List.range_succ, List.foldl_append]
    simp only [List.foldl_cons, List.foldl_nil]
    by_cases hT : T n
    · obtain ⟨w2, h1, hH, h2, htr⟩ := hhit _ n hn hs hT
      exact hs.strike hn hT h1 hH h2 htr
    · rw [hskip _ n hn hs hT]
      exact hs.skip hT

/-! ## The two sweeps of the program -/

theorem takeDamage_none_plain (E : Env) (w : World) (t : ℕ) (amount : ℚ)
    (ht : t < w.ents.length) (hinv : (w.ent t).invulnerable = false)
    (halt : altersIncomingDamage (w.ent t).className = false) :
    ((takeDamage E w t amount none).1.ent t).hp = (w.ent t).hp - amount := by
  rw [takeDamage_none]
  exact takeDamageNull_plain E w t amount ht hinv halt

theorem takeDamage_none_blocked (E : Env) (w : World) (t : ℕ) (amount : ℚ)
    (ht : t < w.ents.length) (hinv : (w.ent t).invulnerable = true)
    (hpre : hasOnDamageTakenPre (w.ent t).className = false) :
    ((takeDamage E w t amount none).1.ent t).hp = (w.ent t).hp := by
  rw [takeDamage_none]
  unfold takeDamageNull takeDamageCore
  simp only [onDamageTakenPre_of_noHook E (w.log (.takeDamage t amount none)) t amount hpre,
    World.log_ent, hinv, if_true]
  exact (congrArg Entity.hp
    (World.ent_modify_self (w.log (.takeDamage t amount none)) t (gainXp 30) ht)).trans rfl

/-- What is known of the hit points of an entity after a hit of `amount` with a `null`
attacker: unchanged under a shield, lowered by the amount when no hook alters it. -/
theorem takeDamage_none_hp (E : Env) (w : World) (t : ℕ) (amount : ℚ) (e0 : Entity)
    (ht : t < w.ents.length) (he : w.ent t = e0) :
    (e0.invulnerable = true → hasOnDamageTakenPre e0.className = false →
      ((takeDamage E w t amount none).1.ent t).hp = e0.hp) ∧
    (e0.invulnerable = false → altersIncomingDamage e0.className = false →
      ((takeDamage E w t amount none).1.ent t).hp = e0.hp - amount) := by
  subst he
  exact ⟨takeDamage_none_blocked E w t amount ht, takeDamage_none_plain E w t amount ht⟩

/-- The explosion loop of `Projectile.die` as a sweep: the targets are the entities of
another team than the owner's at a distance below 34. -/
theorem explosion_sweep (E : Env) (w : World) (p : Projectile) (hown : p.owner < w.ents.length) :
    Swept
      (fun k => (w.ent k).team ≠ (w.ent p.owner).team ∧
        E.hypot ((w.ent k).x - p.x) ((w.ent k).y - p.y) < 34)
      (fun j => j = p.owner)
      (fun k h =>
        ((w.ent k).invulnerable = true → hasOnDamageTakenPre (w.ent k).className = false →
          h = (w.ent k).hp) ∧
        ((w.ent k).invulnerable = false → altersIncomingDamage (w.ent k).className = false →
          h = (w.ent k).hp - p.damage))
      p.damage w w.ents.length ((List.range w.ents.length).foldl (Projectile.explode E p) w) := by
  refine Swept.foldl (Projectile.explode E p) ?_ ?_ _ (le_refl _)
  · intro w1 i hi hs hT
    have ht1 : (w1.ent i).team = (w.ent i).team := (hs.id i hi).team
    have ht2 : (w1.ent p.owner).team = (w.ent p.owner).team := (hs.id _ hown).team
    unfold Projectile.explode
    by_cases hteam : (w.ent i).team = (w.ent p.owner).team
    · rw [if_pos (by rw [ht1, ht2]; exact hteam)]
    · rw [if_neg (by rw [ht1, ht2]; exact hteam)]
      have hio : i ≠ p.owner := fun h => hteam (h ▸ rfl)
      have hsame : w1.ent i = w.ent i := hs.same i hi (fun h => Nat.lt_irrefl i h.2) hio
      dsimp only
      rw [hsame, if_neg (fun h => hT ⟨hteam, h⟩)]
  · intro w1 i hi hs hT
    have ht1 : (w1.ent i).team = (w.ent i).team := (hs.id i hi).team
    have ht2 : (w1.ent p.owner).team = (w.ent p.owner).team := (hs.id _ hown).team
    have hio : i ≠ p.owner := fun h => hT.1 (h ▸ rfl)
    have hsame : w1.ent i = w.ent i := hs.same i hi (fun h => Nat.lt_irrefl i h.2) hio
    have hi1 : i < w1.ents.length := lt_of_lt_of_le hi hs.len
    refine ⟨(takeDamage E w1 i p.damage none).1, takeDamage_none_after_log E w1 i p.damage,
      takeDamage_none_hp E w1 i p.damage (w.ent i) hi1 hsame, ?_, ?_⟩
    · unfold Projectile.explode
      rw [if_neg (by rw [ht1, ht2]; exact hT.1)]
      dsimp only
      rw [hsame, if_pos hT.2]
      have h0 : Step Keeps (fun j => j = p.owner) (takeDamage E w1 i p.damage none).1
          (takeDamage E w1 i p.damage none).1 := Step.refl Keeps.rightKeeps _
      refine h0.modify_keeps Keeps.rightKeeps (show (fun j => j = p.owner) p.owner from rfl) ?_
      exact fun _ => ⟨⟨rfl, rfl, rfl, rfl, rfl, rfl, rfl⟩, rfl⟩
    · unfold Projectile.explode
      rw [if_neg (by rw [ht1, ht2]; exact hT.1)]
      dsimp only
      rw [hsame, if_pos hT.2]
      rfl

/-- The `forEach` of the sudden-death block as a sweep: the targets are the entities whose
`dead` flag is not set. -/
theorem suddenDeath_sweep (E : Env) (w : World) (damage : ℚ) :
    Swept (fun k => (w.ent k).dead = false) (fun _ => False)
      (fun k h =>
        ((w.ent k).invulnerable = true → hasOnDamageTakenPre (w.ent k).className = false →
          h = (w.ent k).hp) ∧
        ((w.ent k).invulnerable = false → altersIncomingDamage (w.ent k).className = false →
          h = (w.ent k).hp - damage))
      damage w w.ents.length ((List.range w.ents.length).foldl (suddenDeathHit E damage) w) := by
  refine Swept.foldl (suddenDeathHit E damage) ?_ ?_ _ (le_refl _)
  · intro w1 i hi hs hT
    have hsame : w1.ent i = w.ent i := hs.same i hi (fun h => Nat.lt_irrefl i h.2) id
    unfold suddenDeathHit
    rw [hsame]
    simp only [Bool.not_eq_false] at hT
    simp [hT]
  · intro w1 i hi hs hT
    have hsame : w1.ent i = w.ent i := hs.same i hi (fun h => Nat.lt_irrefl i h.2) id
    have hi1 : i < w1.ents.length := lt_of_lt_of_le hi hs.len
    have hf : suddenDeathHit E damage w1 i = (takeDamage E w1 i damage none).1 := by
      unfold suddenDeathHit
      rw [hsame]
      simp [hT]
    refine ⟨(takeDamage E w1 i damage none).1, takeDamage_none_after_log E w1 i damage,
      takeDamage_none_hp E w1 i damage (w.ent i) hi1 hsame, ?_, ?_⟩
    · rw [hf]; exact Step.refl Keeps.rightKeeps _
    · rw [hf]

/-- The update that ends the fuse of a bomb runs the explosion loop. -/
theorem Projectile.update_bomb (E : Env) (w : World) (p : Projectile) (hbomb : p.type = .bomb)
    (hlife : p.life - 1 ≤ 0) :
    Projectile.update E w p =
      ((List.range w.ents.length).foldl (Projectile.explode E p) w,
        { p with prevX := p.x, prevY := p.y, life := p.life - 1, dead := true }) := by
  unfold Projectile.update Projectile.die
  simp only [hlife, if_true, hbomb]
  rfl

/-- The sudden-death block once the advanced duration exceeds the threshold. -/
theorem suddenDeath_active (E : Env) (s : GameState) (ts : ℚ) (hact : s.combatLoopActive = true)
    (hsd : 3600 < s.combatDuration + ts) :
    suddenDeath E s ts =
      { s with
        combatDuration := s.combatDuration + ts
        world := (List.range s.world.ents.length).foldl
          (suddenDeathHit E ((8 + (s.combatDuration + ts - 3600) / 30) * ts)) s.world } := by
  have h30 : (0 : ℚ) ≤ (s.combatDuration + ts - 3600) / 30 :=
    div_nonneg (by linarith) (by norm_num)
  have hd : suddenDeathDamage (s.combatDuration + ts) ts
      = (8 + (s.combatDuration + ts - 3600) / 30) * ts := by
    unfold suddenDeathDamage SUDDEN_DEATH_FRAMES
    norm_num
    left
    exact h30
  unfold suddenDeath
  rw [if_pos hact]
  dsimp only
  rw [if_pos (by unfold SUDDEN_DEATH_FRAMES; norm_num; exact hsd), hd]

/-! ## The swept collision test -/

/-- The clamped parameter is a point of least squared distance on the segment. -/
theorem segment_clamp_minimal (abx aby acx acy L s : ℚ) (hL : L = abx * abx + aby * aby)
    (hpos : 0 < L) (hs0 : 0 ≤ s) (hs1 : s ≤ 1) :
    (acx - abx * max 0 (min 1 ((acx * abx + acy * aby) / L))) ^ 2 +
        (acy - aby * max 0 (min 1 ((acx * abx + acy * aby) / L))) ^ 2
      ≤ (acx - abx * s) ^ 2 + (acy - aby * s) ^ 2 := by
  have hdot : (acx * abx + acy * aby) / L * L = acx * abx + acy * aby :=
    div_mul_cancel₀ _ (ne_of_gt hpos)
  generalize (acx * abx + acy * aby) / L = p at hdot
  have key : ∀ t : ℚ, (acx - abx * s) ^ 2 + (acy - aby * s) ^ 2 -
      ((acx - abx * t) ^ 2 + (acy - aby * t) ^ 2) = L * (s - t) * (s + t - 2 * p) := by
    intro t
    have : acx * abx + acy * aby = p * L := hdot.symm
    rw [hL] at this ⊢
    linear_combination (-2 * (s - t)) * this
  rcases le_total p 0 with hp | hp
  · have ht : max 0 (min 1 p) = 0 := by
      rw [min_eq_right (le_trans hp zero_le_one), max_eq_left hp]
    rw [ht]
    have := key 0
    nlinarith [mul_nonneg (le_of_lt hpos) hs0, mul_nonneg (mul_nonneg (le_of_lt hpos) hs0) hs0,
      mul_nonneg (mul_nonneg (le_of_lt hpos) hs0) (neg_nonneg.mpr hp)]
  · rcases le_total p 1 with hp1 | hp1
    · have ht : max 0 (min 1 p) = p := by
        rw [min_eq_right hp1, max_eq_right hp]
      rw [ht]
      have := key p
      nlinarith [mul_nonneg (le_of_lt hpos) (sq_nonneg (s - p))]
    · have ht : max 0 (min 1 p) = 1 := by
        rw [min_eq_left hp1, max_eq_right zero_le_one]
      rw [ht]
      have := key 1
      have h1 : 0 ≤ L * (1 - s) := mul_nonneg (le_of_lt hpos) (by linarith)
      nlinarith [mul_nonneg h1 (by linarith : (0 : ℚ) ≤ 1 - s),
        mul_nonneg h1 (by linarith : (0 : ℚ) ≤ p - 1)]

theorem segmentIntersectsCircle_iff (ax ay bx by_ cx cy r : ℚ) :
    segmentIntersectsCircle ax ay bx by_ cx cy r = true ↔
      ∃ s : ℚ, 0 ≤ s ∧ s ≤ 1 ∧
        (cx - (ax + (bx - ax) * s)) ^ 2 + (cy - (ay + (by_ - ay) * s)) ^ 2 ≤ r ^ 2 := by
  unfold segmentIntersectsCircle
  simp only [decide_eq_true_eq]
  constructor
  · intro h
    refine ⟨max 0 (min 1 (((cx - ax) * (bx - ax) + (cy - ay) * (by_ - ay)) /
      (if (bx - ax) * (bx - ax) + (by_ - ay) * (by_ - ay) = 0 then 1 / 1000000
        else (bx - ax) * (bx - ax) + (by_ - ay) * (by_ - ay)))),
      le_max_left _ _, max_le zero_le_one (min_le_left _ _), ?_⟩
    rw [sq, sq, sq]
    exact h
  · rintro ⟨s, hs0, hs1, h⟩
    by_cases hz : (bx - ax) * (bx - ax) + (by_ - ay) * (by_ - ay) = 0
    · have h1 : bx - ax = 0 := by nlinarith [mul_self_nonneg (bx - ax), mul_self_nonneg (by_ - ay)]
      have h2 : by_ - ay = 0 := by nlinarith [mul_self_nonneg (bx - ax), mul_self_nonneg (by_ - ay)]
      rw [h1, h2] at h ⊢
      simp only [zero_mul, add_zero] at h ⊢
      nlinarith
    · rw [if_neg hz]
      have hpos : 0 < (bx - ax) * (bx - ax) + (by_ - ay) * (by_ - ay) :=
        lt_of_le_of_ne (add_nonneg (mul_self_nonneg _) (mul_self_nonneg _)) (Ne.symm hz)
      have := segment_clamp_minimal (bx - ax) (by_ - ay) (cx - ax) (cy - ay) _ s rfl hpos hs0 hs1
      nlinarith

/-! ## First match in an index range -/

theorem find?_range_first (P : ℕ → Bool) (n k : ℕ) (hk : k < n) (hP : P k = true) :
    ∃ j, j ≤ k ∧ (List.range n).find? P = some j ∧ P j = true := by
  induction n with
  | zero => exact absurd hk (Nat.not_lt_zero k)
  | succ n ih =>
    rw [List.range_succ, List.find?_append]
    rcases Nat.lt_succ_iff_lt_or_eq.mp hk with h | h
    · obtain ⟨j, hj, hf, hpj⟩ := ih h
      exact ⟨j, hj, by rw [hf]; rfl, hpj⟩
    · subst h
      cases hf : (List.range k).find? P with
      | none => exact ⟨k, le_refl k, by simp [hP], hP⟩
      | some j =>
        have hmem := List.mem_of_find?_eq_some hf
        exact ⟨j, le_of_lt (List.mem_range.mp hmem), rfl, List.find?_some hf⟩

/-- An arrow or pet that stays alive and whose loop finds the entity `j` hits it. -/
theorem Projectile.update_hit (E : Env) (w : World) (p : Projectile) (j : ℕ)
    (htype : p.type = .arrow ∨ p.type = .pet) (hlife : 0 < p.life - 1)
    (hfind : (List.range w.ents.length).find?
      (Projectile.hits w { p with prevX := p.x, prevY := p.y, life := p.life - 1,
                                  x := p.x + p.vx, y := p.y + p.vy }) = some j) :
    (Projectile.update E w p).2.dead = true ∧
    ∃ evs, (Projectile.update E w p).1.trace
      = w.trace ++ Ev.takeDamage j p.damage (some p.owner) :: evs := by
  have hs := takeDamage_after_log E w j p.damage (some p.owner)
  obtain ⟨evs, h1, -⟩ := hs.trace
  unfold Projectile.update
  dsimp only
  rw [if_neg (not_le.mpr hlife), if_pos htype, hfind]
  dsimp only
  refine ⟨rfl, evs, ?_⟩
  split
  · split
    · simpa using h1
    · simpa using h1
  · simpa using h1

/-! ## The berserker's rage loop -/

/-- The binary64 value of the literal `0.05`. -/
theorem berserker.toDouble_005 : toDouble 0.05 = 3602879701896397 / 2 ^ 56 := by
  rw [toDouble_eq_pos _ (-5) 7205759403792794 (by norm_num) (by norm_num) (by norm_num)
      (by norm_num) (by norm_num)]
  norm_num

/-- The binary64 value of the literal `0.95`. -/
theorem berserker.toDouble_095 : toDouble 0.95 = 4278419646001971 / 2 ^ 52 := by
  rw [toDouble_eq_pos _ (-1) 8556839292003942 (by norm_num) (by norm_num) (by norm_num)
      (by norm_num) (by norm_num)]
  norm_num

/-- The thresholds `0.95`, `0.8999999999999999`, `0.8499999999999999`, `0.7999999999999998`
and `0.7499999999999998` that the code reaches by subtracting `0.05` four times. -/
theorem berserker.nextThreshold_chain :
    berserker.nextThreshold (4278419646001971 / 2 ^ 52) = 2026619832316723 / 2 ^ 51 ∧
    berserker.nextThreshold (2026619832316723 / 2 ^ 51) = 3828059683264921 / 2 ^ 52 ∧
    berserker.nextThreshold (3828059683264921 / 2 ^ 52) = 900719925474099 / 2 ^ 50 ∧
    berserker.nextThreshold (900719925474099 / 2 ^ 50) = 3377699720527871 / 2 ^ 52 := by
  unfold berserker.nextThreshold
  rw [berserker.toDouble_005]
  refine ⟨?_, ?_, ?_, ?_⟩
  · rw [toDouble_eq_pos _ (-1) 8106479329266892 (by norm_num) (by norm_num) (by norm_num)
      (by norm_num) (by norm_num)]
    norm_num
  · rw [toDouble_eq_pos _ (-1) 7656119366529842 (by norm_num) (by norm_num) (by norm_num)
      (by norm_num) (by norm_num)]
    norm_num
  · rw [toDouble_eq_pos _ (-1) 7205759403792792 (by norm_num) (by norm_num) (by norm_num)
      (by norm_num) (by norm_num)]
    norm_num
  · rw [toDouble_eq_pos _ (-1) 6755399441055742 (by norm_num) (by norm_num) (by norm_num)
      (by norm_num) (by norm_num)]
    norm_num

/-- At `10^17` the subtraction of `0.05` is absorbed by the rounding. -/
theorem berserker.nextThreshold_absorbed :
    berserker.nextThreshold (10 ^ 17) = 10 ^ 17 := by
  unfold berserker.nextThreshold
  rw [berserker.toDouble_005]
  rw [toDouble_eq_pos _ (56) 6250000000000000 (by norm_num) (by norm_num) (by norm_num)
      (by norm_num) (by norm_num)]
  norm_num

theorem berserker.rageLoop_stop (amount : ℚ) (n : ℕ) (e : Entity)
    (h : ¬ berserker.pct e amount < e.berserkerNextThreshold) :
    berserker.rageLoop amount n e = e := by
  cases n with
  | zero => rfl
  | succ n => unfold berserker.rageLoop; rw [if_neg h]

theorem berserker.rageLoop_succ (amount : ℚ) (n : ℕ) (e : Entity)
    (h : berserker.pct e amount < e.berserkerNextThreshold) :
    berserker.rageLoop amount (n + 1) e =
      berserker.rageLoop amount n
        { e with berserkerStacks := e.berserkerStacks + 1,
                 invulnTimer := max e.invulnTimer 12,
                 berserkerNextThreshold := berserker.nextThreshold e.berserkerNextThreshold } := by
  rw [berserker.rageLoop, if_pos h]

theorem berserker.rageLoop_add (amount : ℚ) (n m : ℕ) (e : Entity) :
    berserker.rageLoop amount (n + m) e
      = berserker.rageLoop amount m (berserker.rageLoop amount n e) := by
  induction n generalizing e with
  | zero => simp [berserker.rageLoop]
  | succ n ih =>
    by_cases h : berserker.pct e amount < e.berserkerNextThreshold
    · rw [Nat.succ_add, berserker.rageLoop_succ amount _ e h,
        berserker.rageLoop_succ amount n e h]
      exact ih _
    · rw [berserker.rageLoop_stop amount _ e h, berserker.rageLoop_stop amount _ e h,
        berserker.rageLoop_stop amount _ e h]

/-- The effect of `n` passes that all find the post-hit fraction below the threshold. -/
theorem berserker.rageLoop_run (amount : ℚ) (n : ℕ) (e : Entity)
    (h : ∀ i, i < n →
      berserker.pct e amount < berserker.nextThreshold^[i] e.berserkerNextThreshold) :
    (berserker.rageLoop amount n e).berserkerStacks = e.berserkerStacks + n ∧
    (berserker.rageLoop amount n e).berserkerNextThreshold
      = berserker.nextThreshold^[n] e.berserkerNextThreshold ∧
    (berserker.rageLoop amount n e).invulnTimer
      = (if n = 0 then e.invulnTimer else max e.invulnTimer 12) ∧
    berserker.pct (berserker.rageLoop amount n e) amount = berserker.pct e amount := by
  induction n generalizing e with
  | zero => simp [berserker.rageLoop]
  | succ n ih =>
    have h0 := h 0 (Nat.succ_pos n)
    rw [berserker.rageLoop_succ amount n e h0]
    obtain ⟨h1, h2, h3, h4⟩ := ih
      { e with berserkerStacks := e.berserkerStacks + 1,
               invulnTimer := max e.invulnTimer 12,
               berserkerNextThreshold := berserker.nextThreshold e.berserkerNextThreshold } (by
        intro i hi
        have := h (i + 1) (Nat.succ_lt_succ hi)
        rw [Function.iterate_succ_apply] at this
        exact this)
    refine ⟨?_, ?_, ?_, ?_⟩
    · rw [h1]; push_cast; ring
    · rw [h2, Function.iterate_succ_apply]
    · rw [h3, if_neg (Nat.succ_ne_zero n)]
      split
      · rfl
      · dsimp only
        rw [max_assoc, max_self]
    · rw [h4]; rfl

/-- Within `2^40` a pass lowers the threshold by `0.05` up to a rounding error below
`0.0002`. -/
theorem berserker.nextThreshold_bounds (t : ℚ) (h1 : -(2 ^ 40) ≤ t) (h2 : t ≤ 2 ^ 40) :
    t - 0.0502 ≤ berserker.nextThreshold t ∧ berserker.nextThreshold t ≤ t - 0.0498 := by
  have herr := toDouble_err (t - 3602879701896397 / 2 ^ 56)
  have habs : |t - 3602879701896397 / 2 ^ 56| ≤ 2 ^ 40 + 1 := by
    rw [abs_le]
    constructor <;> linarith
  have hb : |t - 3602879701896397 / 2 ^ 56| / 2 ^ 53 + 1 / 2 ^ 1075 ≤ (2 ^ 40 + 1) / 2 ^ 53 + 1 / 2 ^ 1075 := by
    have := div_le_div_of_nonneg_right habs (show (0 : ℚ) ≤ 2 ^ 53 by positivity)
    linarith
  have hsmall : ((2 : ℚ) ^ 40 + 1) / 2 ^ 53 + 1 / 2 ^ 1075 ≤ 0.00013 := by norm_num
  unfold berserker.nextThreshold
  rw [berserker.toDouble_005]
  rw [abs_le] at herr
  constructor
  · have : (0.0502 : ℚ) = 3602879701896397 / 2 ^ 56 + (0.0502 - 3602879701896397 / 2 ^ 56) := by ring
    have hc : (0.00013 : ℚ) ≤ 0.0502 - 3602879701896397 / 2 ^ 56 := by norm_num
    linarith [herr.1]
  · have hc : (0.00013 : ℚ) ≤ 3602879701896397 / 2 ^ 56 - 0.0498 := by norm_num
    linarith [herr.2]

/-- The thresholds passed while the post-hit fraction is below them. -/
theorem berserker.nextThreshold_iterate (t p : ℚ) (hp : -(2 ^ 40) ≤ p) (ht : t ≤ 2 ^ 40) (n : ℕ)
    (h : ∀ j, j < n → p < berserker.nextThreshold^[j] t) :
    t - 0.0502 * n ≤ berserker.nextThreshold^[n] t ∧
    berserker.nextThreshold^[n] t ≤ t - 0.0498 * n := by
  induction n with
  | zero => simp
  | succ n ih =>
    obtain ⟨i1, i2⟩ := ih fun j hj => h j (by omega)
    have hn := h n (Nat.lt_succ_self n)
    have hn0 : (0 : ℚ) ≤ n := Nat.cast_nonneg n
    obtain ⟨b1, b2⟩ := berserker.nextThreshold_bounds (berserker.nextThreshold^[n] t)
      (by linarith) (by nlinarith)
    rw [Function.iterate_succ_apply']
    push_cast
    constructor <;> linarith

/-- Within `2^40` the rage loop ends within `fuel` passes when `0.04 * fuel` covers the gap
between the threshold and the post-hit fraction. -/
theorem berserker.rageLoop_ends (fuel : ℕ) (t p : ℚ) (hp : -(2 ^ 40) ≤ p) (ht : t ≤ 2 ^ 40)
    (hfuel : t - p ≤ 0.04 * fuel) :
    ∃ n, n ≤ fuel ∧ berserker.nextThreshold^[n] t ≤ p ∧
      ∀ j, j < n → p < berserker.nextThreshold^[j] t := by
  induction fuel generalizing t with
  | zero =>
    refine ⟨0, le_refl _, ?_, fun j hj => absurd hj (by omega)⟩
    simp only [Nat.cast_zero, mul_zero] at hfuel
    show t ≤ p
    linarith
  | succ fuel ih =>
    by_cases hlt : p < t
    · obtain ⟨-, b2⟩ := berserker.nextThreshold_bounds t (by linarith) ht
      obtain ⟨n, hn, hle, hgt⟩ := ih (berserker.nextThreshold t) (by linarith) (by
        push_cast at hfuel
        linarith)
      refine ⟨n + 1, by omega, ?_, ?_⟩
      · rw [Function.iterate_succ_apply]; exact hle
      · intro j hj
        cases j with
        | zero => exact hlt
        | succ j =>
          rw [Function.iterate_succ_apply]
          exact hgt j (by omega)
    · exact ⟨0, Nat.zero_le _, not_lt.mp hlt, fun j hj => absurd hj (by omega)⟩

/-- The fuel of the model covers the gap. -/
theorem berserker.rageFuel_covers (e : Entity) (amount : ℚ) :
    e.berserkerNextThreshold - berserker.pct e amount
      ≤ 0.04 * (berserker.rageFuel e amount : ℕ) := by
  unfold berserker.rageFuel
  have h1 := Int.le_ceil ((e.berserkerNextThreshold - berserker.pct e amount) / 0.04)
  have h2 : ⌈(e.berserkerNextThreshold - berserker.pct e amount) / 0.04⌉
      ≤ (⌈(e.berserkerNextThreshold - berserker.pct e amount) / 0.04⌉.toNat : ℤ) :=
    Int.self_le_toNat _
  have h3 : ((⌈(e.berserkerNextThreshold - berserker.pct e amount) / 0.04⌉ : ℤ) : ℚ)
      ≤ ((⌈(e.berserkerNextThreshold - berserker.pct e amount) / 0.04⌉.toNat : ℕ) : ℚ) := by
    exact_mod_cast h2
  rw [div_le_iff₀ (by norm_num)] at h1
  linarith

/-- The berserker's `onDamageTaken` within `2^40`: the loop ends after `n` passes, `n` the
number of thresholds strictly above the post-hit fraction. -/
theorem berserker.onDamageTaken_spec (w : World) (t : ℕ) (amount : ℚ) (ht : t < w.ents.length)
    (hlo : -(2 ^ 40) ≤ berserker.pct (w.ent t) amount)
    (hhi : (w.ent t).berserkerNextThreshold ≤ 2 ^ 40) :
    ∃ n : ℕ,
      (∀ j, j < n → berserker.pct (w.ent t) amount
        < berserker.nextThreshold^[j] (w.ent t).berserkerNextThreshold) ∧
      berserker.nextThreshold^[n] (w.ent t).berserkerNextThreshold
        ≤ berserker.pct (w.ent t) amount ∧
      (∀ m, n ≤ m →
        berserker.rageLoop amount m (w.ent t) = (berserker.onDamageTaken w t amount).1.ent t) ∧
      ((berserker.onDamageTaken w t amount).1.ent t).berserkerStacks
        = (w.ent t).berserkerStacks + n ∧
      ((berserker.onDamageTaken w t amount).1.ent t).berserkerNextThreshold
        = berserker.nextThreshold^[n] (w.ent t).berserkerNextThreshold ∧
      ((berserker.onDamageTaken w t amount).1.ent t).invulnTimer
        = (if n = 0 then (w.ent t).invulnTimer else max (w.ent t).invulnTimer 12) ∧
      (w.ent t).berserkerNextThreshold - berserker.pct (w.ent t) amount ≤ 0.0502 * n ∧
      (0 < n → 0.0498 * ((n : ℚ) - 1)
        < (w.ent t).berserkerNextThreshold - berserker.pct (w.ent t) amount) := by
  obtain ⟨n, hn, hle, hgt⟩ := berserker.rageLoop_ends (berserker.rageFuel (w.ent t) amount)
    (w.ent t).berserkerNextThreshold (berserker.pct (w.ent t) amount) hlo hhi
    (berserker.rageFuel_covers (w.ent t) amount)
  obtain ⟨r1, r2, r3, r4⟩ := berserker.rageLoop_run amount n (w.ent t) hgt
  have hstop : ∀ m, n ≤ m →
      berserker.rageLoop amount m (w.ent t) = berserker.rageLoop amount n (w.ent t) := by
    intro m hm
    obtain ⟨k, rfl⟩ := Nat.exists_eq_add_of_le hm
    rw [berserker.rageLoop_add]
    exact berserker.rageLoop_stop amount k _ (by rw [r4, r2]; exact not_lt.mpr hle)
  have hent : (berserker.onDamageTaken w t amount).1.ent t
      = berserker.rageLoop amount n (w.ent t) := by
    unfold berserker.onDamageTaken
    rw [World.ent_modify_self w t _ ht]
    exact hstop _ hn
  obtain ⟨i1, i2⟩ := berserker.nextThreshold_iterate (w.ent t).berserkerNextThreshold
    (berserker.pct (w.ent t) amount) hlo hhi n hgt
  refine ⟨n, hgt, hle, fun m hm => by rw [hent]; exact hstop m hm, by rw [hent]; exact r1,
    by rw [hent]; exact r2, by rw [hent]; exact r3, by linarith, ?_⟩
  intro hpos
  obtain ⟨k, rfl⟩ : ∃ k, n = k + 1 := ⟨n - 1, by omega⟩
  obtain ⟨-, j2⟩ := berserker.nextThreshold_iterate (w.ent t).berserkerNextThreshold
    (berserker.pct (w.ent t) amount) hlo hhi k fun j hj => hgt j (by omega)
  have := hgt k (Nat.lt_succ_self k)
  push_cast
  linarith

/-- At a threshold of `10^17` the loop never ends: every pass leaves the threshold where it
is. -/
theorem berserker.rageLoop_never_ends (amount : ℚ) (e : Entity)
    (ht : e.berserkerNextThreshold = 10 ^ 17) (hp : berserker.pct e amount < 10 ^ 17) (n : ℕ) :
    (berserker.rageLoop amount n e).berserkerStacks = e.berserkerStacks + n ∧
    (berserker.rageLoop amount n e).berserkerNextThreshold = 10 ^ 17 ∧
    berserker.pct (berserker.rageLoop amount n e) amount
      < (berserker.rageLoop amount n e).berserkerNextThreshold := by
  have hit : ∀ i : ℕ, berserker.nextThreshold^[i] ((10 : ℚ) ^ 17) = 10 ^ 17 := by
    intro i
    induction i with
    | zero => rfl
    | succ i ih => rw [Function.iterate_succ_apply', ih, berserker.nextThreshold_absorbed]
  obtain ⟨r1, r2, -, r4⟩ := berserker.rageLoop_run amount n e (by
    intro i _
    rw [ht, hit i]
    exact hp)
  rw [ht, hit n] at r2
  exact ⟨r1, r2, by rw [r4, r2]; exact hp⟩

/-- The number of passes is determined by the thresholds. -/
theorem berserker.passes_unique (T : ℕ → ℚ) (p : ℚ) (n k : ℕ)
    (hgt : ∀ j, j < n → p < T j) (hle : T n ≤ p)
    (h1 : ∀ j, j < k → p < T j) (h2 : T k ≤ p) : n = k := by
  rcases Nat.lt_trichotomy n k with h | h | h
  · exact absurd (h1 n h) (not_lt.mpr hle)
  · exact h
  · exact absurd (hgt k h) (not_lt.mpr h2)

/-- The first thresholds from `0.95`. -/
theorem berserker.thresholds_from_095 :
    berserker.nextThreshold^[0] (toDouble 0.95) = 4278419646001971 / 2 ^ 52 ∧
    berserker.nextThreshold^[1] (toDouble 0.95) = 2026619832316723 / 2 ^ 51 ∧
    berserker.nextThreshold^[2] (toDouble 0.95) = 3828059683264921 / 2 ^ 52 ∧
    berserker.nextThreshold^[3] (toDouble 0.95) = 900719925474099 / 2 ^ 50 ∧
    berserker.nextThreshold^[4] (toDouble 0.95) = 3377699720527871 / 2 ^ 52 := by
  obtain ⟨c1, c2, c3, c4⟩ := berserker.nextThreshold_chain
  have i0 : berserker.nextThreshold^[0] (toDouble 0.95) = 4278419646001971 / 2 ^ 52 :=
    berserker.toDouble_095
  have i1 := (Function.iterate_succ_apply' berserker.nextThreshold 0 (toDouble 0.95)).trans
    (by rw [i0, c1])
  have i2 := (Function.iterate_succ_apply' berserker.nextThreshold 1 (toDouble 0.95)).trans
    (by rw [i1, c2])
  have i3 := (Function.iterate_succ_apply' berserker.nextThreshold 2 (toDouble 0.95)).trans
    (by rw [i2, c3])
  have i4 := (Function.iterate_succ_apply' berserker.nextThreshold 3 (toDouble 0.95)).trans
    (by rw [i3, c4])
  exact ⟨i0, i1, i2, i3, i4⟩

/-- The post-hit fraction of `exBerserker` after a hit of 100 is `0.8666666666666667`. -/
theorem berserker.pct_exBerserker :
    berserker.pct (exBerserker.ent 0) 100 = 1951559838527215 / 2 ^ 51 := by
  have h1 : toDouble ((exBerserker.ent 0).hp - 100) = 650 := by
    rw [show ((exBerserker.ent 0).hp - 100 : ℚ) = 650 by norm_num [exBerserker, World.ent]]
    rw [toDouble_eq_pos _ (9) 5717460464435200 (by norm_num) (by norm_num) (by norm_num)
      (by norm_num) (by norm_num)]
    norm_num
  unfold berserker.pct
  rw [h1, show (exBerserker.ent 0).maxHp = 750 from rfl]
  rw [toDouble_eq_pos _ (-1) 7806239354108860 (by norm_num) (by norm_num) (by norm_num)
      (by norm_num) (by norm_num)]
  norm_num

/-- The post-hit fraction of `exDrift` after a hit of 0 is its hit points. -/
theorem berserker.pct_exDrift :
    berserker.pct (exDrift.ent 0) 0 = 6755399441055743 / 2 ^ 53 := by
  have h1 : toDouble ((exDrift.ent 0).hp - 0) = 6755399441055743 / 2 ^ 53 := by
    rw [show ((exDrift.ent 0).hp - 0 : ℚ) = 6755399441055743 / 2 ^ 53 by
      norm_num [exDrift, World.ent]]
    rw [toDouble_eq_pos _ (-1) 6755399441055743 (by norm_num) (by norm_num) (by norm_num)
      (by norm_num) (by norm_num)]
    norm_num
  unfold berserker.pct
  rw [h1, show (exDrift.ent 0).maxHp = 1 from rfl, div_one]
  rw [toDouble_eq_pos _ (-1) 6755399441055743 (by norm_num) (by norm_num) (by norm_num)
      (by norm_num) (by norm_num)]
  norm_num

/-! ## The event bus -/

theorem EventBus.on_listeners (bus : EventBus) (eventName : String) (callback : ℕ) :
    (bus.on eventName callback none).listeners eventName
      = some (setAdd ((bus.listeners eventName).getD []) (.self callback)) ∧
    (bus.on eventName callback none).calls = bus.calls := by
  unfold EventBus.on
  cases h : bus.listeners eventName <;> simp [h]

theorem EventBus.emit_listeners (bus : EventBus) (eventName : String) :
    (bus.emit eventName).listeners = bus.listeners := by
  unfold EventBus.emit
  dsimp only
  split <;> rfl

theorem EventBus.emit_calls (bus : EventBus) (eventName : String) :
    (bus.emit eventName).calls
      = bus.calls ++ ((bus.listeners eventName).getD []).map fun l => (l, eventName) := by
  unfold EventBus.emit
  dsimp only
  cases h : bus.listeners eventName <;> simp

theorem EventBus.off_listeners (bus : EventBus) (eventName : String) (callback : ℕ)
    (ls : List Listener) (h : bus.listeners eventName = some ls) :
    ((bus.off eventName (some callback) none).listeners eventName).getD []
      = ls.filter fun l => decide (l.original ≠ callback) := by
  have hf : (ls.filter fun wrappedCallback =>
        !(decide (wrappedCallback.original = callback) &&
          (decide ((none : Option ℕ) = none) || decide (wrappedCallback.context = none))))
      = ls.filter fun l => decide (l.original ≠ callback) := by
    congr 1
    funext l
    simp
  unfold EventBus.off
  rw [h]
  dsimp only
  rw [hf]
  split
  · rename_i h0
    rw [List.eq_nil_of_length_eq_zero h0]
    simp
  · simp

theorem setAdd_fresh (ls : List Listener) (callback : ℕ)
    (h : ∀ l ∈ ls, l.original ≠ callback) :
    setAdd ls (.self callback) = ls ++ [.self callback] ∧
    (ls ++ [Listener.self callback]).filter (fun l => decide (l.original ≠ callback)) = ls := by
  constructor
  · unfold setAdd
    rw [if_neg]
    intro hm
    exact h _ hm rfl
  · rw [List.filter_append, List.filter_eq_self.mpr (fun l hl => by simpa using h l hl)]
    simp [Listener.original]

theorem EventBus.listenerCount_eq (bus : EventBus) (eventName : String) :
    bus.listenerCount eventName = ((bus.listeners eventName).getD []).length := by
  unfold EventBus.listenerCount
  cases bus.listeners eventName <;> rfl

/-! ## Footprint of the movement strategies -/

theorem Moved.reflMoved (e : Entity) : Moved e e := ⟨rfl, rfl, rfl, rfl, rfl, rfl, rfl, rfl⟩

theorem Moved.transMoved {a b c : Entity} (h : Moved a b) (h' : Moved b c) : Moved a c :=
  ⟨h'.skipSeek.trans h.skipSeek, h'.dead.trans h.dead, h'.hp.trans h.hp, h'.team.trans h.team,
   h'.isDead.trans h.isDead, h'.className.trans h.className,
   h'.pyramidTurret.trans h.pyramidTurret, h'.hasGrid.trans h.hasGrid⟩

theorem Step.atStart {R : Entity → Entity → Prop} {S : ℕ → Prop} (hrefl : ∀ e, R e e) (w : World) :
    Step R S w w :=
  ⟨le_refl _, fun _ _ _ => rfl, fun _ _ => hrefl _, ⟨[], by simp, by simp⟩⟩

theorem Step.modify_moved {S : ℕ → Prop} {w w1 : World} (h : Step Moved S w w1) {k : ℕ}
    (hk : S k) {f : Entity → Entity} (hf : ∀ e, Moved e (f e)) :
    Step Moved S w (w1.modify k f) :=
  h.modify hk fun _ e1 hr => hr.transMoved (hf e1)

theorem World.modify_eq_self (w : World) (k : ℕ) (f : Entity → Entity)
    (h : f (w.ent k) = w.ent k) : w.modify k f = w := by
  unfold World.modify
  rw [h]
  have : w.ents.set k (w.ent k) = w.ents := by
    apply List.ext_getElem?
    intro i
    rw [List.getElem?_set]
    split
    · rename_i hki
      subst hki
      split
      · rename_i hk
        unfold World.ent
        rw [List.getD_eq_getElem?_getD, List.getElem?_eq_getElem hk]
        rfl
      · rename_i hk
        exact (List.getElem?_eq_none (not_lt.mp hk)).symm
    · rfl
  rw [this]

theorem onWallBounce_moved (E : Env) (e : Entity) : Moved e (onWallBounce E e) := by
  unfold onWallBounce
  split
  · dsimp only
    split
    · exact Moved.reflMoved e
    · split <;> exact ⟨rfl, rfl, rfl, rfl, rfl, rfl, rfl, rfl⟩
  · exact ⟨rfl, rfl, rfl, rfl, rfl, rfl, rfl, rfl⟩
  · exact Moved.reflMoved e

theorem onWallBounce_pos (E : Env) (e : Entity) :
    (onWallBounce E e).x = e.x ∧ (onWallBounce E e).y = e.y := by
  unfold onWallBounce
  split
  · dsimp only
    split
    · exact ⟨rfl, rfl⟩
    · split <;> exact ⟨rfl, rfl⟩
  · exact ⟨rfl, rfl⟩
  · exact ⟨rfl, rfl⟩

theorem SAFE_BOUNDS_values :
    SAFE_BOUNDS.minX = 12 ∧ SAFE_BOUNDS.maxX = 288 ∧ SAFE_BOUNDS.minY = 12 ∧
    SAFE_BOUNDS.maxY = 188 :=
  ⟨by norm_num [SAFE_BOUNDS, WALL_MARGIN], by norm_num [SAFE_BOUNDS, WALL_MARGIN, STAGE_W],
   by norm_num [SAFE_BOUNDS, WALL_MARGIN], by norm_num [SAFE_BOUNDS, WALL_MARGIN, STAGE_H]⟩

theorem clampToArenaBounds_pos (e : Entity) :
    (BaseMovementStrategy.clampToArenaBounds e).x = max 12 (min 288 e.x) ∧
    (BaseMovementStrategy.clampToArenaBounds e).y = max 12 (min 188 e.y) := by
  obtain ⟨b1, b2, b3, b4⟩ := SAFE_BOUNDS_values
  have h : (BaseMovementStrategy.clampToArenaBounds e).x
        = max SAFE_BOUNDS.minX (min SAFE_BOUNDS.maxX e.x) ∧
      (BaseMovementStrategy.clampToArenaBounds e).y
        = max SAFE_BOUNDS.minY (min SAFE_BOUNDS.maxY e.y) := by
    unfold BaseMovementStrategy.clampToArenaBounds
    dsimp only
    split
    · split <;> split <;> exact ⟨rfl, rfl⟩
    · exact ⟨rfl, rfl⟩
  rw [b1, b2, b3, b4] at h
  exact h

theorem clampToArenaBounds_moved (e : Entity) :
    Moved e (BaseMovementStrategy.clampToArenaBounds e) := by
  unfold BaseMovementStrategy.clampToArenaBounds
  dsimp only
  split
  · split <;> split <;> exact ⟨rfl, rfl, rfl, rfl, rfl, rfl, rfl, rfl⟩
  · exact ⟨rfl, rfl, rfl, rfl, rfl, rfl, rfl, rfl⟩

theorem handleCornerEscape_moved (E : Env) (e : Entity) (ts : ℚ) :
    Moved e (BaseMovementStrategy.handleCornerEscape E e ts) := by
  unfold BaseMovementStrategy.handleCornerEscape
  dsimp only
  split
  · split
    · exact ⟨rfl, rfl, rfl, rfl, rfl, rfl, rfl, rfl⟩
    · exact Moved.reflMoved e
  · exact Moved.reflMoved e

theorem handleWallCollisions_moved (E : Env) (s : Strategy) (e : Entity) :
    Moved e (BaseMovementStrategy.handleWallCollisions E s e) := by
  unfold BaseMovementStrategy.handleWallCollisions
  dsimp only
  split
  · refine Moved.transMoved ?_ (onWallBounce_moved E _)
    exact ⟨rfl, rfl, rfl, rfl, rfl, rfl, rfl, rfl⟩
  · exact Moved.reflMoved e

theorem handleWallCollisions_pos (E : Env) (s : Strategy) (e : Entity)
    (hx : 12 ≤ e.x ∧ e.x ≤ 288) (hy : 12 ≤ e.y ∧ e.y ≤ 188) :
    (BaseMovementStrategy.handleWallCollisions E s e).x = e.x ∧
    (BaseMovementStrategy.handleWallCollisions E s e).y = e.y := by
  unfold BaseMovementStrategy.handleWallCollisions
  dsimp only
  split
  · obtain ⟨h1, h2⟩ := onWallBounce_pos E
      { e with x := max SAFE_BOUNDS.minX (min SAFE_BOUNDS.maxX e.x),
               y := max SAFE_BOUNDS.minY (min SAFE_BOUNDS.maxY e.y),
               vx := e.vx * -(orDefault s.config.wallBounceFactor 0.5),
               vy := e.vy * -(orDefault s.config.wallBounceFactor 0.5) }
    obtain ⟨b1, b2, b3, b4⟩ := SAFE_BOUNDS_values
    refine ⟨h1.trans ?_, h2.trans ?_⟩
    · show max SAFE_BOUNDS.minX (min SAFE_BOUNDS.maxX e.x) = e.x
      rw [b1, b2, min_eq_right hx.2, max_eq_right hx.1]
    · show max SAFE_BOUNDS.minY (min SAFE_BOUNDS.maxY e.y) = e.y
      rw [b3, b4, min_eq_right hy.2, max_eq_right hy.1]
  · exact ⟨rfl, rfl⟩

theorem applyFriction_moved (E : Env) (s : Strategy) (e : Entity) (ts : ℚ) :
    Moved e (BaseMovementStrategy.applyFriction E s e ts) :=
  ⟨rfl, rfl, rfl, rfl, rfl, rfl, rfl, rfl⟩

theorem updatePosition_moved (e : Entity) (ts : ℚ) :
    Moved e (BaseMovementStrategy.updatePosition e ts) :=
  ⟨rfl, rfl, rfl, rfl, rfl, rfl, rfl, rfl⟩

theorem advance_moved (E : Env) (s : Strategy) (e : Entity) (ts : ℚ) :
    Moved e (BaseMovementStrategy.advance E s e ts) := by
  unfold BaseMovementStrategy.advance
  dsimp only
  refine Moved.transMoved ?_ (handleWallCollisions_moved E s _)
  refine Moved.transMoved ?_ (clampToArenaBounds_moved _)
  refine Moved.transMoved ?_ (updatePosition_moved _ ts)
  refine Moved.transMoved ?_ (handleCornerEscape_moved E _ ts)
  exact applyFriction_moved E s e ts

/-- After the strategy's pipeline the position is inside `SAFE_BOUNDS`. -/
theorem advance_pos (E : Env) (s : Strategy) (e : Entity) (ts : ℚ) :
    (12 ≤ (BaseMovementStrategy.advance E s e ts).x ∧
      (BaseMovementStrategy.advance E s e ts).x ≤ 288) ∧
    (12 ≤ (BaseMovementStrategy.advance E s e ts).y ∧
      (BaseMovementStrategy.advance E s e ts).y ≤ 188) := by
  unfold BaseMovementStrategy.advance
  dsimp only
  generalize BaseMovementStrategy.updatePosition
    (BaseMovementStrategy.handleCornerEscape E (BaseMovementStrategy.applyFriction E s e ts) ts)
    ts = e1
  obtain ⟨hx, hy⟩ := clampToArenaBounds_pos e1
  have bx : 12 ≤ (BaseMovementStrategy.clampToArenaBounds e1).x ∧
      (BaseMovementStrategy.clampToArenaBounds e1).x ≤ 288 := by
    rw [hx]; exact ⟨le_max_left _ _, max_le (by norm_num) (min_le_left _ _)⟩
  have by_ : 12 ≤ (BaseMovementStrategy.clampToArenaBounds e1).y ∧
      (BaseMovementStrategy.clampToArenaBounds e1).y ≤ 188 := by
    rw [hy]; exact ⟨le_max_left _ _, max_le (by norm_num) (min_le_left _ _)⟩
  obtain ⟨h1, h2⟩ := handleWallCollisions_pos E s _ bx by_
  rw [h1, h2]
  exact ⟨bx, by_⟩

theorem PassiveMovement.updateVelocity_moved (E : Env) (s : Strategy) (e : Entity) (ts : ℚ) :
    Moved e (PassiveMovement.updateVelocity E s e ts) := by
  unfold PassiveMovement.updateVelocity
  split
  · exact Moved.reflMoved e
  · dsimp only
    repeat' split
    all_goals exact ⟨rfl, rfl, rfl, rfl, rfl, rfl, rfl, rfl⟩
  · dsimp only
    repeat' split
    all_goals exact ⟨rfl, rfl, rfl, rfl, rfl, rfl, rfl, rfl⟩
  · exact ⟨rfl, rfl, rfl, rfl, rfl, rfl, rfl, rfl⟩

section
variable {S : ℕ → Prop} {w w1 : World}

theorem AggressiveMovement.updateVelocity_seek_step (E : Env) (k : ℕ) (s : Strategy) (ts : ℚ)
    (hS : ∀ j, S j) (h : Step Moved S w w1) :
    Step Moved S w (AggressiveMovement.updateVelocity E w1 k s ts) := by
  unfold AggressiveMovement.updateVelocity
  split
  · exact h
  · dsimp only
    split
    · exact h
    · split
      · exact h
      · have h2 : Step Moved S w ((w1.modify k fun e =>
            { e with intentX := E.cos (BaseMovementStrategy.findNearestEnemy E w1 k).angle,
                     intentY := E.sin (BaseMovementStrategy.findNearestEnemy E w1 k).angle
                     }).modify k fun e =>
            { e with vx := e.vx + E.cos (BaseMovementStrategy.findNearestEnemy E w1 k).angle
                        * orDefault s.config.seekAcceleration 0.1 * ts,
                     vy := e.vy + E.sin (BaseMovementStrategy.findNearestEnemy E w1 k).angle
                        * orDefault s.config.seekAcceleration 0.1 * ts }) :=
          by
          refine Step.modify_moved (Step.modify_moved h (hS k) ?_) (hS k) ?_
          · exact fun _ => ⟨rfl, rfl, rfl, rfl, rfl, rfl, rfl, rfl⟩
          · exact fun _ => ⟨rfl, rfl, rfl, rfl, rfl, rfl, rfl, rfl⟩
        split
        · split
          · refine h2.modify_moved (hS _) ?_
            exact fun _ => ⟨rfl, rfl, rfl, rfl, rfl, rfl, rfl, rfl⟩
          · exact h2
        · exact h2

theorem DefensiveMovement.updateVelocity_flee_step (E : Env) (k : ℕ) (s : Strategy)
    (hS : ∀ j, S j) (h : Step Moved S w w1) :
    Step Moved S w (DefensiveMovement.updateVelocity E w1 k s) := by
  unfold DefensiveMovement.updateVelocity
  dsimp only
  split
  · refine h.modify_moved (hS k) ?_
    exact fun _ => ⟨rfl, rfl, rfl, rfl, rfl, rfl, rfl, rfl⟩
  · exact h

theorem updateVelocity_step (E : Env) (k : ℕ) (s : Strategy) (ts : ℚ)
    (hS : ∀ j, S j) (h : Step Moved S w w1) :
    Step Moved S w (updateVelocity E w1 k s ts) := by
  unfold updateVelocity
  split
  · exact AggressiveMovement.updateVelocity_seek_step E k s ts hS h
  · exact DefensiveMovement.updateVelocity_flee_step E k s hS h
  · exact h.modify_moved (hS k) (PassiveMovement.updateVelocity_moved E s · ts)

theorem BaseMovementStrategy.update_step (E : Env) (k : ℕ) (s : Strategy) (ts : ℚ)
    (hS : ∀ j, S j) (h : Step Moved S w w1) :
    Step Moved S w (BaseMovementStrategy.update E w1 k s ts) := by
  unfold BaseMovementStrategy.update
  exact (updateVelocity_step E k s ts hS h).modify_moved (hS k) (advance_moved E s · ts)

end

/-- The position of the strategy's owner after `update` is inside `SAFE_BOUNDS`. -/
theorem BaseMovementStrategy.update_pos (E : Env) (w : World) (k : ℕ) (s : Strategy) (ts : ℚ)
    (hk : k < w.ents.length) :
    (12 ≤ ((BaseMovementStrategy.update E w k s ts).ent k).x ∧
      ((BaseMovementStrategy.update E w k s ts).ent k).x ≤ 288) ∧
    (12 ≤ ((BaseMovementStrategy.update E w k s ts).ent k).y ∧
      ((BaseMovementStrategy.update E w k s ts).ent k).y ≤ 188) := by
  have hl : k < (updateVelocity E w k s ts).ents.length :=
    lt_of_lt_of_le hk (updateVelocity_step (S := fun _ => True) E k s ts (fun _ => trivial)
      (Step.atStart Moved.reflMoved w)).len
  unfold BaseMovementStrategy.update
  dsimp only
  rw [World.ent_modify_self _ _ _ hl]
  exact advance_pos E s _ ts

theorem Entity.steer_step (E : Env) (w : World) (k : ℕ) (ts : ℚ) :
    Step Moved (fun _ => True) w (Entity.steer E w k ts) := by
  have h0 : Step Moved (fun _ => True) w
      (w.modify k fun e => { e with intentX := 0, intentY := 0 }) := by
    refine (Step.atStart Moved.reflMoved w).modify_moved trivial ?_
    exact fun _ => ⟨rfl, rfl, rfl, rfl, rfl, rfl, rfl, rfl⟩
  unfold Entity.steer
  dsimp only
  split
  · exact BaseMovementStrategy.update_step E k _ ts (fun _ => trivial) h0
  · refine h0.modify_moved trivial ?_
    exact fun _ => ⟨rfl, rfl, rfl, rfl, rfl, rfl, rfl, rfl⟩
  · refine h0.modify_moved trivial ?_
    exact fun _ => ⟨rfl, rfl, rfl, rfl, rfl, rfl, rfl, rfl⟩

theorem speed.onOutOfBounds_skipSeek (e : Entity) :
    (speed.onOutOfBounds e).skipSeek = e.skipSeek := by
  unfold speed.onOutOfBounds
  dsimp only
  split
  · split <;> rfl
  · rfl

theorem Entity.ringOut_skipSeek (e : Entity) : (Entity.ringOut e).skipSeek = e.skipSeek := by
  unfold Entity.ringOut
  split
  · split
    · exact speed.onOutOfBounds_skipSeek e
    · rfl
  · rfl

theorem Entity.ringOut_inside (e : Entity) (hx : 12 ≤ e.x ∧ e.x ≤ 288)
    (hy : 12 ≤ e.y ∧ e.y ≤ 188) : outOfBounds e = false ∧ Entity.ringOut e = e := by
  have h : outOfBounds e = false := by
    unfold outOfBounds
    simp only [STAGE_W, STAGE_H, decide_eq_false_iff_not]
    rintro (h | h | h | h) <;> linarith [hx.1, hx.2, hy.1, hy.2]
  refine ⟨h, ?_⟩
  unfold Entity.ringOut
  rw [h]
  rfl

/-- `Entity.move` never writes the `skipSeek` flag of the moving entity. -/
theorem Entity.move_skipSeek (E : Env) (w : World) (k : ℕ) (ts : ℚ) (hk : k < w.ents.length) :
    ((Entity.move E w k ts).ent k).skipSeek = (w.ent k).skipSeek := by
  have hs := Entity.steer_step E w k ts
  unfold Entity.move
  split
  · rfl
  · rw [World.ent_modify_self _ _ _ (lt_of_lt_of_le hk hs.len), Entity.ringOut_skipSeek]
    exact (hs.rel k hk).skipSeek

/-! ## The ability accumulator -/

theorem Gladiator.abilityTick_one (e : Entity) (a : ℕ) (ha : a < 6)
    (hacc : e.abilityAccumulator = (a : ℚ)) (hflag : e.noModuleUpdate = false) :
    (Gladiator.abilityTick e 1).1.abilityAccumulator = (((a + 1) % 6 : ℕ) : ℚ) ∧
    (Gladiator.abilityTick e 1).1.noModuleUpdate = false ∧
    (Gladiator.abilityTick e 1).2 = (if (a + 1) % 6 = 0 then some 6 else none) := by
  unfold Gladiator.abilityTick ABILITY_UPDATE_INTERVAL
  dsimp only
  rw [hacc, hflag]
  by_cases h5 : a = 5
  · subst h5
    norm_num
  · have hlt : a + 1 < 6 := by omega
    have hq : ¬ ((a : ℚ) + 1 ≥ 6) := by
      rw [ge_iff_le, not_le]
      exact_mod_cast hlt
    rw [if_neg hq, Nat.mod_eq_of_lt hlt, if_neg (by omega)]
    refine ⟨?_, rfl, rfl⟩
    show (a : ℚ) + 1 = _
    push_cast
    ring

theorem Gladiator.abilityTicks_spec (rest : Entity → Entity)
    (hrest : ∀ e, (rest e).abilityAccumulator = e.abilityAccumulator ∧
      (rest e).noModuleUpdate = e.noModuleUpdate)
    (e : Entity) (h0 : e.abilityAccumulator = 0) (hflag : e.noModuleUpdate = false) (n : ℕ) :
    (Gladiator.abilityTicks rest 1 n e).1.abilityAccumulator = ((n % 6 : ℕ) : ℚ) ∧
    (Gladiator.abilityTicks rest 1 n e).1.noModuleUpdate = false ∧
    (Gladiator.abilityTicks rest 1 n e).2
      = (List.range n).map (fun i => if (i + 1) % 6 = 0 then some (6 : ℚ) else none) := by
  induction n with
  | zero => exact ⟨by simpa [Gladiator.abilityTicks] using h0, hflag, rfl⟩
  | succ n ih =>
    obtain ⟨h1, h2, h3⟩ := ih
    obtain ⟨t1, t2, t3⟩ := Gladiator.abilityTick_one _ (n % 6) (Nat.mod_lt _ (by norm_num)) h1 h2
    have hm : (n % 6 + 1) % 6 = (n + 1) % 6 := by omega
    rw [hm] at t1 t3
    unfold Gladiator.abilityTicks
    dsimp only
    refine ⟨by rw [(hrest _).1, t1], by rw [(hrest _).2, t2], ?_⟩
    rw [h3, t3, List.range_succ, List.map_append]
    rfl

theorem hookCalls_count (n : ℕ) :
    (((List.range n).map (fun i => if (i + 1) % 6 = 0 then some (6 : ℚ) else none)).filter
      Option.isSome).length = n / 6 := by
  induction n with
  | zero => rfl
  | succ n ih =>
    rw [List.range_succ, List.map_append, List.filter_append, List.length_append, ih]
    by_cases h : (n + 1) % 6 = 0
    · simp only [List.map_cons, List.map_nil, h, if_true]
      simp only [List.filter, Option.isSome, List.length_cons, List.length_nil]
      omega
    · simp only [List.map_cons, List.map_nil, h, if_false]
      simp only [List.filter, Option.isSome, List.length_nil]
      omega

theorem Gladiator.abilityTick_range (g : Entity) (speed : ℚ) (h0 : 0 < speed) (h6 : speed ≤ 6)
    (ha0 : 0 ≤ g.abilityAccumulator) (ha6 : g.abilityAccumulator < 6) :
    0 ≤ (Gladiator.abilityTick g speed).1.abilityAccumulator ∧
    (Gladiator.abilityTick g speed).1.abilityAccumulator < 6 := by
  unfold Gladiator.abilityTick ABILITY_UPDATE_INTERVAL
  dsimp only
  split
  · rename_i h
    split
    · dsimp only; constructor <;> linarith
    · dsimp only; constructor <;> linarith
  · rename_i h
    dsimp only
    constructor <;> linarith

/-! ## A hit by an attacker on a target without damage-altering hooks -/

theorem onDamageTaken_nonspike (nested nested' : World → ℕ → ℚ → World) (E : Env) (w : World)
    (t : ℕ) (attacker : Option ℕ) (amount : ℚ) (hc : (w.ent t).className ≠ .spike) :
    onDamageTaken nested E w t attacker amount = onDamageTaken nested' E w t attacker amount := by
  unfold onDamageTaken
  split
  · rename_i h; exact absurd h hc
  all_goals rfl

/-- The hit points of the target just before they are lowered are those before the call. -/
theorem onDamageTaken_target_hp (E : Env) (w : World) (t a : ℕ) (amount : ℚ)
    (hta : t ≠ a) (ht : t < w.ents.length) :
    ((onDamageTaken (fun w a reflect => (takeDamageNull E w a reflect).1) E w t (some a)
      amount).1.ent t).hp = (w.ent t).hp := by
  by_cases hc : (w.ent t).className = .spike
  · rw [onDamageTaken_spike _ E w t a amount hc]
    have hn : Step KeepsId (fun j => j = a) (w.log (.onDamageTaken t))
        (takeDamageNull E (w.log (.onDamageTaken t)) a
          ((w.ent t).reflectDmg + (w.ent t).level * 2)).1 :=
      takeDamageNull_step KeepsId.rightKeepsId E a _ rfl
        (Step.refl KeepsId.rightKeepsId.toRightKeeps _)
    dsimp only
    rw [World.ent_modify_self _ _ _ (lt_of_lt_of_le ht hn.len)]
    rw [show (gainXp 10 ((takeDamageNull E (w.log (.onDamageTaken t)) a
      ((w.ent t).reflectDmg + (w.ent t).level * 2)).1.ent t)).hp
      = ((takeDamageNull E (w.log (.onDamageTaken t)) a
      ((w.ent t).reflectDmg + (w.ent t).level * 2)).1.ent t).hp from rfl]
    rw [hn.frame t ht hta]
    rfl
  · rw [onDamageTaken_nonspike _ (fun w _ _ => w) E w t (some a) amount hc]
    have hk : Step Keeps (fun j => j = t ∨ j = a) w
        (onDamageTaken (fun w _ _ => w) E w t (some a) amount).1 :=
      onDamageTaken_step Keeps.rightKeeps _ E t (some a) amount (Or.inl rfl)
        (fun b hb => Or.inr (Option.some.inj hb).symm) (fun _ _ _ _ h => h)
        (Step.refl Keeps.rightKeeps _)
    exact (hk.rel t ht).hp

theorem takeDamage_plain (E : Env) (w : World) (t a : ℕ) (amount : ℚ)
    (hta : t ≠ a) (ht : t < w.ents.length) (hinv : (w.ent t).invulnerable = false)
    (halt : altersIncomingDamage (w.ent t).className = false) :
    ((takeDamage E w t amount (some a)).1.ent t).hp = (w.ent t).hp - amount ∧
    (takeDamage E w t amount (some a)).2 = amount := by
  have hpre : hasOnDamageTakenPre (w.ent t).className = false := by
    revert halt; cases (w.ent t).className <;> simp [altersIncomingDamage, hasOnDamageTakenPre]
  have hs := takeDamage_after_log E w t amount (some a)
  have hamt := onDamageTaken_amount (fun w a reflect => (takeDamageNull E w a reflect).1) E
    (w.log (.takeDamage t amount (some a))) t (some a) amount halt
  have hlen : t < (onDamageTaken (fun w a reflect => (takeDamageNull E w a reflect).1) E
      (w.log (.takeDamage t amount (some a))) t (some a) amount).1.ents.length := by
    have hk : Step KeepsId (fun j => j = t ∨ j = a) (w.log (.takeDamage t amount (some a)))
        (onDamageTaken (fun w a reflect => (takeDamageNull E w a reflect).1) E
          (w.log (.takeDamage t amount (some a))) t (some a) amount).1 :=
      onDamageTaken_step KeepsId.rightKeepsId.toRightKeeps _ E t (some a) amount (Or.inl rfl)
        (fun b hb => Or.inr (Option.some.inj hb).symm)
        (fun _ b r hb h2 => takeDamageNull_step KeepsId.rightKeepsId E b r
          (Or.inr (Option.some.inj hb).symm) h2)
        (Step.refl KeepsId.rightKeepsId.toRightKeeps _)
    exact lt_of_lt_of_le ht hk.len
  constructor
  · unfold takeDamage
    rw [takeDamageCore_hp_of_vulnerable _ E w t amount (some a) hpre hinv hlen, hamt,
      onDamageTaken_target_hp E (w.log (.takeDamage t amount (some a))) t a amount hta ht]
    rfl
  · unfold takeDamage takeDamageCore
    simp only [onDamageTakenPre_of_noHook E (w.log (.takeDamage t amount (some a))) t amount hpre,
      World.log_ent, hinv, Bool.false_eq_true, if_false]
    exact hamt

theorem onDamageTaken_of_noHook (nested : World → ℕ → ℚ → World) (E : Env) (w : World)
    (t : ℕ) (attacker : Option ℕ) (amount : ℚ)
    (h : hasOnDamageTaken (w.ent t).className = false) :
    onDamageTaken nested E w t attacker amount = (w, amount) := by
  unfold onDamageTaken
  split <;> rename_i hc <;> first
    | (rw [hc] at h; exact absurd h (by decide))
    | rfl

/-- A hit on a target that is not shielded and whose module defines no damage hook. -/
theorem takeDamage_noHooks (E : Env) (w : World) (t : ℕ) (amount : ℚ) (attacker : Option ℕ)
    (hinv : (w.ent t).invulnerable = false)
    (hpre : hasOnDamageTakenPre (w.ent t).className = false)
    (hpost : hasOnDamageTaken (w.ent t).className = false) :
    takeDamage E w t amount attacker =
      (((w.log (.takeDamage t amount attacker)).modify t fun e =>
        { e with hp := e.hp - amount }).tick, amount) := by
  unfold takeDamage takeDamageCore
  simp only [onDamageTakenPre_of_noHook E (w.log (.takeDamage t amount attacker)) t amount hpre,
    World.log_ent, hinv, Bool.false_eq_true, if_false]
  rw [onDamageTaken_of_noHook _ E (w.log (.takeDamage t amount attacker)) t attacker amount
    (by rw [World.log_ent]; exact hpost)]

/-- The lancer's path through `Gladiator.handleCombat`, written out. -/
theorem Gladiator.handleCombat_lancer (E : Env) (w : World) (k t : ℕ)
    (hk : k < w.ents.length) (hkt : k ≠ t)
    (hclass : (w.ent k).className = .lancer)
    (hinv : (w.ent t).invulnerable = false)
    (hpre : hasOnDamageTakenPre (w.ent t).className = false)
    (hpost : hasOnDamageTaken (w.ent t).className = false) :
    Gladiator.handleCombat E w k t =
      onCombat E
        (if 5 + (w.ent k).level * 2 > 0 then
          ((((((w.modify k fun self => { self with isAttacking := true }).log
              (.takeDamage t (5 + (w.ent k).level * 2) (some k))).modify t fun e =>
              { e with hp := e.hp - (5 + (w.ent k).level * 2) }).tick).modify k fun e =>
              { e with damageDealt := e.damageDealt + (5 + (w.ent k).level * 2),
                       cooldown := 30 }).modify k (gainXp (5 + (w.ent k).level)))
        else
          ((((w.modify k fun self => { self with isAttacking := true }).log
              (.takeDamage t (5 + (w.ent k).level * 2) (some k))).modify t fun e =>
              { e with hp := e.hp - (5 + (w.ent k).level * 2) }).tick)) k t := by
  have h1 : (w.modify k fun self => { self with isAttacking := true }).ent k
      = { w.ent k with isAttacking := true } := World.ent_modify_self w k _ hk
  have h1t : (w.modify k fun self => { self with isAttacking := true }).ent t = w.ent t :=
    World.ent_modify_ne w k t _ hkt
  have hm : applyDamageModifiers E (w.modify k fun self => { self with isAttacking := true }) k
      (5 + (w.ent k).level * 2)
      = (w.modify k fun self => { self with isAttacking := true }, 5 + (w.ent k).level * 2) := by
    unfold applyDamageModifiers
    dsimp only
    rw [h1]
    dsimp only
    rw [hclass]
  unfold Gladiator.handleCombat Entity.handleCombat
  dsimp only
  rw [h1]
  dsimp only
  rw [hm]
  dsimp only
  rw [takeDamage_noHooks E _ t _ (some k) (by rw [h1t]; exact hinv) (by rw [h1t]; exact hpre)
    (by rw [h1t]; exact hpost)]
  dsimp only
  have hlen : k < ((((w.modify k fun self => { self with isAttacking := true }).log
      (.takeDamage t (5 + (w.ent k).level * 2) (some k))).modify t fun e =>
      { e with hp := e.hp - (5 + (w.ent k).level * 2) }).tick).ents.length := by
    simp only [World.tick_ents, World.modify_length, World.log_ents]
    exact hk
  have h2 : (((((w.modify k fun self => { self with isAttacking := true }).log
      (.takeDamage t (5 + (w.ent k).level * 2) (some k))).modify t fun e =>
      { e with hp := e.hp - (5 + (w.ent k).level * 2) }).tick).modify k fun e =>
      { e with damageDealt := e.damageDealt + (5 + (w.ent k).level * 2),
               cooldown := 30 }).ent k
      = { w.ent k with isAttacking := true,
                       damageDealt := (w.ent k).damageDealt + (5 + (w.ent k).level * 2),
                       cooldown := 30 } := by
    rw [World.ent_modify_self _ _ _ hlen, World.tick_ent,
      World.ent_modify_ne _ t k _ (Ne.symm hkt), World.log_ent, h1]
  split
  · rw [h2]
    dsimp only
    rw [hclass]
    rfl
  · rfl

/-- The state in which the lancer's `onCombat` hook starts, entity by entity. -/
theorem lancer_before_onCombat (w : World) (k t : ℕ) (d x : ℚ) (hk : k < w.ents.length)
    (ht : t < w.ents.length) (hkt : k ≠ t) (W : World)
    (hW : W = (if d > 0 then
          ((((((w.modify k fun self => { self with isAttacking := true }).log
              (.takeDamage t d (some k))).modify t fun e =>
              { e with hp := e.hp - d }).tick).modify k fun e =>
              { e with damageDealt := e.damageDealt + d, cooldown := 30 }).modify k (gainXp x))
        else
          ((((w.modify k fun self => { self with isAttacking := true }).log
              (.takeDamage t d (some k))).modify t fun e => { e with hp := e.hp - d }).tick))) :
    W.ents.length = w.ents.length ∧ (W.ent t).hp = (w.ent t).hp - d ∧
    (W.ent k).className = (w.ent k).className ∧ (W.ent k).level = (w.ent k).level ∧
    (W.ent k).lanceCharging = (w.ent k).lanceCharging := by
  have hl0 : ((((w.modify k fun self => { self with isAttacking := true }).log
      (.takeDamage t d (some k))).modify t fun e => { e with hp := e.hp - d }).tick).ents.length
      = w.ents.length := by
    simp only [World.tick_ents, World.modify_length, World.log_ents]
  have ht0 : ((((w.modify k fun self => { self with isAttacking := true }).log
      (.takeDamage t d (some k))).modify t fun e => { e with hp := e.hp - d }).tick).ent t
      = { w.ent t with hp := (w.ent t).hp - d } := by
    rw [World.tick_ent, World.ent_modify_self _ _ _ (by
      simp only [World.modify_length, World.log_ents]; exact ht), World.log_ent,
      World.ent_modify_ne _ k t _ hkt]
  have hk0 : ((((w.modify k fun self => { self with isAttacking := true }).log
      (.takeDamage t d (some k))).modify t fun e => { e with hp := e.hp - d }).tick).ent k
      = { w.ent k with isAttacking := true } := by
    rw [World.tick_ent, World.ent_modify_ne _ t k _ (Ne.symm hkt), World.log_ent,
      World.ent_modify_self _ _ _ hk]
  by_cases hd : d > 0
  · rw [if_pos hd] at hW
    subst hW
    refine ⟨by simp only [World.modify_length]; exact hl0, ?_, ?_, ?_, ?_⟩
    · rw [World.ent_modify_ne _ k t _ hkt, World.ent_modify_ne _ k t _ hkt, ht0]
    all_goals
      rw [World.ent_modify_self _ _ _ (by simp only [World.modify_length]; rw [hl0]; exact hk),
        World.ent_modify_self _ _ _ (by rw [hl0]; exact hk), hk0]
      rfl
  · rw [if_neg hd] at hW
    subst hW
    refine ⟨hl0, by rw [ht0], by rw [hk0], by rw [hk0], by rw [hk0]⟩

/-! ## The summoner's hooks -/

theorem summoner.newMinion_some (E : Env) (w : World) (k : ℕ) (x y : ℚ) :
    ∃ m rng, summoner.newMinion E w k x y = some (m, rng) ∧ m.isMinion = true ∧
      m.noModuleUpdate = true ∧ m.initialized = false ∧ m.className = .summoner ∧
      m.summonCD = 0 ∧ m.pets = [] := by
  obtain ⟨e, n, hnew, hc, -, -⟩ := Gladiator.new_of_key E w.rng x y (w.ent k).elementType
    (w.ent k).team .summoner
  have hkey : ClassKey.summoner.key = "summoner" := rfl
  rw [hkey] at hnew
  have hfields : e.initialized = false ∧ e.summonCD = 0 ∧ e.pets = [] := by
    unfold Gladiator.new Entity.new at hnew
    rw [show ClassKey.ofKey "summoner" = some .summoner from rfl] at hnew
    simp only [getGladiatorModule, show ClassKey.ofKey "summoner" = some .summoner from rfl,
      defaultMovementStrategy] at hnew
    have := (Prod.mk.inj (Option.some.inj hnew)).1
    rw [← this]
    exact ⟨rfl, rfl, rfl⟩
  have heq : summoner.newMinion E w k x y = some ({ e with
      isMinion := true
      radius := max 6 ⌊(w.ent k).radius * 0.6⌋
      maxHp := max 1 ⌊(w.ent k).maxHp * 0.05⌋
      hp := max 1 ⌊(w.ent k).maxHp * 0.05⌋
      baseSpeed := (w.ent k).baseSpeed * 0.9
      level := max 1 ((w.ent k).level - 1)
      hasMinion := true
      noModuleUpdate := true }, n) := by
    unfold summoner.newMinion
    dsimp only
    rw [hnew]
  exact ⟨_, n, heq, rfl, rfl, hfields.1, hc, hfields.2.1, hfields.2.2⟩

/-- What `summoner.update` does to the summoner itself. -/
theorem summoner.update_self (E : Env) (w : World) (k : ℕ) (ts : ℚ) (hk : k < w.ents.length)
    (hmin : (w.ent k).isMinion = false) :
    k < (summoner.update E w k ts).ents.length ∧
    ((summoner.update E w k ts).ent k).level = (w.ent k).level ∧
    ((summoner.update E w k ts).ent k).isMinion = false ∧
    ((summoner.update E w k ts).ent k).initialMinionCreated = true ∧
    (((w.ent k).initialMinionCreated = true ∧
        ((summoner.update E w k ts).ent k).pets
          = (w.ent k).pets.filter (fun p => !(w.ent p).dead)) ∨
      ((w.ent k).initialMinionCreated = false ∧
        ((summoner.update E w k ts).ent k).pets
          = (w.ent k).pets.filter (fun p => !(w.ent p).dead) ++ [w.ents.length])) := by
  -- the cooldown decay
  have h1 : ∀ j, ((w.modify k fun self =>
      if self.summonCD > 0 then
        { self with summonCD := if self.summonCD - ts < 0 then 0 else self.summonCD - ts }
      else self).ent j).dead = (w.ent j).dead ∧
      ((w.modify k fun self =>
      if self.summonCD > 0 then
        { self with summonCD := if self.summonCD - ts < 0 then 0 else self.summonCD - ts }
      else self).ent j).pets = (w.ent j).pets ∧
      ((w.modify k fun self =>
      if self.summonCD > 0 then
        { self with summonCD := if self.summonCD - ts < 0 then 0 else self.summonCD - ts }
      else self).ent j).level = (w.ent j).level ∧
      ((w.modify k fun self =>
      if self.summonCD > 0 then
        { self with summonCD := if self.summonCD - ts < 0 then 0 else self.summonCD - ts }
      else self).ent j).isMinion = (w.ent j).isMinion ∧
      ((w.modify k fun self =>
      if self.summonCD > 0 then
        { self with summonCD := if self.summonCD - ts < 0 then 0 else self.summonCD - ts }
      else self).ent j).initialMinionCreated = (w.ent j).initialMinionCreated := by
    intro j
    rcases World.ent_modify_cases w k j _ with h | ⟨-, h⟩
    · rw [h]; exact ⟨rfl, rfl, rfl, rfl, rfl⟩
    · rw [h]
      split <;> exact ⟨rfl, rfl, rfl, rfl, rfl⟩
  unfold summoner.update
  rw [if_neg (by rw [hmin]; exact Bool.false_ne_true)]
  dsimp only
  generalize hw1 : (w.modify k fun self =>
      if self.summonCD > 0 then
        { self with summonCD := if self.summonCD - ts < 0 then 0 else self.summonCD - ts }
      else self) = w1 at h1
  have hl1 : w1.ents.length = w.ents.length := by rw [← hw1, World.modify_length]
  have hfilter : (w1.ent k).pets.filter (fun p => !(w1.ent p).dead)
      = (w.ent k).pets.filter (fun p => !(w.ent p).dead) := by
    rw [(h1 k).2.1]
    congr 1
    funext p
    rw [(h1 p).1]
  rw [hfilter]
  generalize hP : (w.ent k).pets.filter (fun p => !(w.ent p).dead) = P
  have hk1 : k < w1.ents.length := by rw [hl1]; exact hk
  have h2 : (w1.modify k fun self => { self with pets := P }).ent k
      = { w1.ent k with pets := P } := World.ent_modify_self w1 k _ hk1
  rw [h2]
  dsimp only
  cases hflag : (w.ent k).initialMinionCreated with
  | true =>
    rw [(h1 k).2.2.2.2, hflag]
    simp only [Bool.not_true, Bool.false_eq_true, if_false]
    rw [h2]
    refine ⟨by rw [World.modify_length]; exact hk1, (h1 k).2.2.1, ?_, ?_, Or.inl ⟨trivial, rfl⟩⟩
    · exact (h1 k).2.2.2.1.trans hmin
    · exact (h1 k).2.2.2.2.trans hflag
  | false =>
    rw [(h1 k).2.2.2.2, hflag]
    simp only [Bool.not_false, if_true]
    obtain ⟨m, rng, hm, -⟩ := summoner.newMinion_some E
      (w1.modify k fun self => { self with pets := P }) k
      ((w1.ent k).x + if (w1.ent k).team = .red then 8 else -8) (w1.ent k).y
    rw [hm]
    dsimp only
    have hk3 : k < ({ (w1.modify k fun self => { self with pets := P }) with
        rng := rng }.pushEnt m).ents.length := by
      rw [World.pushEnt_length]
      exact Nat.lt_succ_of_lt (by
        show k < (w1.modify k fun self => { self with pets := P }).ents.length
        rw [World.modify_length]; exact hk1)
    have hk2 : k < ({ (w1.modify k fun self => { self with pets := P }) with
        rng := rng } : World).ents.length := by
      show k < (w1.modify k fun self => { self with pets := P }).ents.length
      rw [World.modify_length]; exact hk1
    have he3 : ({ (w1.modify k fun self => { self with pets := P }) with
        rng := rng }.pushEnt m).ent k = { w1.ent k with pets := P } := by
      rw [World.ent_pushEnt_lt _ _ _ hk2]
      exact h2
    refine ⟨by rw [World.modify_length]; exact hk3, ?_, ?_, ?_, Or.inr ⟨trivial, ?_⟩⟩
    · rw [World.ent_modify_self _ _ _ hk3, he3]; exact (h1 k).2.2.1
    · rw [World.ent_modify_self _ _ _ hk3, he3]; exact (h1 k).2.2.2.1.trans hmin
    · rw [World.ent_modify_self _ _ _ hk3]
    · rw [World.ent_modify_self _ _ _ hk3, he3]
      show P ++ [(w1.modify k fun self => { self with pets := P }).ents.length] = _
      rw [World.modify_length, hl1]

/-- What `summoner.onCombat` does when it fires: to the summoner itself, to the entity array
and to a recycled minion. -/
theorem summoner.onCombat_self (E : Env) (w : World) (k : ℕ) (hk : k < w.ents.length)
    (hmin : (w.ent k).isMinion = false) (hcd : ¬ (w.ent k).summonCD > 0) :
    k < (summoner.onCombat E w k).ents.length ∧
    ((summoner.onCombat E w k).ent k).level = (w.ent k).level ∧
    ((summoner.onCombat E w k).ent k).isMinion = false ∧
    ((summoner.onCombat E w k).ent k).initialMinionCreated = (w.ent k).initialMinionCreated ∧
    ((((w.ent k).pets.filter (fun p => !(w.ent p).dead)).length : ℤ)
        < 3 + ⌊(w.ent k).level / 3⌋ ∧
      ((summoner.onCombat E w k).ent k).pets
        = (w.ent k).pets.filter (fun p => !(w.ent p).dead) ++ [w.ents.length] ∧
      ((summoner.onCombat E w k).ent k).summonCD = 90 ∧
      (summoner.onCombat E w k).ents.length = w.ents.length + 1 ∨
     ¬ (((w.ent k).pets.filter (fun p => !(w.ent p).dead)).length : ℤ)
        < 3 + ⌊(w.ent k).level / 3⌋ ∧
      (w.ent k).pets.filter (fun p => !(w.ent p).dead) = [] ∧
      ((summoner.onCombat E w k).ent k).pets = [] ∧
      (summoner.onCombat E w k).ents.length = w.ents.length ∨
     ¬ (((w.ent k).pets.filter (fun p => !(w.ent p).dead)).length : ℤ)
        < 3 + ⌊(w.ent k).level / 3⌋ ∧
      ∃ oldest others, (w.ent k).pets.filter (fun p => !(w.ent p).dead) = oldest :: others ∧
        ((summoner.onCombat E w k).ent k).pets = others ++ [oldest] ∧
        ((summoner.onCombat E w k).ent k).summonCD = 90 ∧
        (summoner.onCombat E w k).ents.length = w.ents.length ∧
        (oldest ≠ k → oldest < w.ents.length →
          ((summoner.onCombat E w k).ent oldest).hp = (w.ent oldest).maxHp ∧
          ((summoner.onCombat E w k).ent oldest).dead = false)) := by
  unfold summoner.onCombat
  rw [if_neg (by rw [hmin]; exact Bool.false_ne_true), if_neg hcd]
  dsimp only
  generalize hP : (w.ent k).pets.filter (fun p => !(w.ent p).dead) = P
  have h1 : (w.modify k fun self => { self with pets := P }).ent k
      = { w.ent k with pets := P } := World.ent_modify_self w k _ hk
  have hl1 : (w.modify k fun self => { self with pets := P }).ents.length = w.ents.length :=
    World.modify_length w k _
  generalize hw1 : (w.modify k fun self => { self with pets := P }) = w1 at h1 hl1
  have hk1 : k < w1.ents.length := by rw [hl1]; exact hk
  rw [h1]
  dsimp only
  by_cases hcap : ((P.length : ℤ) < 3 + ⌊(w.ent k).level / 3⌋)
  · simp only [hcap, decide_True, if_true]
    obtain ⟨m, rng, hm, -⟩ := summoner.newMinion_some E w1.tick.tick k
      ((w1.tick.tick.ent k).x + E.cos (E.random w1.rng * E.pi * 2)
        * (6 + E.random (w1.rng + 1) * 4))
      ((w1.tick.tick.ent k).y + E.sin (E.random w1.rng * E.pi * 2)
        * (6 + E.random (w1.rng + 1) * 4))
    rw [hm]
    dsimp only
    have hk2 : k < ({ w1.tick.tick with rng := rng } : World).ents.length := hk1
    have hk3 : k < ({ w1.tick.tick with rng := rng }.pushEnt
        { m with summonCD := 0 }).ents.length := by
      rw [World.pushEnt_length]; exact Nat.lt_succ_of_lt hk2
    have he3 : ({ w1.tick.tick with rng := rng }.pushEnt { m with summonCD := 0 }).ent k
        = { w.ent k with pets := P } := by
      rw [World.ent_pushEnt_lt _ _ _ hk2]
      exact h1
    have hk4 : k < (({ w1.tick.tick with rng := rng }.pushEnt
        { m with summonCD := 0 }).modify k fun self =>
        { self with pets := self.pets ++ [w1.tick.tick.ents.length] }).ents.length := by
      rw [World.modify_length]; exact hk3
    have he5 : ((({ w1.tick.tick with rng := rng }.pushEnt
        { m with summonCD := 0 }).modify k fun self =>
        { self with pets := self.pets ++ [w1.tick.tick.ents.length] }).modify k fun self =>
        { gainXp (15 + self.level) self with summonCD := 90 }).ent k
        = { gainXp (15 + (w.ent k).level)
              { w.ent k with pets := P ++ [w1.tick.tick.ents.length] } with summonCD := 90 } := by
      rw [World.ent_modify_self _ _ _ hk4, World.ent_modify_self _ _ _ hk3, he3]
    refine ⟨by rw [World.modify_length]; exact hk4, ?_, ?_, ?_, Or.inl ⟨trivial, ?_, ?_, ?_⟩⟩
    · rw [he5]; rfl
    · rw [he5]; exact hmin
    · rw [he5]; rfl
    · rw [he5]
      show P ++ [w1.ents.length] = _
      rw [hl1]
    · rw [he5]
    · rw [World.modify_length, World.modify_length, World.pushEnt_length]
      show w1.ents.length + 1 = _
      rw [hl1]
  · simp only [hcap, decide_False, Bool.false_eq_true, if_false]
    cases hPl : P with
    | nil =>
      dsimp only
      refine ⟨hk1, by rw [h1], by rw [h1]; exact hmin, by rw [h1],
        Or.inr (Or.inl ⟨by simp only [not_false_eq_true], rfl, by rw [h1, hPl], hl1⟩)⟩
    | cons oldest others =>
      dsimp only
      have e2 : (w1.modify k fun self => { self with pets := others }).ent k
          = { w.ent k with pets := others } := by
        rw [World.ent_modify_self _ _ _ hk1, h1]
      generalize hw2 : (w1.modify k fun self => { self with pets := others }) = w2 at e2
      have hl2 : w2.ents.length = w.ents.length := by
        rw [← hw2, World.modify_length, hl1]
      have hk2 : k < w2.ents.length := by rw [hl2]; exact hk
      have hw2o : ∀ j, j ≠ k → w2.ent j = w.ent j := by
        intro j hj
        rw [← hw2, World.ent_modify_ne _ k j _ (Ne.symm hj), ← hw1,
          World.ent_modify_ne _ k j _ (Ne.symm hj)]
      generalize hx : (w2.tick.tick.ent k).x + E.cos (E.random w2.rng * E.pi * 2)
        * (6 + E.random (w2.rng + 1) * 4) = x
      generalize hy : (w2.tick.tick.ent k).y + E.sin (E.random w2.rng * E.pi * 2)
        * (6 + E.random (w2.rng + 1) * 4) = y
      have e4 : ((w2.tick.tick.modify oldest fun minion =>
          { minion with x := x, y := y, hp := minion.maxHp, dead := false }).ent k).pets = others ∧
          ((w2.tick.tick.modify oldest fun minion =>
          { minion with x := x, y := y, hp := minion.maxHp, dead := false }).ent k).level
            = (w.ent k).level ∧
          ((w2.tick.tick.modify oldest fun minion =>
          { minion with x := x, y := y, hp := minion.maxHp, dead := false }).ent k).isMinion
            = (w.ent k).isMinion ∧
          ((w2.tick.tick.modify oldest fun minion =>
          { minion with x := x, y := y, hp := minion.maxHp, dead := false }).ent
            k).initialMinionCreated = (w.ent k).initialMinionCreated := by
        rcases World.ent_modify_cases w2.tick.tick oldest k (fun minion =>
          { minion with x := x, y := y, hp := minion.maxHp, dead := false }) with h | ⟨-, h⟩
        · rw [h, World.tick_ent, World.tick_ent, e2]; exact ⟨rfl, rfl, rfl, rfl⟩
        · rw [h, World.tick_ent, World.tick_ent, e2]; exact ⟨rfl, rfl, rfl, rfl⟩
      generalize hw4 : (w2.tick.tick.modify oldest fun minion =>
          { minion with x := x, y := y, hp := minion.maxHp, dead := false }) = w4 at e4
      have hl4 : w4.ents.length = w.ents.length := by
        rw [← hw4, World.modify_length]; exact hl2
      have hk4 : k < w4.ents.length := by rw [hl4]; exact hk
      have hk5 : k < (w4.modify k fun self =>
          { self with pets := self.pets ++ [oldest] }).ents.length := by
        rw [World.modify_length]; exact hk4
      refine ⟨by rw [World.modify_length]; exact hk5, ?_, ?_, ?_,
        Or.inr (Or.inr ⟨by simp only [not_false_eq_true], oldest, others, rfl, ?_, ?_, ?_, ?_⟩)⟩
      · rw [World.ent_modify_self _ _ _ hk5, World.ent_modify_self _ _ _ hk4]
        exact e4.2.1
      · rw [World.ent_modify_self _ _ _ hk5, World.ent_modify_self _ _ _ hk4]
        exact e4.2.2.1.trans hmin
      · rw [World.ent_modify_self _ _ _ hk5, World.ent_modify_self _ _ _ hk4]
        exact e4.2.2.2
      · rw [World.ent_modify_self _ _ _ hk5, World.ent_modify_self _ _ _ hk4]
        show (w4.ent k).pets ++ [oldest] = _
        rw [e4.1]
      · rw [World.ent_modify_self _ _ _ hk5]
      · rw [World.modify_length, World.modify_length]; exact hl4
      · intro hne hlt
        rw [World.ent_modify_ne _ k oldest _ (Ne.symm hne),
          World.ent_modify_ne _ k oldest _ (Ne.symm hne), ← hw4,
          World.ent_modify_self _ _ _ (by
            show oldest < w2.ents.length
            rw [hl2]; exact hlt),
          World.tick_ent, World.tick_ent, hw2o oldest hne]
        exact ⟨rfl, rfl⟩

/-- One call of a summoner hook keeps the bound. -/
theorem summoner.capped_step (E : Env) (w : World) (k : ℕ) (c : SummonerCall)
    (hk : k < w.ents.length) (hmin : (w.ent k).isMinion = false) (hlevel : 0 ≤ (w.ent k).level)
    (hcap : summoner.capped (w.ent k)) :
    k < (summoner.run E k [c] w).ents.length ∧
    ((summoner.run E k [c] w).ent k).isMinion = false ∧
    ((summoner.run E k [c] w).ent k).level = (w.ent k).level ∧
    summoner.capped ((summoner.run E k [c] w).ent k) := by
  have hfloor : (0 : ℤ) ≤ ⌊(w.ent k).level / 3⌋ :=
    Int.floor_nonneg.mpr (div_nonneg hlevel (by norm_num))
  have hfl : (((w.ent k).pets.filter (fun p => !(w.ent p).dead)).length : ℤ)
      ≤ ((w.ent k).pets.length : ℤ) := by
    exact_mod_cast List.length_filter_le _ _
  cases c with
  | update ts =>
    rw [show summoner.run E k [SummonerCall.update ts] w = summoner.update E w k ts from rfl]
    obtain ⟨h1, h2, h3, h4, h5⟩ := summoner.update_self E w k ts hk hmin
    refine ⟨h1, h3, h2, ?_, fun hf => absurd (h4.symm.trans hf) (by decide)⟩
    show ((summoner.update E w k ts).ent k).pets.length ≤ (3 : ℤ) +
      ⌊((summoner.update E w k ts).ent k).level / 3⌋
    rw [h2]
    rcases h5 with ⟨-, hp⟩ | ⟨hflag, hp⟩
    · rw [hp]; exact le_trans hfl hcap.1
    · rw [hp, List.length_append, List.length_singleton]
      rcases hcap.2 hflag with h0 | ⟨h0, -⟩
      · rw [h0]; simp only [List.filter_nil, List.length_nil]; push_cast; omega
      · have : ((w.ent k).pets.filter (fun p => !(w.ent p).dead)).length ≤ 1 :=
          le_trans (List.length_filter_le _ _) h0
        push_cast
        omega
  | onCombat =>
    rw [show summoner.run E k [SummonerCall.onCombat] w = summoner.onCombat E w k from rfl]
    by_cases hcd : (w.ent k).summonCD > 0
    · have hsame : summoner.onCombat E w k = w := by
        unfold summoner.onCombat
        rw [if_neg (by rw [hmin]; exact Bool.false_ne_true), if_pos hcd]
      rw [hsame]
      exact ⟨hk, hmin, rfl, hcap⟩
    · obtain ⟨h1, h2, h3, h4, h5⟩ := summoner.onCombat_self E w k hk hmin hcd
      have hempty : (w.ent k).initialMinionCreated = false → (w.ent k).pets = [] := by
        intro hf
        rcases hcap.2 hf with h0 | ⟨-, h0⟩
        · exact h0
        · exact absurd h0 hcd
      refine ⟨h1, h3, h2, ?_, ?_⟩
      · show ((summoner.onCombat E w k).ent k).pets.length ≤ (3 : ℤ) +
          ⌊((summoner.onCombat E w k).ent k).level / 3⌋
        rw [h2]
        rcases h5 with ⟨hc, hp, -, -⟩ | ⟨-, -, hp, -⟩ | ⟨-, o, others, hP, hp, -, -, -⟩
        · rw [hp, List.length_append, List.length_singleton]; push_cast; omega
        · rw [hp]; simp only [List.length_nil]; push_cast; omega
        · rw [hp, List.length_append, List.length_singleton]
          rw [hP, List.length_cons] at hfl
          have := hcap.1
          push_cast at hfl ⊢
          omega
      · intro hf
        have hf0 : (w.ent k).initialMinionCreated = false := h4.symm.trans hf
        have hp0 := hempty hf0
        rcases h5 with ⟨-, hp, hcd', -⟩ | ⟨-, -, hp, -⟩ | ⟨-, o, others, hP, -, -, -, -⟩
        · right
          rw [hp, hp0, hcd']
          exact ⟨by simp, by norm_num⟩
        · left; exact hp
        · rw [hp0] at hP
          exact absurd hP (by simp)

theorem summoner.run_append (E : Env) (k : ℕ) (cs ds : List SummonerCall) (w : World) :
    summoner.run E k (cs ++ ds) w = summoner.run E k ds (summoner.run E k cs w) := by
  induction cs generalizing w with
  | nil => rfl
  | cons c cs ih =>
    cases c with
    | update ts => exact ih _
    | onCombat => exact ih _

theorem summoner.capped_run (E : Env) (k : ℕ) (calls : List SummonerCall) (w : World)
    (hk : k < w.ents.length) (hmin : (w.ent k).isMinion = false) (hlevel : 0 ≤ (w.ent k).level)
    (hcap : summoner.capped (w.ent k)) :
    k < (summoner.run E k calls w).ents.length ∧
    ((summoner.run E k calls w).ent k).isMinion = false ∧
    ((summoner.run E k calls w).ent k).level = (w.ent k).level ∧
    summoner.capped ((summoner.run E k calls w).ent k) := by
  induction calls generalizing w with
  | nil => exact ⟨hk, hmin, rfl, hcap⟩
  | cons c cs ih =>
    obtain ⟨h1, h2, h3, h4⟩ := summoner.capped_step E w k c hk hmin hlevel hcap
    have := ih (summoner.run E k [c] w) h1 h2 (by rw [h3]; exact hlevel) h4
    rw [← summoner.run_append] at this
    rw [h3] at this
    exact this

/-- A minion starts at level 1 or above. -/
theorem summoner.newMinion_level (E : Env) (w : World) (k : ℕ) (x y : ℚ) (m : Entity) (rng : ℕ)
    (h : summoner.newMinion E w k x y = some (m, rng)) : 1 ≤ m.level := by
  unfold summoner.newMinion at h
  dsimp only at h
  split at h
  · exact absurd h (by simp)
  · have := (Prod.mk.inj (Option.some.inj h)).1
    rw [← this]
    exact le_max_left _ _

/-- The first `Gladiator.update` of a summoner-class gladiator that was never initialised
runs `summoner.onInit`, which clears `isMinion`. -/
theorem Gladiator.initializeModule_summoner (m : Entity) (hc : m.className = .summoner)
    (hi : m.initialized = false) :
    (Gladiator.initializeModule m).isMinion = false ∧
    (Gladiator.initializeModule m).summonCD = 0 ∧
    (Gladiator.initializeModule m).pets = [] ∧
    (Gladiator.initializeModule m).level = m.level ∧
    (Gladiator.initializeModule m).noModuleUpdate = m.noModuleUpdate ∧
    (Gladiator.initializeModule m).initialized = true := by
  unfold Gladiator.initializeModule
  rw [hi, if_neg Bool.false_ne_true]
  unfold onInit
  dsimp only
  rw [hc]
  exact ⟨rfl, rfl, rfl, rfl, rfl, rfl⟩

/-- A summoner-class gladiator that is not flagged as a minion, has no cooldown running and
tracks no minion creates an entity when its `onCombat` hook runs. -/
theorem summoner.onCombat_spawns (E : Env) (w : World) (k : ℕ) (hk : k < w.ents.length)
    (hmin : (w.ent k).isMinion = false) (hcd : (w.ent k).summonCD = 0)
    (hpets : (w.ent k).pets = []) (hlevel : 0 ≤ (w.ent k).level) :
    (summoner.onCombat E w k).ents.length = w.ents.length + 1 ∧
    ((summoner.onCombat E w k).ent k).pets = [w.ents.length] := by
  have hfloor : (0 : ℤ) ≤ ⌊(w.ent k).level / 3⌋ :=
    Int.floor_nonneg.mpr (div_nonneg hlevel (by norm_num))
  obtain ⟨-, -, -, -, h5⟩ := summoner.onCombat_self E w k hk hmin (by rw [hcd]; norm_num)
  rw [hpets] at h5
  simp only [List.filter_nil, List.length_nil, List.nil_append] at h5
  rcases h5 with ⟨-, hp, -, hl⟩ | ⟨hc, -⟩ | ⟨hc, -⟩
  · exact ⟨hl, hp⟩
  · exact absurd (show ((0 : ℕ) : ℤ) < 3 + ⌊(w.ent k).level / 3⌋ by push_cast; omega) hc
  · exact absurd (show ((0 : ℕ) : ℤ) < 3 + ⌊(w.ent k).level / 3⌋ by push_cast; omega) hc

namespace Legacy

theorem World.modify_heap_length (w : World) (id : ℕ) (f : Entity → Entity) :
    (w.modify id f).heap.length = w.heap.length := by
  simp [World.modify]

theorem World.obj_modify_self (w : World) (id : ℕ) (f : Entity → Entity)
    (h : id < w.heap.length) : (w.modify id f).obj id = f (w.obj id) := by
  unfold World.modify World.obj
  simp [List.getD_eq_getElem?_getD, h]

theorem World.obj_modify_ne (w : World) (id j : ℕ) (f : Entity → Entity) (h : id ≠ j) :
    (w.modify id f).obj j = w.obj j := by
  unfold World.modify World.obj
  simp [List.getD_eq_getElem?_getD, List.getElem?_set_ne h]

theorem World.obj_modify_oob (w : World) (id : ℕ) (f : Entity → Entity)
    (h : ¬ id < w.heap.length) : w.modify id f = w := by
  unfold World.modify
  rw [List.set_eq_of_length_le (not_lt.mp h)]

/-- What the class logic leaves alone, and that it keeps an object at rest at rest. -/
theorem Entity.applyClassLogic_fields (E : Env) (hsqrt : E.sqrt 0 = 0) (e : Entity) (rng : ℕ) :
    (Entity.applyClassLogic E e rng).1.x = e.x ∧
    (Entity.applyClassLogic E e rng).1.y = e.y ∧
    (Entity.applyClassLogic E e rng).1.cooldown = e.cooldown ∧
    (Entity.applyClassLogic E e rng).1.radius = e.radius ∧
    (Entity.applyClassLogic E e rng).1.age = e.age ∧
    (Entity.applyClassLogic E e rng).1.isDummy = e.isDummy ∧
    (Entity.applyClassLogic E e rng).1.damageTaken = e.damageTaken ∧
    (Entity.applyClassLogic E e rng).1.hitCount = e.hitCount ∧
    (e.vx = 0 → e.vy = 0 →
      (Entity.applyClassLogic E e rng).1.vx = 0 ∧ (Entity.applyClassLogic E e rng).1.vy = 0) := by
  unfold Entity.applyClassLogic
  cases hc : e.className <;>
    simp only [reduceCtorEq, if_false, if_true] <;>
    (try split_ifs) <;>
    refine ⟨rfl, rfl, rfl, rfl, rfl, rfl, rfl, rfl, ?_⟩ <;>
    intro h1 h2 <;>
    simp [h1, h2, hsqrt]

theorem Sim.reflSim (dm : ℕ) (w : World) : Sim dm w w :=
  ⟨rfl, rfl, fun _ => rfl, le_refl _, le_refl _⟩

theorem Sim.andThen {dm : ℕ} {w1 w2 w3 : World} (h : Sim dm w1 w2) (g : Sim dm w2 w3) :
    Sim dm w1 w3 :=
  ⟨g.len.trans h.len, g.ents.trans h.ents, fun id => (g.cls id).trans (h.cls id),
    le_trans h.taken g.taken, le_trans h.hits g.hits⟩

/-- A write to the grid or a random draw. -/
theorem Sim.env (dm : ℕ) (w : World) (grid : ℤ → ℕ) (rng : ℕ) :
    Sim dm w { w with grid := grid, rng := rng } :=
  ⟨rfl, rfl, fun _ => rfl, le_refl _, le_refl _⟩

/-- A write to the fields of another object that keeps its class. -/
theorem Sim.write {dm : ℕ} (w : World) (a : ℕ) (f : Entity → Entity) (hne : a ≠ dm)
    (hf : (f (w.obj a)).isDummy = (w.obj a).isDummy) : Sim dm w (w.modify a f) := by
  refine ⟨World.modify_heap_length w a f, rfl, ?_, ?_, ?_⟩
  · intro id
    by_cases h : a = id
    · subst h
      by_cases hl : a < w.heap.length
      · rw [World.obj_modify_self w a f hl, hf]
      · rw [World.obj_modify_oob w a f hl]
    · rw [World.obj_modify_ne w a id f h]
  · rw [World.obj_modify_ne w a dm f hne]
  · rw [World.obj_modify_ne w a dm f hne]

/-- A write to the dummy that lowers no counter. -/
theorem Sim.modify_dummy (dm : ℕ) (w : World) (f : Entity → Entity)
    (hf : (f (w.obj dm)).isDummy = (w.obj dm).isDummy)
    (ht : (w.obj dm).damageTaken ≤ (f (w.obj dm)).damageTaken)
    (hh : (w.obj dm).hitCount ≤ (f (w.obj dm)).hitCount) : Sim dm w (w.modify dm f) := by
  by_cases hl : dm < w.heap.length
  · refine ⟨World.modify_heap_length w dm f, rfl, ?_, ?_, ?_⟩
    · intro id
      by_cases h : dm = id
      · subst h
        rw [World.obj_modify_self w dm f hl, hf]
      · rw [World.obj_modify_ne w dm id f h]
    · rw [World.obj_modify_self w dm f hl]; exact ht
    · rw [World.obj_modify_self w dm f hl]; exact hh
  · rw [World.obj_modify_oob w dm f hl]
    exact Sim.reflSim dm w

theorem Arena.sim {a dm : ℕ} {w w' : World} (h : Arena a dm w) (g : Sim dm w w') :
    Arena a dm w' :=
  ⟨h.ne, by rw [g.len]; exact h.ha, by rw [g.len]; exact h.hd, (g.cls a).trans h.da,
    (g.cls dm).trans h.dd, fun e he => h.ents e (g.ents ▸ he)⟩

theorem Sim.toFrame {dm : ℕ} {w w' : World} (h : Sim dm w w') : Frame dm w w' :=
  ⟨h.len, fun _ he => h.ents ▸ he, h.cls, h.taken, h.hits⟩

theorem Frame.reflFrame (dm : ℕ) (w : World) : Frame dm w w := (Sim.reflSim dm w).toFrame

theorem Frame.followedBy {dm : ℕ} {w1 w2 w3 : World} (h : Frame dm w1 w2) (g : Frame dm w2 w3) :
    Frame dm w1 w3 :=
  ⟨g.len.trans h.len, fun e he => h.ents e (g.ents e he), fun id => (g.cls id).trans (h.cls id),
    le_trans h.taken g.taken, le_trans h.hits g.hits⟩

theorem Arena.frame {a dm : ℕ} {w w' : World} (h : Arena a dm w) (g : Frame dm w w') :
    Arena a dm w' :=
  ⟨h.ne, by rw [g.len]; exact h.ha, by rw [g.len]; exact h.hd, (g.cls a).trans h.da,
    (g.cls dm).trans h.dd, fun e he => h.ents e (g.ents e he)⟩

/-- The damage of a hit is positive. -/
theorem Entity.damage_pos (E : Env) (e : Entity) (rng : ℕ) : 0 < (Entity.damage E e rng).1 := by
  have h0 : (0 : ℚ) < 5 + (e.level : ℚ) * 2 := by positivity
  unfold Entity.damage
  dsimp only
  split_ifs
  all_goals dsimp only
  all_goals positivity

/-- A hit on the dummy raises its counters. -/
theorem TrainingDummy.takeDamage_sim (dm : ℕ) (w : World) (amount : ℚ) (h : 0 ≤ amount) :
    Sim dm w (TrainingDummy.takeDamage w dm amount) := by
  unfold TrainingDummy.takeDamage
  refine Sim.modify_dummy dm w _ rfl ?_ ?_
  · show (w.obj dm).damageTaken ≤ (w.obj dm).damageTaken + amount
    linarith
  · exact Nat.le_succ _

theorem TrainingDummy.takeDamage_counts (dm : ℕ) (w : World) (amount : ℚ)
    (hd : dm < w.heap.length) :
    ((TrainingDummy.takeDamage w dm amount).obj dm).damageTaken
      = (w.obj dm).damageTaken + amount ∧
    ((TrainingDummy.takeDamage w dm amount).obj dm).hitCount = (w.obj dm).hitCount + 1 := by
  unfold TrainingDummy.takeDamage
  rw [World.obj_modify_self w dm _ hd]
  exact ⟨rfl, rfl⟩

/-- The attacker `a` fighting the dummy `dm`: no counter of the dummy goes down, and with no
cooldown running the dummy records a hit of positive damage. -/
theorem Entity.handleCombat_dummy (E : Env) (a dm : ℕ) (w : World) (h : Arena a dm w) :
    Sim dm w (Entity.handleCombat E w a dm) ∧
    ((w.obj a).cooldown = 0 →
      (w.obj dm).hitCount + 1 ≤ ((Entity.handleCombat E w a dm).obj dm).hitCount ∧
      (w.obj dm).damageTaken < ((Entity.handleCombat E w a dm).obj dm).damageTaken) := by
  unfold Entity.handleCombat
  by_cases hcd : (w.obj a).cooldown > 0
  · rw [if_pos hcd]
    exact ⟨Sim.write w a _ h.ne rfl, fun h0 => absurd hcd (by rw [h0]; decide)⟩
  · rw [if_neg hcd]
    dsimp only
    have hpos := Entity.damage_pos E (w.obj a) w.rng
    generalize Entity.damage E (w.obj a) w.rng = d at hpos
    -- the combo count
    have s1 : Sim dm w ({ w with rng := d.2.2 }.modify a fun self => { self with combo := d.2.1 }) :=
      (Sim.env dm w w.grid d.2.2).andThen (Sim.write _ a _ h.ne rfl)
    have e1 : ({ w with rng := d.2.2 }.modify a fun self => { self with combo := d.2.1 }).obj dm
        = w.obj dm := World.obj_modify_ne _ a dm _ h.ne
    generalize ({ w with rng := d.2.2 }.modify a fun self => { self with combo := d.2.1 }) = w1
      at s1 e1
    have h1 := h.sim s1
    -- the hit
    have hT : takeDamage E w1 dm d.1 (some a) = TrainingDummy.takeDamage w1 dm d.1 := by
      unfold takeDamage
      rw [if_pos h1.dd]
    have s2 : Sim dm w1 (takeDamage E w1 dm d.1 (some a)) := by
      rw [hT]; exact TrainingDummy.takeDamage_sim dm w1 d.1 (le_of_lt hpos)
    have e2 := TrainingDummy.takeDamage_counts dm w1 d.1 h1.hd
    rw [← hT, e1] at e2
    generalize takeDamage E w1 dm d.1 (some a) = w2 at s2 e2
    -- the cooldown
    have s3 : Sim dm w2 (w2.modify a fun self => { self with cooldown := 10 }) :=
      Sim.write w2 a _ h.ne rfl
    have e3 : (w2.modify a fun self => { self with cooldown := 10 }).obj dm = w2.obj dm :=
      World.obj_modify_ne _ a dm _ h.ne
    generalize (w2.modify a fun self => { self with cooldown := 10 }) = w3 at s3 e3
    have key : ∀ w4, Sim dm w3 w4 → w4.obj dm = w3.obj dm →
        Sim dm w w4 ∧ ((w.obj a).cooldown = 0 →
          (w.obj dm).hitCount + 1 ≤ (w4.obj dm).hitCount ∧
          (w.obj dm).damageTaken < (w4.obj dm).damageTaken) := by
      intro w4 s4 e4
      refine ⟨((s1.andThen s2).andThen s3).andThen s4, fun _ => ?_⟩
      rw [e4, e3, e2.1, e2.2]
      exact ⟨le_refl _, by linarith⟩
    split
    · exact key _ (Sim.write w3 a _ h.ne rfl) (World.obj_modify_ne _ a dm _ h.ne)
    · exact key _ (Sim.reflSim dm w3) rfl

/-- One turn of the collision loop of the attacker against the dummy. -/
theorem Entity.collide_dummy (E : Env) (a dm : ℕ) (w : World) (h : Arena a dm w) :
    Sim dm w (Entity.collide E a w dm) ∧
    ((w.obj a).cooldown = 0 →
      E.hypot ((w.obj a).x - (w.obj dm).x) ((w.obj a).y - (w.obj dm).y)
        < (w.obj a).radius + (w.obj dm).radius →
      (w.obj dm).hitCount + 1 ≤ ((Entity.collide E a w dm).obj dm).hitCount ∧
      (w.obj dm).damageTaken < ((Entity.collide E a w dm).obj dm).damageTaken) := by
  unfold Entity.collide
  rw [if_neg (Ne.symm h.ne)]
  dsimp only
  split
  · obtain ⟨s1, c1⟩ := Entity.handleCombat_dummy E a dm w h
    generalize Entity.handleCombat E w a dm = w1 at s1 c1
    refine ⟨s1.andThen (Sim.write w1 a _ h.ne rfl), fun h0 _ => ?_⟩
    rw [World.obj_modify_ne _ a dm _ h.ne]
    exact c1 h0
  · rename_i hfar
    exact ⟨Sim.reflSim dm w, fun _ hnear => absurd hnear hfar⟩

/-- The collision loop of the attacker, over any references to the attacker and the dummy. -/
theorem Entity.collide_foldl (E : Env) (a dm : ℕ) (es : List ℕ) (w : World) (h : Arena a dm w)
    (hes : ∀ e ∈ es, e = a ∨ e = dm) : Sim dm w (es.foldl (Entity.collide E a) w) := by
  induction es generalizing w with
  | nil => exact Sim.reflSim dm w
  | cons e es ih =>
    have s1 : Sim dm w (Entity.collide E a w e) := by
      rcases hes e (List.mem_cons_self _ _) with he | he
      · rw [he]
        unfold Entity.collide
        rw [if_pos rfl]
        exact Sim.reflSim dm w
      · rw [he]
        exact (Entity.collide_dummy E a dm w h).1
    exact s1.andThen (ih _ (h.sim s1) fun e he => hes e (List.mem_cons_of_mem _ he))

theorem Entity.checkCollisions_sim (E : Env) (a dm : ℕ) (w : World) (h : Arena a dm w) :
    Sim dm w (Entity.checkCollisions E w a) :=
  Entity.collide_foldl E a dm w.entities w h h.ents

theorem Entity.seekEnemy_sim (E : Env) (a dm : ℕ) (w : World) (hne : a ≠ dm) :
    Sim dm w (Entity.seekEnemy E w a) := by
  unfold Entity.seekEnemy
  dsimp only
  split
  · exact Sim.reflSim dm w
  · exact Sim.write w a _ hne rfl

theorem Entity.seekEnemy_dummy (E : Env) (a dm : ℕ) (w : World) (hne : a ≠ dm) :
    (Entity.seekEnemy E w a).obj dm = w.obj dm ∧
    (Entity.seekEnemy E w a).entities = w.entities := by
  unfold Entity.seekEnemy
  dsimp only
  split
  · exact ⟨rfl, rfl⟩
  · exact ⟨World.obj_modify_ne _ a dm _ hne, rfl⟩

end Legacy

namespace Legacy

/-- A random draw. -/
theorem Sim.draw (dm : ℕ) (w : World) (rng : ℕ) : Sim dm w { w with rng := rng } :=
  ⟨rfl, rfl, fun _ => rfl, le_refl _, le_refl _⟩

/-- A write to the grid. -/
theorem Sim.paint (dm : ℕ) (w : World) (grid : ℤ → ℕ) : Sim dm w { w with grid := grid } :=
  ⟨rfl, rfl, fun _ => rfl, le_refl _, le_refl _⟩

theorem Entity.move_sim (E : Env) (a dm : ℕ) (w : World) (hne : a ≠ dm) :
    Sim dm w (Entity.move E w a) := by
  unfold Entity.move
  dsimp only
  have s1 : Sim dm w (w.modify a fun self =>
      { self with x := self.x + self.vx, y := self.y + self.vy }) := Sim.write w a _ hne rfl
  generalize (w.modify a fun self =>
      { self with x := self.x + self.vx, y := self.y + self.vy }) = w1 at s1
  refine s1.andThen ?_
  have s2 : Sim dm w1 (if (w1.obj a).className ≠ .spinner then
      (if ((w1.modify a fun self =>
          { self with vx := self.vx * 0.98, vy := self.vy * 0.98 }).obj a).age % 10 = 0 then
        Entity.seekEnemy E (w1.modify a fun self =>
          { self with vx := self.vx * 0.98, vy := self.vy * 0.98 }) a
      else (w1.modify a fun self =>
          { self with vx := self.vx * 0.98, vy := self.vy * 0.98 }))
      else w1) := by
    split
    · split
      · exact (Sim.write w1 a _ hne rfl).andThen (Entity.seekEnemy_sim E a dm _ hne)
      · exact Sim.write w1 a _ hne rfl
    · exact Sim.reflSim dm w1
  generalize (if (w1.obj a).className ≠ .spinner then
      (if ((w1.modify a fun self =>
          { self with vx := self.vx * 0.98, vy := self.vy * 0.98 }).obj a).age % 10 = 0 then
        Entity.seekEnemy E (w1.modify a fun self =>
          { self with vx := self.vx * 0.98, vy := self.vy * 0.98 }) a
      else (w1.modify a fun self =>
          { self with vx := self.vx * 0.98, vy := self.vy * 0.98 }))
      else w1) = w2 at s2
  refine s2.andThen ?_
  split
  · have s3 : Sim dm w2 (w2.modify a fun self =>
        { self with vx := self.vx * -1, vy := self.vy * -1,
                    x := self.x + self.vx * -1 * 4, y := self.y + self.vy * -1 * 4 }) :=
      Sim.write w2 a _ hne rfl
    generalize (w2.modify a fun self =>
        { self with vx := self.vx * -1, vy := self.vy * -1,
                    x := self.x + self.vx * -1 * 4, y := self.y + self.vy * -1 * 4 }) = w3 at s3
    refine s3.andThen ?_
    have s4 : Sim dm w3 (if (w3.obj a).className = .spinner then
        w3.modify a fun self => { self with combo := 0 } else w3) := by
      split
      · exact Sim.write w3 a _ hne rfl
      · exact Sim.reflSim dm w3
    generalize (if (w3.obj a).className = .spinner then
        w3.modify a fun self => { self with combo := 0 } else w3) = w4 at s4
    refine s4.andThen ?_
    split
    · split
      · exact (Sim.draw dm w4 _).andThen (Sim.write _ a _ hne rfl)
      · exact Sim.draw dm w4 _
    · exact Sim.reflSim dm w4
  · exact Sim.reflSim dm w2

/-- An object at rest, away from the walls and not due to seek, is left where it is by
`move`. -/
theorem Entity.move_rest (E : Env) (a dm : ℕ) (w : World) (hne : a ≠ dm)
    (ha : a < w.heap.length) (hvx : (w.obj a).vx = 0) (hvy : (w.obj a).vy = 0)
    (hage : (w.obj a).age % 10 ≠ 0)
    (hcell : getCell w.grid ⌊(w.obj a).x⌋ ⌊(w.obj a).y⌋ ≠ some TYPE.WALL) :
    (Entity.move E w a).obj dm = w.obj dm ∧
    (Entity.move E w a).entities = w.entities ∧
    ((Entity.move E w a).obj a).x = (w.obj a).x ∧
    ((Entity.move E w a).obj a).y = (w.obj a).y ∧
    ((Entity.move E w a).obj a).cooldown = (w.obj a).cooldown ∧
    ((Entity.move E w a).obj a).radius = (w.obj a).radius := by
  unfold Entity.move
  dsimp only
  have e1 : (w.modify a fun self =>
      { self with x := self.x + self.vx, y := self.y + self.vy }).obj a
      = { w.obj a with x := (w.obj a).x + (w.obj a).vx, y := (w.obj a).y + (w.obj a).vy } :=
    World.obj_modify_self w a _ ha
  have d1 : (w.modify a fun self =>
      { self with x := self.x + self.vx, y := self.y + self.vy }).obj dm = w.obj dm :=
    World.obj_modify_ne w a dm _ hne
  have l1 : (w.modify a fun self =>
      { self with x := self.x + self.vx, y := self.y + self.vy }).heap.length = w.heap.length :=
    World.modify_heap_length w a _
  have g1 : (w.modify a fun self =>
      { self with x := self.x + self.vx, y := self.y + self.vy }).grid = w.grid := rfl
  have n1 : (w.modify a fun self =>
      { self with x := self.x + self.vx, y := self.y + self.vy }).entities = w.entities := rfl
  generalize (w.modify a fun self =>
      { self with x := self.x + self.vx, y := self.y + self.vy }) = w1 at e1 d1 l1 g1 n1
  have ha1 : a < w1.heap.length := by rw [l1]; exact ha
  have e2 : (w1.modify a fun self =>
      { self with vx := self.vx * 0.98, vy := self.vy * 0.98 }).obj a
      = { w1.obj a with vx := (w1.obj a).vx * 0.98, vy := (w1.obj a).vy * 0.98 } :=
    World.obj_modify_self w1 a _ ha1
  have hx : (w1.obj a).x = (w.obj a).x := by rw [e1]; show (w.obj a).x + (w.obj a).vx = _; rw [hvx, add_zero]
  have hy : (w1.obj a).y = (w.obj a).y := by rw [e1]; show (w.obj a).y + (w.obj a).vy = _; rw [hvy, add_zero]
  have hc : (w1.obj a).cooldown = (w.obj a).cooldown := by rw [e1]
  have hr : (w1.obj a).radius = (w.obj a).radius := by rw [e1]
  have hg : (w1.obj a).age = (w.obj a).age := by rw [e1]
  by_cases hsp : (w1.obj a).className ≠ .spinner
  · -- not a spinner: friction, no seek
    rw [if_pos hsp]
    have hno : ¬ ((w1.modify a fun self =>
        { self with vx := self.vx * 0.98, vy := self.vy * 0.98 }).obj a).age % 10 = 0 := by
      rw [e2]
      show ¬ (w1.obj a).age % 10 = 0
      rw [hg]
      exact hage
    rw [if_neg hno]
    have hcell2 : ¬ getCell (w1.modify a fun self =>
          { self with vx := self.vx * 0.98, vy := self.vy * 0.98 }).grid
        ⌊((w1.modify a fun self =>
          { self with vx := self.vx * 0.98, vy := self.vy * 0.98 }).obj a).x⌋
        ⌊((w1.modify a fun self =>
          { self with vx := self.vx * 0.98, vy := self.vy * 0.98 }).obj a).y⌋
        = some TYPE.WALL := by
      rw [e2]
      show ¬ getCell w1.grid ⌊(w1.obj a).x⌋ ⌊(w1.obj a).y⌋ = some TYPE.WALL
      rw [g1, hx, hy]
      exact hcell
    rw [if_neg hcell2, e2, World.obj_modify_ne w1 a dm _ hne]
    exact ⟨d1, n1, hx, hy, hc, hr⟩
  · rw [if_neg hsp]
    have hcell2 : ¬ getCell w1.grid ⌊(w1.obj a).x⌋ ⌊(w1.obj a).y⌋ = some TYPE.WALL := by
      rw [g1, hx, hy]
      exact hcell
    rw [if_neg hcell2]
    exact ⟨d1, n1, hx, hy, hc, hr⟩

theorem Entity.levelUp_sim (a dm : ℕ) (w : World) (hne : a ≠ dm) :
    Sim dm w (Entity.levelUp w a) := by
  unfold Entity.levelUp
  exact (Sim.write w a _ hne rfl).andThen (Sim.paint dm _ _)

theorem Entity.die_sim (a dm : ℕ) (w : World) (hne : a ≠ dm) :
    Sim dm w (Entity.die w a) := by
  unfold Entity.die
  exact (Sim.paint dm w _).andThen (Sim.write _ a _ hne rfl)

/-- The update of the attacker or of the dummy lowers no counter of the dummy. -/
theorem Entity.update_sim (E : Env) (hsqrt : E.sqrt 0 = 0) (a dm : ℕ) (w : World)
    (h : Arena a dm w) (e : ℕ) (he : e = a ∨ e = dm) : Sim dm w (Entity.update E w e) := by
  unfold Entity.update
  rcases he with he | he
  · subst he
    rw [if_neg (by rw [h.da]; exact Bool.false_ne_true)]
    split
    · exact Entity.die_sim e dm w h.ne
    · dsimp only
      have s1 : Sim dm w (w.modify e fun self => { self with age := self.age + 1 }) :=
        Sim.write w e _ h.ne rfl
      generalize (w.modify e fun self => { self with age := self.age + 1 }) = w1 at s1
      have s2 : Sim dm w1 ({ w1 with rng := (Entity.applyClassLogic E (w1.obj e) w1.rng).2 }.modify
          e fun _ => (Entity.applyClassLogic E (w1.obj e) w1.rng).1) :=
        (Sim.draw dm w1 _).andThen
          (Sim.write _ e _ h.ne (Entity.applyClassLogic_fields E hsqrt _ _).2.2.2.2.2.1)
      generalize ({ w1 with rng := (Entity.applyClassLogic E (w1.obj e) w1.rng).2 }.modify
          e fun _ => (Entity.applyClassLogic E (w1.obj e) w1.rng).1) = w2 at s2
      have s3 : Sim dm w2 (Entity.move E w2 e) := Entity.move_sim E e dm w2 h.ne
      generalize Entity.move E w2 e = w3 at s3
      have h3 : Arena e dm w3 := h.sim ((s1.andThen s2).andThen s3)
      have s4 : Sim dm w3 (Entity.checkCollisions E w3 e) :=
        Entity.checkCollisions_sim E e dm w3 h3
      generalize Entity.checkCollisions E w3 e = w4 at s4
      have s5 : Sim dm w4 (w4.modify e fun self => { self with xp := self.xp + 0.2 }) :=
        Sim.write w4 e _ h.ne rfl
      generalize (w4.modify e fun self => { self with xp := self.xp + 0.2 }) = w5 at s5
      have s : Sim dm w w5 := (((s1.andThen s2).andThen s3).andThen s4).andThen s5
      split
      · exact s.andThen (Entity.levelUp_sim e dm w5 h.ne)
      · exact s
  · subst he
    rw [if_pos h.dd]
    exact Sim.modify_dummy e w _ rfl (le_refl _) (le_refl _)

/-- The update of an attacker that is alive, at rest, away from the walls, in touch with the
dummy and with no cooldown running makes the dummy record a hit of positive damage. -/
theorem Entity.update_hits (E : Env) (hsqrt : E.sqrt 0 = 0) (a dm : ℕ) (w : World)
    (h : Arena a dm w) (hents : w.entities = [a, dm]) (hhp : 0 < (w.obj a).hp)
    (hvx : (w.obj a).vx = 0) (hvy : (w.obj a).vy = 0) (hcd : (w.obj a).cooldown = 0)
    (hage : ((w.obj a).age + 1) % 10 ≠ 0)
    (hcell : getCell w.grid ⌊(w.obj a).x⌋ ⌊(w.obj a).y⌋ ≠ some TYPE.WALL)
    (hdist : E.hypot ((w.obj a).x - (w.obj dm).x) ((w.obj a).y - (w.obj dm).y)
      < (w.obj a).radius + (w.obj dm).radius) :
    (w.obj dm).hitCount + 1 ≤ ((Entity.update E w a).obj dm).hitCount ∧
    (w.obj dm).damageTaken < ((Entity.update E w a).obj dm).damageTaken := by
  unfold Entity.update
  rw [if_neg (by rw [h.da]; exact Bool.false_ne_true), if_neg (not_le.mpr hhp)]
  dsimp only
  -- the age
  have s1 : Sim dm w (w.modify a fun self => { self with age := self.age + 1 }) :=
    Sim.write w a _ h.ne rfl
  have e1 : (w.modify a fun self => { self with age := self.age + 1 }).obj a
      = { w.obj a with age := (w.obj a).age + 1 } := World.obj_modify_self w a _ h.ha
  have d1 : (w.modify a fun self => { self with age := self.age + 1 }).obj dm = w.obj dm :=
    World.obj_modify_ne w a dm _ h.ne
  have g1 : (w.modify a fun self => { self with age := self.age + 1 }).grid = w.grid := rfl
  have n1 : (w.modify a fun self => { self with age := self.age + 1 }).entities = w.entities :=
    rfl
  generalize (w.modify a fun self => { self with age := self.age + 1 }) = w1 at s1 e1 d1 g1 n1
  have h1 := h.sim s1
  -- the class logic
  obtain ⟨fx, fy, fc, fr, fa, fd, -, -, fv⟩ :=
    Entity.applyClassLogic_fields E hsqrt (w1.obj a) w1.rng
  have s2 : Sim dm w1 ({ w1 with rng := (Entity.applyClassLogic E (w1.obj a) w1.rng).2 }.modify
      a fun _ => (Entity.applyClassLogic E (w1.obj a) w1.rng).1) :=
    (Sim.draw dm w1 _).andThen (Sim.write _ a _ h.ne fd)
  have e2 : ({ w1 with rng := (Entity.applyClassLogic E (w1.obj a) w1.rng).2 }.modify
      a fun _ => (Entity.applyClassLogic E (w1.obj a) w1.rng).1).obj a
      = (Entity.applyClassLogic E (w1.obj a) w1.rng).1 :=
    World.obj_modify_self _ a _ h1.ha
  have d2 : ({ w1 with rng := (Entity.applyClassLogic E (w1.obj a) w1.rng).2 }.modify
      a fun _ => (Entity.applyClassLogic E (w1.obj a) w1.rng).1).obj dm = w1.obj dm :=
    World.obj_modify_ne _ a dm _ h.ne
  have g2 : ({ w1 with rng := (Entity.applyClassLogic E (w1.obj a) w1.rng).2 }.modify
      a fun _ => (Entity.applyClassLogic E (w1.obj a) w1.rng).1).grid = w1.grid := rfl
  have n2 : ({ w1 with rng := (Entity.applyClassLogic E (w1.obj a) w1.rng).2 }.modify
      a fun _ => (Entity.applyClassLogic E (w1.obj a) w1.rng).1).entities = w1.entities := rfl
  generalize ({ w1 with rng := (Entity.applyClassLogic E (w1.obj a) w1.rng).2 }.modify
      a fun _ => (Entity.applyClassLogic E (w1.obj a) w1.rng).1) = w2 at s2 e2 d2 g2 n2
  have h2 := h1.sim s2
  have x2 : (w2.obj a).x = (w.obj a).x := by rw [e2, fx, e1]
  have y2 : (w2.obj a).y = (w.obj a).y := by rw [e2, fy, e1]
  have c2 : (w2.obj a).cooldown = 0 := by rw [e2, fc, e1]; exact hcd
  have r2 : (w2.obj a).radius = (w.obj a).radius := by rw [e2, fr, e1]
  have a2 : (w2.obj a).age = (w.obj a).age + 1 := by rw [e2, fa, e1]
  have v2 : (w2.obj a).vx = 0 ∧ (w2.obj a).vy = 0 := by
    rw [e2]
    exact fv (by rw [e1]; exact hvx) (by rw [e1]; exact hvy)
  -- the move
  obtain ⟨d3, n3, x3, y3, c3, r3⟩ := Entity.move_rest E a dm w2 h.ne h2.ha v2.1 v2.2
    (by rw [a2]; exact hage) (by rw [g2, g1, x2, y2]; exact hcell)
  have s3 : Sim dm w2 (Entity.move E w2 a) := Entity.move_sim E a dm w2 h.ne
  generalize Entity.move E w2 a = w3 at s3 d3 n3 x3 y3 c3 r3
  have h3 := h2.sim s3
  -- the collision with the dummy
  have hloop : Entity.checkCollisions E w3 a = Entity.collide E a w3 dm := by
    unfold Entity.checkCollisions
    rw [n3, n2, n1, hents]
    show Entity.collide E a (Entity.collide E a w3 a) dm = _
    have : Entity.collide E a w3 a = w3 := by
      unfold Entity.collide
      rw [if_pos rfl]
    rw [this]
  have hit := (Entity.collide_dummy E a dm w3 h3).2 (by rw [c3, c2])
    (by rw [x3, y3, r3, d3, d2, d1, x2, y2, r2]; exact hdist)
  have s4 := (Entity.collide_dummy E a dm w3 h3).1
  rw [← hloop, d3, d2, d1] at hit
  rw [← hloop] at s4
  generalize Entity.checkCollisions E w3 a = w4 at hit s4
  have h4 := h3.sim s4
  -- the experience
  have d5 : (w4.modify a fun self => { self with xp := self.xp + 0.2 }).obj dm = w4.obj dm :=
    World.obj_modify_ne w4 a dm _ h.ne
  generalize (w4.modify a fun self => { self with xp := self.xp + 0.2 }) = w5 at d5
  rw [← d5] at hit
  split
  · have s6 := Entity.levelUp_sim a dm w5 h.ne
    exact ⟨le_trans hit.1 s6.hits, lt_of_lt_of_le hit.2 s6.taken⟩
  · exact hit

/-- The entity loop of `updateGame` lowers no counter of the dummy. -/
theorem updateEntities_frame (E : Env) (hsqrt : E.sqrt 0 = 0) (a dm : ℕ) (i : ℕ) (w : World)
    (h : Arena a dm w) (hi : i ≤ w.entities.length) : Frame dm w (updateEntities E i w) := by
  induction i generalizing w with
  | zero => exact Frame.reflFrame dm w
  | succ i ih =>
    have hlt : i < w.entities.length := hi
    have hmem : w.entities.getD i 0 ∈ w.entities := by
      rw [List.getD_eq_getElem _ _ hlt]
      exact List.getElem_mem _
    unfold updateEntities
    dsimp only
    split
    · have f1 : Frame dm w { w with entities := w.entities.eraseIdx i } :=
        ⟨rfl, fun e he => (List.eraseIdx_sublist _ _).subset he, fun _ => rfl, le_refl _,
          le_refl _⟩
      refine f1.followedBy (ih _ (h.frame f1) ?_)
      show i ≤ (w.entities.eraseIdx i).length
      rw [List.length_eraseIdx, if_pos hlt]
      omega
    · have s1 := Entity.update_sim E hsqrt a dm w h _ (h.ents _ hmem)
      refine s1.toFrame.followedBy (ih _ (h.sim s1) ?_)
      rw [s1.ents]
      omega

theorem sandStep_sim (E : Env) (dm : ℕ) (w : World) : Sim dm w (sandStep E w) := by
  unfold sandStep
  dsimp only
  split
  · exact Sim.draw dm w _
  · split
    · split
      · exact Sim.env dm w _ _
      · exact Sim.draw dm w _
    · exact Sim.draw dm w _

theorem sandLoop_sim (E : Env) (dm : ℕ) (n : ℕ) (w : World) :
    Sim dm w ((sandStep E)^[n] w) := by
  induction n generalizing w with
  | zero => exact Sim.reflSim dm w
  | succ n ih =>
    rw [Function.iterate_succ_apply]
    exact (sandStep_sim E dm w).andThen (ih _)

theorem updateGame_frame (E : Env) (hsqrt : E.sqrt 0 = 0) (a dm : ℕ) (w : World)
    (h : Arena a dm w) : Frame dm w (updateGame E w) := by
  unfold updateGame
  exact (updateEntities_frame E hsqrt a dm _ w h (le_refl _)).followedBy (sandLoop_sim E dm _ _).toFrame

theorem frames_frame (E : Env) (hsqrt : E.sqrt 0 = 0) (a dm : ℕ) (n : ℕ) (w : World)
    (h : Arena a dm w) : Frame dm w ((updateGame E)^[n] w) := by
  induction n generalizing w with
  | zero => exact Frame.reflFrame dm w
  | succ n ih =>
    rw [Function.iterate_succ_apply]
    have f1 := updateGame_frame E hsqrt a dm w h
    exact f1.followedBy (ih _ (h.frame f1))

end Legacy

namespace Legacy

/-- The cell of the attacker is empty after `initArena`. -/
theorem initArena_center : getCell initArena.grid 145 100 = some TYPE.EMPTY := by
  unfold getCell
  rw [if_pos (by norm_num [STAGE_W, STAGE_H])]
  unfold gridGet
  rw [show ((100 : ℚ) * STAGE_W + 145) = ((30145 : ℤ) : ℚ) by norm_num [STAGE_W]]
  rw [if_pos (by
    refine ⟨Rat.den_intCast _, ?_, ?_⟩
    · norm_num
    · norm_num [STAGE_W, STAGE_H])]
  rw [Rat.num_intCast]
  rfl

theorem CLASSES_hp_pos (c : ClassName) : 0 < (CLASSES c).hp := by
  cases c <;> norm_num [CLASSES]

theorem getD_append_pair (l : List Entity) (x y d : Entity) :
    (l ++ [x, y]).getD l.length d = x ∧ (l ++ [x, y]).getD (l.length + 1) d = y := by
  induction l with
  | nil => exact ⟨rfl, rfl⟩
  | cons e l ih => exact ih

/-- The world in which the frame loop starts. -/
theorem simulateDpsAgainstDummy.start_spec (E : Env) (w : World) (c : ClassName) :
    (simulateDpsAgainstDummy.start E w c).heap.length = w.heap.length + 2 ∧
    (simulateDpsAgainstDummy.start E w c).entities = [w.heap.length, w.heap.length + 1] ∧
    (simulateDpsAgainstDummy.start E w c).grid = initArena.grid ∧
    (simulateDpsAgainstDummy.start E w c).obj w.heap.length
      = { (Entity.new E w.rng (STAGE_W / 2 - 5) (STAGE_H / 2) c TYPE.FIRE).1 with
          vx := 0, vy := 0 } ∧
    (simulateDpsAgainstDummy.start E w c).obj (w.heap.length + 1)
      = (TrainingDummy.new E (w.rng + 2) (STAGE_W / 2 + 2) (STAGE_H / 2)).1 := by
  refine ⟨?_, rfl, rfl, ?_, ?_⟩
  · simp [simulateDpsAgainstDummy.start, initArena]
  · exact (getD_append_pair w.heap _ _ _).1
  · exact (getD_append_pair w.heap _ _ _).2

/-- The first frame of `simulateDpsAgainstDummy`: the attacker, created in touch with the
dummy, hits it. -/
theorem updateGame_first (E : Env) (hhypot : E.hypot (-7) 0 = 7) (hsqrt : E.sqrt 0 = 0)
    (w : World) (c : ClassName) :
    Arena w.heap.length (w.heap.length + 1) (updateGame E (simulateDpsAgainstDummy.start E w c)) ∧
    1 ≤ ((updateGame E (simulateDpsAgainstDummy.start E w c)).obj (w.heap.length + 1)).hitCount ∧
    0 < ((updateGame E (simulateDpsAgainstDummy.start E w c)).obj
      (w.heap.length + 1)).damageTaken := by
  obtain ⟨hl, he, hg, ha, hd⟩ := simulateDpsAgainstDummy.start_spec E w c
  generalize simulateDpsAgainstDummy.start E w c = w0 at hl he hg ha hd
  have hA : Arena w.heap.length (w.heap.length + 1) w0 :=
    ⟨Nat.ne_of_lt (Nat.lt_succ_self _), by rw [hl]; omega, by rw [hl]; omega,
      by rw [ha]; rfl, by rw [hd]; rfl, by rw [he]; simp⟩
  have f0 := updateGame_frame E hsqrt _ _ w0 hA
  refine ⟨hA.frame f0, ?_⟩
  unfold updateGame
  dsimp only
  have s9 := sandLoop_sim E (w.heap.length + 1) 1000 (updateEntities E w0.entities.length w0)
  suffices hE : 1 ≤ ((updateEntities E w0.entities.length w0).obj (w.heap.length + 1)).hitCount ∧
      0 < ((updateEntities E w0.entities.length w0).obj (w.heap.length + 1)).damageTaken from
    ⟨le_trans hE.1 s9.hits, lt_of_lt_of_le hE.2 s9.taken⟩
  -- the dummy is updated first
  have hlen : w0.entities.length = 2 := by rw [he]; rfl
  have h1 : updateEntities E w0.entities.length w0
      = updateEntities E 1 (Entity.update E w0 (w.heap.length + 1)) := by
    rw [hlen]
    show (if (w0.obj (w0.entities.getD 1 0)).dead then _ else _) = _
    rw [he]
    show (if (w0.obj (w.heap.length + 1)).dead then _ else _) = _
    rw [hd]
    rfl
  have s1 := Entity.update_sim E hsqrt _ _ w0 hA (w.heap.length + 1) (Or.inr rfl)
  have e1 : Entity.update E w0 (w.heap.length + 1)
      = w0.modify (w.heap.length + 1) fun self => { self with age := self.age + 1 } := by
    unfold Entity.update
    rw [if_pos hA.dd]
  have a1 : (Entity.update E w0 (w.heap.length + 1)).obj w.heap.length = w0.obj w.heap.length := by
    rw [e1]
    exact World.obj_modify_ne w0 _ _ _ (Ne.symm hA.ne)
  have d1 : (Entity.update E w0 (w.heap.length + 1)).obj (w.heap.length + 1)
      = { w0.obj (w.heap.length + 1) with age := (w0.obj (w.heap.length + 1)).age + 1 } := by
    rw [e1]
    exact World.obj_modify_self w0 _ _ hA.hd
  have g1 : (Entity.update E w0 (w.heap.length + 1)).grid = w0.grid := by rw [e1]; rfl
  rw [h1]
  generalize Entity.update E w0 (w.heap.length + 1) = w1 at s1 a1 d1 g1
  have hA1 := hA.sim s1
  have n1 : w1.entities = [w.heap.length, w.heap.length + 1] := s1.ents.trans he
  -- then the attacker
  have h2 : updateEntities E 1 w1 = Entity.update E w1 w.heap.length := by
    show (if (w1.obj (w1.entities.getD 0 0)).dead then _ else _) = _
    rw [n1]
    show (if (w1.obj w.heap.length).dead then _ else _) = _
    rw [a1, ha]
    rfl
  rw [h2]
  have hx : (w1.obj w.heap.length).x = 145 := by rw [a1, ha]; norm_num [Entity.new, STAGE_W]
  have hy : (w1.obj w.heap.length).y = 100 := by rw [a1, ha]; norm_num [Entity.new, STAGE_H]
  have hit := Entity.update_hits E hsqrt _ _ w1 hA1 n1
    (by rw [a1, ha]; exact CLASSES_hp_pos c) (by rw [a1, ha]) (by rw [a1, ha])
    (by rw [a1, ha]; rfl) (by rw [a1, ha]; show ((0 : ℕ) + 1) % 10 ≠ 0; decide)
    (by
      rw [hx, hy, g1, hg]
      rw [show ((⌊(145 : ℚ)⌋ : ℤ) : ℚ) = 145 by norm_num,
        show ((⌊(100 : ℚ)⌋ : ℤ) : ℚ) = 100 by norm_num, initArena_center]
      decide)
    (by
      rw [hx, hy, d1, hd]
      show E.hypot (145 - (STAGE_W / 2 + 2)) (100 - STAGE_H / 2) < _
      rw [show (145 : ℚ) - (STAGE_W / 2 + 2) = -7 by norm_num [STAGE_W],
        show (100 : ℚ) - STAGE_H / 2 = 0 by norm_num [STAGE_H], hhypot, a1, ha]
      show (7 : ℚ) < 4 + 4
      norm_num)
  rw [d1, hd] at hit
  exact ⟨le_trans (Nat.le_add_left 1 _) hit.1, hit.2⟩

end Legacy

/-! ## The entity array never shrinks or grows under a hit -/

section
variable {R : Entity → Entity → Prop} {S : ℕ → Prop} {w w1 : World}

end

/-! ## The invariant of the collision loop -/

theorem Healed.ofKeeps {e e' : Entity} (h : Keeps e e') : Healed e e' :=
  ⟨h.toKeepsId, Or.inl h.hp⟩

theorem World.ent_setRng (w : World) (rng : ℕ) (j : ℕ) :
    ({ w with rng := rng } : World).ent j = w.ent j := rfl

namespace Spared

variable {w0 w : World} {k : ℕ}

end Spared

/-! ## The combat hooks keep the invariant -/

section
variable {S : ℕ → Prop} {w w1 : World}

end

theorem handleCornerEscape_vel (E : Env) (e : Entity) (spd : ℚ)
    (hx : e.x - SAFE_BOUNDS.minX < WARNING_DISTANCE ∨ SAFE_BOUNDS.maxX - e.x < WARNING_DISTANCE)
    (hy : e.y - SAFE_BOUNDS.minY < WARNING_DISTANCE ∨ SAFE_BOUNDS.maxY - e.y < WARNING_DISTANCE)
    (hs : 0 < E.sqrt ((STAGE_W / 2 - e.x) * (STAGE_W / 2 - e.x)
      + (STAGE_H / 2 - e.y) * (STAGE_H / 2 - e.y))) :
    (BaseMovementStrategy.handleCornerEscape E e spd).vx =
      e.vx + ((STAGE_W / 2 - e.x) / E.sqrt ((STAGE_W / 2 - e.x) * (STAGE_W / 2 - e.x)
        + (STAGE_H / 2 - e.y) * (STAGE_H / 2 - e.y))) *
        ((1 - min (min (e.x - SAFE_BOUNDS.minX) (SAFE_BOUNDS.maxX - e.x) / WARNING_DISTANCE)
          (min (e.y - SAFE_BOUNDS.minY) (SAFE_BOUNDS.maxY - e.y) / WARNING_DISTANCE))
          * e.baseSpeed * 0.5) * spd ∧
    (BaseMovementStrategy.handleCornerEscape E e spd).vy =
      e.vy + ((STAGE_H / 2 - e.y) / E.sqrt ((STAGE_W / 2 - e.x) * (STAGE_W / 2 - e.x)
        + (STAGE_H / 2 - e.y) * (STAGE_H / 2 - e.y))) *
        ((1 - min (min (e.x - SAFE_BOUNDS.minX) (SAFE_BOUNDS.maxX - e.x) / WARNING_DISTANCE)
          (min (e.y - SAFE_BOUNDS.minY) (SAFE_BOUNDS.maxY - e.y) / WARNING_DISTANCE))
          * e.baseSpeed * 0.5) * spd := by
  unfold BaseMovementStrategy.handleCornerEscape
  dsimp only
  have h1 : (decide (e.x - SAFE_BOUNDS.minX < WARNING_DISTANCE ∨
      SAFE_BOUNDS.maxX - e.x < WARNING_DISTANCE) &&
    decide (e.y - SAFE_BOUNDS.minY < WARNING_DISTANCE ∨
      SAFE_BOUNDS.maxY - e.y < WARNING_DISTANCE)) = true := by
    simp only [Bool.and_eq_true, decide_eq_true_eq]; exact ⟨hx, hy⟩
  rw [if_pos h1, if_pos hs]
  exact ⟨rfl, rfl⟩

theorem handleCornerEscape_far (E : Env) (e : Entity) (spd : ℚ)
    (h : ¬ ((e.x - SAFE_BOUNDS.minX < WARNING_DISTANCE ∨
        SAFE_BOUNDS.maxX - e.x < WARNING_DISTANCE) ∧
      (e.y - SAFE_BOUNDS.minY < WARNING_DISTANCE ∨
        SAFE_BOUNDS.maxY - e.y < WARNING_DISTANCE))) :
    BaseMovementStrategy.handleCornerEscape E e spd = e := by
  unfold BaseMovementStrategy.handleCornerEscape
  dsimp only
  have h1 : ¬ (decide (e.x - SAFE_BOUNDS.minX < WARNING_DISTANCE ∨
      SAFE_BOUNDS.maxX - e.x < WARNING_DISTANCE) &&
    decide (e.y - SAFE_BOUNDS.minY < WARNING_DISTANCE ∨
      SAFE_BOUNDS.maxY - e.y < WARNING_DISTANCE)) = true := by
    simp only [Bool.and_eq_true, decide_eq_true_eq]; exact h
  rw [if_neg h1]

theorem exampleEnv_sqrt_19300 (draws : ℕ → ℚ) : (exampleEnv draws).sqrt 19300 = 138 := by
  have h : Nat.sqrt 19300 = 138 := (Nat.eq_sqrt.mpr ⟨by norm_num, by norm_num⟩).symm
  simp [exampleEnv, h]

/-! ## The claims -/

/-- C3: for an invulnerable entity whose module has no `onDamageTakenPre` hook, `takeDamage`
returns 0, leaves the hit points unchanged, awards exactly 30 xp to the defender, and
traces nothing but the call itself, so the `onDamageTaken` hook is not run. -/
theorem takeDamage_invulnerable_blocks (E : Env) (w : World) (t : ℕ) (amount : ℚ)
    (attacker : Option ℕ) (ht : t < w.ents.length)
    (hinv : (w.ent t).invulnerable = true)
    (hpre : hasOnDamageTakenPre (w.ent t).className = false) :
    (takeDamage E w t amount attacker).2 = 0 ∧
    ((takeDamage E w t amount attacker).1.ent t).hp = (w.ent t).hp ∧
    ((takeDamage E w t amount attacker).1.ent t).xp = (w.ent t).xp + 30 ∧
    (takeDamage E w t amount attacker).1.trace
      = w.trace ++ [Ev.takeDamage t amount attacker] := by
  have hcls : onDamageTakenPre E (w.log (.takeDamage t amount attacker)) t amount
      = (w.log (.takeDamage t amount attacker), amount) :=
    onDamageTakenPre_of_noHook E _ t amount hpre
  simp only [takeDamage, takeDamageCore, hcls]
  simp [hinv, World.ent_modify_self, ht, gainXp]

/-- Witness of C3: a shielded tank hit for 20. -/
theorem takeDamage_invulnerable_blocks_witness :
    (takeDamage (exampleEnv fun _ => 0) exShielded 0 20 none).2 = 0 ∧
    ((takeDamage (exampleEnv fun _ => 0) exShielded 0 20 none).1.ent 0).hp = 900 ∧
    ((takeDamage (exampleEnv fun _ => 0) exShielded 0 20 none).1.ent 0).xp = 0 + 30 ∧
    (takeDamage (exampleEnv fun _ => 0) exShielded 0 20 none).1.trace
      = [] ++ [Ev.takeDamage 0 20 none] :=
  takeDamage_invulnerable_blocks (exampleEnv fun _ => 0) exShielded 0 20 none
    (by simp [exShielded]) rfl rfl

/-- C4: on a ninja that is not invulnerable, a first random draw below
`dodgeChance + 0.02 * level` makes `takeDamage` return 0, keep the hit points and award 25 xp;
a draw not below it subtracts the full amount and awards nothing. -/
theorem ninja_dodge (E : Env) (w : World) (t : ℕ) (amount : ℚ)
    (attacker : Option ℕ) (ht : t < w.ents.length)
    (hc : (w.ent t).className = .ninja)
    (hinv : (w.ent t).invulnerable = false) :
    (E.random w.rng < (w.ent t).dodgeChance + 0.02 * (w.ent t).level →
      (takeDamage E w t amount attacker).2 = 0 ∧
      ((takeDamage E w t amount attacker).1.ent t).hp = (w.ent t).hp ∧
      ((takeDamage E w t amount attacker).1.ent t).xp = (w.ent t).xp + 25) ∧
    (¬ E.random w.rng < (w.ent t).dodgeChance + 0.02 * (w.ent t).level →
      (takeDamage E w t amount attacker).2 = amount ∧
      ((takeDamage E w t amount attacker).1.ent t).hp = (w.ent t).hp - amount ∧
      ((takeDamage E w t amount attacker).1.ent t).xp = (w.ent t).xp) := by
  have hmul : (w.ent t).level * 0.02 = 0.02 * (w.ent t).level := mul_comm _ _
  constructor
  · intro hr
    have hr' : E.random w.rng < (w.ent t).dodgeChance + (w.ent t).level * 0.02 := by
      rw [hmul]; exact hr
    simp [takeDamage, takeDamageCore, onDamageTakenPre, onDamageTaken, hc,
      ninja.onDamageTakenPre, hr', World.ent_modify_self, ht, gainXp, hinv]
  · intro hr
    have hr' : ¬ E.random w.rng < (w.ent t).dodgeChance + (w.ent t).level * 0.02 := by
      rw [hmul]; exact hr
    simp [takeDamage, takeDamageCore, onDamageTakenPre, onDamageTaken, hc,
      ninja.onDamageTakenPre, hr', World.ent_modify_self, ht, gainXp, hinv]

/-- Witness of C4: `dodgeChance` 0.15, level 1, draw 0.10, amount 20. -/
theorem ninja_dodge_witness :
    (0.10 : ℚ) < 0.15 + 0.02 * 1 ∧
    (takeDamage (exampleEnv fun _ => 0.10) exNinja 0 20 none).2 = 0 ∧
    ((takeDamage (exampleEnv fun _ => 0.10) exNinja 0 20 none).1.ent 0).hp = 350 ∧
    ((takeDamage (exampleEnv fun _ => 0.10) exNinja 0 20 none).1.ent 0).xp = 0 + 25 :=
  ⟨by norm_num,
   (ninja_dodge (exampleEnv fun _ => 0.10) exNinja 0 20 none (by simp [exNinja]) rfl rfl).1
     (by norm_num [exampleEnv, exNinja, World.ent])⟩

/-- C5: a spike that is not invulnerable, hit for `amount` by another entity that is not
invulnerable and whose class does not alter incoming damage, lowers the attacker's hit points
by exactly `reflectDmg + 2 * level` and its own by exactly `amount`; with a `null` attacker
no other entity changes and no second `takeDamage` call is made. -/
theorem spike_reflects (E : Env) (w : World) (t a : ℕ) (amount : ℚ)
    (ht : t < w.ents.length) (ha : a < w.ents.length) (hat : a ≠ t)
    (hc : (w.ent t).className = .spike)
    (hinvT : (w.ent t).invulnerable = false)
    (hinvA : (w.ent a).invulnerable = false)
    (halt : altersIncomingDamage (w.ent a).className = false) :
    ((takeDamage E w t amount (some a)).1.ent a).hp
      = (w.ent a).hp - ((w.ent t).reflectDmg + 2 * (w.ent t).level) ∧
    ((takeDamage E w t amount (some a)).1.ent t).hp = (w.ent t).hp - amount ∧
    (∀ j, j < w.ents.length → j ≠ t → (takeDamage E w t amount none).1.ent j = w.ent j) ∧
    (takeDamage E w t amount none).1.trace
      = w.trace ++ [Ev.takeDamage t amount none, Ev.onDamageTaken t] := by
  have hpre : hasOnDamageTakenPre (w.ent t).className = false := by rw [hc]; rfl
  -- the nested call made by the spike's hook
  let w0 := (w.log (.takeDamage t amount (some a))).log (.onDamageTaken t)
  let reflect := (w.ent t).reflectDmg + (w.ent t).level * 2
  have hn : Step KeepsId (fun j => j = a) w0 (takeDamageNull E w0 a reflect).1 :=
    takeDamageNull_step KeepsId.rightKeepsId E a reflect rfl
      (Step.refl KeepsId.rightKeepsId.toRightKeeps _)
  have hnA : ((takeDamageNull E w0 a reflect).1.ent a).hp = (w.ent a).hp - reflect :=
    takeDamageNull_plain E w0 a reflect ha hinvA halt
  have hnT : (takeDamageNull E w0 a reflect).1.ent t = w.ent t :=
    hn.frame t ht fun h => hat h.symm
  have hpost : onDamageTaken (fun w a r => (takeDamageNull E w a r).1) E
      (w.log (.takeDamage t amount (some a))) t (some a) amount
      = ((takeDamageNull E w0 a reflect).1.modify t (gainXp 10), amount) :=
    onDamageTaken_spike _ E _ t a amount hc
  have hlen : t < ((takeDamageNull E w0 a reflect).1.modify t (gainXp 10)).ents.length := by
    rw [World.modify_length]; exact lt_of_lt_of_le ht hn.len
  refine ⟨?_, ?_, ?_, ?_⟩
  · -- the attacker
    unfold takeDamage takeDamageCore
    simp only [onDamageTakenPre_of_noHook E (w.log (.takeDamage t amount (some a))) t amount hpre,
      World.log_ent, hinvT, Bool.false_eq_true, if_false, World.tick_ent, hpost]
    rw [World.ent_modify_ne _ _ _ _ hat.symm, World.ent_modify_ne _ _ _ _ hat.symm, hnA]
    show _ = (w.ent a).hp - ((w.ent t).reflectDmg + 2 * (w.ent t).level)
    rw [mul_comm 2]
  · -- the spike itself
    unfold takeDamage
    rw [takeDamageCore_hp_of_vulnerable _ E w t amount (some a) hpre hinvT
      (by rw [hpost]; exact hlen), hpost]
    show ((World.modify _ t (gainXp 10)).ent t).hp - amount = _
    rw [World.ent_modify_self _ _ _ (lt_of_lt_of_le ht hn.len)]
    show ((takeDamageNull E w0 a reflect).1.ent t).hp - amount = _
    rw [hnT]
  · intro j hj hjt
    have h0 : Step KeepsId (fun j => j = t) w (takeDamage E w t amount none).1 :=
      takeDamage_step KeepsId.rightKeepsId E t none amount rfl (by simp)
        (Step.refl KeepsId.rightKeepsId.toRightKeeps _)
    exact h0.frame j hj hjt
  · unfold takeDamage takeDamageCore
    simp only [onDamageTakenPre_of_noHook E (w.log (.takeDamage t amount none)) t amount hpre,
      World.log_ent, hinvT, Bool.false_eq_true, if_false, World.tick_trace, World.modify_trace]
    unfold onDamageTaken
    simp only [World.log_ent, hc]
    simp [spike.onDamageTaken]

/-- Witness of C5: `reflectDmg` 5, level 3 and a hit of 10 cost the attacker 11 and the
spike 10. -/
theorem spike_reflects_witness :
    ((takeDamage (exampleEnv fun _ => 0.9) exSpike 0 10 (some 1)).1.ent 1).hp
      = 400 - (5 + 2 * 3) ∧
    ((takeDamage (exampleEnv fun _ => 0.9) exSpike 0 10 (some 1)).1.ent 0).hp = 750 - 10 :=
  ⟨(spike_reflects (exampleEnv fun _ => 0.9) exSpike 0 1 10 (by simp [exSpike])
      (by simp [exSpike]) (by decide) rfl rfl rfl rfl).1,
   (spike_reflects (exampleEnv fun _ => 0.9) exSpike 0 1 10 (by simp [exSpike])
      (by simp [exSpike]) (by decide) rfl rfl rfl rfl).2.1⟩

/-- C6: for an entity with `maxHp > 0`, `levelUp` raises the level by one, resets xp to 0,
multiplies `maxHp` by 1.2 and keeps the ratio `hp / maxHp`. -/
theorem levelUp_preserves_hp_fraction (e : Entity) (h : 0 < e.maxHp) :
    (levelUp e).level = e.level + 1 ∧ (levelUp e).xp = 0 ∧
    (levelUp e).maxHp = e.maxHp * 1.2 ∧
    (levelUp e).hp / (levelUp e).maxHp = e.hp / e.maxHp := by
  have hne : e.maxHp ≠ 0 := ne_of_gt h
  unfold levelUp onLevelUp
  dsimp only
  split <;> (refine ⟨rfl, rfl, rfl, ?_⟩; dsimp only; field_simp; ring)

/-- Witness of C6: hp 50 of 100 becomes hp 60 of 120. -/
theorem levelUp_preserves_hp_fraction_witness :
    0 < exLevelUp.maxHp ∧ (levelUp exLevelUp).maxHp = 120 ∧ (levelUp exLevelUp).hp = 60 := by
  have h := levelUp_preserves_hp_fraction exLevelUp (by norm_num [exLevelUp])
  have hm : (levelUp exLevelUp).maxHp = 120 := by rw [h.2.2.1]; norm_num [exLevelUp]
  refine ⟨by norm_num [exLevelUp], hm, ?_⟩
  have h4 := h.2.2.2
  rw [hm] at h4
  have h5 : exLevelUp.hp / exLevelUp.maxHp = 1 / 2 := by norm_num [exLevelUp]
  rw [h5] at h4
  linarith [(div_eq_iff (by norm_num : (120 : ℚ) ≠ 0)).mp h4]

/-- C7: after `clampToArenaBounds` the position lies in `SAFE_BOUNDS`, which is the
rectangle 12..288 by 12..188, and a position already inside is unchanged. -/
theorem clampToArenaBounds_within (entity : Entity) :
    SAFE_BOUNDS.minX = 12 ∧ SAFE_BOUNDS.maxX = 288 ∧ SAFE_BOUNDS.minY = 12 ∧
    SAFE_BOUNDS.maxY = 188 ∧
    SAFE_BOUNDS.minX ≤ (BaseMovementStrategy.clampToArenaBounds entity).x ∧
    (BaseMovementStrategy.clampToArenaBounds entity).x ≤ SAFE_BOUNDS.maxX ∧
    SAFE_BOUNDS.minY ≤ (BaseMovementStrategy.clampToArenaBounds entity).y ∧
    (BaseMovementStrategy.clampToArenaBounds entity).y ≤ SAFE_BOUNDS.maxY ∧
    (SAFE_BOUNDS.minX ≤ entity.x ∧ entity.x ≤ SAFE_BOUNDS.maxX ∧
      SAFE_BOUNDS.minY ≤ entity.y ∧ entity.y ≤ SAFE_BOUNDS.maxY →
      (BaseMovementStrategy.clampToArenaBounds entity).x = entity.x ∧
      (BaseMovementStrategy.clampToArenaBounds entity).y = entity.y) := by
  have hx : (BaseMovementStrategy.clampToArenaBounds entity).x
      = max SAFE_BOUNDS.minX (min SAFE_BOUNDS.maxX entity.x) := by
    unfold BaseMovementStrategy.clampToArenaBounds
    dsimp only
    split
    · split <;> split <;> rfl
    · rfl
  have hy : (BaseMovementStrategy.clampToArenaBounds entity).y
      = max SAFE_BOUNDS.minY (min SAFE_BOUNDS.maxY entity.y) := by
    unfold BaseMovementStrategy.clampToArenaBounds
    dsimp only
    split
    · split <;> split <;> rfl
    · rfl
  have b1 : SAFE_BOUNDS.minX = 12 := by norm_num [SAFE_BOUNDS, WALL_MARGIN]
  have b2 : SAFE_BOUNDS.maxX = 288 := by norm_num [SAFE_BOUNDS, WALL_MARGIN, STAGE_W]
  have b3 : SAFE_BOUNDS.minY = 12 := by norm_num [SAFE_BOUNDS, WALL_MARGIN]
  have b4 : SAFE_BOUNDS.maxY = 188 := by norm_num [SAFE_BOUNDS, WALL_MARGIN, STAGE_H]
  rw [hx, hy, b1, b2, b3, b4]
  refine ⟨rfl, rfl, rfl, rfl, le_max_left _ _, ?_, le_max_left _ _, ?_, ?_⟩
  · exact max_le (by norm_num) (min_le_left _ _)
  · exact max_le (by norm_num) (min_le_left _ _)
  · rintro ⟨h1, h2, h3, h4⟩
    rw [min_eq_right h2, max_eq_right h1, min_eq_right h4, max_eq_right h3]
    exact ⟨rfl, rfl⟩

/-- C8, the code at the failing input: an entity that sits on the left bound (x = 12, not
outside the range) and is clamped on the y axis only has its `vx` multiplied by -0.3 all
the same. -/
theorem clampToArenaBounds_damps_unclamped_axis :
    ¬ (exOnLeftBound.x < SAFE_BOUNDS.minX ∨ exOnLeftBound.x > SAFE_BOUNDS.maxX) ∧
    (BaseMovementStrategy.clampToArenaBounds exOnLeftBound).x = exOnLeftBound.x ∧
    (BaseMovementStrategy.clampToArenaBounds exOnLeftBound).vx = exOnLeftBound.vx * -0.3 ∧
    (BaseMovementStrategy.clampToArenaBounds exOnLeftBound).vx ≠ exOnLeftBound.vx := by
  norm_num [BaseMovementStrategy.clampToArenaBounds, exOnLeftBound, SAFE_BOUNDS, WALL_MARGIN,
    STAGE_W, STAGE_H]

/-- C9: an entity at rest with positive `baseSpeed`, within `WARNING_DISTANCE` of a vertical
and of a horizontal bound, gets from one `handleCornerEscape` call with positive
`simulationSpeed` a nonzero velocity that is a positive multiple of the vector to the centre
(150, 100). `Math.sqrt` is only assumed to be positive at the squared distance `d` to the
centre, which is positive. With `F = (1 - urgency) * baseSpeed * 0.5 * simulationSpeed` and
`s = Math.sqrt(d)`, the new velocity satisfies `(vx^2 + vy^2) * s^2 = F^2 * d`: its length is
`F` up to the relative error of `Math.sqrt`, and exactly `F` where `s * s = d`. An entity that
is not near two perpendicular bounds keeps its velocity. -/
theorem handleCornerEscape_toward_center (E : Env) (e : Entity) (spd : ℚ)
    (hbs : 0 < e.baseSpeed) (hvx : e.vx = 0) (hvy : e.vy = 0) (hspd : 0 < spd)
    (hnx : e.x - SAFE_BOUNDS.minX < WARNING_DISTANCE ∨ SAFE_BOUNDS.maxX - e.x < WARNING_DISTANCE)
    (hny : e.y - SAFE_BOUNDS.minY < WARNING_DISTANCE ∨ SAFE_BOUNDS.maxY - e.y < WARNING_DISTANCE)
    (hsq : 0 < E.sqrt ((150 - e.x) * (150 - e.x) + (100 - e.y) * (100 - e.y))) :
    (0 < (1 - min (min (e.x - 12) (288 - e.x) / 25) (min (e.y - 12) (188 - e.y) / 25))
        * e.baseSpeed * 0.5 * spd ∧
     0 < (150 - e.x) * (150 - e.x) + (100 - e.y) * (100 - e.y) ∧
     ((BaseMovementStrategy.handleCornerEscape E e spd).vx ≠ 0 ∨
      (BaseMovementStrategy.handleCornerEscape E e spd).vy ≠ 0) ∧
     (∃ k : ℚ, 0 < k ∧
        (BaseMovementStrategy.handleCornerEscape E e spd).vx = k * (150 - e.x) ∧
        (BaseMovementStrategy.handleCornerEscape E e spd).vy = k * (100 - e.y)) ∧
     ((BaseMovementStrategy.handleCornerEscape E e spd).vx ^ 2 +
        (BaseMovementStrategy.handleCornerEscape E e spd).vy ^ 2)
        * E.sqrt ((150 - e.x) * (150 - e.x) + (100 - e.y) * (100 - e.y)) ^ 2
      = ((1 - min (min (e.x - 12) (288 - e.x) / 25) (min (e.y - 12) (188 - e.y) / 25))
          * e.baseSpeed * 0.5 * spd) ^ 2
        * ((150 - e.x) * (150 - e.x) + (100 - e.y) * (100 - e.y)) ∧
     (E.sqrt ((150 - e.x) * (150 - e.x) + (100 - e.y) * (100 - e.y))
          * E.sqrt ((150 - e.x) * (150 - e.x) + (100 - e.y) * (100 - e.y))
        = (150 - e.x) * (150 - e.x) + (100 - e.y) * (100 - e.y) →
      (BaseMovementStrategy.handleCornerEscape E e spd).vx ^ 2 +
        (BaseMovementStrategy.handleCornerEscape E e spd).vy ^ 2
      = ((1 - min (min (e.x - 12) (288 - e.x) / 25) (min (e.y - 12) (188 - e.y) / 25))
          * e.baseSpeed * 0.5 * spd) ^ 2)) ∧
    (∀ e2 : Entity,
      ¬ ((e2.x - SAFE_BOUNDS.minX < WARNING_DISTANCE ∨
            SAFE_BOUNDS.maxX - e2.x < WARNING_DISTANCE) ∧
         (e2.y - SAFE_BOUNDS.minY < WARNING_DISTANCE ∨
            SAFE_BOUNDS.maxY - e2.y < WARNING_DISTANCE)) →
      (BaseMovementStrategy.handleCornerEscape E e2 spd).vx = e2.vx ∧
      (BaseMovementStrategy.handleCornerEscape E e2 spd).vy = e2.vy) := by
  have b1 : SAFE_BOUNDS.minX = 12 := by norm_num [SAFE_BOUNDS, WALL_MARGIN]
  have b2 : SAFE_BOUNDS.maxX = 288 := by norm_num [SAFE_BOUNDS, WALL_MARGIN, STAGE_W]
  have b3 : SAFE_BOUNDS.minY = 12 := by norm_num [SAFE_BOUNDS, WALL_MARGIN]
  have b4 : SAFE_BOUNDS.maxY = 188 := by norm_num [SAFE_BOUNDS, WALL_MARGIN, STAGE_H]
  have c1 : STAGE_W / 2 = 150 := by norm_num [STAGE_W]
  have c2 : STAGE_H / 2 = 100 := by norm_num [STAGE_H]
  have wd : WARNING_DISTANCE = 25 := rfl
  refine ⟨?_, fun e2 h2 => by rw [handleCornerEscape_far E e2 spd h2]; exact ⟨rfl, rfl⟩⟩
  rw [b1, b2, wd] at hnx
  rw [b3, b4, wd] at hny
  -- the distance to the centre is positive
  set s := E.sqrt ((150 - e.x) * (150 - e.x) + (100 - e.y) * (100 - e.y)) with hs
  have htx : 150 - e.x ≠ 0 := by
    rcases hnx with h | h
    · have : e.x < 37 := by linarith
      intro h0; linarith
    · have : 263 < e.x := by linarith
      intro h0; linarith
  have hd : 0 < (150 - e.x) * (150 - e.x) + (100 - e.y) * (100 - e.y) := by
    have := mul_self_pos.mpr htx
    nlinarith [mul_self_nonneg (100 - e.y)]
  have hspos : 0 < s := hsq
  -- the urgency is below one
  set u := min (min (e.x - 12) (288 - e.x) / 25) (min (e.y - 12) (188 - e.y) / 25) with hu
  have hu1 : u < 1 := by
    have h1 : min (e.x - 12) (288 - e.x) < 25 := by
      rcases hnx with h | h
      · exact lt_of_le_of_lt (min_le_left _ _) h
      · exact lt_of_le_of_lt (min_le_right _ _) h
    have h2 : min (e.x - 12) (288 - e.x) / 25 < 1 := by
      rw [div_lt_one (by norm_num)]; exact h1
    exact lt_of_le_of_lt (min_le_left _ _) h2
  have hF : 0 < (1 - u) * e.baseSpeed * 0.5 * spd := by
    have : 0 < 1 - u := by linarith
    positivity
  -- the new velocity
  have hv := handleCornerEscape_vel E e spd (by rw [b1, b2, wd]; exact hnx)
    (by rw [b3, b4, wd]; exact hny) (by rw [c1, c2]; exact hspos)
  rw [c1, c2, b1, b2, b3, b4, wd, hvx, hvy, zero_add, zero_add, ← hs, ← hu] at hv
  obtain ⟨hvx', hvy'⟩ := hv
  have hk : 0 < (1 - u) * e.baseSpeed * 0.5 * spd / s := div_pos hF hspos
  have hsne : s ≠ 0 := ne_of_gt hspos
  have ex : (BaseMovementStrategy.handleCornerEscape E e spd).vx
      = (1 - u) * e.baseSpeed * 0.5 * spd / s * (150 - e.x) := by
    rw [hvx']; field_simp; ring
  have ey : (BaseMovementStrategy.handleCornerEscape E e spd).vy
      = (1 - u) * e.baseSpeed * 0.5 * spd / s * (100 - e.y) := by
    rw [hvy']; field_simp; ring
  have hlen : ((BaseMovementStrategy.handleCornerEscape E e spd).vx ^ 2 +
        (BaseMovementStrategy.handleCornerEscape E e spd).vy ^ 2) * s ^ 2
      = ((1 - u) * e.baseSpeed * 0.5 * spd) ^ 2
        * ((150 - e.x) * (150 - e.x) + (100 - e.y) * (100 - e.y)) := by
    rw [ex, ey]
    field_simp
    ring
  refine ⟨hF, hd, Or.inl ?_, ⟨_, hk, ex, ey⟩, hlen, ?_⟩
  · rw [ex]; exact mul_ne_zero (ne_of_gt hk) htx
  · intro hexact
    have h2 : s ^ 2 = (150 - e.x) * (150 - e.x) + (100 - e.y) * (100 - e.y) := by
      rw [pow_two]; exact hexact
    rw [← h2] at hlen
    exact mul_right_cancel₀ (pow_ne_zero 2 hsne) hlen

/-- Witness of C9: the entity at (30, 30), whose squared distance to the centre, 19300, is
not a square. -/
theorem handleCornerEscape_toward_center_witness :
    ((BaseMovementStrategy.handleCornerEscape (exampleEnv fun _ => 0) exCornerDiag 1).vx ≠ 0 ∨
      (BaseMovementStrategy.handleCornerEscape (exampleEnv fun _ => 0) exCornerDiag 1).vy ≠ 0) ∧
    (∃ k : ℚ, 0 < k ∧
      (BaseMovementStrategy.handleCornerEscape (exampleEnv fun _ => 0) exCornerDiag 1).vx
        = k * (150 - exCornerDiag.x) ∧
      (BaseMovementStrategy.handleCornerEscape (exampleEnv fun _ => 0) exCornerDiag 1).vy
        = k * (100 - exCornerDiag.y)) := by
  have hd : (150 - exCornerDiag.x) * (150 - exCornerDiag.x)
      + (100 - exCornerDiag.y) * (100 - exCornerDiag.y) = 19300 := by norm_num [exCornerDiag]
  have h := handleCornerEscape_toward_center (exampleEnv fun _ => 0) exCornerDiag 1
    (by norm_num [exCornerDiag]) rfl rfl (by norm_num)
    (by left; norm_num [exCornerDiag, SAFE_BOUNDS, WALL_MARGIN, WARNING_DISTANCE])
    (by left; norm_num [exCornerDiag, SAFE_BOUNDS, WALL_MARGIN, WARNING_DISTANCE])
    (by rw [hd, exampleEnv_sqrt_19300]; norm_num)
  exact ⟨h.1.2.2.1, h.1.2.2.2.1⟩

/-- C10, the code at the failing input: both nearest-enemy searches return the enemy that
`Entity.die` has marked dead (`dead = true`), because they test the field `isDead`. -/
theorem findNearestEnemy_selects_dead (E : Env) :
    (exDeadEnemy.ent 1).dead = true ∧
    (exDeadEnemy.ent 1).team ≠ (exDeadEnemy.ent 0).team ∧
    (BaseMovementStrategy.findNearestEnemy E exDeadEnemy 0).entity = some 1 ∧
    (GladiatorUtils.findNearestEnemy E exDeadEnemy 0).1 = some 1 := by
  refine ⟨rfl, by decide, ?_, ?_⟩
  · simp [BaseMovementStrategy.findNearestEnemy, exDeadEnemy, List.range_succ, World.ent, die,
      ltMinDist]
  · simp [GladiatorUtils.findNearestEnemy, exDeadEnemy, List.range_succ, World.ent, die,
      ltMinDist]

/-- C11: `BaseMovementStrategy.findNearestEnemy` returns `entity = null`, `distance = Infinity`
and `angle = 0` exactly when no entity of the array is a candidate; otherwise it returns a
candidate whose distance to the searcher is least among the candidates and which is the first
in array order among those at that distance. -/
theorem findNearestEnemy_first_minimal (E : Env) (w : World) (i : ℕ) :
    (((BaseMovementStrategy.findNearestEnemy E w i).entity = none ∧
      (BaseMovementStrategy.findNearestEnemy E w i).distance = none ∧
      (BaseMovementStrategy.findNearestEnemy E w i).angle = 0) ↔
      ∀ k, ¬ BaseMovementStrategy.isCandidate w i k) ∧
    (∀ n, (BaseMovementStrategy.findNearestEnemy E w i).entity = some n →
      BaseMovementStrategy.isCandidate w i n ∧
      (BaseMovementStrategy.findNearestEnemy E w i).distance
        = some (BaseMovementStrategy.distanceTo E w i n) ∧
      (∀ k, BaseMovementStrategy.isCandidate w i k →
        BaseMovementStrategy.distanceTo E w i n ≤ BaseMovementStrategy.distanceTo E w i k) ∧
      (∀ k, BaseMovementStrategy.isCandidate w i k →
        BaseMovementStrategy.distanceTo E w i k = BaseMovementStrategy.distanceTo E w i n →
        n ≤ k)) := by
  have h := nearestFold_spec
    (fun k => (w.ent k).isDead ∨ (w.ent k).team = (w.ent i).team)
    (fun k => BaseMovementStrategy.distanceTo E w i k) w.ents.length
  obtain ⟨h1, h2⟩ := h
  have he : (BaseMovementStrategy.findNearestEnemy E w i).entity =
      ((List.range w.ents.length).foldl
        (fun (acc : Option ℕ × Option ℚ) k =>
          if (w.ent k).isDead ∨ (w.ent k).team = (w.ent i).team then acc
          else if ltMinDist (BaseMovementStrategy.distanceTo E w i k) acc.2
            then (some k, some (BaseMovementStrategy.distanceTo E w i k)) else acc)
        (none, none)).1 := rfl
  have hdist : (BaseMovementStrategy.findNearestEnemy E w i).distance =
      ((List.range w.ents.length).foldl
        (fun (acc : Option ℕ × Option ℚ) k =>
          if (w.ent k).isDead ∨ (w.ent k).team = (w.ent i).team then acc
          else if ltMinDist (BaseMovementStrategy.distanceTo E w i k) acc.2
            then (some k, some (BaseMovementStrategy.distanceTo E w i k)) else acc)
        (none, none)).2 := rfl
  have hang : (BaseMovementStrategy.findNearestEnemy E w i).entity = none →
      (BaseMovementStrategy.findNearestEnemy E w i).angle = 0 := by
    intro hn
    unfold BaseMovementStrategy.findNearestEnemy at hn ⊢
    dsimp only at hn ⊢
    rw [hn]
  rw [← he, ← hdist] at h1 h2
  refine ⟨⟨fun hnone k hk => ?_, fun hno => ?_⟩, fun n hn => ?_⟩
  · exact hk.2 ((h1 hnone.1).2 k hk.1)
  · have hn : (BaseMovementStrategy.findNearestEnemy E w i).entity = none := by
      cases hr : (BaseMovementStrategy.findNearestEnemy E w i).entity with
      | none => rfl
      | some m =>
        obtain ⟨hm1, hm2, _⟩ := h2 m hr
        exact absurd ⟨hm1, hm2⟩ (hno m)
    exact ⟨hn, (h1 hn).1, hang hn⟩
  · obtain ⟨hm1, hm2, hm3, hm4, hm5⟩ := h2 n hn
    exact ⟨⟨hm1, hm2⟩, hm3, fun k hk => hm4 k hk.1 hk.2, fun k hk => hm5 k hk.1 hk.2⟩

/-- C12: outside the stage (`x < 0`, `x ≥ 300`, `y < 0` or `y ≥ 200`) `getCell` returns
`Wall` for every buffer content and however far outside; inside, at integer coordinates, it
returns the byte stored at index `y * 300 + x`, so it is a function of the buffer alone and
two reads with no write in between agree. -/
theorem getCell_outside_is_wall (g : Grid) (x y : ℚ) :
    ((x < 0 ∨ x ≥ 300 ∨ y < 0 ∨ y ≥ 200) → getCell g x y = some TYPE_WALL) ∧
    (∀ i j : ℕ, i < 300 → j < 200 → getCell g i j = some (g.grid (j * 300 + i))) := by
  constructor
  · intro h
    unfold getCell
    have : inStage x y = false := by
      unfold inStage
      simp only [STAGE_W, STAGE_H, decide_eq_false_iff_not]
      rintro ⟨h1, h2, h3, h4⟩
      rcases h with h | h | h | h <;> linarith
    rw [this]
    rfl
  · intro i j hi hj
    unfold getCell
    rw [inStage_natCast i j hi hj, if_pos rfl, cellIndex_natCast i j hi hj]
    rfl

/-- C13, the code at the failing input: on a wall cell of durability 6, `damageWall` with
amount 7 stores `6 - 7` into the `Uint8Array`, which wraps to 255; the test
`wallHealth[idx] <= 0` fails and the cell stays `Wall`, although the amount exceeds the
durability. -/
theorem damageWall_wraps_below_zero :
    exWall.grid (5 * 300 + 5) = TYPE_WALL ∧ exWall.wallHealth (5 * 300 + 5) = 6 ∧
    (damageWall exWall 5 5 7).wallHealth (5 * 300 + 5) = 255 ∧
    (damageWall exWall 5 5 7).grid (5 * 300 + 5) = TYPE_WALL := by
  have hin : inStage (5 : ℚ) (5 : ℚ) = true := by
    simpa using inStage_natCast 5 5 (by decide) (by decide)
  have hidx : cellIndex (5 : ℚ) (5 : ℚ) = some (5 * 300 + 5) := by
    simpa [STAGE_COLS] using cellIndex_natCast 5 5 (by decide) (by decide)
  have hu : toUint8 ((6 : ℚ) - 7) = 255 := by
    unfold toUint8
    rw [show (6 : ℚ) - 7 = ((-1 : ℤ) : ℚ) by norm_num, if_neg (by norm_num), Int.ceil_intCast]
    rfl
  refine ⟨rfl, rfl, ?_, ?_⟩ <;>
  · unfold damageWall
    rw [hin, if_pos rfl, hidx]
    simp [exWall, hu, TYPE_WALL]

/-- C14, the code at the failing input: after `initGrid`, whatever the buffers held, the cell
`(x, y)` of the stage is `Wall` with durability 6 exactly when `x < 10`, `x > 290`, `y < 10`
or `y > 190`, and `Empty` with durability 0 otherwise; so the cell `(290, 100)` is `Empty`
and the ring is 9 cells thick on the right and at the bottom. -/
theorem initGrid_ring_is_thinner_on_far_sides (old : Grid) :
    (∀ x y : ℕ, x < 300 → y < 200 →
      ((x < 10 ∨ x > 290 ∨ y < 10 ∨ y > 190) →
        (initGrid old).grid (y * 300 + x) = TYPE_WALL ∧
        (initGrid old).wallHealth (y * 300 + x) = 6) ∧
      (¬ (x < 10 ∨ x > 290 ∨ y < 10 ∨ y > 190) →
        (initGrid old).grid (y * 300 + x) = TYPE_EMPTY ∧
        (initGrid old).wallHealth (y * 300 + x) = 0)) ∧
    (initGrid old).grid (100 * 300 + 290) = TYPE_EMPTY ∧
    (initGrid old).wallHealth (100 * 300 + 290) = 0 ∧
    getCell (initGrid old) 290 100 = some TYPE_EMPTY := by
  have key : ∀ x y : ℕ, x < 300 → y < 200 →
      ((x < 10 ∨ x > 290 ∨ y < 10 ∨ y > 190) →
        (initGrid old).grid (y * 300 + x) = TYPE_WALL ∧
        (initGrid old).wallHealth (y * 300 + x) = 6) ∧
      (¬ (x < 10 ∨ x > 290 ∨ y < 10 ∨ y > 190) →
        (initGrid old).grid (y * 300 + x) = TYPE_EMPTY ∧
        (initGrid old).wallHealth (y * 300 + x) = 0) := by
    intro x y hx hy
    have h := initGrid_cell old x y hx hy
    rw [show STAGE_COLS = 300 from rfl] at h
    have hw : initGridIsWall x y = true ↔ (x < 10 ∨ x > 290 ∨ y < 10 ∨ y > 190) := by
      unfold initGridIsWall
      simp only [STAGE_W, STAGE_H, decide_eq_true_eq]
      have e1 : ((x : ℚ) < 10) ↔ x < 10 := by
        rw [show (10 : ℚ) = ((10 : ℕ) : ℚ) by norm_num, Nat.cast_lt]
      have e2 : ((x : ℚ) > 300 - 10) ↔ x > 290 := by
        rw [show (300 : ℚ) - 10 = ((290 : ℕ) : ℚ) by norm_num, gt_iff_lt, Nat.cast_lt]
      have e3 : ((y : ℚ) < 10) ↔ y < 10 := by
        rw [show (10 : ℚ) = ((10 : ℕ) : ℚ) by norm_num, Nat.cast_lt]
      have e4 : ((y : ℚ) > 200 - 10) ↔ y > 190 := by
        rw [show (200 : ℚ) - 10 = ((190 : ℕ) : ℚ) by norm_num, gt_iff_lt, Nat.cast_lt]
      rw [e1, e2, e3, e4]
    constructor
    · intro hc
      have := hw.mpr hc
      rw [if_pos this, if_pos this] at h
      exact h
    · intro hc
      have : ¬ initGridIsWall x y = true := fun h' => hc (hw.mp h')
      rw [if_neg this, if_neg this] at h
      exact h
  have h290 := (key 290 100 (by norm_num) (by norm_num)).2 (by norm_num)
  refine ⟨key, h290.1, h290.2, ?_⟩
  have hg : getCell (initGrid old) ((290 : ℕ) : ℚ) ((100 : ℕ) : ℚ)
      = some ((initGrid old).grid (100 * 300 + 290)) := by
    unfold getCell
    rw [inStage_natCast 290 100 (by norm_num [STAGE_COLS]) (by norm_num [STAGE_ROWS]),
      if_pos rfl,
      cellIndex_natCast 290 100 (by norm_num [STAGE_COLS]) (by norm_num [STAGE_ROWS]),
      show STAGE_COLS = 300 from rfl, Option.map_some']
  rw [h290.1] at hg
  simpa using hg

/-- C17, as the code computes it: a call of `GameLoop.loop` that processes its frame (frame
time at least `MIN_FRAME_INTERVAL`) with a non-negative accumulator charges the accumulator
with `min(frameTime, 250)` and then makes `k` physics steps, `k ≤ 8`, each called with
`FIXED_DT_SECONDS = 0.016666666666666666`: `k` is the number of times
`FIXED_DT = 16.666666666666668` (the binary64 quotient `1000 / 60`) can be
subtracted, each difference rounded to binary64, before the accumulator falls below `FIXED_DT`
or 8 steps are made. The accumulator ends at the result of these subtractions, never negative,
and `k` is `min(8, floor(A' / FIXED_DT))` up to the rounding:
`k * FIXED_DT ≤ A' * (1 + 2^-49)` and, if `k < 8`, `A' * (1 - 2^-49) < (k + 1) * FIXED_DT`. -/
theorem loop_drains_fixed_steps (g : GameLoop) (timestamp : ℚ)
    (hframe : MIN_FRAME_INTERVAL ≤ toDouble (timestamp - g.lastTime))
    (hacc : 0 ≤ g.accumulator) :
    FIXED_DT = 4691249611844267 / 2 ^ 48 ∧
    FIXED_DT_SECONDS = 4803839602528529 / 2 ^ 58 ∧
    (GameLoop.loop g timestamp).1.lastPhysicsSteps ≤ 8 ∧
    (GameLoop.loop g timestamp).2
      = List.replicate (GameLoop.loop g timestamp).1.lastPhysicsSteps FIXED_DT_SECONDS ∧
    (GameLoop.loop g timestamp).1.accumulator
      = GameLoop.drain^[(GameLoop.loop g timestamp).1.lastPhysicsSteps]
          (GameLoop.charged g timestamp) ∧
    (∀ j, j < (GameLoop.loop g timestamp).1.lastPhysicsSteps →
      FIXED_DT ≤ GameLoop.drain^[j] (GameLoop.charged g timestamp)) ∧
    ((GameLoop.loop g timestamp).1.lastPhysicsSteps < 8 →
      (GameLoop.loop g timestamp).1.accumulator < FIXED_DT) ∧
    0 ≤ (GameLoop.loop g timestamp).1.accumulator ∧
    ((GameLoop.loop g timestamp).1.lastPhysicsSteps : ℚ) * FIXED_DT
      ≤ GameLoop.charged g timestamp * (1 + 1 / 2 ^ 49) ∧
    ((GameLoop.loop g timestamp).1.lastPhysicsSteps < 8 →
      GameLoop.charged g timestamp * (1 - 1 / 2 ^ 49)
        < (((GameLoop.loop g timestamp).1.lastPhysicsSteps : ℚ) + 1) * FIXED_DT) := by
  have hdt := FIXED_DT_pos
  have hft : 0 ≤ toDouble (timestamp - g.lastTime) :=
    le_trans (le_of_lt hdt) (show FIXED_DT ≤ _ from hframe)
  have hA : 0 ≤ GameLoop.charged g timestamp := by
    unfold GameLoop.charged
    exact toDouble_nonneg _ (add_nonneg hacc (le_min hft (by norm_num [MAX_FRAME_TIME])))
  obtain ⟨k, hk, hr, hge, hlt⟩ := GameLoop.physicsSteps_spec MAX_STEPS_PER_FRAME
    (GameLoop.charged g timestamp) 0 [] (by simp)
  obtain ⟨i0, i1, i2⟩ := GameLoop.drain_iterate (GameLoop.charged g timestamp) hA k hge
  obtain ⟨r1, r2⟩ := GameLoop.eight_roundings k hk
  rw [GameLoop.loop_processed g timestamp hframe, hr]
  dsimp only
  rw [zero_add, List.nil_append]
  have hkd : (0 : ℚ) ≤ k * FIXED_DT := by positivity
  refine ⟨FIXED_DT_value, FIXED_DT_SECONDS_value, hk, rfl, rfl, hge, hlt, i0, ?_, ?_⟩
  · have := mul_le_mul_of_nonneg_left r1 hA
    linarith
  · intro hk8
    have h1 := hlt hk8
    have := mul_le_mul_of_nonneg_left r2 hA
    have e : ((k : ℚ) + 1) * FIXED_DT = k * FIXED_DT + FIXED_DT := by ring
    rw [e]
    linarith

/-- Witness of C17: a frame of 100 ms on an empty accumulator. -/
theorem loop_drains_fixed_steps_witness :
    (GameLoop.loop {} 100).1.lastPhysicsSteps ≤ 8 ∧
    0 ≤ (GameLoop.loop {} 100).1.accumulator ∧
    ((GameLoop.loop {} 100).1.lastPhysicsSteps : ℚ) * FIXED_DT
      ≤ GameLoop.charged {} 100 * (1 + 1 / 2 ^ 49) := by
  have hft : toDouble ((100 : ℚ) - ({} : GameLoop).lastTime) = 100 := by
    rw [show ((100 : ℚ) - ({} : GameLoop).lastTime) = 100 from sub_zero _,
      toDouble_eq_pos 100 6 7036874417766400 (by norm_num) (by norm_num) (by norm_num)
        (by norm_num) (by norm_num)]
    norm_num
  have h := loop_drains_fixed_steps {} 100
    (by rw [hft]; show FIXED_DT ≤ 100; rw [FIXED_DT_value]; norm_num) (le_refl _)
  exact ⟨h.2.2.1, h.2.2.2.2.2.2.2.1, h.2.2.2.2.2.2.2.2.1⟩

/-- C17, the counterexample to the exact count: on an empty accumulator a frame of 100 ms
runs 5 physics steps and leaves `16.666666666666647` ms, where
`min(8, floor(A' / (1000/60)))` is 6 and `A'` minus six steps of `1000/60` ms is 0. -/
theorem loop_100ms_runs_five_steps :
    (GameLoop.loop {} 100).1.lastPhysicsSteps = 5 ∧
    (GameLoop.loop {} 100).2 = List.replicate 5 FIXED_DT_SECONDS ∧
    (GameLoop.loop {} 100).1.accumulator = 4691249611844261 / 2 ^ 48 ∧
    min 8 ⌊(((({} : GameLoop).accumulator + min (100 - ({} : GameLoop).lastTime) 250)
      / (1000 / 60) : ℚ))⌋.toNat = 6 := by
  have hft : toDouble ((100 : ℚ) - ({} : GameLoop).lastTime) = 100 := by
    rw [show ((100 : ℚ) - ({} : GameLoop).lastTime) = 100 from sub_zero _,
      toDouble_eq_pos 100 6 7036874417766400 (by norm_num) (by norm_num) (by norm_num)
        (by norm_num) (by norm_num)]
    norm_num
  have hch : GameLoop.charged {} 100 = 100 := by
    unfold GameLoop.charged
    rw [hft, show (({} : GameLoop).accumulator + min (100 : ℚ) MAX_FRAME_TIME) = 100 by
      norm_num [MAX_FRAME_TIME]]
    rw [toDouble_eq_pos 100 6 7036874417766400 (by norm_num) (by norm_num) (by norm_num)
        (by norm_num) (by norm_num)]
    norm_num
  obtain ⟨d1, d2, d3, d4, d5⟩ := GameLoop.drain_100ms
  have hrun : GameLoop.physicsSteps 100 0 [] MAX_STEPS_PER_FRAME
      = (4691249611844261 / 2 ^ 48, 5, List.replicate 5 FIXED_DT_SECONDS) := by
    have hv := FIXED_DT_value
    rw [show MAX_STEPS_PER_FRAME = 7 + 1 from rfl,
      GameLoop.physicsSteps_step 100 0 _ 7 (by rw [hv]; norm_num) (by norm_num), d1,
      GameLoop.physicsSteps_step _ _ _ 6 (by rw [hv]; norm_num) (by norm_num), d2,
      GameLoop.physicsSteps_step _ _ _ 5 (by rw [hv]; norm_num) (by norm_num), d3,
      GameLoop.physicsSteps_step _ _ _ 4 (by rw [hv]; norm_num) (by norm_num), d4,
      GameLoop.physicsSteps_step _ _ _ 3 (by rw [hv]; norm_num) (by norm_num), d5,
      GameLoop.physicsSteps_halt _ _ _ _ (by rw [hv]; norm_num)]
    rfl
  rw [GameLoop.loop_processed {} 100
    (by rw [hft]; show FIXED_DT ≤ 100; rw [FIXED_DT_value]; norm_num), hch, hrun]
  refine ⟨rfl, rfl, rfl, ?_⟩
  have hfl : ⌊(((({} : GameLoop).accumulator + min (100 - ({} : GameLoop).lastTime) 250) /
      (1000 / 60) : ℚ))⌋ = 6 := by
    rw [Int.floor_eq_iff]
    norm_num
  rw [hfl]
  rfl

/-- C19, as the code computes it: whatever one iteration does to the two gladiators and
whatever the value of `simulationSpeed`, the loop of `runSingleBattle` runs at most 50000
iterations, and at most `ceil(15000 / simulationSpeed) + 1` when `simulationSpeed > 0` (the
clock `simulatedTime` is a sum of rounded binary64 additions, which can fall short of the
exact sum by one step); the winner returned is red, blue or draw, it is a draw when the
loop ends with both gladiators alive, and red or blue wins only with the other side dead. -/
theorem runSingleBattle_bounded {σ : Type} (body : ℚ → σ → σ) (redDead blueDead : σ → Bool)
    (simulationSpeed : ℚ) (init : σ) :
    (runSingleBattle body redDead blueDead simulationSpeed init).2.iterations ≤ 50000 ∧
    (0 < simulationSpeed →
      ((runSingleBattle body redDead blueDead simulationSpeed init).2.iterations : ℤ)
        ≤ ⌈15000 / simulationSpeed⌉ + 1) ∧
    ((runSingleBattle body redDead blueDead simulationSpeed init).1 = .red ∨
      (runSingleBattle body redDead blueDead simulationSpeed init).1 = .blue ∨
      (runSingleBattle body redDead blueDead simulationSpeed init).1 = .draw) ∧
    (redDead (runSingleBattle body redDead blueDead simulationSpeed init).2.state = false →
      blueDead (runSingleBattle body redDead blueDead simulationSpeed init).2.state = false →
      (runSingleBattle body redDead blueDead simulationSpeed init).1 = .draw) ∧
    ((runSingleBattle body redDead blueDead simulationSpeed init).1 = .red →
      redDead (runSingleBattle body redDead blueDead simulationSpeed init).2.state = false ∧
      blueDead (runSingleBattle body redDead blueDead simulationSpeed init).2.state = true) ∧
    ((runSingleBattle body redDead blueDead simulationSpeed init).1 = .blue →
      redDead (runSingleBattle body redDead blueDead simulationSpeed init).2.state = true ∧
      blueDead (runSingleBattle body redDead blueDead simulationSpeed init).2.state = false) := by
  unfold runSingleBattle
  dsimp only
  have hit := battleLoop_iterations body redDead blueDead simulationSpeed MAX_ITERATIONS 0 0 init
  have hst := battleLoop_stops body redDead blueDead simulationSpeed MAX_ITERATIONS 0 0 init
  have hw := battleLoop_winner body redDead blueDead simulationSpeed MAX_ITERATIONS 0 0 init
  generalize battleLoop body redDead blueDead simulationSpeed MAX_ITERATIONS 0 0 init = r
    at hit hst hw
  have h50 : r.iterations ≤ 50000 := by
    have := hit.2; rw [show MAX_ITERATIONS = 50000 from rfl] at this; omega
  refine ⟨h50, ?_, ?_, ?_, ?_, ?_⟩
  · intro hs
    have hc0 : (0 : ℤ) ≤ ⌈15000 / simulationSpeed⌉ :=
      Int.ceil_nonneg (div_nonneg (by norm_num) (le_of_lt hs))
    by_cases hn : ⌈15000 / simulationSpeed⌉.toNat + 1 ≤ 49999
    · obtain ⟨n, hn1, hn2⟩ := advanceClock_reaches simulationSpeed hs hn
      have := hst n hn2
      omega
    · omega
  · cases r.winner.getD .draw <;> simp
  · intro hr hb
    cases hv : r.winner with
    | none => rfl
    | some v =>
      obtain ⟨h1, h2, h3⟩ := hw.2 v hv
      cases v
      · have := (h3.mp rfl).2; rw [hb] at this; exact absurd this (by decide)
      · have := (h2.mp rfl).1; rw [hr] at this; exact absurd this (by decide)
      · rfl
  · intro hwin
    cases hv : r.winner with
    | none => rw [hv] at hwin; exact absurd hwin (by decide)
    | some v =>
      rw [hv] at hwin
      exact ((hw.2 v hv).2.2).mp hwin
  · intro hwin
    cases hv : r.winner with
    | none => rw [hv] at hwin; exact absurd hwin (by decide)
    | some v =>
      rw [hv] at hwin
      exact ((hw.2 v hv).2.1).mp hwin

/-- C19, the counterexample to the bound `ceil(15000 / simulationSpeed)`: at
`simulationSpeed = 1666.6666666666667`, with nobody dying, the clock reads
`14999.999999999998` after 9 iterations and the loop runs a tenth, although
`ceil(15000 / simulationSpeed) = 9`. -/
theorem runSingleBattle_exceeds_ceiling :
    (runSingleBattle (fun _ s => s) (fun _ => false) (fun _ => false) exSpeed ()).2.iterations
      = 10 ∧
    ⌈15000 / exSpeed⌉ = 9 ∧
    (advanceClock exSpeed)^[9] 0 = 8246337208319999 / 2 ^ 39 := by
  obtain ⟨t1, t2, t3, t4, t5, t6, t7, t8, t9, t10⟩ := advanceClock_exSpeed
  have i0 : (advanceClock exSpeed)^[0] 0 = 0 := rfl
  have i1 := (Function.iterate_succ_apply' (advanceClock exSpeed) 0 0).trans (by rw [i0, t1])
  have i2 := (Function.iterate_succ_apply' (advanceClock exSpeed) 1 0).trans (by rw [i1, t2])
  have i3 := (Function.iterate_succ_apply' (advanceClock exSpeed) 2 0).trans (by rw [i2, t3])
  have i4 := (Function.iterate_succ_apply' (advanceClock exSpeed) 3 0).trans (by rw [i3, t4])
  have i5 := (Function.iterate_succ_apply' (advanceClock exSpeed) 4 0).trans (by rw [i4, t5])
  have i6 := (Function.iterate_succ_apply' (advanceClock exSpeed) 5 0).trans (by rw [i5, t6])
  have i7 := (Function.iterate_succ_apply' (advanceClock exSpeed) 6 0).trans (by rw [i6, t7])
  have i8 := (Function.iterate_succ_apply' (advanceClock exSpeed) 7 0).trans (by rw [i7, t8])
  have i9 := (Function.iterate_succ_apply' (advanceClock exSpeed) 8 0).trans (by rw [i8, t9])
  have i10 := (Function.iterate_succ_apply' (advanceClock exSpeed) 9 0).trans (by rw [i9, t10])
  have hL : HARD_LIMIT = 15000 := rfl
  have hup := battleLoop_stops (fun _ s => s) (fun _ => false) (fun _ => false) exSpeed
    MAX_ITERATIONS 0 0 () 10 (by rw [i10, hL]; norm_num)
  have hlo := battleLoop_runs (fun _ (s : Unit) => s) (fun _ => false) (fun _ => false) exSpeed
    (fun _ => ⟨rfl, rfl⟩) 10 MAX_ITERATIONS 0 0 () (by norm_num [MAX_ITERATIONS]) (by
      intro j hj
      rw [hL]
      interval_cases j
      · rw [i0]; norm_num
      · rw [i1]; norm_num
      · rw [i2]; norm_num
      · rw [i3]; norm_num
      · rw [i4]; norm_num
      · rw [i5]; norm_num
      · rw [i6]; norm_num
      · rw [i7]; norm_num
      · rw [i8]; norm_num
      · rw [i9]; norm_num)
  refine ⟨?_, ?_, i9⟩
  · unfold runSingleBattle
    dsimp only
    omega
  · rw [Int.ceil_eq_iff]
    unfold exSpeed
    constructor <;> norm_num

/-- C20: the constructor `new Gladiator(...)` reads `CLASSES[className].hp` before it asks for
a module, so with a key that `CLASSES` does not define (for instance "wizard") it raises a
`TypeError` and creates no entity, although `getGladiatorModule` itself answers such a key with
the default module; each of the 19 keys of `CLASSES` constructs an entity with the statistics of
its class, backed by the registry module whose `key` field is that name. -/
theorem gladiator_unknown_key_throws (E : Env) (rng : ℕ) (x y : ℚ) (elementType : ℕ)
    (team : Team) :
    (∀ key : String, (∀ c : ClassKey, c.key ≠ key) →
      getGladiatorModule key = .defaultModule ∧
      Gladiator.new E rng x y key elementType team = none) ∧
    (getGladiatorModule "wizard" = .defaultModule ∧
      Gladiator.new E rng x y "wizard" elementType team = none) ∧
    CLASS_KEYS.length = 19 ∧
    ∀ c : ClassKey, c ∈ CLASS_KEYS ∧
      getGladiatorModule c.key = .registry c ∧ (getGladiatorModule c.key).key = c.key ∧
      ∃ e n, Gladiator.new E rng x y c.key elementType team = some (e, .registry c, n) ∧
        e.className = c ∧ e.maxHp = CLASSES_hp c ∧ e.hp = CLASSES_hp c := by
  have hgen : ∀ key : String, (∀ c : ClassKey, c.key ≠ key) →
      getGladiatorModule key = .defaultModule ∧
      Gladiator.new E rng x y key elementType team = none := by
    intro key hkey
    have hn := ClassKey.ofKey_eq_none key hkey
    unfold Gladiator.new Entity.new getGladiatorModule
    rw [hn]
    exact ⟨rfl, rfl⟩
  refine ⟨hgen, hgen "wizard" (fun c => by cases c <;> decide), rfl, fun c => ⟨?_, ?_, ?_, ?_⟩⟩
  · cases c <;> decide
  · unfold getGladiatorModule; rw [ClassKey.ofKey_key]
  · unfold getGladiatorModule; rw [ClassKey.ofKey_key]; rfl
  · exact Gladiator.new_of_key E rng x y elementType team c

/-- C15, amended: when the update of a bomb brings its life to 0 or below, the bomb is marked
dead and `takeDamage(bomb.damage, null)` is called on exactly the entities of another team
than the owner's whose distance to the bomb is strictly less than 34, and no other damage call
or damage hook runs; every entity at distance 34 or more and every entity of the owner's team
keeps its hit points, and a target that is neither shielded nor of a damage-altering class
loses exactly `bomb.damage`. -/
theorem bomb_explosion_strict_radius (E : Env) (w : World) (p : Projectile)
    (hbomb : p.type = .bomb) (hlife : p.life - 1 ≤ 0) (hown : p.owner < w.ents.length) :
    (Projectile.update E w p).2.dead = true ∧
    (∃ evs, (Projectile.update E w p).1.trace = w.trace ++ evs ∧
      (∀ ev ∈ evs, (w.ent ev.target).team ≠ (w.ent p.owner).team ∧
        E.hypot ((w.ent ev.target).x - p.x) ((w.ent ev.target).y - p.y) < 34) ∧
      (∀ k, k < w.ents.length → (w.ent k).team ≠ (w.ent p.owner).team →
        E.hypot ((w.ent k).x - p.x) ((w.ent k).y - p.y) < 34 →
        Ev.takeDamage k p.damage none ∈ evs)) ∧
    (∀ k, k < w.ents.length →
      ((w.ent k).team = (w.ent p.owner).team ∨
        34 ≤ E.hypot ((w.ent k).x - p.x) ((w.ent k).y - p.y)) →
      ((Projectile.update E w p).1.ent k).hp = (w.ent k).hp) ∧
    (∀ k, k < w.ents.length → (w.ent k).team ≠ (w.ent p.owner).team →
      E.hypot ((w.ent k).x - p.x) ((w.ent k).y - p.y) < 34 →
      (w.ent k).invulnerable = false → altersIncomingDamage (w.ent k).className = false →
      ((Projectile.update E w p).1.ent k).hp = (w.ent k).hp - p.damage) := by
  have hs := explosion_sweep E w p hown
  rw [Projectile.update_bomb E w p hbomb hlife]
  refine ⟨rfl, ?_, ?_, ?_⟩
  · obtain ⟨evs, h1, h2, h3⟩ := hs.trace
    exact ⟨evs, h1, fun ev hev => (h2 ev hev).1, fun k hk ht hd => h3 k hk ⟨ht, hd⟩⟩
  · intro k hk hout
    refine (hs.keeps k hk ?_).hp
    rintro ⟨⟨ht, hd⟩, -⟩
    rcases hout with h | h
    · exact ht h
    · exact absurd hd (not_lt.mpr h)
  · intro k hk ht hd hinv halt
    exact (hs.hit k hk ⟨ht, hd⟩).2 hinv halt

/-- Witness of C15: the bomb of `exBomb` costs the enemy at distance 33 its 32 damage. -/
theorem bomb_explosion_strict_radius_witness :
    ((Projectile.update (exampleEnv fun _ => 0) exBlast exBomb).1.ent 2).hp = 400 - 32 :=
  (bomb_explosion_strict_radius (exampleEnv fun _ => 0) exBlast exBomb rfl
    (by norm_num [exBomb]) (by decide)).2.2.2 2 (by decide) (by decide)
    (by norm_num [exampleEnv, exBlast, exBomb, World.ent]) rfl rfl

/-- The explosion of `exBomb` leaves alone the enemy whose distance to the bomb is exactly 34:
no `takeDamage` call is made on it and its hit points stay at 400. -/
theorem bomb_explosion_spares_distance_34 :
    (exBlast.ent 1).team ≠ (exBlast.ent exBomb.owner).team ∧
    (exampleEnv fun _ => 0).hypot ((exBlast.ent 1).x - exBomb.x) ((exBlast.ent 1).y - exBomb.y)
      = 34 ∧
    ((Projectile.update (exampleEnv fun _ => 0) exBlast exBomb).1.ent 1).hp = 400 ∧
    Ev.takeDamage 1 exBomb.damage none ∉
      (Projectile.update (exampleEnv fun _ => 0) exBlast exBomb).1.trace := by
  have hd : (exampleEnv fun _ => 0).hypot ((exBlast.ent 1).x - exBomb.x)
      ((exBlast.ent 1).y - exBomb.y) = 34 := by
    norm_num [exampleEnv, exBlast, exBomb, World.ent]
  have hs := explosion_sweep (exampleEnv fun _ => 0) exBlast exBomb (by decide)
  rw [Projectile.update_bomb _ exBlast exBomb rfl (by norm_num [exBomb])]
  refine ⟨by decide, hd, ?_, ?_⟩
  · refine (hs.keeps 1 (by decide) ?_).hp
    rintro ⟨⟨-, h⟩, -⟩
    rw [hd] at h
    exact absurd h (by norm_num)
  · obtain ⟨evs, h1, h2, -⟩ := hs.trace
    intro hmem
    rw [h1] at hmem
    have hmem2 : Ev.takeDamage 1 exBomb.damage none ∈ evs := by simpa [exBlast] using hmem
    have := (h2 _ hmem2).1.2
    rw [show (Ev.takeDamage 1 exBomb.damage none).target = 1 from rfl, hd] at this
    exact absurd this (by norm_num)

/-- C18, amended: in an active combat whose advanced `combatDuration` exceeds 3600, the update
step calls `takeDamage(damage, null)` with `damage = (8 + (combatDuration - 3600) / 30) *
tickScale` on every entity whose `dead` flag is not set and on no other; such an entity loses
exactly that amount when it is neither shielded nor of a damage-altering class, keeps its hit
points when it is shielded, and dead entities are unchanged; with the same positive
`tickScale` the amount of the next step is strictly larger. -/
theorem suddenDeath_hits_every_living (E : Env) (s : GameState) (ts : ℚ)
    (hact : s.combatLoopActive = true) (hsd : 3600 < s.combatDuration + ts) :
    (suddenDeath E s ts).combatDuration = s.combatDuration + ts ∧
    (∃ evs, (suddenDeath E s ts).world.trace = s.world.trace ++ evs ∧
      (∀ ev ∈ evs, (s.world.ent ev.target).dead = false) ∧
      (∀ k, k < s.world.ents.length → (s.world.ent k).dead = false →
        Ev.takeDamage k ((8 + (s.combatDuration + ts - 3600) / 30) * ts) none ∈ evs)) ∧
    (∀ k, k < s.world.ents.length → (s.world.ent k).dead = false →
      (s.world.ent k).invulnerable = false →
      altersIncomingDamage (s.world.ent k).className = false →
      ((suddenDeath E s ts).world.ent k).hp =
        (s.world.ent k).hp - (8 + (s.combatDuration + ts - 3600) / 30) * ts) ∧
    (∀ k, k < s.world.ents.length → (s.world.ent k).dead = false →
      (s.world.ent k).invulnerable = true →
      hasOnDamageTakenPre (s.world.ent k).className = false →
      ((suddenDeath E s ts).world.ent k).hp = (s.world.ent k).hp) ∧
    (∀ k, k < s.world.ents.length → (s.world.ent k).dead = true →
      (suddenDeath E s ts).world.ent k = s.world.ent k) ∧
    (0 < ts → (8 + (s.combatDuration + ts - 3600) / 30) * ts <
      suddenDeathDamage (s.combatDuration + ts + ts) ts) := by
  have hs := suddenDeath_sweep E s.world ((8 + (s.combatDuration + ts - 3600) / 30) * ts)
  rw [suddenDeath_active E s ts hact hsd]
  refine ⟨rfl, ?_, ?_, ?_, ?_, ?_⟩
  · obtain ⟨evs, h1, h2, h3⟩ := hs.trace
    exact ⟨evs, h1, fun ev hev => (h2 ev hev).1, h3⟩
  · intro k hk hd hinv halt
    exact (hs.hit k hk hd).2 hinv halt
  · intro k hk hd hinv hpre
    exact (hs.hit k hk hd).1 hinv hpre
  · intro k hk hd
    exact hs.same k hk (fun h => by rw [hd] at h; exact absurd h.1 (by decide)) id
  · intro hts
    have h30 : (0 : ℚ) ≤ (s.combatDuration + ts + ts - 3600) / 30 :=
      div_nonneg (by linarith) (by norm_num)
    unfold suddenDeathDamage SUDDEN_DEATH_FRAMES
    dsimp only
    rw [max_eq_right (by norm_num; linarith)]
    have : (s.combatDuration + ts - 3600) / 30 < (s.combatDuration + ts + ts - 60 * 60) / 30 := by
      apply div_lt_div_of_pos_right _ (by norm_num)
      linarith
    exact mul_lt_mul_of_pos_right (by linarith) hts

/-- Witness of C18: at `combatDuration` 3600 and `tickScale` 1 the crit of `exSuddenDeath`
loses `8 + 1/30`. -/
theorem suddenDeath_hits_every_living_witness :
    ((suddenDeath (exampleEnv fun _ => 0) exSuddenDeath 1).world.ent 2).hp
      = 400 - (8 + (3600 + 1 - 3600) / 30) * 1 :=
  (suddenDeath_hits_every_living (exampleEnv fun _ => 0) exSuddenDeath 1 rfl
    (by norm_num [exSuddenDeath])).2.2.1 2 (by decide) rfl rfl rfl

/-- The same step leaves the shielded tank of `exSuddenDeath`, which is not dead, at its 900
hit points, and takes from the hex less than the amount. -/
theorem suddenDeath_spares_shielded :
    (exSuddenDeath.world.ent 0).dead = false ∧
    0 < (8 + (exSuddenDeath.combatDuration + 1 - 3600) / 30) * (1 : ℚ) ∧
    ((suddenDeath (exampleEnv fun _ => 0) exSuddenDeath 1).world.ent 0).hp
      = (exSuddenDeath.world.ent 0).hp := by
  have hs := suddenDeath_sweep (exampleEnv fun _ => 0) exSuddenDeath.world
    ((8 + (exSuddenDeath.combatDuration + 1 - 3600) / 30) * 1)
  rw [suddenDeath_active _ exSuddenDeath 1 rfl (by norm_num [exSuddenDeath])]
  exact ⟨rfl, by norm_num [exSuddenDeath], (hs.hit 0 (by decide) rfl).1 rfl rfl⟩

/-- C16: `segmentIntersectsCircle(a, b, c, r)` is true exactly when some point of the closed
segment from `a` to `b` has squared distance at most `r * r` to `c` (for `r ≥ 0`: lies within
distance `r` of `c`), which for `a = b` is the test on `a` itself; so an arrow or pet that
stays alive in an update and whose path from its previous to its new position passes within
`radius + e.radius` of the centre of an entity `e` of another team registers a hit in that
update, whatever its velocity: it is marked dead and `takeDamage(damage, owner)` is called on
the first entity in array order whose circle its path meets. -/
theorem swept_segment_registers_hit :
    (∀ ax ay bx by_ cx cy r : ℚ,
      segmentIntersectsCircle ax ay bx by_ cx cy r = true ↔
        ∃ s : ℚ, 0 ≤ s ∧ s ≤ 1 ∧
          (cx - (ax + (bx - ax) * s)) ^ 2 + (cy - (ay + (by_ - ay) * s)) ^ 2 ≤ r ^ 2) ∧
    (∀ ax ay cx cy r : ℚ,
      segmentIntersectsCircle ax ay ax ay cx cy r = true ↔
        (cx - ax) ^ 2 + (cy - ay) ^ 2 ≤ r ^ 2) ∧
    (∀ (E : Env) (w : World) (p : Projectile) (k : ℕ) (s : ℚ),
      (p.type = .arrow ∨ p.type = .pet) → 0 < p.life - 1 →
      k < w.ents.length → k ≠ p.owner → (w.ent k).team ≠ (w.ent p.owner).team →
      0 ≤ s → s ≤ 1 →
      ((w.ent k).x - (p.x + p.vx * s)) ^ 2 + ((w.ent k).y - (p.y + p.vy * s)) ^ 2
        ≤ (p.radius + (w.ent k).radius) ^ 2 →
      (Projectile.update E w p).2.dead = true ∧
      ∃ j, j ≤ k ∧ j ≠ p.owner ∧ (w.ent j).team ≠ (w.ent p.owner).team ∧
        segmentIntersectsCircle p.x p.y (p.x + p.vx) (p.y + p.vy) (w.ent j).x (w.ent j).y
          (p.radius + (w.ent j).radius) = true ∧
        ∃ evs, (Projectile.update E w p).1.trace
          = w.trace ++ Ev.takeDamage j p.damage (some p.owner) :: evs) := by
  refine ⟨segmentIntersectsCircle_iff, ?_, ?_⟩
  · intro ax ay cx cy r
    rw [segmentIntersectsCircle_iff]
    constructor
    · rintro ⟨s, -, -, h⟩
      simpa using h
    · intro h
      exact ⟨0, le_refl 0, zero_le_one, by simpa using h⟩
  · intro E w p k s htype hlife hk hne hteam hs0 hs1 hcross
    have hseg : segmentIntersectsCircle p.x p.y (p.x + p.vx) (p.y + p.vy) (w.ent k).x (w.ent k).y
        (p.radius + (w.ent k).radius) = true := by
      rw [segmentIntersectsCircle_iff]
      refine ⟨s, hs0, hs1, ?_⟩
      rw [add_sub_cancel_left, add_sub_cancel_left]
      exact hcross
    have hP : Projectile.hits w
        { p with prevX := p.x, prevY := p.y, life := p.life - 1,
                 x := p.x + p.vx, y := p.y + p.vy } k = true := by
      unfold Projectile.hits
      dsimp only
      rw [hseg]
      simp [hne, hteam]
    obtain ⟨j, hjk, hfind, hPj⟩ := find?_range_first _ _ k hk hP
    obtain ⟨hd, htr⟩ := Projectile.update_hit E w p j htype hlife hfind
    unfold Projectile.hits at hPj
    dsimp only at hPj
    simp only [Bool.and_eq_true, Bool.not_eq_true', Bool.or_eq_false_iff,
      decide_eq_false_iff_not] at hPj
    exact ⟨hd, j, hjk, hPj.1.1, hPj.1.2, hPj.2, htr⟩

/-- Witness of C16: the arrow of `exArrow` flies from `(0, 0)` to `(4, 0)` past the enemy at
`(2, 12.9)`, whose circle of radius 13 contains neither end point, and hits it. -/
theorem swept_segment_registers_hit_witness :
    (13 : ℚ) ^ 2 < (2 - 0) ^ 2 + (12.9 - 0) ^ 2 ∧ (13 : ℚ) ^ 2 < (2 - 4) ^ 2 + (12.9 - 0) ^ 2 ∧
    (Projectile.update (exampleEnv fun _ => 0) exGraze exArrow).2.dead = true ∧
    ∃ evs, (Projectile.update (exampleEnv fun _ => 0) exGraze exArrow).1.trace
      = Ev.takeDamage 1 8 (some 0) :: evs := by
  obtain ⟨hd, j, hj, hjo, -, -, evs, he⟩ :=
    swept_segment_registers_hit.2.2 (exampleEnv fun _ => 0) exGraze exArrow 1 (1 / 2)
      (Or.inl rfl) (by norm_num [exArrow]) (by decide) (by decide) (by decide)
      (by norm_num) (by norm_num) (by norm_num [exGraze, exArrow, World.ent])
  have hj1 : j = 1 := by
    have : j ≠ 0 := hjo
    omega
  subst hj1
  exact ⟨by norm_num, by norm_num, hd, evs, he⟩

/-- C24, as the code computes it: for a berserker with `maxHp > 0` whose threshold and
post-hit fraction `pct = (hp - amount) / maxHp` are below `2^40` in magnitude, the `while` loop
of `onDamageTaken` ends after `n` passes, further passes would change nothing, and the hook
returns the amount unchanged. `n` is the number of thresholds strictly above `pct` among
`T, T ⊖ 0.05, (T ⊖ 0.05) ⊖ 0.05, ...`, where `⊖` is the binary64 subtraction; each pass adds
one rage stack, the final threshold is the `n`-th of these and is at most `pct`, a hit that
crosses a threshold leaves `invulnTimer` at `max(invulnTimer, 12)`, and `n` is
`(T - pct) / 0.05` up to the rounding: `T - pct ≤ 0.0502 * n` and, if `n > 0`,
`0.0498 * (n - 1) < T - pct`. -/
theorem berserker_rage_thresholds (w : World) (t : ℕ) (amount : ℚ) (ht : t < w.ents.length)
    (_hmax : 0 < (w.ent t).maxHp)
    (hlo : -(2 ^ 40) ≤ berserker.pct (w.ent t) amount)
    (hhi : (w.ent t).berserkerNextThreshold ≤ 2 ^ 40) :
    (berserker.onDamageTaken w t amount).2 = amount ∧
    ∃ n : ℕ,
      (∀ j, j < n → berserker.pct (w.ent t) amount
        < berserker.nextThreshold^[j] (w.ent t).berserkerNextThreshold) ∧
      berserker.nextThreshold^[n] (w.ent t).berserkerNextThreshold
        ≤ berserker.pct (w.ent t) amount ∧
      (∀ m, n ≤ m →
        berserker.rageLoop amount m (w.ent t) = (berserker.onDamageTaken w t amount).1.ent t) ∧
      ((berserker.onDamageTaken w t amount).1.ent t).berserkerStacks
        = (w.ent t).berserkerStacks + n ∧
      ((berserker.onDamageTaken w t amount).1.ent t).berserkerNextThreshold
        = berserker.nextThreshold^[n] (w.ent t).berserkerNextThreshold ∧
      ((berserker.onDamageTaken w t amount).1.ent t).berserkerNextThreshold
        ≤ berserker.pct (w.ent t) amount ∧
      ((berserker.onDamageTaken w t amount).1.ent t).invulnTimer
        = (if n = 0 then (w.ent t).invulnTimer else max (w.ent t).invulnTimer 12) ∧
      (0 < n → 12 ≤ ((berserker.onDamageTaken w t amount).1.ent t).invulnTimer) ∧
      (w.ent t).berserkerNextThreshold - berserker.pct (w.ent t) amount ≤ 0.0502 * n ∧
      (0 < n → 0.0498 * ((n : ℚ) - 1)
        < (w.ent t).berserkerNextThreshold - berserker.pct (w.ent t) amount) := by
  obtain ⟨n, h1, h2, h3, h4, h5, h6, h7, h8⟩ :=
    berserker.onDamageTaken_spec w t amount ht hlo hhi
  refine ⟨rfl, n, h1, h2, h3, h4, h5, by rw [h5]; exact h2, h6, ?_, h7, h8⟩
  intro hpos
  rw [h6, if_neg (Nat.pos_iff_ne_zero.mp hpos)]
  exact le_max_right _ _

/-- Witness of C24: a hit of 100 on 750 of 750 hit points leaves the fraction
`0.8666666666666667`, below the thresholds `0.95` and `0.8999999999999999`: two stacks, next
threshold `0.8499999999999999`. -/
theorem berserker_rage_thresholds_witness :
    (berserker.onDamageTaken exBerserker 0 100).2 = 100 ∧
    ((berserker.onDamageTaken exBerserker 0 100).1.ent 0).berserkerStacks = 0 + 2 ∧
    ((berserker.onDamageTaken exBerserker 0 100).1.ent 0).berserkerNextThreshold
      = 3828059683264921 / 2 ^ 52 := by
  obtain ⟨t0, t1, t2, -, -⟩ := berserker.thresholds_from_095
  have hp := berserker.pct_exBerserker
  have hT : (exBerserker.ent 0).berserkerNextThreshold = toDouble 0.95 := rfl
  obtain ⟨hret, n, h1, h2, -, h4, h5, -⟩ := berserker_rage_thresholds exBerserker 0 100
    (by decide) (by norm_num [exBerserker, World.ent])
    (by rw [hp]; norm_num) (by rw [hT, berserker.toDouble_095]; norm_num)
  rw [hT, hp] at h1 h2
  have hn : n = 2 := berserker.passes_unique
    (fun j => berserker.nextThreshold^[j] (toDouble 0.95)) _ n 2 h1 h2
    (by
      intro j hj
      interval_cases j
      · show _ < berserker.nextThreshold^[0] (toDouble 0.95); rw [t0]; norm_num
      · show _ < berserker.nextThreshold^[1] (toDouble 0.95); rw [t1]; norm_num)
    (by show berserker.nextThreshold^[2] (toDouble 0.95) ≤ _; rw [t2]; norm_num)
  subst hn
  refine ⟨hret, by rw [h4]; rfl, ?_⟩
  rw [h5, hT, t2]

/-- C24, the counterexample to the count of 5%-spaced thresholds: with hit points at the
fraction `0.7499999999999999` and the threshold `0.95`, five of the thresholds
`0.95 - 0.05 * i` lie strictly above the post-hit fraction, but the hook adds four stacks:
the fourth binary64 subtraction of `0.05` leaves `0.7499999999999998`, below the fraction. -/
theorem berserker_rage_count_drifts :
    ((berserker.onDamageTaken exDrift 0 0).1.ent 0).berserkerStacks
      = (exDrift.ent 0).berserkerStacks + 4 ∧
    ((berserker.onDamageTaken exDrift 0 0).1.ent 0).berserkerNextThreshold
      = 3377699720527871 / 2 ^ 52 ∧
    (∀ i : ℕ, i < 5 →
      ((exDrift.ent 0).hp - 0) / (exDrift.ent 0).maxHp
        < (exDrift.ent 0).berserkerNextThreshold - 0.05 * i) ∧
    (∀ i : ℕ, i < 5 → ((exDrift.ent 0).hp - 0) / (exDrift.ent 0).maxHp < 0.95 - 0.05 * i) := by
  obtain ⟨t0, t1, t2, t3, t4⟩ := berserker.thresholds_from_095
  have hp := berserker.pct_exDrift
  have hT : (exDrift.ent 0).berserkerNextThreshold = toDouble 0.95 := rfl
  obtain ⟨n, h1, h2, -, h4, h5, -⟩ := berserker.onDamageTaken_spec exDrift 0 0
    (by decide) (by rw [hp]; norm_num) (by rw [hT, berserker.toDouble_095]; norm_num)
  rw [hT, hp] at h1 h2
  have hn : n = 4 := berserker.passes_unique
    (fun j => berserker.nextThreshold^[j] (toDouble 0.95)) _ n 4 h1 h2
    (by
      intro j hj
      interval_cases j
      · show _ < berserker.nextThreshold^[0] (toDouble 0.95); rw [t0]; norm_num
      · show _ < berserker.nextThreshold^[1] (toDouble 0.95); rw [t1]; norm_num
      · show _ < berserker.nextThreshold^[2] (toDouble 0.95); rw [t2]; norm_num
      · show _ < berserker.nextThreshold^[3] (toDouble 0.95); rw [t3]; norm_num)
    (by show berserker.nextThreshold^[4] (toDouble 0.95) ≤ _; rw [t4]; norm_num)
  subst hn
  have hhp : ((exDrift.ent 0).hp - 0) / (exDrift.ent 0).maxHp = 6755399441055743 / 2 ^ 53 := by
    norm_num [exDrift, World.ent]
  refine ⟨by rw [h4]; rfl, by rw [h5, hT, t4], ?_, ?_⟩
  · intro i hi
    rw [hhp, hT, berserker.toDouble_095]
    interval_cases i <;> norm_num
  · intro i hi
    rw [hhp]
    interval_cases i <;> norm_num

/-- C28: when no listener of the event stems from the callback, `on(event, callback)`
raises `listenerCount(event)` by one, an `emit(event)` made before the unsubscribe call invokes
the callback exactly once, and the function returned by `on` brings `listenerCount(event)` back
to its value before the `on` call (whether an `emit` came in between or not), after which an
`emit(event)` no longer invokes the callback and calls exactly the listeners that were there
before. -/
theorem unsubscribe_restores_listeners (bus : EventBus) (eventName : String) (callback : ℕ)
    (hfresh : ∀ l ∈ (bus.listeners eventName).getD [], l.original ≠ callback) :
    (bus.on eventName callback none).listenerCount eventName
      = bus.listenerCount eventName + 1 ∧
    ((bus.on eventName callback none).emit eventName).calls.count (.self callback, eventName)
      = bus.calls.count (.self callback, eventName) + 1 ∧
    ((bus.on eventName callback none).off eventName (some callback) none).listenerCount
        eventName = bus.listenerCount eventName ∧
    (((bus.on eventName callback none).emit eventName).off eventName (some callback)
        none).listenerCount eventName = bus.listenerCount eventName ∧
    ((((bus.on eventName callback none).emit eventName).off eventName (some callback)
        none).emit eventName).calls
      = ((bus.on eventName callback none).emit eventName).calls
          ++ ((bus.listeners eventName).getD []).map (fun l => (l, eventName)) ∧
    ((((bus.on eventName callback none).emit eventName).off eventName (some callback)
        none).emit eventName).calls.count (.self callback, eventName)
      = ((bus.on eventName callback none).emit eventName).calls.count
          (.self callback, eventName) := by
  obtain ⟨hadd, hfil⟩ := setAdd_fresh _ callback hfresh
  obtain ⟨hon, honc⟩ := EventBus.on_listeners bus eventName callback
  rw [hadd] at hon
  have hnot : ∀ p ∈ ((bus.listeners eventName).getD []).map (fun l => (l, eventName)),
      p ≠ (Listener.self callback, eventName) := by
    intro p hp heq
    obtain ⟨l, hl, rfl⟩ := List.mem_map.mp hp
    exact hfresh l hl (by rw [(Prod.mk.inj heq).1]; rfl)
  have hcount0 : (((bus.listeners eventName).getD []).map (fun l => (l, eventName))).count
      (Listener.self callback, eventName) = 0 :=
    List.count_eq_zero.mpr fun hm => hnot _ hm rfl
  have hemit : ((bus.on eventName callback none).emit eventName).listeners eventName
      = some ((bus.listeners eventName).getD [] ++ [.self callback]) := by
    rw [EventBus.emit_listeners, hon]
  have hoff1 := EventBus.off_listeners _ eventName callback _ hon
  have hoff2 := EventBus.off_listeners _ eventName callback _ hemit
  rw [hfil] at hoff1 hoff2
  have hcalls3 : (((bus.on eventName callback none).emit eventName).off eventName
      (some callback) none).calls = ((bus.on eventName callback none).emit eventName).calls := by
    unfold EventBus.off
    rw [hemit]
    dsimp only
    split <;> rfl
  refine ⟨?_, ?_, ?_, ?_, ?_, ?_⟩
  · rw [EventBus.listenerCount_eq, EventBus.listenerCount_eq, hon]
    simp
  · rw [EventBus.emit_calls, hon, honc]
    simp only [Option.getD_some, List.map_append, List.map_cons, List.map_nil,
      List.count_append, hcount0]
    simp
  · rw [EventBus.listenerCount_eq, EventBus.listenerCount_eq, hoff1]
  · rw [EventBus.listenerCount_eq, EventBus.listenerCount_eq, hoff2]
  · rw [EventBus.emit_calls, hoff2, hcalls3]
  · rw [EventBus.emit_calls (((bus.on eventName callback none).emit eventName).off eventName
      (some callback) none), hoff2, hcalls3, List.count_append, hcount0, add_zero]

/-- Witness of C28: subscribing and unsubscribing callback 7 on the bus of `exBus`, which
has one other listener of the event. -/
theorem unsubscribe_restores_listeners_witness :
    (exBus.on "game:start" 7 none).listenerCount "game:start" = 2 ∧
    (((exBus.on "game:start" 7 none).emit "game:start").off "game:start" (some 7)
      none).listenerCount "game:start" = 1 := by
  have h := unsubscribe_restores_listeners exBus "game:start" 7 (by
    intro l hl
    have : l = .self 3 := by simpa [exBus] using hl
    rw [this]
    decide)
  have hc : exBus.listenerCount "game:start" = 1 := by
    simp [EventBus.listenerCount, exBus]
  rw [hc] at h
  exact ⟨h.1, h.2.2.2.1⟩

/-- C25, the code at the failing input: under the passive strategy the idle pattern leaves
the velocity alone, and with the default configuration (`MOVEMENT_CONFIG.PASSIVE.friction` is
1.0) `applyFriction` multiplies both velocity components by `Math.pow(1, simulationSpeed)`;
an idle entity moving at `vx = 1` still has `vx = 1` after `applyFriction(1)`, so its speed
is not reduced. -/
theorem idle_friction_never_decays :
    (∀ (E : Env) (s : Strategy) (e : Entity) (ts : ℚ),
      s.pattern = .idle → PassiveMovement.updateVelocity E s e ts = e) ∧
    (∀ (E : Env) (s : Strategy) (e : Entity) (ts : ℚ),
      s.config = MOVEMENT_CONFIG.PASSIVE.getD {} → getFriction e = none →
      (BaseMovementStrategy.applyFriction E s e ts).vx = e.vx * E.pow 1 ts ∧
      (BaseMovementStrategy.applyFriction E s e ts).vy = e.vy * E.pow 1 ts) ∧
    exIdle.movementStrategy = some exIdleStrategy ∧ exIdle.vx = 1 ∧
    (BaseMovementStrategy.applyFriction (exampleEnv fun _ => 0) exIdleStrategy exIdle 1).vx = 1 ∧
    (BaseMovementStrategy.applyFriction (exampleEnv fun _ => 0) exIdleStrategy exIdle 1).vy
      = exIdle.vy := by
  have hgen : ∀ (E : Env) (s : Strategy) (e : Entity) (ts : ℚ),
      s.config = MOVEMENT_CONFIG.PASSIVE.getD {} → getFriction e = none →
      (BaseMovementStrategy.applyFriction E s e ts).vx = e.vx * E.pow 1 ts ∧
      (BaseMovementStrategy.applyFriction E s e ts).vy = e.vy * E.pow 1 ts := by
    intro E s e ts hc hf
    have h1 : orDefault s.config.friction 0.98 = 1 := by
      rw [hc]
      norm_num [MOVEMENT_CONFIG, orDefault]
    unfold BaseMovementStrategy.applyFriction
    dsimp only
    rw [hf, h1]
    exact ⟨rfl, rfl⟩
  refine ⟨?_, hgen, rfl, rfl, ?_, ?_⟩
  · intro E s e ts hp
    unfold PassiveMovement.updateVelocity
    rw [hp]
  · rw [(hgen (exampleEnv fun _ => 0) exIdleStrategy exIdle 1 rfl rfl).1]
    norm_num [exampleEnv, exIdle]
  · rw [(hgen (exampleEnv fun _ => 0) exIdleStrategy exIdle 1 rfl rfl).2]
    norm_num [exampleEnv, exIdle]

/-- C26, the code at the failing input: `AggressiveMovement.updateVelocity` does nothing
while `skipSeek` is set, and `Entity.move` never writes the flag: after one call, and after
any number of calls, it is still set, so the strategy keeps skipping the seek. -/
theorem skipSeek_never_cleared (E : Env) (w : World) (k : ℕ) (ts : ℚ)
    (hk : k < w.ents.length) (hflag : (w.ent k).skipSeek = true) :
    (∀ s, AggressiveMovement.updateVelocity E w k s ts = w) ∧
    ((Entity.move E w k ts).ent k).skipSeek = true ∧
    (∀ s, AggressiveMovement.updateVelocity E (Entity.move E w k ts) k s ts
      = Entity.move E w k ts) ∧
    ∀ n : ℕ, (((fun v => Entity.move E v k ts)^[n] w).ent k).skipSeek = true := by
  have hstop : ∀ (v : World) (s : Strategy), (v.ent k).skipSeek = true →
      AggressiveMovement.updateVelocity E v k s ts = v := by
    intro v s hv
    unfold AggressiveMovement.updateVelocity
    rw [if_pos hv]
  have hmove : ∀ v : World, k < v.ents.length → (v.ent k).skipSeek = true →
      k < (Entity.move E v k ts).ents.length ∧ ((Entity.move E v k ts).ent k).skipSeek = true := by
    intro v hv hf
    refine ⟨?_, by rw [Entity.move_skipSeek E v k ts hv, hf]⟩
    unfold Entity.move
    split
    · exact hv
    · rw [World.modify_length]
      exact lt_of_lt_of_le hv (Entity.steer_step E v k ts).len
  refine ⟨fun s => hstop w s hflag, (hmove w hk hflag).2,
    fun s => hstop _ s (hmove w hk hflag).2, ?_⟩
  intro n
  have : k < ((fun v => Entity.move E v k ts)^[n] w).ents.length ∧
      (((fun v => Entity.move E v k ts)^[n] w).ent k).skipSeek = true := by
    induction n with
    | zero => exact ⟨hk, hflag⟩
    | succ n ih =>
      rw [Function.iterate_succ_apply']
      exact hmove _ ih.1 ih.2
  exact this.2

/-- Witness of C26: the gliding speed gladiator of `exGlide` after one `move` and after
sixty. -/
theorem skipSeek_never_cleared_witness :
    ((Entity.move (exampleEnv fun _ => 0) exGlide 0 1).ent 0).skipSeek = true ∧
    (((fun v => Entity.move (exampleEnv fun _ => 0) v 0 1)^[60] exGlide).ent 0).skipSeek
      = true :=
  ⟨(skipSeek_never_cleared (exampleEnv fun _ => 0) exGlide 0 1 (by decide) rfl).2.1,
   (skipSeek_never_cleared (exampleEnv fun _ => 0) exGlide 0 1 (by decide) rfl).2.2.2 60⟩

/-- C30: for an entity with a movement strategy and a grid, the body of `Entity.move` runs
the strategy's `update`, after which the position is inside `SAFE_BOUNDS` (12..288 by
12..188), the ring-out test is false, and `move` returns the state the strategy left: the
entity's `dead` flag is unchanged and neither `die` nor `onOutOfBounds` runs. -/
theorem move_never_rings_out (E : Env) (w : World) (k : ℕ) (s : Strategy) (ts : ℚ)
    (hk : k < w.ents.length) (hs : (w.ent k).movementStrategy = some s)
    (hgrid : (w.ent k).hasGrid = true) :
    Entity.steer E w k ts =
      BaseMovementStrategy.update E (w.modify k fun e => { e with intentX := 0, intentY := 0 })
        k s ts ∧
    (12 ≤ ((Entity.steer E w k ts).ent k).x ∧ ((Entity.steer E w k ts).ent k).x ≤ 288) ∧
    (12 ≤ ((Entity.steer E w k ts).ent k).y ∧ ((Entity.steer E w k ts).ent k).y ≤ 188) ∧
    outOfBounds ((Entity.steer E w k ts).ent k) = false ∧
    ((w.ent k).pyramidTurret = false → Entity.move E w k ts = Entity.steer E w k ts) ∧
    ((w.ent k).pyramidTurret = true → Entity.move E w k ts = w) ∧
    ((Entity.move E w k ts).ent k).dead = (w.ent k).dead := by
  have hst : Entity.steer E w k ts =
      BaseMovementStrategy.update E (w.modify k fun e => { e with intentX := 0, intentY := 0 })
        k s ts := by
    unfold Entity.steer
    dsimp only
    have he : ((w.modify k fun e => { e with intentX := 0, intentY := 0 }).ent k)
        = { w.ent k with intentX := 0, intentY := 0 } := World.ent_modify_self w k _ hk
    rw [he]
    dsimp only
    rw [hs, hgrid]
  have hpos := BaseMovementStrategy.update_pos E
    (w.modify k fun e => { e with intentX := 0, intentY := 0 }) k s ts
    (by rw [World.modify_length]; exact hk)
  rw [← hst] at hpos
  obtain ⟨hout, hring⟩ := Entity.ringOut_inside _ hpos.1 hpos.2
  have hstep := Entity.steer_step E w k ts
  have hmove : (w.ent k).pyramidTurret = false → Entity.move E w k ts = Entity.steer E w k ts := by
    intro ht
    unfold Entity.move
    rw [ht]
    exact World.modify_eq_self _ k _ hring
  have hturret : (w.ent k).pyramidTurret = true → Entity.move E w k ts = w := by
    intro ht
    unfold Entity.move
    rw [if_pos ht]
  refine ⟨hst, hpos.1, hpos.2, hout, hmove, hturret, ?_⟩
  cases ht : (w.ent k).pyramidTurret with
  | false => rw [hmove ht]; exact (hstep.rel k hk).dead
  | true => rw [hturret ht]

/-- Witness of C30: the speed gladiator of `exGlide`, which has a strategy and a grid. -/
theorem move_never_rings_out_witness :
    outOfBounds ((Entity.steer (exampleEnv fun _ => 0) exGlide 0 1).ent 0) = false ∧
    ((Entity.move (exampleEnv fun _ => 0) exGlide 0 1).ent 0).dead = false := by
  have h := move_never_rings_out (exampleEnv fun _ => 0) exGlide 0
    (AggressiveMovement.new (MOVEMENT_CONFIG.AGGRESSIVE.getD {})) 1 (by decide) rfl rfl
  exact ⟨h.2.2.2.1, h.2.2.2.2.2.2⟩

/-- C21: for a gladiator that is not flagged `_noModuleUpdate` and starts with an
accumulator of 0, `n` consecutive `update` calls with `simulationSpeed = 1` call the module's
`update` hook on the calls 6, 12, 18, ... and on no other, `floor(n / 6)` times in all, each
time with `simulationSpeed = 6`, leaving the accumulator at `n mod 6`; and for every
`simulationSpeed` in `(0, 6]` one call takes an accumulator in `[0, 6)` to one in `[0, 6)`. -/
theorem ability_hook_every_sixth (rest : Entity → Entity)
    (hrest : ∀ e, (rest e).abilityAccumulator = e.abilityAccumulator ∧
      (rest e).noModuleUpdate = e.noModuleUpdate)
    (e : Entity) (h0 : e.abilityAccumulator = 0) (hflag : e.noModuleUpdate = false) (n : ℕ) :
    (Gladiator.abilityTicks rest 1 n e).2
      = (List.range n).map (fun i => if (i + 1) % 6 = 0 then some (6 : ℚ) else none) ∧
    ((Gladiator.abilityTicks rest 1 n e).2.filter Option.isSome).length = n / 6 ∧
    (Gladiator.abilityTicks rest 1 n e).1.abilityAccumulator = ((n % 6 : ℕ) : ℚ) ∧
    (∀ (g : Entity) (speed : ℚ), 0 < speed → speed ≤ 6 →
      0 ≤ g.abilityAccumulator → g.abilityAccumulator < 6 →
      0 ≤ (Gladiator.abilityTick g speed).1.abilityAccumulator ∧
      (Gladiator.abilityTick g speed).1.abilityAccumulator < 6) := by
  obtain ⟨h1, -, h3⟩ := Gladiator.abilityTicks_spec rest hrest e h0 hflag n
  refine ⟨h3, ?_, h1, Gladiator.abilityTick_range⟩
  rw [h3]
  exact hookCalls_count n

/-- Witness of C21: twelve calls on a fresh gladiator make two hook calls. -/
theorem ability_hook_every_sixth_witness :
    ((Gladiator.abilityTicks id 1 12 exFresh).2.filter Option.isSome).length = 2 ∧
    (Gladiator.abilityTicks id 1 12 exFresh).1.abilityAccumulator = 0 := by
  have h := ability_hook_every_sixth id (fun _ => ⟨rfl, rfl⟩) exFresh rfl rfl 12
  exact ⟨h.2.1, by simpa using h.2.2.1⟩

/-- C22, the code at the failing input: when a charging lancer hits an enemy that is not
shielded and whose module defines no damage hook, `Gladiator.handleCombat` lowers the enemy's
hit points by the base damage `5 + 2 * level` only: the doubled value that `onCombat` computes
and returns is never applied. The lancer then stops charging with `lanceCD = 180 - 10 * level`. -/
theorem lancer_pierce_not_doubled (E : Env) (w : World) (k t : ℕ)
    (hk : k < w.ents.length) (ht : t < w.ents.length) (hkt : k ≠ t)
    (hclass : (w.ent k).className = .lancer) (hcharge : (w.ent k).lanceCharging = true)
    (hinv : (w.ent t).invulnerable = false)
    (hpre : hasOnDamageTakenPre (w.ent t).className = false)
    (hpost : hasOnDamageTaken (w.ent t).className = false) :
    ((Gladiator.handleCombat E w k t).ent t).hp = (w.ent t).hp - (5 + 2 * (w.ent k).level) ∧
    ((Gladiator.handleCombat E w k t).ent k).lanceCharging = false ∧
    ((Gladiator.handleCombat E w k t).ent k).lanceCD = 180 - 10 * (w.ent k).level := by
  rw [Gladiator.handleCombat_lancer E w k t hk hkt hclass hinv hpre hpost]
  obtain ⟨hl, hhp, hc, hlv, hch⟩ := lancer_before_onCombat w k t (5 + (w.ent k).level * 2)
    (5 + (w.ent k).level) hk ht hkt _ rfl
  generalize (if 5 + (w.ent k).level * 2 > 0 then _ else _ : World) = W at hl hhp hc hlv hch
  unfold onCombat
  rw [hc, hclass]
  simp only [hch, hcharge, Bool.not_true, Bool.false_eq_true, if_false]
  have hkW : k < (W.modify t fun e =>
      { e with vx := e.vx + E.cos (E.atan2 ((W.ent t).y - (W.ent k).y)
                 ((W.ent t).x - (W.ent k).x)) * 3,
               vy := e.vy + E.sin (E.atan2 ((W.ent t).y - (W.ent k).y)
                 ((W.ent t).x - (W.ent k).x)) * 3 }).ents.length := by
    rw [World.modify_length, hl]; exact hk
  refine ⟨?_, ?_, ?_⟩
  · rw [World.ent_modify_ne _ k t _ hkt, World.ent_modify_self _ _ _ (by rw [hl]; exact ht)]
    show (W.ent t).hp = _
    rw [hhp]
    ring
  · rw [World.ent_modify_self _ _ _ hkW]
    rfl
  · rw [World.ent_modify_self _ _ _ hkW, World.ent_modify_ne _ t k _ (Ne.symm hkt)]
    show 180 - (W.ent k).level * 10 = _
    rw [hlv]
    ring

/-- Witness of C22: the level-1 lancer of `exLancer` takes 7, not 14, hit points from the
crit. -/
theorem lancer_pierce_not_doubled_witness :
    ((Gladiator.handleCombat (exampleEnv fun _ => 0.9) exLancer 0 1).ent 1).hp = 400 - 7 ∧
    ((Gladiator.handleCombat (exampleEnv fun _ => 0.9) exLancer 0 1).ent 0).lanceCD = 170 := by
  have h := lancer_pierce_not_doubled (exampleEnv fun _ => 0.9) exLancer 0 1 (by decide)
    (by decide) (by decide) rfl rfl rfl rfl rfl
  refine ⟨?_, ?_⟩
  · rw [h.1]; norm_num [exLancer, World.ent]
  · rw [h.2.2]; norm_num [exLancer, World.ent]

/-- C23: for a summoner that is not a minion and starts within the bound `summoner.capped`
(a freshly initialised summoner, which tracks no minion, does), after every sequence of calls
of its `update` and `onCombat` hooks the number of tracked minions is at most
`3 + floor(level / 3)`. When `onCombat` then fires at capacity with no cooldown running, no
tracked minion is dead, no entity is created, and the first element of `pets` moves to the end
of the list with `hp = maxHp` and `dead = false`. -/
theorem summoner_pets_capped (E : Env) (w : World) (k : ℕ) (calls : List SummonerCall)
    (hk : k < w.ents.length) (hmin : (w.ent k).isMinion = false)
    (hlevel : 0 ≤ (w.ent k).level) (hstart : summoner.capped (w.ent k)) :
    (((summoner.run E k calls w).ent k).pets.length : ℤ)
      ≤ 3 + ⌊((summoner.run E k calls w).ent k).level / 3⌋ ∧
    ∀ w1, w1 = summoner.run E k calls w → ¬ (w1.ent k).summonCD > 0 →
      ¬ ((((w1.ent k).pets.filter fun p => !(w1.ent p).dead).length : ℤ)
          < 3 + ⌊(w1.ent k).level / 3⌋) →
      ∃ oldest others, (w1.ent k).pets = oldest :: others ∧
        (summoner.onCombat E w1 k).ents.length = w1.ents.length ∧
        ((summoner.onCombat E w1 k).ent k).pets = others ++ [oldest] ∧
        (oldest ≠ k → oldest < w1.ents.length →
          ((summoner.onCombat E w1 k).ent oldest).hp = (w1.ent oldest).maxHp ∧
          ((summoner.onCombat E w1 k).ent oldest).dead = false) := by
  obtain ⟨h1, h2, h3, h4⟩ := summoner.capped_run E k calls w hk hmin hlevel hstart
  refine ⟨h4.1, ?_⟩
  intro w1 hw1 hcd hfull
  subst hw1
  have hfloor : (0 : ℤ) ≤ ⌊((summoner.run E k calls w).ent k).level / 3⌋ := by
    rw [h3]
    exact Int.floor_nonneg.mpr (div_nonneg hlevel (by norm_num))
  have hsame : ((summoner.run E k calls w).ent k).pets.filter
      (fun p => !((summoner.run E k calls w).ent p).dead)
      = ((summoner.run E k calls w).ent k).pets := by
    refine List.Sublist.eq_of_length_le (List.filter_sublist _) ?_
    have := h4.1
    omega
  obtain ⟨-, -, -, -, h5⟩ := summoner.onCombat_self E _ k h1 h2 hcd
  rcases h5 with ⟨hc, -⟩ | ⟨-, hP, -⟩ | ⟨-, oldest, others, hP, hp, -, hl, hrec⟩
  · exact absurd hc hfull
  · rw [hP] at hfull
    exact absurd (show ((([] : List ℕ).length : ℕ) : ℤ)
      < 3 + ⌊((summoner.run E k calls w).ent k).level / 3⌋ by
        simp only [List.length_nil]; push_cast; omega) hfull
  · rw [hsame] at hP
    exact ⟨oldest, others, hP, hl, hp, hrec⟩

/-- Witness of C23: the summoner of `exSummoner` after a hit, an ability tick and another
hit. -/
theorem summoner_pets_capped_witness :
    0 < exSummoner.ents.length ∧ summoner.capped (exSummoner.ent 0) ∧
    (((summoner.run (exampleEnv fun _ => 0.5) 0
        [SummonerCall.onCombat, SummonerCall.update 6, SummonerCall.onCombat]
        exSummoner).ent 0).pets.length : ℤ)
      ≤ 3 + ⌊((summoner.run (exampleEnv fun _ => 0.5) 0
        [SummonerCall.onCombat, SummonerCall.update 6, SummonerCall.onCombat]
        exSummoner).ent 0).level / 3⌋ := by
  have hcap : summoner.capped (exSummoner.ent 0) :=
    ⟨by norm_num [exSummoner, World.ent, onInit], fun _ => Or.inl rfl⟩
  exact ⟨by decide, hcap,
    (summoner_pets_capped (exampleEnv fun _ => 0.5) exSummoner 0
      [SummonerCall.onCombat, SummonerCall.update 6, SummonerCall.onCombat]
      (by decide) rfl (by norm_num [exSummoner, World.ent, onInit]) hcap).1⟩

/-- C29, the code at the failing input: the minion that a summoner constructs is flagged
`isMinion` and `_noModuleUpdate` but has never been initialised, so its first
`Gladiator.update` runs `summoner.onInit` on it, which clears `isMinion`; the module's
`update` hook stays switched off, but from then on, with these fields as initialised, the
minion's `onCombat` hook does not return early: it creates a new entity and tracks it as a
minion of its own. -/
theorem minion_forgets_it_is_a_minion (E : Env) (w : World) (k : ℕ) (x y : ℚ) :
    ∃ minion rng, summoner.newMinion E w k x y = some (minion, rng) ∧
      minion.isMinion = true ∧ minion.noModuleUpdate = true ∧
      (Gladiator.initializeModule minion).isMinion = false ∧
      (Gladiator.initializeModule minion).noModuleUpdate = true ∧
      ∀ (w2 : World) (j : ℕ), j < w2.ents.length →
        (w2.ent j).isMinion = (Gladiator.initializeModule minion).isMinion →
        (w2.ent j).summonCD = (Gladiator.initializeModule minion).summonCD →
        (w2.ent j).pets = (Gladiator.initializeModule minion).pets →
        (w2.ent j).level = (Gladiator.initializeModule minion).level →
        (summoner.onCombat E w2 j).ents.length = w2.ents.length + 1 ∧
        ((summoner.onCombat E w2 j).ent j).pets = [w2.ents.length] := by
  obtain ⟨m, rng, hm, h1, h2, h3, h4, -, -⟩ := summoner.newMinion_some E w k x y
  obtain ⟨i1, i2, i3, i4, i5, -⟩ := Gladiator.initializeModule_summoner m h4 h3
  have hl := summoner.newMinion_level E w k x y m rng hm
  refine ⟨m, rng, hm, h1, h2, i1, i5.trans h2, ?_⟩
  intro w2 j hj e1 e2 e3 e4
  refine summoner.onCombat_spawns E w2 j hj (e1.trans i1) (e2.trans i2) (e3.trans i3) ?_
  rw [e4, i4]
  linarith

/-- C27: for every key `c` of the legacy table `CLASSES` (the six playable classes among them)
and every duration `d` with `floor(60 * d) ≥ 1`, whatever the random draws and the earlier
state of the module, `simulateDpsAgainstDummy(c, d)` runs `updateGame` exactly `floor(60 * d)`
times and reports that number as `framesSimulated`, records at least one hit on the dummy with
`totalDamage > 0`, and reports `dps = totalDamage / d`, a positive quotient by a positive
duration. `Math.hypot(-7, 0) = 7` and `Math.sqrt(0) = 0` are assumed of the environment. -/
theorem simulateDps_hits_dummy (E : Env) (w : Legacy.World) (c : Legacy.ClassName) (d : ℚ)
    (hhypot : E.hypot (-7) 0 = 7) (hsqrt : E.sqrt 0 = 0) (hd : 1 ≤ ⌊60 * d⌋) :
    (Legacy.simulateDpsAgainstDummy E w c d).1.framesSimulated = ⌊60 * d⌋ ∧
    (Legacy.simulateDpsAgainstDummy E w c d).2
      = (Legacy.updateGame E)^[(⌊60 * d⌋).toNat] (Legacy.simulateDpsAgainstDummy.start E w c) ∧
    1 ≤ (Legacy.simulateDpsAgainstDummy E w c d).1.hits ∧
    0 < (Legacy.simulateDpsAgainstDummy E w c d).1.totalDamage ∧
    0 < d ∧
    (Legacy.simulateDpsAgainstDummy E w c d).1.dps
      = (Legacy.simulateDpsAgainstDummy E w c d).1.totalDamage / d ∧
    0 < (Legacy.simulateDpsAgainstDummy E w c d).1.dps := by
  have hcomm : d * 60 = 60 * d := mul_comm _ _
  have hdpos : 0 < d := by
    have h1 : (1 : ℤ) ≤ ⌊60 * d⌋ := hd
    have h2 : ((1 : ℤ) : ℚ) ≤ 60 * d := Int.le_floor.mp h1
    have h3 : (0 : ℚ) < 60 * d := lt_of_lt_of_le (by norm_num) h2
    linarith
  obtain ⟨k, hk⟩ : ∃ k, (⌊60 * d⌋).toNat = k + 1 := by
    refine ⟨(⌊60 * d⌋).toNat - 1, ?_⟩
    have : 1 ≤ (⌊60 * d⌋).toNat := by omega
    omega
  obtain ⟨hA, hh, ht⟩ := Legacy.updateGame_first E hhypot hsqrt w c
  have f := Legacy.frames_frame E hsqrt _ _ k _ hA
  have hrun : (Legacy.updateGame E)^[(⌊60 * d⌋).toNat] (Legacy.simulateDpsAgainstDummy.start E w c)
      = (Legacy.updateGame E)^[k]
          (Legacy.updateGame E (Legacy.simulateDpsAgainstDummy.start E w c)) := by
    rw [hk, Function.iterate_succ_apply]
  have hhits : 1 ≤ (((Legacy.updateGame E)^[(⌊60 * d⌋).toNat]
      (Legacy.simulateDpsAgainstDummy.start E w c)).obj (w.heap.length + 1)).hitCount := by
    rw [hrun]; exact le_trans hh f.hits
  have htaken : 0 < (((Legacy.updateGame E)^[(⌊60 * d⌋).toNat]
      (Legacy.simulateDpsAgainstDummy.start E w c)).obj (w.heap.length + 1)).damageTaken := by
    rw [hrun]; exact lt_of_lt_of_le ht f.taken
  unfold Legacy.simulateDpsAgainstDummy
  dsimp only
  rw [hcomm]
  exact ⟨rfl, rfl, hhits, htaken, hdpos, rfl, div_pos htaken hdpos⟩

/-- Witness of C27: the crit class against the dummy for five seconds, as in
`test/dps.test.js`. -/
theorem simulateDps_hits_dummy_witness :
    (Legacy.simulateDpsAgainstDummy (exampleEnv fun _ => 0.5) {} .crit 5).1.framesSimulated = 300 ∧
    1 ≤ (Legacy.simulateDpsAgainstDummy (exampleEnv fun _ => 0.5) {} .crit 5).1.hits ∧
    0 < (Legacy.simulateDpsAgainstDummy (exampleEnv fun _ => 0.5) {} .crit 5).1.dps := by
  have h := simulateDps_hits_dummy (exampleEnv fun _ => 0.5) {} .crit 5
    (by norm_num [exampleEnv]) (by norm_num [exampleEnv]) (by norm_num)
  refine ⟨?_, h.2.2.1, h.2.2.2.2.2.2⟩
  rw [h.1]
  norm_num

end Coliseo
